import Mathlib

/-!
# FAST-LIVO visual subsystem (`lidar_selection.cpp`, `frame.cpp`)

A shallow embedding of `LidarSelector` and the properties of its specification.

Conventions of the embedding.

* `float` and `double` values are exact rationals (`ℚ`); rounding is not
  modelled, and NaN and infinities are modelled in `warpAffine` only (`Flt`),
  where the source tests for a NaN.  A conversion to an integer type truncates
  toward zero (`toInt`), `floor` is `Int.floor`.
* Shared pointers to `Point` and `Feature` are addresses (`Nat`) into the
  stores `points : Nat → Point` and `features : Nat → Feature`; `none` is
  `nullptr`, and `new` takes the next free address.
* `std::unordered_map` is an association list; a lookup returns the first
  entry with the key.
* Raw arrays indexed by a grid cell (`grid_num`, `map_value`, `map_dist`,
  `voxel_points_`, `add_voxel_points_`) are total functions on `Int`; the
  loops of the source only read the cells `0 ≤ i < length`.
* Library routines the repository calls but does not define (camera model,
  Shi-Tomasi score, vector norms, matrix inverse, `Exp`/`Log` of SO(3), the
  PCL voxel filter, the iteration order of a hash table) are the fields of
  `Env`.
-/

namespace lidar_selection

/-! ## Vectors, matrices and rigid transforms -/

abbrev V2D := Fin 2 → ℚ
abbrev V3D := Fin 3 → ℚ
abbrev M3D := Matrix (Fin 3) (Fin 3) ℚ

/-- Conversion of a floating value to an integer type (`static_cast<int>`,
`(int64_t)`, `int(...)`): truncation toward zero. -/
def toInt (q : ℚ) : Int := if 0 ≤ q then ⌊q⌋ else -⌊-q⌋

/-- Eigen `cast<int>()` on a 2-vector: component-wise truncation. -/
def castInt (p : V2D) : Int × Int := (toInt (p 0), toInt (p 1))

/-- Rigid transform `Sophus::SE3`: rotation matrix and translation. -/
structure SE3 where
  rotation_matrix : M3D
  translation : V3D

namespace SE3

/-- Action on a point: `T * p = R p + t`. -/
def act (T : SE3) (p : V3D) : V3D := T.rotation_matrix.mulVec p + T.translation

/-- Composition `T1 * T2`. -/
def mul (T1 T2 : SE3) : SE3 :=
  ⟨T1.rotation_matrix * T2.rotation_matrix, T1.rotation_matrix.mulVec T2.translation + T1.translation⟩

/-- Inverse of a rigid transform: `(Rᵀ, -Rᵀ t)`. -/
def inverse (T : SE3) : SE3 :=
  ⟨T.rotation_matrix.transpose, -(T.rotation_matrix.transpose.mulVec T.translation)⟩

end SE3

/-! ## Images, features, points -/

/-- Single-channel 8-bit image `cv::Mat`: size and the flat row-major buffer
`data`, addressed by a signed offset as the source does with `img_ptr[k]`. -/
structure Img where
  cols : Int
  rows : Int
  data : Int → ℕ

/-- Shared pointer to a Point: an address of the store, `none` for `nullptr`. -/
abbrev PointPtr := Option Nat

/-- Shared pointer to a Feature: an address of the store, `none` for `nullptr`. -/
abbrev FeaturePtr := Option Nat

/-- Observation of a Point in a Frame (`feature.h`): pixel, viewing ray, the
capturing frame's pose (by value), corner score, pyramid level, frame id, the
level-0 image of the capturing frame and the back reference to the Point. -/
structure Feature where
  px : V2D
  f : V3D
  T_f_w_ : SE3
  score : ℚ
  level : Int
  id_ : Int
  img : Img
  point : PointPtr

/-- Camera position of the capturing frame: `T_f_w_.inverse().translation()`. -/
def Feature.pos (ftr : Feature) : V3D := ftr.T_f_w_.inverse.translation

/-- Map point (`point.h`): world position, corner score `value`, and the list
`obs_` of its observations, each the address of a Feature. -/
structure Point where
  pos_ : V3D
  value : ℚ
  obs_ : List Nat

/-! ## Voxel map -/

/-- Voxel index `VOXEL_KEY(x, y, z)`. -/
structure VOXEL_KEY where
  x : Int
  y : Int
  z : Int
deriving DecidableEq, Repr

/-- Bucket `VOXEL_POINTS`: the Points of one voxel in insertion order, and the
`count` field the source keeps next to them. -/
structure VOXEL_POINTS where
  voxel_points : List PointPtr
  count : Int
deriving DecidableEq, Repr

/-- Voxel map `unordered_map<VOXEL_KEY, VOXEL_POINTS*>`. -/
abbrev FeatMap := List (VOXEL_KEY × VOXEL_POINTS)

/-- Lookup `feat_map.find(position)`. -/
def FeatMap.find (m : FeatMap) (k : VOXEL_KEY) : Option VOXEL_POINTS :=
  (List.find? (fun e => decide (e.1 = k)) m).map Prod.snd

/-- Bucket of a key as a list of Points, empty when the key is absent. -/
def FeatMap.bucket (m : FeatMap) (k : VOXEL_KEY) : List PointPtr :=
  match FeatMap.find m k with
  | some b => b.voxel_points
  | none => []

/-- Number of Points stored in the voxel map, over all buckets. -/
def FeatMap.stored : FeatMap → Nat
  | [] => 0
  | e :: m => e.2.voxel_points.length + FeatMap.stored m

/-- Pointers stored in the voxel map, bucket after bucket. -/
def FeatMap.allPoints (m : FeatMap) : List PointPtr := m.flatMap (fun e => e.2.voxel_points)

/-- In-place update of the bucket found by `find`: `push_back` and `count++`. -/
def FeatMap.push : FeatMap → VOXEL_KEY → PointPtr → FeatMap
  | [], _, _ => []
  | e :: m, k, p =>
    if e.1 = k then (e.1, ⟨e.2.voxel_points ++ [p], e.2.count + 1⟩) :: m
    else e :: FeatMap.push m k p

/-- Size of a voxel in metres (`voxel_size = 0.5`). -/
def voxel_size : ℚ := 1 / 2

/-- One coordinate of the key in `AddPoint`: `loc = pt_w[j] / voxel_size`,
`if (loc < 0) loc -= 1.0`, then the cast `(int64_t)loc`. -/
def AddPoint.loc_xyz (c : ℚ) : Int :=
  let loc := c / voxel_size
  toInt (if loc < 0 then loc - 1 else loc)

/-- Key `position` under which `AddPoint` files a Point at world position `pt_w`. -/
def AddPoint.position (pt_w : V3D) : VOXEL_KEY :=
  ⟨AddPoint.loc_xyz (pt_w 0), AddPoint.loc_xyz (pt_w 1), AddPoint.loc_xyz (pt_w 2)⟩

/-- Voxel-map part of `LidarSelector::AddPoint(pt_new)`, `pt_w` being
`pt_new->pos_`: append to the bucket of the key, or create the bucket
(`new VOXEL_POINTS(0)`, one `push_back`). -/
def AddPoint (feat_map : FeatMap) (pt_new : PointPtr) (pt_w : V3D) : FeatMap :=
  let position := AddPoint.position pt_w
  match FeatMap.find feat_map position with
  | some _ => FeatMap.push feat_map position pt_new
  | none => feat_map ++ [(position, ⟨[pt_new], 0⟩)]

/-- Key `position` that `addFromSparseMap` computes for a cloud point:
`loc_xyz[j] = floor(pt_w[j] / voxel_size)`. -/
def addFromSparseMap.position (pt_w : V3D) : VOXEL_KEY :=
  ⟨⌊pt_w 0 / voxel_size⌋, ⌊pt_w 1 / voxel_size⌋, ⌊pt_w 2 / voxel_size⌋⟩

/-! ## External collaborators and configuration -/

/-- Index of the state vector and of the covariance: the 6 pose dimensions
(rotation 0..2, position 3..5) followed by the `n` other dimensions, so that
`DIM_STATE = 6 + n` (`DIM_STATE` is a constant of a header that is not part of
the sources, hence a parameter). -/
abbrev StateIdx (n : ℕ) := Fin 6 ⊕ Fin n

/-- Point cloud `PointCloudXYZI`: the world positions of its points, in order. -/
abbrev PointCloud := List V3D

/-- Library routines and configuration scalars used by `LidarSelector`. -/
structure Env (n : ℕ) where
  /-- Image width `cam->width()` -/
  width : Int
  /-- Image height `cam->height()` -/
  height : Int
  grid_size : Int
  patch_size : Int
  fx : ℚ
  fy : ℚ
  cx : ℚ
  cy : ℚ
  ncc_en : Bool
  ncc_thre : ℚ
  outlier_threshold : ℚ
  NUM_MAX_ITERATIONS : Nat
  img_point_cov : ℚ
  /-- Projection `cam->world2cam(xyz)` of a camera-frame point to a pixel -/
  world2cam : V3D → V2D
  /-- Unit viewing ray `cam->cam2world(px)` of a pixel -/
  cam2world : V2D → V3D
  /-- Border test `cam->isInFrame(px, border)` -/
  isInFrame : Int × Int → Int → Bool
  /-- Corner score `vk::shiTomasiScore(img, u, v)` -/
  shiTomasiScore : Img → ℚ → ℚ → ℚ
  /-- Bilinear sample `vk::interpolateMat_8u(img, u, v)` -/
  interpolateMat_8u : Img → ℚ → ℚ → ℚ
  /-- Stand-in for what `vk::interpolateMat_8u(img, u, v)` yields when a
  coordinate is a NaN: the routine casts `floor` of the coordinate to `int`,
  which is not defined for a NaN -/
  interpolateMat_8u_nan : Img → ℚ
  /-- Eigen `norm()` of a 3-vector -/
  norm3 : V3D → ℚ
  /-- Eigen `norm()` of a 2-vector -/
  norm2 : V2D → ℚ
  /-- Square root `sqrt` -/
  sqrt : ℚ → ℚ
  /-- Arc cosine `std::acos` -/
  acos : ℚ → ℚ
  /-- Angle in degrees between two viewing directions -/
  angle : V3D → V3D → ℚ
  /-- Exponential map `Exp(x, y, z)` of SO(3) -/
  Exp : V3D → M3D
  /-- Logarithm `Log(R)` of SO(3) -/
  Log : M3D → V3D
  /-- Eigen `inverse()` of a `DIM_STATE × DIM_STATE` matrix -/
  inverse : Matrix (StateIdx n) (StateIdx n) ℚ → Matrix (StateIdx n) (StateIdx n) ℚ
  /-- Voxel-grid filter `downSizeFilter.filter` (PCL, leaf 0.2 m) -/
  downSizeFilter : PointCloud → PointCloud
  /-- Order in which a range-for visits the keys of `sub_feat_map` -/
  iterOrder : List VOXEL_KEY → List VOXEL_KEY

namespace Env

variable {n : ℕ} (E : Env n)

/-- Number of grid columns, `static_cast<int>(width/grid_size)` (integer division). -/
def grid_n_width : Int := Int.tdiv E.width E.grid_size

/-- Number of grid rows, `static_cast<int>(height/grid_size)`. -/
def grid_n_height : Int := Int.tdiv E.height E.grid_size

/-- Number of grid cells, `length = grid_n_width * grid_n_height`. -/
def length : Int := E.grid_n_width * E.grid_n_height

/-- Pixels of a patch, `patch_size_total = patch_size * patch_size`. -/
def patch_size_total : Int := E.patch_size * E.patch_size

/-- Half of the patch size, `static_cast<int>(patch_size/2)`. -/
def patch_size_half : Int := Int.tdiv E.patch_size 2

/-- Safe border `(patch_size_half+1)*8` passed to `isInFrame`. -/
def border : Int := (E.patch_size_half + 1) * 8

/-- Grid cell of a pixel:
`static_cast<int>(pc[0]/grid_size)*grid_n_height + static_cast<int>(pc[1]/grid_size)`. -/
def gridIndex (pc : V2D) : Int :=
  toInt (pc 0 / E.grid_size) * E.grid_n_height + toInt (pc 1 / E.grid_size)

/-- Cells visited by `for (int i=0; i<length; i++)`. -/
def cells : List Int := (List.range E.length.toNat).map Int.ofNat

end Env

/-! ## Frame (`frame.cpp`) -/

/-- Camera frame: id, pose `T_f_w_`, level-0 image `img_pyr_[0]`, the five key
features, the attached features and the keyframe flag. -/
structure Frame where
  id_ : Int
  T_f_w_ : SE3
  img_pyr_0 : Img
  key_pts_ : Fin 5 → FeaturePtr
  fts_ : List FeaturePtr
  is_keyframe_ : Bool

namespace Frame

variable {n : ℕ}

/-- World point to camera frame, `w2f(xyz_w) = T_f_w_ * xyz_w` (`frame.h`). -/
def w2f (fr : Frame) (xyz_w : V3D) : V3D := fr.T_f_w_.act xyz_w

/-- World point to pixel, `w2c(xyz_w) = cam_->world2cam(T_f_w_ * xyz_w)` (`frame.h`). -/
def w2c (E : Env n) (fr : Frame) (xyz_w : V3D) : V2D := E.world2cam (fr.T_f_w_.act xyz_w)

/-- Camera position in the world, `pos() = T_f_w_.inverse().translation()` (`frame.h`). -/
def pos (fr : Frame) : V3D := fr.T_f_w_.inverse.translation

/-- Constructor `Frame(cam, img)` followed by `initFrame`: the id is the value
of the process-wide counter, the key slots are null, no feature is attached. -/
def new (frame_counter_ : Int) (img : Img) : Frame :=
  { id_ := frame_counter_
    T_f_w_ := ⟨1, 0⟩
    img_pyr_0 := img
    key_pts_ := fun _ => none
    fts_ := []
    is_keyframe_ := false }

/-- Replacement of key slot `k` in `checkKeyPoints`: an empty slot takes the
feature, an occupied one takes it when `better` holds against the holder. -/
def slot (cur : FeaturePtr) (ftr : Nat) (better : Nat → Bool) : FeaturePtr :=
  match cur with
  | none => some ftr
  | some k => if better k then some ftr else some k

/-- Method `Frame::checkKeyPoints(ftr)`, with `cu = width/2` and `cv = height/2`
(integer divisions). -/
def checkKeyPoints (E : Env n) (features : Nat → Feature) (fr : Frame) (ftr : Nat) : Frame :=
  let cu : ℚ := ((Int.tdiv E.width 2 : Int) : ℚ)
  let cv : ℚ := ((Int.tdiv E.height 2 : Int) : ℚ)
  let px := (features ftr).px
  let kp := fun (k : Nat) => (features k).px
  let k0 := slot (fr.key_pts_ 0) ftr (fun k =>
    decide (max |px 0 - cu| |px 1 - cv| < max |kp k 0 - cu| |kp k 1 - cv|))
  let k1 := if px 0 ≥ cu ∧ px 1 ≥ cv then
      slot (fr.key_pts_ 1) ftr (fun k =>
        decide ((px 0 - cu) * (px 1 - cv) > (kp k 0 - cu) * (kp k 1 - cv)))
    else fr.key_pts_ 1
  let k2 := if px 0 ≥ cu ∧ px 1 < cv then
      slot (fr.key_pts_ 2) ftr (fun k =>
        decide ((px 0 - cu) * (cv - px 1) > (kp k 0 - cu) * (cv - kp k 1)))
    else fr.key_pts_ 2
  let k3 := if px 0 < cu ∧ px 1 < cv then
      slot (fr.key_pts_ 3) ftr (fun k =>
        decide ((px 0 - cu) * (px 1 - cv) > (kp k 0 - cu) * (kp k 1 - cv)))
    else fr.key_pts_ 3
  let k4 := if px 0 < cu ∧ px 1 ≥ cv then
      slot (fr.key_pts_ 4) ftr (fun k =>
        decide (cu - px 0 * (px 1 - cv) > (cu - kp k 0) * (kp k 1 - cv)))
    else fr.key_pts_ 4
  { fr with key_pts_ := ![k0, k1, k2, k3, k4] }

/-- Method `Frame::setKeyPoints()`: clear the slots whose feature lost its Point, then
run `checkKeyPoints` on every attached feature that has a Point. -/
def setKeyPoints (E : Env n) (features : Nat → Feature) (fr : Frame) : Frame :=
  let cleared : Fin 5 → FeaturePtr := fun i =>
    match fr.key_pts_ i with
    | none => none
    | some k => if (features k).point = none then none else some k
  fr.fts_.foldl
    (fun acc ftr =>
      match ftr with
      | none => acc
      | some a => if (features a).point ≠ none then checkKeyPoints E features acc a else acc)
    { fr with key_pts_ := cleared }

/-- Method `Frame::setKeyframe()`. -/
def setKeyframe (E : Env n) (features : Nat → Feature) (fr : Frame) : Frame :=
  setKeyPoints E features { fr with is_keyframe_ := true }

/-- Method `Frame::addFeature(ftr)`. -/
def addFeature (fr : Frame) (ftr : FeaturePtr) : Frame :=
  { fr with fts_ := fr.fts_ ++ [ftr] }

/-- Method `Frame::removeKeyPoint(ftr)`. -/
def removeKeyPoint (E : Env n) (features : Nat → Feature) (fr : Frame) (ftr : FeaturePtr) : Frame :=
  let found := decide (∃ i : Fin 5, fr.key_pts_ i = ftr)
  let fr1 := { fr with key_pts_ := fun i => if fr.key_pts_ i = ftr then none else fr.key_pts_ i }
  if found then setKeyPoints E features fr1 else fr1

end Frame

/-! ## Point methods (`point.cpp` is not part of the sources) -/

namespace Point

variable {n : ℕ}

/-- Modelled from the spec: the constructor `Point(pos)` of `point.cpp`, which is
not among the sources.  A Point is created at a world position, with no
observation yet ("construct a new Point at the stored world position"). -/
def new (pos : V3D) : Point := { pos_ := pos, value := 0, obs_ := [] }

/-- Modelled from the spec: `Point::addFrameRef` of `point.cpp`, which is not
among the sources.  It attaches exactly one Feature; the spec calls
`obs_.back()` the Point's most recent Feature, so the new one goes to the back. -/
def addFrameRef (p : Point) (ftr : Nat) : Point := { p with obs_ := p.obs_ ++ [ftr] }

/-- Modelled from the spec: `Point::deleteFeatureRef` of `point.cpp`, which is
not among the sources.  It removes exactly the given Feature from `obs_`
(nothing when the Feature is not there). -/
def deleteFeatureRef (p : Point) (ftr : FeaturePtr) : Point :=
  match ftr with
  | none => p
  | some a => { p with obs_ := p.obs_.erase a }

/-- Angle between the current viewing ray (from `framepos` to the Point) and the
ray of an observation (from its capture position to the Point). -/
def viewAngle (E : Env n) (features : Nat → Feature) (p : Point) (framepos : V3D)
    (ftr : Nat) : ℚ :=
  E.angle (framepos - p.pos_) ((features ftr).pos - p.pos_)

/-- Modelled from the spec: `Point::getFurthestViewObs` of `point.cpp`, which is
not among the sources.  It returns "the observation whose viewing angle from
its capture pose most differs from the current ray" (the first such one), and
the null pointer when there is no observation. -/
def getFurthestViewObs (E : Env n) (features : Nat → Feature) (p : Point) (framepos : V3D) :
    FeaturePtr :=
  match p.obs_ with
  | [] => none
  | o :: os =>
    some (os.foldl (fun best c =>
      if viewAngle E features p framepos c > viewAngle E features p framepos best then c else best) o)

/-- Modelled from the spec: `Point::getCloseViewObs` of `point.cpp`, which is
not among the sources.  It returns "the observation whose viewing ray from its
own camera-origin-at-capture to the Point makes the smallest angle with the
current viewing ray, subject to being below 60°", and fails otherwise. -/
def getCloseViewObs (E : Env n) (features : Nat → Feature) (p : Point) (framepos : V3D) :
    Option Nat :=
  match p.obs_ with
  | [] => none
  | o :: os =>
    let best := os.foldl (fun best c =>
      if viewAngle E features p framepos c < viewAngle E features p framepos best then c else best) o
    if viewAngle E features p framepos best < 60 then some best else none

end Point

/-! ## Shared state (`StatesGroup`, declared in a header that is not part of the sources) -/

/-- Modelled from the spec: the shared state vector, "at least 6 dimensions for
pose (rot_end: 3×3 rotation, pos_end: 3-vector), plus a full covariance matrix
of dimension DIM_STATE"; `rest` holds the `n` dimensions after the pose. -/
structure StatesGroup (n : ℕ) where
  rot_end : M3D
  pos_end : V3D
  rest : Fin n → ℚ
  cov : Matrix (StateIdx n) (StateIdx n) ℚ

/-- Block of a state-sized vector: `v.block<3,1>(0,0)`. -/
def rotBlock {n : ℕ} (v : StateIdx n → ℚ) : V3D :=
  ![v (Sum.inl 0), v (Sum.inl 1), v (Sum.inl 2)]

/-- Block of a state-sized vector: `v.block<3,1>(3,0)`. -/
def posBlock {n : ℕ} (v : StateIdx n → ℚ) : V3D :=
  ![v (Sum.inl 3), v (Sum.inl 4), v (Sum.inl 5)]

namespace StatesGroup

variable {n : ℕ}

/-- Modelled from the spec: `operator-` of `StatesGroup` ("state_propagat −
state"), the difference as a `DIM_STATE` vector: `Log` of the relative rotation,
then the component-wise differences. -/
def sub (E : Env n) (a b : StatesGroup n) : StateIdx n → ℚ :=
  let r := E.Log (b.rot_end.transpose * a.rot_end)
  let t := a.pos_end - b.pos_end
  Sum.elim ![r 0, r 1, r 2, t 0, t 1, t 2] (fun k => a.rest k - b.rest k)

/-- Modelled from the spec: `operator+=` of `StatesGroup` ("apply δ to the
shared state"): the rotation is composed with `Exp` of the first three
components, the other components are added; the covariance is not touched. -/
def add (E : Env n) (s : StatesGroup n) (v : StateIdx n → ℚ) : StatesGroup n :=
  { s with
    rot_end := s.rot_end * E.Exp (rotBlock v)
    pos_end := s.pos_end + posBlock v
    rest := fun k => s.rest k + v (Sum.inr k) }

end StatesGroup

/-! ## The selector object -/

/-- Status of a grid cell. -/
inductive CellType where
  | TYPE_UNKNOWN
  | TYPE_POINTCLOUD
  | TYPE_MAP
deriving DecidableEq, Repr

/-- Stage of the selector. -/
inductive Stage where
  | STAGE_FIRST_FRAME
  | STAGE_DEFAULT_FRAME
deriving DecidableEq, Repr

/-- Float buffer `std::vector<float>`: its size and its content by offset. -/
structure Buf where
  size : Int
  data : Int → ℚ

/-- Zero-initialised buffer `std::vector<float>(size)`. -/
def Buf.zeros (size : Int) : Buf := { size := size, data := fun _ => 0 }

/-- Assignment `buf[i] = v`. -/
def Buf.set (b : Buf) (i : Int) (v : ℚ) : Buf := { b with data := Function.update b.data i v }

/-- Per-frame working set `SubSparseMap`: parallel arrays indexed by the
selection index. -/
structure SubSparseMap where
  propa_errors : List ℚ
  search_levels : List Int
  errors : List ℚ
  index : List Int
  voxel_points : List PointPtr
  patch : List Buf

/-- Modelled from the spec: `SubSparseMap::reset()` of the header, which is not
part of the sources ("reset the SubMap"): every array is emptied. -/
def SubSparseMap.reset (_ : SubSparseMap) : SubSparseMap :=
  { propa_errors := [], search_levels := [], errors := [], index := [], voxel_points := [], patch := [] }

/-- Memo entry `Warp(search_level, A_cur_ref)`. -/
structure Warp where
  search_level : Int
  A_cur_ref : Matrix (Fin 2) (Fin 2) ℚ

/-- State of a `LidarSelector`, with the stores of Points and Features it
reaches through shared pointers and the shared filter state. -/
structure LidarSelector (n : ℕ) where
  state : StatesGroup n
  state_propagat : StatesGroup n
  points : Nat → Point
  n_points : Nat
  features : Nat → Feature
  n_features : Nat
  feat_map : FeatMap
  sub_sparse_map : SubSparseMap
  sub_map_cur_frame_ : List PointPtr
  sub_feat_map : List (VOXEL_KEY × ℚ)
  Warp_map : List (Int × Warp)
  grid_num : Int → CellType
  map_index : Int → Int
  map_value : Int → ℚ
  map_dist : Int → ℚ
  voxel_points_ : Int → PointPtr
  add_voxel_points_ : Int → V3D
  patch_cache : Buf
  pg_down : PointCloud
  stage_ : Stage
  new_frame_ : Frame
  frame_counter_ : Int
  frame_count : Int
  n_meas_ : Int
  G : Matrix (StateIdx n) (StateIdx n) ℚ
  H_T_H : Matrix (StateIdx n) (StateIdx n) ℚ
  Rci : M3D
  Pci : V3D
  Rcw : M3D
  Pcw : V3D
  Jdphi_dR : M3D
  Jdp_dt : M3D
  Jdp_dR : M3D

variable {n : ℕ}

/-- Predicate `0 ≤ i < length`: the cell index lies inside the grid arrays. -/
def Env.inGrid (E : Env n) (i : Int) : Prop := 0 ≤ i ∧ i < E.length

instance (E : Env n) (i : Int) : Decidable (E.inGrid i) := by
  unfold Env.inGrid; infer_instance

/-- Method `LidarSelector::reset_grid()`: the cells `0 ≤ i < length` of
`grid_num`, `map_index`, `map_dist`, `voxel_points_` and `add_voxel_points_`
are reset; `map_value` is not. -/
def reset_grid (E : Env n) (s : LidarSelector n) : LidarSelector n :=
  { s with
    grid_num := fun i => if E.inGrid i then CellType.TYPE_UNKNOWN else s.grid_num i
    map_index := fun i => if E.inGrid i then 0 else s.map_index i
    map_dist := fun i => if E.inGrid i then 10000 else s.map_dist i
    voxel_points_ := fun i => if E.inGrid i then none else s.voxel_points_ i
    add_voxel_points_ := fun i => if E.inGrid i then 0 else s.add_voxel_points_ i }

/-! ## Growing the sparse map (`addSparseMap`) -/

/-- First loop of `addSparseMap`, one cloud point: the cell of its pixel takes
the point when its Shi-Tomasi score strictly exceeds the score stored there. -/
def addSparseMap.visit (E : Env n) (img : Img) (s : LidarSelector n) (pt : V3D) :
    LidarSelector n :=
  let pc := s.new_frame_.w2c E pt
  if E.isInFrame (castInt pc) E.border then
    let index := E.gridIndex pc
    let cur_value := E.shiTomasiScore img (pc 0) (pc 1)
    if cur_value > s.map_value index then
      { s with
        map_value := Function.update s.map_value index cur_value
        add_voxel_points_ := Function.update s.add_voxel_points_ index pt
        grid_num := Function.update s.grid_num index CellType.TYPE_POINTCLOUD }
    else s
  else s

/-- Feature `ftr_new` built in the second loop of `addSparseMap` for cell `i`. -/
def addSparseMap.ftr_new (E : Env n) (s : LidarSelector n) (i : Int) : Feature :=
  let pt := s.add_voxel_points_ i
  let pc := s.new_frame_.w2c E pt
  { px := pc
    f := E.cam2world pc
    T_f_w_ := s.new_frame_.T_f_w_
    score := s.map_value i
    level := 0
    id_ := s.new_frame_.id_
    img := s.new_frame_.img_pyr_0
    point := none }

/-- Point `pt_new` built in the second loop of `addSparseMap` for cell `i`,
observed by the Feature at address `ftr`. -/
def addSparseMap.pt_new (s : LidarSelector n) (i : Int) (ftr : Nat) : Point :=
  { (Point.new (s.add_voxel_points_ i)).addFrameRef ftr with value := s.map_value i }

/-- Second loop of `addSparseMap`, one cell: a `TYPE_POINTCLOUD` cell yields a
new Point with one new Feature, filed in the voxel map by `AddPoint`. -/
def addSparseMap.create (E : Env n) (s : LidarSelector n) (i : Int) : LidarSelector n :=
  if s.grid_num i = CellType.TYPE_POINTCLOUD then
    { s with
      features := Function.update s.features s.n_features (addSparseMap.ftr_new E s i)
      n_features := s.n_features + 1
      points := Function.update s.points s.n_points (addSparseMap.pt_new s i s.n_features)
      n_points := s.n_points + 1
      feat_map := AddPoint s.feat_map (some s.n_points) (s.add_voxel_points_ i) }
  else s

/-- First part of `addSparseMap(img, pg)`: `reset_grid()` and the loop over
the cloud, which leaves in each cell the winning cloud point and its score. -/
def addSparseMap.select (E : Env n) (img : Img) (pg : PointCloud) (s : LidarSelector n) :
    LidarSelector n :=
  pg.foldl (addSparseMap.visit E img) (reset_grid E s)

/-- Method `LidarSelector::addSparseMap(img, pg)`: the selection, then the
loop over the grid cells that creates the Points. -/
def addSparseMap (E : Env n) (img : Img) (pg : PointCloud) (s : LidarSelector n) :
    LidarSelector n :=
  E.cells.foldl (addSparseMap.create E) (addSparseMap.select E img pg s)

/-! ## Warps and patches -/

/-- Power of two `1 << k` for a level `k`. -/
def shl1 (k : Int) : Int := 2 ^ k.toNat

/-- Determinant of a 2×2 matrix, `A.determinant()`. -/
def det2 (A : Matrix (Fin 2) (Fin 2) ℚ) : ℚ := A 0 0 * A 1 1 - A 0 1 * A 1 0

/-- Value of a `float` expression that may leave the finite range: a finite
number (arithmetic on finite numbers is exact), an infinity with its sign
(`neg` for the negative one), or a NaN. -/
inductive Flt where
  | fin (q : ℚ)
  | inf (neg : Bool)
  | nan

namespace Flt

/-- Product of two floats: `0 * inf` is a NaN, and the sign of an infinite
product is the product of the signs. -/
def mul : Flt → Flt → Flt
  | fin a, fin b => fin (a * b)
  | fin a, inf s => if a = 0 then nan else inf (Bool.xor (decide (a < 0)) s)
  | inf s, fin b => if b = 0 then nan else inf (Bool.xor s (decide (b < 0)))
  | inf s, inf t => inf (Bool.xor s t)
  | nan, _ => nan
  | _, nan => nan

/-- Sum of two floats: `inf - inf` is a NaN. -/
def add : Flt → Flt → Flt
  | fin a, fin b => fin (a + b)
  | fin _, inf s => inf s
  | inf s, fin _ => inf s
  | inf s, inf t => if s = t then inf s else nan
  | nan, _ => nan
  | _, nan => nan

/-- Quotient `1/d` of a finite number: an infinity for `d = 0`.  The sign of a
zero is not modelled; it is the sign of this infinity, and it has no effect on
`warpAffine`, where it changes the sign of every infinite coordinate and a
coordinate of either sign fails the bounds test. -/
def inv (d : ℚ) : Flt := if d = 0 then inf false else fin (1 / d)

/-- Test `isnan(x)`. -/
def isnan : Flt → Bool
  | nan => true
  | _ => false

/-- Comparison `x < c` with a finite number `c`: false for a NaN. -/
def lt (x : Flt) (c : ℚ) : Bool :=
  match x with
  | fin a => decide (a < c)
  | inf s => s
  | nan => false

/-- Comparison `x >= c` with a finite number `c`: false for a NaN. -/
def ge (x : Flt) (c : ℚ) : Bool :=
  match x with
  | fin a => decide (a ≥ c)
  | inf s => !s
  | nan => false

end Flt

/-- Inverse of a 2×2 matrix as Eigen computes it, `A.inverse()`: the adjugate
times `invdet = 1/det`, entry by entry; for a zero determinant `invdet` is an
infinity, so that an entry is a NaN where the adjugate is zero and an infinity
elsewhere. -/
def inverse2 (A : Matrix (Fin 2) (Fin 2) ℚ) : Fin 2 → Fin 2 → Flt :=
  let invdet := Flt.inv (det2 A)
  ![![(Flt.fin (A 1 1)).mul invdet, (Flt.fin (-(A 0 1))).mul invdet],
    ![(Flt.fin (-(A 1 0))).mul invdet, (Flt.fin (A 0 0)).mul invdet]]

/-- Call `vk::interpolateMat_8u(img, u, v)` on float coordinates: the sample
at finite coordinates, the stand-in `interpolateMat_8u_nan` otherwise. -/
def Env.sample (E : Env n) (img : Img) (u v : Flt) : ℚ :=
  match u, v with
  | Flt.fin a, Flt.fin b => E.interpolateMat_8u img a b
  | _, _ => E.interpolateMat_8u_nan img

/-- Method `LidarSelector::getWarpMatrixAffine`: the columns of `A_cur_ref` are
the finite differences of the projections of the patch corners. -/
def getWarpMatrixAffine (E : Env n) (px_ref : V2D) (f_ref : V3D) (depth_ref : ℚ)
    (T_cur_ref : SE3) (level_ref pyramid_level halfpatch_size : Int) :
    Matrix (Fin 2) (Fin 2) ℚ :=
  let xyz_ref : V3D := depth_ref • f_ref
  let k : ℚ := ((shl1 level_ref * shl1 pyramid_level : Int) : ℚ)
  let h : ℚ := (halfpatch_size : ℚ)
  let xyz_du0 := E.cam2world (px_ref + ![h * k, 0])
  let xyz_dv0 := E.cam2world (px_ref + ![0, h * k])
  let xyz_du_ref : V3D := (xyz_ref 2 / xyz_du0 2) • xyz_du0
  let xyz_dv_ref : V3D := (xyz_ref 2 / xyz_dv0 2) • xyz_dv0
  let px_cur := E.world2cam (T_cur_ref.act xyz_ref)
  let px_du := E.world2cam (T_cur_ref.act xyz_du_ref)
  let px_dv := E.world2cam (T_cur_ref.act xyz_dv_ref)
  !![(px_du 0 - px_cur 0) / h, (px_dv 0 - px_cur 0) / h;
     (px_du 1 - px_cur 1) / h, (px_dv 1 - px_cur 1) / h]

/-- Loop of `getBestSearchLevel`: `while (D > 3.0 && search_level < max_level)`,
with its remaining number of rounds as fuel. -/
def getBestSearchLevel.loop (max_level : Int) : Nat → ℚ → Int → Int
  | 0, _, search_level => search_level
  | k + 1, D, search_level =>
    if D > 3 ∧ search_level < max_level then
      getBestSearchLevel.loop max_level k (D * (1 / 4)) (search_level + 1)
    else search_level

/-- Method `LidarSelector::getBestSearchLevel(A_cur_ref, max_level)`; the loop
raises `search_level` from 0 by one per round, so `max_level` rounds suffice. -/
def getBestSearchLevel (A_cur_ref : Matrix (Fin 2) (Fin 2) ℚ) (max_level : Int) : Int :=
  getBestSearchLevel.loop max_level max_level.toNat (det2 A_cur_ref) 0

/-- Offsets `0, 1, ..., k-1` of a `for` loop over `int`. -/
def upto (k : Int) : List Int := (List.range k.toNat).map Int.ofNat

/-- Method `LidarSelector::warpAffine`: writes the slice `pyramid_level` of
`patch`, unless the entry (0, 0) of the inverse is a NaN.  With a singular
`A_cur_ref` whose entry (1, 1) is not zero the loops run on coordinates that
are infinite or NaN: a pixel with an infinite coordinate fails the bounds test
and is written 0, a pixel whose coordinates are NaN passes it (every
comparison with a NaN is false) and is sampled. -/
def warpAffine (E : Env n) (A_cur_ref : Matrix (Fin 2) (Fin 2) ℚ) (img_ref : Img) (px_ref : V2D)
    (_level_ref search_level pyramid_level halfpatch_size : Int) (patch : Buf) : Buf :=
  let patch_size := halfpatch_size * 2
  let A_ref_cur := inverse2 A_cur_ref
  if (A_ref_cur 0 0).isnan then patch
  else
    (upto patch_size).foldl (fun acc y =>
      (upto patch_size).foldl (fun acc x =>
        let k : ℚ := ((shl1 search_level * shl1 pyramid_level : Int) : ℚ)
        let px_patch : V2D := ![((x - halfpatch_size : Int) : ℚ) * k, ((y - halfpatch_size : Int) : ℚ) * k]
        let px : Fin 2 → Flt := fun i =>
          (((A_ref_cur i 0).mul (Flt.fin (px_patch 0))).add
            ((A_ref_cur i 1).mul (Flt.fin (px_patch 1)))).add (Flt.fin (px_ref i))
        let at_ := E.patch_size_total * pyramid_level + y * patch_size + x
        if (px 0).lt 0 ∨ (px 1).lt 0 ∨ (px 0).ge (img_ref.cols - 1) ∨
            (px 1).ge (img_ref.rows - 1) then
          acc.set at_ 0
        else
          acc.set at_ (E.sample img_ref (px 0) (px 1))) acc) patch

/-- Method `LidarSelector::getpatch(img, pc, patch_tmp, level)`: bilinear
samples of the image around `pc`, written to the slice `level` of `patch_tmp`. -/
def getpatch (E : Env n) (img : Img) (pc : V2D) (patch_tmp : Buf) (level : Int) : Buf :=
  let u_ref := pc 0
  let v_ref := pc 1
  let scale : Int := shl1 level
  let u_ref_i : Int := toInt ((⌊pc 0 / scale⌋ : ℚ) * scale)
  let v_ref_i : Int := toInt ((⌊pc 1 / scale⌋ : ℚ) * scale)
  let subpix_u_ref := (u_ref - u_ref_i) / scale
  let subpix_v_ref := (v_ref - v_ref_i) / scale
  let w_ref_tl := (1 - subpix_u_ref) * (1 - subpix_v_ref)
  let w_ref_tr := subpix_u_ref * (1 - subpix_v_ref)
  let w_ref_bl := (1 - subpix_u_ref) * subpix_v_ref
  let w_ref_br := subpix_u_ref * subpix_v_ref
  (upto E.patch_size).foldl (fun acc x =>
    (upto E.patch_size).foldl (fun acc y =>
      let o : Int := (v_ref_i - E.patch_size_half * scale + x * scale) * E.width
        + (u_ref_i - E.patch_size_half * scale) + y * scale
      acc.set (E.patch_size_total * level + x * E.patch_size + y)
        (w_ref_tl * img.data o + w_ref_tr * img.data (o + scale)
          + w_ref_bl * img.data (o + scale * E.width)
          + w_ref_br * img.data (o + scale * E.width + scale))) acc) patch_tmp

/-- Sum `Σ_{i < k} f i` of a loop over `int i`. -/
def sumUpto (k : Int) (f : Int → ℚ) : ℚ := ((upto k).map f).sum

/-- Method `LidarSelector::NCC(ref_patch, cur_patch, patch_size)`. -/
def NCC (E : Env n) (ref_patch cur_patch : Buf) (patch_size : Int) : ℚ :=
  let mean_ref := sumUpto patch_size ref_patch.data / patch_size
  let mean_curr := sumUpto patch_size cur_patch.data / patch_size
  let numerator := sumUpto patch_size (fun i => (ref_patch.data i - mean_ref) * (cur_patch.data i - mean_curr))
  let demoniator1 := sumUpto patch_size (fun i => (ref_patch.data i - mean_ref) * (ref_patch.data i - mean_ref))
  let demoniator2 := sumUpto patch_size (fun i => (cur_patch.data i - mean_curr) * (cur_patch.data i - mean_curr))
  numerator / E.sqrt (demoniator1 * demoniator2 + 1 / 10000000000)

/-! ## Selecting the sub map (`addFromSparseMap`) -/

/-- First loop of `addFromSparseMap`, one point of the down-sampled cloud: its
voxel is recorded in `sub_feat_map` and its depth written to the depth image. -/
def addFromSparseMap.project (E : Env n) (fr : Frame)
    (acc : List (VOXEL_KEY × ℚ) × (Int → ℚ)) (pt_w : V3D) : List (VOXEL_KEY × ℚ) × (Int → ℚ) :=
  let position := addFromSparseMap.position pt_w
  let sub_feat_map :=
    if acc.1.any (fun e => decide (e.1 = position)) then acc.1 else acc.1 ++ [(position, 1)]
  let pt_c := fr.w2f pt_w
  let depth_img :=
    if pt_c 2 > 0 then
      let px : V2D := ![E.fx * pt_c 0 / pt_c 2 + E.cx, E.fy * pt_c 1 / pt_c 2 + E.cy]
      if E.isInFrame (castInt px) E.border then
        Function.update acc.2 (E.width * toInt (px 1) + toInt (px 0)) (pt_c 2)
      else acc.2
    else acc.2
  (sub_feat_map, depth_img)

/-- Second loop of `addFromSparseMap`, one Point of a visited voxel: its cell
is marked `TYPE_MAP`; the Point becomes the cell's chosen Point when its
distance to the camera is at most the cell's best distance, and its score
becomes the cell's score when it is at least the cell's score. -/
def addFromSparseMap.candidate (E : Env n) (s : LidarSelector n) (pt : PointPtr) :
    LidarSelector n :=
  match pt with
  | none => s
  | some a =>
    let p := s.points a
    let pt_cam := s.new_frame_.w2f p.pos_
    if pt_cam 2 < 0 then s
    else
      let pc := s.new_frame_.w2c E p.pos_
      if E.isInFrame (castInt pc) E.border then
        let index := E.gridIndex pc
        let cur_dist := E.norm3 (s.new_frame_.pos - p.pos_)
        let cur_value := p.value
        let s1 := { s with grid_num := Function.update s.grid_num index CellType.TYPE_MAP }
        let s2 :=
          if cur_dist ≤ s1.map_dist index then
            { s1 with
              map_dist := Function.update s1.map_dist index cur_dist
              voxel_points_ := Function.update s1.voxel_points_ index pt }
          else s1
        if cur_value ≥ s2.map_value index then
          { s2 with map_value := Function.update s2.map_value index cur_value }
        else s2
      else s

/-- Second loop of `addFromSparseMap`, one visited voxel: every Point of its
bucket in the voxel map, in bucket order. -/
def addFromSparseMap.voxel (E : Env n) (s : LidarSelector n) (position : VOXEL_KEY) :
    LidarSelector n :=
  match FeatMap.find s.feat_map position with
  | some b => b.voxel_points.foldl (addFromSparseMap.candidate E) s
  | none => s

/-- Offsets `-patch_size_half, ..., patch_size_half` of the neighbourhood. -/
def Env.offsets (E : Env n) : List Int :=
  (upto (2 * E.patch_size_half + 1)).map (fun k => k - E.patch_size_half)

/-- Depth-continuity test of `addFromSparseMap` (the flag `depth_continous`):
some pixel of the neighbourhood other than the centre holds a non-zero depth
that differs from the Point's depth `z` by more than 1.5. -/
def addFromSparseMap.depth_continous (E : Env n) (it : Int → ℚ) (pc : V2D) (z : ℚ) : Bool :=
  E.offsets.any (fun u => E.offsets.any (fun v =>
    if u = 0 ∧ v = 0 then false
    else
      let depth := it (E.width * (v + toInt (pc 1)) + u + toInt (pc 0))
      if depth = 0 then false else decide (|z - depth| > 3 / 2)))

/-- Lookup `Warp_map.find(id)`. -/
def findWarp (m : List (Int × Warp)) (id : Int) : Option Warp :=
  (List.find? (fun e => decide (e.1 = id)) m).map Prod.snd

/-- Third loop of `addFromSparseMap`, one grid cell `i`, `it` being the depth
image: the chosen Point of a `TYPE_MAP` cell passes the depth-continuity test,
gets a reference Feature, a warp (memoised by the Feature's `id_`), a warped
reference patch and a photometric error, and is appended to the sub map unless
a test rejects it. -/
def addFromSparseMap.refine (E : Env n) (img : Img) (it : Int → ℚ) (s : LidarSelector n)
    (i : Int) : LidarSelector n :=
  if s.grid_num i = CellType.TYPE_MAP then
    match s.voxel_points_ i with
    | none => s
    | some a =>
      let p := s.points a
      let pc := s.new_frame_.w2c E p.pos_
      let pt_cam := s.new_frame_.w2f p.pos_
      if addFromSparseMap.depth_continous E it pc (pt_cam 2) then s
      else
        match Point.getCloseViewObs E s.features p s.new_frame_.pos with
        | none => s
        | some r =>
          let ref_ftr := s.features r
          let patch_wrap0 := Buf.zeros (E.patch_size_total * 3)
          let hit := findWarp s.Warp_map ref_ftr.id_
          let A_cur_ref_zero : Matrix (Fin 2) (Fin 2) ℚ :=
            match hit with
            | some w => w.A_cur_ref
            | none =>
              getWarpMatrixAffine E ref_ftr.px ref_ftr.f (E.norm3 (ref_ftr.pos - p.pos_))
                (s.new_frame_.T_f_w_.mul ref_ftr.T_f_w_.inverse) 0 0 E.patch_size_half
          let search_level : Int :=
            match hit with
            | some w => w.search_level
            | none => getBestSearchLevel A_cur_ref_zero 2
          let Warp_map :=
            match hit with
            | some _ => s.Warp_map
            | none => s.Warp_map ++ [(ref_ftr.id_, ⟨search_level, A_cur_ref_zero⟩)]
          let patch_wrap := [0, 1, 2].foldl (fun acc pyramid_level =>
            warpAffine E A_cur_ref_zero ref_ftr.img ref_ftr.px ref_ftr.level search_level
              pyramid_level E.patch_size_half acc) patch_wrap0
          let patch_cache := getpatch E img pc s.patch_cache 0
          let s1 := { s with Warp_map := Warp_map, patch_cache := patch_cache }
          if E.ncc_en ∧ NCC E patch_wrap patch_cache E.patch_size_total < E.ncc_thre then s1
          else
            let error := sumUpto E.patch_size_total (fun ind =>
              (patch_wrap.data ind - patch_cache.data ind) * (patch_wrap.data ind - patch_cache.data ind))
            if error > E.outlier_threshold * E.patch_size_total then s1
            else
              { s1 with
                sub_map_cur_frame_ := s1.sub_map_cur_frame_ ++ [some a]
                sub_sparse_map :=
                  { propa_errors := s1.sub_sparse_map.propa_errors ++ [error]
                    search_levels := s1.sub_sparse_map.search_levels ++ [search_level]
                    errors := s1.sub_sparse_map.errors ++ [error]
                    index := s1.sub_sparse_map.index ++ [i]
                    voxel_points := s1.sub_sparse_map.voxel_points ++ [some a]
                    patch := s1.sub_sparse_map.patch ++ [patch_wrap] } }
  else s

/-- First loop of `addFromSparseMap(img, pg)` over the down-sampled cloud: the
visited voxels `sub_feat_map` and the depth image. -/
def addFromSparseMap.projected (E : Env n) (pg : PointCloud) (s : LidarSelector n) :
    List (VOXEL_KEY × ℚ) × (Int → ℚ) :=
  (E.downSizeFilter pg).foldl (addFromSparseMap.project E s.new_frame_) ([], fun _ => 0)

/-- State of `addFromSparseMap(img, pg)` before its second loop: the cloud is
down-sampled, the grid, `map_value`, the sub map and the per-frame caches are
reset, `sub_feat_map` holds the visited voxels. -/
def addFromSparseMap.prepare (E : Env n) (pg : PointCloud) (s : LidarSelector n) :
    LidarSelector n :=
  let s1 := reset_grid E s
  { s1 with
    pg_down := E.downSizeFilter pg
    map_value := fun i => if E.inGrid i then 0 else s1.map_value i
    sub_sparse_map := s1.sub_sparse_map.reset
    sub_map_cur_frame_ := []
    Warp_map := []
    sub_feat_map := (addFromSparseMap.projected E pg s).1 }

/-- Keys of the visited voxels in the order of the range-for over `sub_feat_map`. -/
def addFromSparseMap.keys (E : Env n) (pg : PointCloud) (s : LidarSelector n) : List VOXEL_KEY :=
  E.iterOrder ((addFromSparseMap.projected E pg s).1.map Prod.fst)

/-- State of `addFromSparseMap(img, pg)` after its second loop, over the Points
of the visited voxels. -/
def addFromSparseMap.gather (E : Env n) (pg : PointCloud) (s : LidarSelector n) :
    LidarSelector n :=
  (addFromSparseMap.keys E pg s).foldl (addFromSparseMap.voxel E) (addFromSparseMap.prepare E pg s)

/-- Method `LidarSelector::addFromSparseMap(img, pg)`: nothing on an empty voxel
map; otherwise the preparation, the projection of the cloud, the loop over the
visited voxels and the loop over the grid cells. -/
def addFromSparseMap (E : Env n) (img : Img) (pg : PointCloud) (s : LidarSelector n) :
    LidarSelector n :=
  if s.feat_map.length ≤ 0 then s
  else
    E.cells.foldl (addFromSparseMap.refine E img (addFromSparseMap.projected E pg s).2)
      (addFromSparseMap.gather E pg s)

/-- Pointers met by the second loop of `addFromSparseMap`, in order: the buckets
of the visited voxels. -/
def addFromSparseMap.visited (E : Env n) (pg : PointCloud) (s : LidarSelector n) :
    List PointPtr :=
  (addFromSparseMap.keys E pg s).flatMap (fun k => FeatMap.bucket s.feat_map k)

/-- Candidate of grid cell `c`: a Point that is not behind the camera and
projects inside the safe border into cell `c`. -/
def addFromSparseMap.isCandidate (E : Env n) (s : LidarSelector n) (c : Int) (a : Nat) : Prop :=
  ¬ (s.new_frame_.w2f (s.points a).pos_ 2 < 0) ∧
  E.isInFrame (castInt (s.new_frame_.w2c E (s.points a).pos_)) E.border = true ∧
  E.gridIndex (s.new_frame_.w2c E (s.points a).pos_) = c

instance (E : Env n) (s : LidarSelector n) (c : Int) (a : Nat) :
    Decidable (addFromSparseMap.isCandidate E s c a) := by
  unfold addFromSparseMap.isCandidate; infer_instance

/-- Distance `cur_dist` of a Point to the camera, `(new_frame_->pos() - pt->pos_).norm()`. -/
def addFromSparseMap.dist (E : Env n) (s : LidarSelector n) (a : Nat) : ℚ :=
  E.norm3 (s.new_frame_.pos - (s.points a).pos_)

/-! ## Photometric update (`UpdateState`, `ComputeJ`) -/

/-- Matrix `SKEW_SYM_MATRX(v)`. -/
def skew (v : V3D) : M3D := !![0, -(v 2), v 1; v 2, 0, -(v 0); -(v 1), v 0, 0]

/-- Method `LidarSelector::dpi(p, J)`: Jacobian of the pinhole projection. -/
def dpi (E : Env n) (p : V3D) : Matrix (Fin 2) (Fin 3) ℚ :=
  let x := p 0
  let y := p 1
  let z_inv := 1 / p 2
  let z_inv_2 := z_inv * z_inv
  !![E.fx * z_inv, 0, -(E.fx * x * z_inv_2); 0, E.fy * z_inv, -(E.fy * y * z_inv_2)]

/-- Row of the measurement: the residual `res` and the Jacobian `[JdR | Jdt]`. -/
structure Meas where
  row : Int
  res : ℚ
  J : Fin 6 → ℚ

/-- Body of the pixel loops of `UpdateState` for sub-map entry `i`, patch pixel
`(x, y)`, at pyramid level `level`: image gradient by central differences of
bilinear samples, chained Jacobian, residual against the reference patch `P`. -/
def UpdateState.pixel (E : Env n) (img : Img) (s : LidarSelector n) (level : Int)
    (i : Int) (search_level : Int) (pos : V3D) (P : Buf) (x y : Int) : Meas :=
  let pyramid_level := level + search_level
  let scale : Int := shl1 pyramid_level
  let pf : V3D := s.Rcw.mulVec pos + s.Pcw
  let pc := E.world2cam pf
  let Jdpi := dpi E pf
  let p_hat := skew pf
  let u_ref := pc 0
  let v_ref := pc 1
  let u_ref_i : Int := toInt ((⌊pc 0 / scale⌋ : ℚ) * scale)
  let v_ref_i : Int := toInt ((⌊pc 1 / scale⌋ : ℚ) * scale)
  let subpix_u_ref := (u_ref - u_ref_i) / scale
  let subpix_v_ref := (v_ref - v_ref_i) / scale
  let w_ref_tl := (1 - subpix_u_ref) * (1 - subpix_v_ref)
  let w_ref_tr := subpix_u_ref * (1 - subpix_v_ref)
  let w_ref_bl := (1 - subpix_u_ref) * subpix_v_ref
  let w_ref_br := subpix_u_ref * subpix_v_ref
  let o : Int := (v_ref_i + x * scale - E.patch_size_half * scale) * E.width
    + u_ref_i - E.patch_size_half * scale + y * scale
  let I : Int → ℚ := fun k => (img.data (o + k) : ℚ)
  let w := E.width
  let du : ℚ := (1 / 2) *
    ((w_ref_tl * I scale + w_ref_tr * I (scale * 2) + w_ref_bl * I (scale * w + scale)
        + w_ref_br * I (scale * w + scale * 2))
      - (w_ref_tl * I (-scale) + w_ref_tr * I 0 + w_ref_bl * I (scale * w - scale)
        + w_ref_br * I (scale * w)))
  let dv : ℚ := (1 / 2) *
    ((w_ref_tl * I (scale * w) + w_ref_tr * I (scale + scale * w) + w_ref_bl * I (w * scale * 2)
        + w_ref_br * I (w * scale * 2 + scale))
      - (w_ref_tl * I (-scale * w) + w_ref_tr * I (-scale * w + scale) + w_ref_bl * I 0
        + w_ref_br * I scale))
  let Jimg : Matrix (Fin 1) (Fin 2) ℚ := (1 / (scale : ℚ)) • !![du, dv]
  let Jdphi : Matrix (Fin 1) (Fin 3) ℚ := Jimg * Jdpi * p_hat
  let Jdp : Matrix (Fin 1) (Fin 3) ℚ := -Jimg * Jdpi
  let JdR : Matrix (Fin 1) (Fin 3) ℚ := Jdphi * s.Jdphi_dR + Jdp * s.Jdp_dR
  let Jdt : Matrix (Fin 1) (Fin 3) ℚ := Jdp * s.Jdp_dt
  let res : ℚ := w_ref_tl * I 0 + w_ref_tr * I scale + w_ref_bl * I (scale * w)
    + w_ref_br * I (scale * w + scale) - P.data (E.patch_size_total * level + x * E.patch_size + y)
  { row := i * E.patch_size_total + x * E.patch_size + y
    res := res
    J := ![JdR 0 0, JdR 0 1, JdR 0 2, Jdt 0 0, Jdt 0 1, Jdt 0 2] }

/-- Measurements of sub-map entry `i` in loop order; none for a null Point. -/
def UpdateState.entry (E : Env n) (img : Img) (s : LidarSelector n) (level : Int) (i : Nat) :
    List Meas :=
  match s.sub_sparse_map.voxel_points.getD i none with
  | none => []
  | some a =>
    (upto E.patch_size).flatMap (fun x => (upto E.patch_size).map (fun y =>
      UpdateState.pixel E img s level i (s.sub_sparse_map.search_levels.getD i 0)
        (s.points a).pos_ (s.sub_sparse_map.patch.getD i (Buf.zeros 0)) x y))

/-- Sum of the squared residuals of a list of measurements (`patch_error`). -/
def patchError (ms : List Meas) : ℚ := (ms.map (fun m => m.res * m.res)).sum

/-- Writes of one iteration into `H_sub` and `z` (both zero before the first
iteration of a call), in loop order. -/
def UpdateState.fill (ms : List Meas) (Hz : (Int → Fin 6 → ℚ) × (Int → ℚ)) :
    (Int → Fin 6 → ℚ) × (Int → ℚ) :=
  ms.foldl (fun acc m => (Function.update acc.1 m.row m.J, Function.update acc.2 m.row m.res)) Hz

/-- Local variables of `UpdateState` that live across iterations. -/
structure UpdateState.Locals (n : ℕ) where
  sel : LidarSelector n
  old_state : StatesGroup n
  last_error : ℚ
  H_sub : Int → Fin 6 → ℚ
  z : Int → ℚ
  EKF_end : Bool

/-- One iteration of the loop of `UpdateState` at pyramid level `level`.  The
mean `error/n_meas_` of no measurement is a NaN, which fails `error <= last_error`. -/
def UpdateState.iteration (E : Env n) (img : Img) (level : Int) (l : UpdateState.Locals n) :
    UpdateState.Locals n :=
  let s := l.sel
  let Rwi := s.state.rot_end
  let Pwi := s.state.pos_end
  let s0 : LidarSelector n :=
    { s with
      Rcw := s.Rci * Rwi.transpose
      Pcw := -((s.Rci * Rwi.transpose).mulVec Pwi) + s.Pci
      Jdp_dt := s.Rci * Rwi.transpose }
  let total := s0.sub_sparse_map.index.length
  let entries := (List.range total).map (fun i => UpdateState.entry E img s0 level i)
  let errors := (List.range s0.sub_sparse_map.errors.length).map (fun i =>
    if i < total ∧ (s0.sub_sparse_map.voxel_points.getD i none).isSome then
      patchError (entries.getD i [])
    else s0.sub_sparse_map.errors.getD i 0)
  let n_meas : Int := (entries.map List.length).sum
  let error : ℚ := (entries.map patchError).sum / n_meas
  let Hz := entries.foldl (fun acc ms => UpdateState.fill ms acc) (l.H_sub, l.z)
  let H_DIM : Int := total * E.patch_size_total
  let s1 : LidarSelector n :=
    { s0 with n_meas_ := n_meas, sub_sparse_map := { s0.sub_sparse_map with errors := errors } }
  if n_meas ≠ 0 ∧ error ≤ l.last_error then
    let HTH : Matrix (Fin 6) (Fin 6) ℚ := fun a b => sumUpto H_DIM (fun r => Hz.1 r a * Hz.1 r b)
    let H_T_H : Matrix (StateIdx n) (StateIdx n) ℚ := fun a b =>
      match a, b with
      | Sum.inl a, Sum.inl b => HTH a b
      | _, _ => s1.H_T_H a b
    let K_1 := E.inverse (H_T_H + E.inverse ((1 / E.img_point_cov) • s1.state.cov))
    let HTz : Fin 6 → ℚ := fun a => sumUpto H_DIM (fun r => Hz.1 r a * Hz.2 r)
    let vec := StatesGroup.sub E s1.state_propagat s1.state
    let K_1_block : Matrix (StateIdx n) (Fin 6) ℚ := fun a b => K_1 a (Sum.inl b)
    let G_block : Matrix (StateIdx n) (Fin 6) ℚ := K_1_block * HTH
    let G : Matrix (StateIdx n) (StateIdx n) ℚ := fun a b =>
      match b with
      | Sum.inl b => G_block a b
      | Sum.inr _ => s1.G a b
    let solution : StateIdx n → ℚ :=
      -(K_1_block.mulVec HTz) + vec - G_block.mulVec (fun b => vec (Sum.inl b))
    let rot_add := rotBlock solution
    let t_add := posBlock solution
    { sel := { s1 with H_T_H := H_T_H, G := G, state := StatesGroup.add E s1.state solution }
      old_state := s1.state
      last_error := error
      H_sub := Hz.1
      z := Hz.2
      EKF_end := decide (E.norm3 rot_add * (573 / 10) < 1 / 1000 ∧ E.norm3 t_add * 100 < 1 / 1000) }
  else
    { sel := { s1 with state := l.old_state }
      old_state := l.old_state
      last_error := l.last_error
      H_sub := Hz.1
      z := Hz.2
      EKF_end := true }

/-- Loop `for (iteration = 0; iteration < NUM_MAX_ITERATIONS; iteration++)` of
`UpdateState`, left by `break` when `EKF_end` is set; the argument counts the
iterations that remain. -/
def UpdateState.loop (E : Env n) (img : Img) (level : Int) :
    Nat → UpdateState.Locals n → UpdateState.Locals n
  | 0, l => l
  | k + 1, l =>
    let l1 := UpdateState.iteration E img level l
    if l1.EKF_end then l1 else UpdateState.loop E img level k l1

/-- Method `LidarSelector::UpdateState(img, total_residual, level)`: the new
selector and the returned error. -/
def UpdateState (E : Env n) (img : Img) (total_residual : ℚ) (level : Int)
    (s : LidarSelector n) : LidarSelector n × ℚ :=
  let total_points := s.sub_sparse_map.index.length
  if total_points = 0 then (s, 0)
  else
    let l := UpdateState.loop E img level E.NUM_MAX_ITERATIONS
      { sel := s, old_state := s.state, last_error := total_residual,
        H_sub := fun _ _ => 0, z := fun _ => 0, EKF_end := false }
    (l.sel, l.last_error)

/-- Method `LidarSelector::updateFrameState(state)`. -/
def updateFrameState (st : StatesGroup n) (s : LidarSelector n) : LidarSelector n :=
  let Rwi := st.rot_end
  let Pwi := st.pos_end
  let Rcw := s.Rci * Rwi.transpose
  let Pcw := -((s.Rci * Rwi.transpose).mulVec Pwi) + s.Pci
  { s with Rcw := Rcw, Pcw := Pcw, new_frame_ := { s.new_frame_ with T_f_w_ := ⟨Rcw, Pcw⟩ } }

/-- Method `LidarSelector::ComputeJ(img)`. -/
def ComputeJ (E : Env n) (img : Img) (s : LidarSelector n) : LidarSelector n :=
  let total_points := s.sub_sparse_map.index.length
  if total_points = 0 then s
  else
    let error : ℚ := 10000000000
    let r2 := UpdateState E img error 2 s
    let r1 := UpdateState E img error 1 r2.1
    let r0 := UpdateState E img error 0 r1.1
    let now_error := r0.2
    let s1 : LidarSelector n :=
      if now_error < error then
        { r0.1 with state := { r0.1.state with cov := r0.1.state.cov - r0.1.G * r0.1.state.cov } }
      else r0.1
    updateFrameState s1.state s1

/-! ## Observation bookkeeping (`addObservation`) and the frame driver (`detect`) -/

/-- Trace of a rotation matrix, `rotation_matrix().trace()`. -/
def trace3 (R : M3D) : ℚ := R 0 0 + R 1 1 + R 2 2

/-- Flag `add_flag` of `addObservation` for a Point seen at pixel `pc` whose
last observation is `last_feature`: translation above 0.5, rotation angle
above 10, or pixel distance above 40. -/
def addObservation.add_flag (E : Env n) (pose_cur : SE3) (pc : V2D) (last_feature : Feature) :
    Bool :=
  let pose_ref := last_feature.T_f_w_
  let delta_pose := pose_ref.mul pose_cur.inverse
  let delta_p := E.norm3 delta_pose.translation
  let tr := trace3 delta_pose.rotation_matrix
  let delta_theta : ℚ := if tr > 3 - 1 / 1000000 then 0 else E.acos ((1 / 2) * (tr - 1))
  let pixel_dist := E.norm2 (pc - last_feature.px)
  decide (delta_p > 1 / 2 ∨ delta_theta > 10) || decide (pixel_dist > 40)

/-- Feature `ftr_new` attached by `addObservation` to the Point of sub-map entry `i`. -/
def addObservation.ftr_new (E : Env n) (s : LidarSelector n) (i : Nat) (pc : V2D) (value : ℚ) :
    Feature :=
  { px := pc
    f := E.cam2world pc
    T_f_w_ := s.new_frame_.T_f_w_
    score := value
    level := s.sub_sparse_map.search_levels.getD i 0
    id_ := s.new_frame_.id_
    img := s.new_frame_.img_pyr_0
    point := none }

/-- Body of the loop of `addObservation` for sub-map entry `i`.  The result is
`none` when the source dereferences `obs_.back()` of a Point without
observation, which is undefined. -/
def addObservation.step (E : Env n) (img : Img) (s : LidarSelector n) (i : Nat) :
    Option (LidarSelector n) :=
  match s.sub_sparse_map.voxel_points.getD i none with
  | none => some s
  | some a =>
    let pt := s.points a
    let pc := s.new_frame_.w2c E pt.pos_
    match pt.obs_.getLast? with
    | some lf =>
      let add_flag := addObservation.add_flag E s.new_frame_.T_f_w_ pc (s.features lf)
      let pt1 : Point :=
        if pt.obs_.length ≥ 20 then
          pt.deleteFeatureRef (pt.getFurthestViewObs E s.features s.new_frame_.pos)
        else pt
      if add_flag then
        let value := E.shiTomasiScore img (pc 0) (pc 1)
        some { s with
          features := Function.update s.features s.n_features (addObservation.ftr_new E s i pc value)
          n_features := s.n_features + 1
          points := Function.update s.points a
            ({ pt1 with value := value }.addFrameRef s.n_features) }
      else some { s with points := Function.update s.points a pt1 }
    | none => none

/-- Loop of `addObservation` over the entries `is` of the sub map, in order. -/
def addObservation.loop (E : Env n) (img : Img) :
    List Nat → LidarSelector n → Option (LidarSelector n)
  | [], s => some s
  | i :: is, s =>
    match addObservation.step E img s i with
    | some s1 => addObservation.loop E img is s1
    | none => none

/-- Method `LidarSelector::addObservation(img)`. -/
def addObservation (E : Env n) (img : Img) (s : LidarSelector n) : Option (LidarSelector n) :=
  let total_points := s.sub_sparse_map.index.length
  if total_points = 0 then some s
  else addObservation.loop E img (List.range total_points) s

/-- First part of `detect(img, pg)`: the new Frame takes the next frame id, its
pose is set from the shared state by `updateFrameState`, and on the first
frame a cloud of more than 10 points makes it a keyframe and moves the stage
to `STAGE_DEFAULT_FRAME`. -/
def detect.start (E : Env n) (img : Img) (pg : PointCloud) (s : LidarSelector n) :
    LidarSelector n :=
  let s1 : LidarSelector n :=
    { s with new_frame_ := Frame.new s.frame_counter_ img, frame_counter_ := s.frame_counter_ + 1 }
  let s2 := updateFrameState s1.state s1
  if s2.stage_ = Stage.STAGE_FIRST_FRAME ∧ pg.length > 10 then
    { s2 with
      new_frame_ := s2.new_frame_.setKeyframe E s2.features
      stage_ := Stage.STAGE_DEFAULT_FRAME }
  else s2

/-- Method `LidarSelector::detect(img, pg)`, `img` being the image after the
resize and the grey conversion: `addFromSparseMap`, `addSparseMap`, `ComputeJ`
and `addObservation`, in this order, then the frame count.  The result is
`none` when the constructor of `Frame` throws (image size differs from the
camera) or `addObservation` is undefined. -/
def detect (E : Env n) (img : Img) (pg : PointCloud) (s : LidarSelector n) :
    Option (LidarSelector n) :=
  if img.cols ≠ E.width ∨ img.rows ≠ E.height then none
  else
    let s4 := addFromSparseMap E img pg (detect.start E img pg s)
    let s5 := addSparseMap E img pg s4
    let s6 := ComputeJ E img s5
    (addObservation E img s6).map (fun s7 => { s7 with frame_count := s7.frame_count + 1 })

/-- Empty working set, as `new SubSparseMap` and `reset()` leave it. -/
def SubSparseMap.empty : SubSparseMap :=
  { propa_errors := [], search_levels := [], errors := [], index := [], voxel_points := [], patch := [] }

/-- Constructor of `LidarSelector` followed by `set_extrinsic(transl, rot)` and
`init()`, for the shared states `state`, `state_propagat` and the extrinsics
`Rcl`, `Pcl` of the sparse map: empty voxel map, empty sub map, first-frame
stage, zero `G` and `H_T_H`. -/
def LidarSelector.init (state state_propagat : StatesGroup n) (transl : V3D) (rot : M3D)
    (Rcl : M3D) (Pcl : V3D) : LidarSelector n :=
  let Pli : V3D := -(rot.transpose.mulVec transl)
  let Rli : M3D := rot.transpose
  let Rci : M3D := Rcl * Rli
  let Pci : V3D := Rcl.mulVec Pli + Pcl
  let Pic : V3D := -(Rci.transpose.mulVec Pci)
  { state := state
    state_propagat := state_propagat
    points := fun _ => Point.new 0
    n_points := 0
    features := fun _ =>
      { px := 0, f := 0, T_f_w_ := ⟨1, 0⟩, score := 0, level := 0, id_ := 0,
        img := ⟨0, 0, fun _ => 0⟩, point := none }
    n_features := 0
    feat_map := []
    sub_sparse_map := SubSparseMap.empty
    sub_map_cur_frame_ := []
    sub_feat_map := []
    Warp_map := []
    grid_num := fun _ => CellType.TYPE_UNKNOWN
    map_index := fun _ => 0
    map_value := fun _ => 0
    map_dist := fun _ => 0
    voxel_points_ := fun _ => none
    add_voxel_points_ := fun _ => 0
    patch_cache := Buf.zeros 0
    pg_down := []
    stage_ := Stage.STAGE_FIRST_FRAME
    new_frame_ := Frame.new 0 ⟨0, 0, fun _ => 0⟩
    frame_counter_ := 0
    frame_count := 0
    n_meas_ := 0
    G := 0
    H_T_H := 0
    Rci := Rci
    Pci := Pci
    Rcw := 1
    Pcw := 0
    Jdphi_dR := Rci
    Jdp_dt := 1
    Jdp_dR := -Rci * skew Pic }

/-! ## Test environment

A pinhole camera of 160×120 pixels with focal length 80 and principal point
(80, 60), grid size 40 and patch size 8, hence a grid of 4×3 cells and a safe
border of 40 pixels; the principal point lies in cell 7.  The numeric library routines are
exact on the inputs of the examples below: `norm3` and `norm2` are the sums of
the absolute values of the components, which is the Euclidean norm of a vector
along one axis; `angle` is 0 for equal directions; `interpolateMat_8u` reads
the pixel at the truncated coordinates, which is the bilinear sample at integer
coordinates, and its stand-in at NaN coordinates is 0; the voxel filter and
the hash order keep the input order. -/

/-- Image of 160×120 pixels of one grey value. -/
def flatImg (c : ℕ) : Img := ⟨160, 120, fun _ => c⟩

/-- Environment of the examples, with a constant corner score `score`. -/
def testEnv (score : ℚ) : Env 12 :=
  { width := 160, height := 120, grid_size := 40, patch_size := 8
    fx := 80, fy := 80, cx := 80, cy := 60
    ncc_en := false, ncc_thre := 0, outlier_threshold := 100
    NUM_MAX_ITERATIONS := 4, img_point_cov := 100
    world2cam := fun p => ![80 * p 0 / p 2 + 80, 80 * p 1 / p 2 + 60]
    cam2world := fun px => ![(px 0 - 80) / 80, (px 1 - 60) / 80, 1]
    isInFrame := fun obs b => decide (obs.1 ≥ b ∧ obs.1 < 160 - b ∧ obs.2 ≥ b ∧ obs.2 < 120 - b)
    shiTomasiScore := fun _ _ _ => score
    interpolateMat_8u := fun img u v => img.data (toInt v * img.cols + toInt u)
    interpolateMat_8u_nan := fun _ => 0
    norm3 := fun v => |v 0| + |v 1| + |v 2|
    norm2 := fun v => |v 0| + |v 1|
    sqrt := fun q => q
    acos := fun _ => 0
    angle := fun a b => if a = b then 0 else 90
    Exp := fun v => 1 + skew v
    Log := fun _ => 0
    inverse := fun M => Matrix.diagonal (fun i => 1 / M i i)
    downSizeFilter := fun pg => pg
    iterOrder := fun l => l }

/-- Shared state of the examples: identity pose, zero elsewhere, unit covariance. -/
def testState : StatesGroup 12 := { rot_end := 1, pos_end := 0, rest := fun _ => 0, cov := 1 }

/-- Selector of the examples right after `init`, with identity extrinsics. -/
def testInit : LidarSelector 12 := LidarSelector.init testState testState 0 1 1 0

/-- Description of a Point created by `addSparseMap` at address `a` in the final
state `t`, `sel` being the state after the selection loop: it stems from a
grid cell `i` marked `TYPE_POINTCLOUD`, has exactly one observation, and this
observation and the Point carry the data of the cell. -/
def addSparseMap.Created (E : Env n) (sel t : LidarSelector n) (a : Nat) : Prop :=
  ∃ i fa, E.inGrid i ∧ sel.grid_num i = CellType.TYPE_POINTCLOUD ∧ fa < t.n_features ∧
    a < t.n_points ∧ sel.n_points ≤ a ∧ sel.n_features ≤ fa ∧
    (t.points a).obs_ = [fa] ∧ t.features fa = addSparseMap.ftr_new E sel i ∧
    (t.points a).value = sel.map_value i ∧ (t.points a).pos_ = sel.add_voxel_points_ i

/-- Reference observation of the examples: taken by a camera at the identity
pose, at the principal point, in a flat grey image. -/
def testFeature : Feature :=
  { px := ![80, 60], f := ![0, 0, 1], T_f_w_ := ⟨1, 0⟩, score := 0, level := 0, id_ := 0,
    img := flatImg 7, point := none }

/-- Selector of the examples whose voxel map holds one Point, at address 0, at
world position `pos` with corner score `value`, observed once by `testFeature`. -/
def testMap (pos : V3D) (value : ℚ) : LidarSelector 12 :=
  { testInit with
    points := Function.update testInit.points 0 { pos_ := pos, value := value, obs_ := [0] }
    n_points := 1
    features := Function.update testInit.features 0 testFeature
    n_features := 1
    feat_map := AddPoint [] (some 0) pos }

/-- Selector of the examples whose sub map has one entry, for grid cell 7: the
Point at address 0, one metre in front of the camera, with the `k` observations
`0, ..., k-1`, all taken like `testFeature` from the pose of the current frame. -/
def testSub (k : ℕ) : LidarSelector 12 :=
  { testInit with
    points := Function.update testInit.points 0 { pos_ := ![0, 0, 1], value := 50, obs_ := List.range k }
    n_points := 1
    features := fun _ => testFeature
    n_features := k
    feat_map := AddPoint [] (some 0) ![0, 0, 1]
    sub_sparse_map :=
      { propa_errors := [0], search_levels := [0], errors := [0], index := [7],
        voxel_points := [some 0], patch := [Buf.zeros 192] } }

/-- Observations of the Point of a sub-map entry after its round of
`addObservation`: the farthest-view observation is evicted when there are 20
or more, then the new Feature is attached when `add_flag` holds. -/
def addObservation.obs_after (E : Env n) (s : LidarSelector n) (a lf : Nat) : List Nat :=
  (if (s.points a).obs_.length ≥ 20 then
      ((s.points a).deleteFeatureRef
        ((s.points a).getFurthestViewObs E s.features s.new_frame_.pos)).obs_
    else (s.points a).obs_) ++
  (if addObservation.add_flag E s.new_frame_.T_f_w_ (s.new_frame_.w2c E (s.points a).pos_)
      (s.features lf) = true then [s.n_features] else [])

/-- Invariant of the iterations of `UpdateState`: the covariance of the state
and of the saved state, the propagated state, the columns of `G` after the
sixth and the entries of `H_T_H` outside the top-left 6×6 block are fixed. -/
def UpdateState.Frame (s : LidarSelector n) (l : UpdateState.Locals n) : Prop :=
  l.sel.state.cov = s.state.cov ∧ l.old_state.cov = s.state.cov ∧
  l.sel.state_propagat = s.state_propagat ∧
  (∀ a k, l.sel.G a (Sum.inr k) = s.G a (Sum.inr k)) ∧
  (∀ a k, l.sel.H_T_H a (Sum.inr k) = s.H_T_H a (Sum.inr k)) ∧
  (∀ k b, l.sel.H_T_H (Sum.inr k) b = s.H_T_H (Sum.inr k) b)

/-- Environment of the examples with patches of 2×2 pixels (safe border 16). -/
def testEnvSmall : Env 12 := { testEnv 200 with patch_size := 2 }

/-- Selector of the examples with a one-entry sub map for patches of 2×2
pixels, whose propagated state differs from the state in the first component
after the pose, 1 against 0. -/
def testSubP : LidarSelector 12 :=
  { testSub 1 with
    state_propagat := { testState with rest := fun _ => 1 }
    sub_sparse_map :=
      { propa_errors := [0], search_levels := [0], errors := [0], index := [7],
        voxel_points := [some 0], patch := [Buf.zeros 12] } }

/-- Second invariant of the iterations of `UpdateState`: the stores, the voxel
map, the frame, the stage and the sub map apart from its `errors` are fixed. -/
def UpdateState.Keeps (s t : LidarSelector n) : Prop :=
  t.feat_map = s.feat_map ∧ t.points = s.points ∧ t.n_points = s.n_points ∧
  t.features = s.features ∧ t.n_features = s.n_features ∧ t.stage_ = s.stage_ ∧
  t.new_frame_ = s.new_frame_ ∧ t.sub_sparse_map.index = s.sub_sparse_map.index ∧
  t.sub_sparse_map.voxel_points = s.sub_sparse_map.voxel_points ∧
  t.sub_sparse_map.search_levels = s.sub_sparse_map.search_levels ∧
  t.sub_sparse_map.patch = s.sub_sparse_map.patch ∧
  t.sub_sparse_map.propa_errors = s.sub_sparse_map.propa_errors

/-- Successive calls of `detect`, one per image and cloud of `calls`, in order;
`none` as soon as one of the calls has no result. -/
def detect.run (E : Env n) : List (Img × PointCloud) → LidarSelector n → Option (LidarSelector n)
  | [], s => some s
  | c :: calls, s =>
    match detect E c.1 c.2 s with
    | some s1 => detect.run E calls s1
    | none => none

/-- Cloud of the examples: eleven copies of the origin. -/
def testCloud11 : PointCloud := List.replicate 11 0

/-- Modelled from the spec: the routine `vk::interpolateMat_8u(mat, u, v)` of the
vikit library, which is not among the sources.  The spec calls it bilinear
sampling of the 8-bit image: the four pixels around `(u, v)`, weighted by the
fractional parts, the row stride of the image being its number of columns. -/
def bilinear (mat : Img) (u v : ℚ) : ℚ :=
  let x : Int := ⌊u⌋
  let y : Int := ⌊v⌋
  let subpix_x := u - x
  let subpix_y := v - y
  let w00 := (1 - subpix_x) * (1 - subpix_y)
  let w01 := (1 - subpix_x) * subpix_y
  let w10 := subpix_x * (1 - subpix_y)
  let w11 := 1 - w00 - w01 - w10
  let stride := mat.cols
  let o := y * stride + x
  w00 * mat.data o + w01 * mat.data (o + stride) + w10 * mat.data (o + 1)
    + w11 * mat.data (o + stride + 1)

/-- Environment of the examples with bilinear sampling for `interpolateMat_8u`. -/
def testEnvBilinear : Env 12 := { testEnv 200 with interpolateMat_8u := bilinear }

/-- Image of 160×120 pixels whose grey value changes from pixel to pixel. -/
def rampImg : Img := ⟨160, 120, fun o => (o % 251).toNat⟩

/-- Warp matrix `A_cur_ref_zero` of the third loop of `addFromSparseMap` for the
Point at address `a` and its reference Feature `r`: the memoised matrix of
`Warp_map` when there is one, `getWarpMatrixAffine` otherwise. -/
def addFromSparseMap.A_cur_ref_zero (E : Env n) (s : LidarSelector n) (a r : Nat) :
    Matrix (Fin 2) (Fin 2) ℚ :=
  match findWarp s.Warp_map (s.features r).id_ with
  | some w => w.A_cur_ref
  | none =>
    getWarpMatrixAffine E (s.features r).px (s.features r).f
      (E.norm3 ((s.features r).pos - (s.points a).pos_))
      (s.new_frame_.T_f_w_.mul (s.features r).T_f_w_.inverse) 0 0 E.patch_size_half

/-- Photometric tests of the third loop of `addFromSparseMap` for the Point at
address `a` against an all-zero reference patch: the NCC test when enabled,
then the sum of squared differences against the outlier threshold. -/
def addFromSparseMap.zero_patch_rejected (E : Env n) (img : Img) (s : LidarSelector n) (a : Nat) :
    Prop :=
  (E.ncc_en = true ∧
    NCC E (Buf.zeros (E.patch_size_total * 3))
      (getpatch E img (s.new_frame_.w2c E (s.points a).pos_) s.patch_cache 0) E.patch_size_total
      < E.ncc_thre) ∨
  sumUpto E.patch_size_total (fun ind =>
    ((Buf.zeros (E.patch_size_total * 3)).data ind -
      (getpatch E img (s.new_frame_.w2c E (s.points a).pos_) s.patch_cache 0).data ind) *
    ((Buf.zeros (E.patch_size_total * 3)).data ind -
      (getpatch E img (s.new_frame_.w2c E (s.points a).pos_) s.patch_cache 0).data ind))
    > E.outlier_threshold * E.patch_size_total

/-- Features of the key-point examples, all with a Point: address 0 at pixel
(79, 61), one pixel into the quadrant `u < cu ∧ v ≥ cv` of the test camera
(`cu = 80`, `cv = 60`); every other address at pixel (70, 70), ten pixels into
that quadrant in both directions. -/
def testKeyFeatures : Nat → Feature := fun k =>
  if k = 0 then { testFeature with px := ![79, 61], point := some 0 }
  else { testFeature with px := ![70, 70], point := some 0 }

/-- Frame of the key-point examples: empty key slots and the attached features
`fts`, in this order. -/
def testKeyFrame (fts : List FeaturePtr) : Frame := { Frame.new 0 (flatImg 7) with fts_ := fts }

/-- Features met by the loop of `setKeyPoints`, in the order of the feature
list: the attached features that have a Point. -/
def Frame.candidates (features : Nat → Feature) (fr : Frame) : List Nat :=
  fr.fts_.filterMap (fun ftr =>
    match ftr with
    | none => none
    | some a => if (features a).point ≠ none then some a else none)

/-- One round of `checkKeyPoints` seen from one key slot: a feature that
qualifies for the slot takes it when the slot is empty or when its value is
strictly above the holder's. -/
def Frame.keyStep (qual : Nat → Prop) [DecidablePred qual] (val : Nat → ℚ) (cur : FeaturePtr)
    (a : Nat) : FeaturePtr :=
  if qual a then Frame.slot cur a (fun k => decide (val a > val k)) else cur

/-- Description of the first maximiser: `a` is the first entry of `l`, in list
order, among the entries that qualify, whose value is the largest. -/
def Frame.FirstMax (qual : Nat → Prop) (val : Nat → ℚ) (l : List Nat) (a : Nat) : Prop :=
  qual a ∧ ∃ pre post, l = pre ++ a :: post ∧
    (∀ b ∈ pre, qual b → val b < val a) ∧ (∀ b ∈ post, qual b → val b ≤ val a)

/-- Distance of feature `k` to the image centre as slot 0 measures it:
`max(|u - cu|, |v - cv|)` with `cu = width/2`, `cv = height/2`. -/
def Frame.centreDist (E : Env n) (features : Nat → Feature) (k : Nat) : ℚ :=
  max |(features k).px 0 - ((Int.tdiv E.width 2 : Int) : ℚ)|
    |(features k).px 1 - ((Int.tdiv E.height 2 : Int) : ℚ)|

/-- Corner distance of feature `k`: `|u - cu| * |v - cv|`. -/
def Frame.cornerDist (E : Env n) (features : Nat → Feature) (k : Nat) : ℚ :=
  |(features k).px 0 - ((Int.tdiv E.width 2 : Int) : ℚ)| *
    |(features k).px 1 - ((Int.tdiv E.height 2 : Int) : ℚ)|

/-- Centre column `cu = cam_->width()/2` of `checkKeyPoints` (integer division). -/
def Frame.cu (E : Env n) : ℚ := ((Int.tdiv E.width 2 : Int) : ℚ)

/-- Centre row `cv = cam_->height()/2` of `checkKeyPoints` (integer division). -/
def Frame.cv (E : Env n) : ℚ := ((Int.tdiv E.height 2 : Int) : ℚ)

/-- Cloud points of grid cell `c` for `addSparseMap`: the points that project
inside the safe border of the frame, into cell `c`. -/
def addSparseMap.inCell (E : Env n) (fr : Frame) (c : Int) (pt : V3D) : Prop :=
  E.isInFrame (castInt (fr.w2c E pt)) E.border = true ∧ E.gridIndex (fr.w2c E pt) = c

instance (E : Env n) (fr : Frame) (c : Int) (pt : V3D) :
    Decidable (addSparseMap.inCell E fr c pt) := by
  unfold addSparseMap.inCell; infer_instance

/-- Corner score `cur_value` of a cloud point in `addSparseMap`. -/
def addSparseMap.score (E : Env n) (img : Img) (fr : Frame) (pt : V3D) : ℚ :=
  E.shiTomasiScore img (fr.w2c E pt 0) (fr.w2c E pt 1)

/-- Description of the winner of cell `c`: `pt` is the first point of the cloud,
in input order, among the cloud points of the cell, whose score is the largest. -/
def addSparseMap.Winner (E : Env n) (img : Img) (fr : Frame) (c : Int) (pg : PointCloud)
    (pt : V3D) : Prop :=
  addSparseMap.inCell E fr c pt ∧ ∃ pre post, pg = pre ++ pt :: post ∧
    (∀ b ∈ pre, addSparseMap.inCell E fr c b →
      addSparseMap.score E img fr b < addSparseMap.score E img fr pt) ∧
    (∀ b ∈ post, addSparseMap.inCell E fr c b →
      addSparseMap.score E img fr b ≤ addSparseMap.score E img fr pt)

/-- Cells for which the second loop of `addSparseMap` creates a Point, in the
order of the loop: the grid cells marked `TYPE_POINTCLOUD` by the selection. -/
def addSparseMap.created_cells (E : Env n) (sel : LidarSelector n) : List Int :=
  E.cells.filter (fun c => decide (sel.grid_num c = CellType.TYPE_POINTCLOUD))

/-- Description of the chosen Point of cell `c` after the pointers `ps` of the
second loop of `addFromSparseMap`: `a` is the last pointer of `ps`, in
iteration order, among the candidates of the cell, whose distance to the
camera is the smallest. -/
def addFromSparseMap.LastMin (E : Env n) (s : LidarSelector n) (c : Int) (ps : List PointPtr)
    (a : Nat) : Prop :=
  addFromSparseMap.isCandidate E s c a ∧ ∃ pre post, ps = pre ++ some a :: post ∧
    (∀ b, some b ∈ pre → addFromSparseMap.isCandidate E s c b →
      addFromSparseMap.dist E s a ≤ addFromSparseMap.dist E s b) ∧
    (∀ b, some b ∈ post → addFromSparseMap.isCandidate E s c b →
      addFromSparseMap.dist E s a < addFromSparseMap.dist E s b)

/-- Selector of the examples whose voxel map holds two Points of one voxel, at
addresses 0 and 1 in bucket order, at the world positions (0.01, 0.02, 1) and
(0.02, 0.01, 1): both project into grid cell 7 and both lie at the same
distance from a camera at the origin. -/
def testMapTie : LidarSelector 12 :=
  { testInit with
    points := Function.update
      (Function.update testInit.points 0
        { pos_ := ![1 / 100, 2 / 100, 1], value := 50, obs_ := [0] })
      1 { pos_ := ![2 / 100, 1 / 100, 1], value := 50, obs_ := [0] }
    n_points := 2
    features := Function.update testInit.features 0 testFeature
    n_features := 1
    feat_map := AddPoint (AddPoint [] (some 0) ![1 / 100, 2 / 100, 1]) (some 1)
      ![2 / 100, 1 / 100, 1] }

/-- Measurements of one iteration of `UpdateState` started at selector `s`:
the pose `Rcw`, `Pcw`, `Jdp_dt` is taken from the shared state, then every
entry of the sub map is measured. -/
def UpdateState.entries (E : Env n) (img : Img) (level : Int) (s : LidarSelector n) :
    List (List Meas) :=
  let Rwi := s.state.rot_end
  let Pwi := s.state.pos_end
  let s0 : LidarSelector n :=
    { s with
      Rcw := s.Rci * Rwi.transpose
      Pcw := -((s.Rci * Rwi.transpose).mulVec Pwi) + s.Pci
      Jdp_dt := s.Rci * Rwi.transpose }
  (List.range s0.sub_sparse_map.index.length).map (fun i => UpdateState.entry E img s0 level i)

/-- Mean residual `error/n_meas_` of the iteration of `UpdateState` started at
selector `s`, computed at the shared state of `s`. -/
def UpdateState.error (E : Env n) (img : Img) (level : Int) (s : LidarSelector n) : ℚ :=
  ((UpdateState.entries E img level s).map patchError).sum /
    (((UpdateState.entries E img level s).map List.length).sum : Int)

/-- Test `error <= last_error` of an iteration of `UpdateState` with the local
variables `l`; it fails when there is no measurement (the mean is a NaN). -/
def UpdateState.accepts (E : Env n) (img : Img) (level : Int) (l : UpdateState.Locals n) : Prop :=
  (((UpdateState.entries E img level l.sel).map List.length).sum : Int) ≠ 0 ∧
    UpdateState.error E img level l.sel ≤ l.last_error

/-- Local variables of `UpdateState` at the start of iteration `k` (counted
from 0), when the loop gets there: `none` once an earlier iteration has set
`EKF_end`, which leaves the loop. -/
def UpdateState.locals_at (E : Env n) (img : Img) (level : Int) (l0 : UpdateState.Locals n) :
    Nat → Option (UpdateState.Locals n)
  | 0 => some l0
  | k + 1 =>
    match UpdateState.locals_at E img level l0 k with
    | some l =>
      if (UpdateState.iteration E img level l).EKF_end then none
      else some (UpdateState.iteration E img level l)
    | none => none

/-- Local variables of `UpdateState(img, total_residual, level)` on entry to
the loop. -/
def UpdateState.start (total_residual : ℚ) (s : LidarSelector n) : UpdateState.Locals n :=
  { sel := s, old_state := s.state, last_error := total_residual,
    H_sub := fun _ _ => 0, z := fun _ => 0, EKF_end := false }

instance (E : Env n) (img : Img) (level : Int) (l : UpdateState.Locals n) :
    Decidable (UpdateState.accepts E img level l) := by
  unfold UpdateState.accepts; infer_instance

/-- Translation test value `delta_p` of `addObservation`: the norm of the
translation of `pose_ref * pose_cur.inverse()`. -/
def addObservation.delta_p (E : Env n) (pose_cur : SE3) (last_feature : Feature) : ℚ :=
  E.norm3 (last_feature.T_f_w_.mul pose_cur.inverse).translation

/-- Rotation test value `delta_theta` of `addObservation`: 0 when the trace
of the rotation of `pose_ref * pose_cur.inverse()` exceeds `3 - 1e-6`, the
arccosine of `0.5 * (trace - 1)` otherwise. -/
def addObservation.delta_theta (E : Env n) (pose_cur : SE3) (last_feature : Feature) : ℚ :=
  if trace3 (last_feature.T_f_w_.mul pose_cur.inverse).rotation_matrix > 3 - 1 / 1000000 then 0
  else E.acos ((1 / 2) * (trace3 (last_feature.T_f_w_.mul pose_cur.inverse).rotation_matrix - 1))

/-- Pixel test value `pixel_dist` of `addObservation`: the norm of
`pc - last_px`. -/
def addObservation.pixel_dist (E : Env n) (pc : V2D) (last_feature : Feature) : ℚ :=
  E.norm2 (pc - last_feature.px)

/-- Environment of the examples for a camera of 890×590 pixels with grid cells
of 100 pixels and patches of 8×8 pixels (safe border 40): the grid has
`890/100 = 8` columns and `590/100 = 5` rows, 40 cells. -/
def testEnvWide : Env 12 :=
  { testEnv 200 with
    width := 890, height := 590, grid_size := 100
    isInFrame := fun obs b => decide (obs.1 ≥ b ∧ obs.1 < 890 - b ∧ obs.2 ≥ b ∧ obs.2 < 590 - b) }

/-- Search level of the third loop of `addFromSparseMap` for the Point at
address `a` and its reference Feature `r`: the memoised level of `Warp_map`
when there is one, `getBestSearchLevel` of the computed matrix otherwise. -/
def addFromSparseMap.search_level (E : Env n) (s : LidarSelector n) (a r : Nat) : Int :=
  match findWarp s.Warp_map (s.features r).id_ with
  | some w => w.search_level
  | none =>
    getBestSearchLevel
      (getWarpMatrixAffine E (s.features r).px (s.features r).f
        (E.norm3 ((s.features r).pos - (s.points a).pos_))
        (s.new_frame_.T_f_w_.mul (s.features r).T_f_w_.inverse) 0 0 E.patch_size_half) 2

/-- Memo `Warp_map` after the round of the third loop of `addFromSparseMap` for
the Point at address `a` and its reference Feature `r`: unchanged on a hit,
extended by the computed warp under the `id_` of the Feature otherwise. -/
def addFromSparseMap.memo (E : Env n) (s : LidarSelector n) (a r : Nat) : List (Int × Warp) :=
  match findWarp s.Warp_map (s.features r).id_ with
  | some _ => s.Warp_map
  | none =>
    s.Warp_map ++ [((s.features r).id_,
      ⟨addFromSparseMap.search_level E s a r, addFromSparseMap.A_cur_ref_zero E s a r⟩)]

/-- Reference patch `patch_wrap` of the third loop of `addFromSparseMap` for the
Point at address `a` and its reference Feature `r`: the three pyramid levels
warped with the matrix and the search level of the round. -/
def addFromSparseMap.patch_wrap (E : Env n) (s : LidarSelector n) (a r : Nat) : Buf :=
  [0, 1, 2].foldl (fun acc pyramid_level =>
    warpAffine E (addFromSparseMap.A_cur_ref_zero E s a r) (s.features r).img (s.features r).px
      (s.features r).level (addFromSparseMap.search_level E s a r) pyramid_level
      E.patch_size_half acc) (Buf.zeros (E.patch_size_total * 3))

/-- Photometric error of the third loop of `addFromSparseMap` for the Point at
address `a` and its reference Feature `r`: the sum of squared differences of
the reference patch and the current patch at level 0. -/
def addFromSparseMap.error (E : Env n) (img : Img) (s : LidarSelector n) (a r : Nat) : ℚ :=
  sumUpto E.patch_size_total (fun ind =>
    ((addFromSparseMap.patch_wrap E s a r).data ind -
      (getpatch E img (s.new_frame_.w2c E (s.points a).pos_) s.patch_cache 0).data ind) *
    ((addFromSparseMap.patch_wrap E s a r).data ind -
      (getpatch E img (s.new_frame_.w2c E (s.points a).pos_) s.patch_cache 0).data ind))

/-- Well-formedness of a sub map: the arrays are parallel, every reference
patch has `3 * patch_size_total` entries, every search level is 0, 1 or 2,
the errors are the propagated errors and lie within the outlier bound, and no
Point is null. -/
def SubSparseMap.WellFormed (E : Env n) (sm : SubSparseMap) : Prop :=
  sm.errors = sm.propa_errors ∧
  sm.search_levels.length = sm.index.length ∧ sm.errors.length = sm.index.length ∧
  sm.voxel_points.length = sm.index.length ∧ sm.patch.length = sm.index.length ∧
  (∀ e ∈ sm.errors, e ≤ E.outlier_threshold * E.patch_size_total) ∧
  (∀ l ∈ sm.search_levels, l = 0 ∨ l = 1 ∨ l = 2) ∧
  (∀ p ∈ sm.patch, p.size = E.patch_size_total * 3) ∧
  (∀ v ∈ sm.voxel_points, v ≠ none)

/-- Newton iteration of the integer square root of `n` with a bound on the
number of rounds. -/
def isqrt.iter (n : Nat) : Nat → Nat → Nat
  | 0, guess => guess
  | k + 1, guess =>
    if (guess + n / guess) / 2 < guess then isqrt.iter n k ((guess + n / guess) / 2) else guess

/-- Integer square root, exact on squares. -/
def isqrt (n : Nat) : Nat := if n ≤ 1 then n else isqrt.iter n 64 (n / 2)

/-- Square root of a rational, exact on the squares of rationals. -/
def sqrtQ (q : ℚ) : ℚ := (isqrt (q.num.toNat * q.den) : ℚ) / q.den

/-- Image of 80×40 pixels of one grey value. -/
def flatImgTwo (c : ℕ) : Img := ⟨80, 40, fun _ => c⟩

/-- Environment of the examples for a pinhole camera of 80×40 pixels with focal
length 24 and principal point (24, 20), grid size 40 and patch size 2: a grid
of 2×1 cells, the principal point in cell 0, and a safe border of 16 pixels.
`norm3` is the Euclidean norm, exact wherever it is rational; the angle
between two rays is represented by 0 when it is below 60° (the cosine exceeds
1/2) and by 90 otherwise, which is all the examples use of it, their Points
having one observation each. -/
def testEnvTwo : Env 12 :=
  { testEnv 200 with
    width := 80, height := 40, patch_size := 2
    fx := 24, fy := 24, cx := 24, cy := 20
    world2cam := fun p => ![24 * p 0 / p 2 + 24, 24 * p 1 / p 2 + 20]
    cam2world := fun px => ![(px 0 - 24) / 24, (px 1 - 20) / 24, 1]
    isInFrame := fun obs b => decide (obs.1 ≥ b ∧ obs.1 < 80 - b ∧ obs.2 ≥ b ∧ obs.2 < 40 - b)
    norm3 := fun v => sqrtQ (v 0 * v 0 + v 1 * v 1 + v 2 * v 2)
    angle := fun a b =>
      if 0 < a 0 * b 0 + a 1 * b 1 + a 2 * b 2 ∧
          (a 0 * a 0 + a 1 * a 1 + a 2 * a 2) * (b 0 * b 0 + b 1 * b 1 + b 2 * b 2)
            < 4 * ((a 0 * b 0 + a 1 * b 1 + a 2 * b 2) * (a 0 * b 0 + a 1 * b 1 + a 2 * b 2))
      then 0 else 90 }

/-- Selector of the examples whose voxel map holds two Points observed once
each by the same earlier frame, of `id_` 0 and identity pose: Point 0 at
(0, 0, 7/2) on the optical axis, seen at the principal point (24, 20), and
Point 1 at (3/2, 0, 2), seen at pixel (42, 20) along the unit ray
(3/5, 0, 4/5) at distance 5/2.  The current frame has moved 7/8 forward along
the optical axis, so Point 0 projects to (24, 20) in cell 0 and Point 1 to
(56, 20) in cell 1. -/
def testMapTwo : LidarSelector 12 :=
  { testInit with
    points := Function.update
      (Function.update testInit.points 0 { pos_ := ![0, 0, 7 / 2], value := 50, obs_ := [0] })
      1 { pos_ := ![3 / 2, 0, 2], value := 50, obs_ := [1] }
    n_points := 2
    features := Function.update
      (Function.update testInit.features 0
        { px := ![24, 20], f := ![0, 0, 1], T_f_w_ := ⟨1, 0⟩, score := 50, level := 0, id_ := 0,
          img := flatImgTwo 7, point := some 0 })
      1 { px := ![42, 20], f := ![3 / 5, 0, 4 / 5], T_f_w_ := ⟨1, 0⟩, score := 50, level := 0,
          id_ := 0, img := flatImgTwo 7, point := some 1 }
    n_features := 2
    feat_map := AddPoint (AddPoint [] (some 0) ![0, 0, 7 / 2]) (some 1) ![3 / 2, 0, 2]
    new_frame_ := { Frame.new 1 (flatImgTwo 7) with T_f_w_ := ⟨1, ![0, 0, -7 / 8]⟩ } }

/-- Cloud of the examples with `testMapTwo`: the positions of its two Points. -/
def cloudTwo : PointCloud := [![0, 0, 7 / 2], ![3 / 2, 0, 2]]

/-- Warp that `addFromSparseMap` computes on a miss of the memo for the Point at
address `a` and its reference Feature `r`: `getWarpMatrixAffine` from the pixel,
the viewing ray, the depth and the capture pose of the Feature, and
`getBestSearchLevel` of that matrix. -/
def addFromSparseMap.own_warp (E : Env n) (s : LidarSelector n) (a r : Nat) : Warp :=
  ⟨getBestSearchLevel (getWarpMatrixAffine E (s.features r).px (s.features r).f
      (E.norm3 ((s.features r).pos - (s.points a).pos_))
      (s.new_frame_.T_f_w_.mul (s.features r).T_f_w_.inverse) 0 0 E.patch_size_half) 2,
    getWarpMatrixAffine E (s.features r).px (s.features r).f
      (E.norm3 ((s.features r).pos - (s.points a).pos_))
      (s.new_frame_.T_f_w_.mul (s.features r).T_f_w_.inverse) 0 0 E.patch_size_half⟩

/-- Warp that a round of the third loop of `addFromSparseMap` uses for the Point
at address `a` and its reference Feature `r`. -/
def addFromSparseMap.used_warp (E : Env n) (s : LidarSelector n) (a r : Nat) : Warp :=
  ⟨addFromSparseMap.search_level E s a r, addFromSparseMap.A_cur_ref_zero E s a r⟩

/-- Reference patch built from the warp `w` and the reference Feature `ftr`:
the three calls of `warpAffine` into a zero buffer. -/
def addFromSparseMap.build (E : Env n) (w : Warp) (ftr : Feature) : Buf :=
  [0, 1, 2].foldl (fun acc pyramid_level =>
    warpAffine E w.A_cur_ref ftr.img ftr.px ftr.level w.search_level pyramid_level
      E.patch_size_half acc) (Buf.zeros (E.patch_size_total * 3))

/-- The Point at address `a` is the chosen Point of grid cell `j` and the
Feature at address `r` is its reference Feature for the current frame. -/
def addFromSparseMap.Source (E : Env n) (s : LidarSelector n) (j : Int) (a r : Nat) : Prop :=
  s.voxel_points_ j = some a ∧
  Point.getCloseViewObs E s.features (s.points a) s.new_frame_.pos = some r

/-- Entries of a sub map: grid cell, Point, search level and reference patch. -/
def SubSparseMap.entries (sm : SubSparseMap) : List (Int × PointPtr × Int × Buf) :=
  List.zip sm.index (List.zip sm.voxel_points (List.zip sm.search_levels sm.patch))

/-- Every entry of the memo under an id is the own warp of the chosen Point of
a cell of `pre` and its reference Feature, which has that id. -/
def addFromSparseMap.MemoFrom (E : Env n) (s : LidarSelector n) (pre : List Int) : Prop :=
  ∀ e ∈ s.Warp_map, ∃ j a r, j ∈ pre ∧ addFromSparseMap.Source E s j a r ∧
    (s.features r).id_ = e.1 ∧ e.2 = addFromSparseMap.own_warp E s a r

/-- Every entry of the sub map is for a cell of `pre`, holds the chosen Point
of the cell, and its search level and reference patch come from the own warp
of the chosen Point of the same or an earlier cell, whose reference Feature
has the same `id_` as the reference Feature of the entry. -/
def addFromSparseMap.EntriesFrom (E : Env n) (s : LidarSelector n) (pre : List Int) : Prop :=
  ∀ x ∈ SubSparseMap.entries s.sub_sparse_map, ∃ a r j a1 r1,
    x.1 ∈ pre ∧ addFromSparseMap.Source E s x.1 a r ∧ x.2.1 = some a ∧
    j ∈ pre ∧ j ≤ x.1 ∧ addFromSparseMap.Source E s j a1 r1 ∧
    (s.features r1).id_ = (s.features r).id_ ∧
    x.2.2.1 = (addFromSparseMap.own_warp E s a1 r1).search_level ∧
    x.2.2.2 = addFromSparseMap.build E (addFromSparseMap.own_warp E s a1 r1) (s.features r)

/-- Selector of the examples before a call of `detect` for frame 1: the voxel
map holds one Point, at address 0, at (0, 0, 7/2) on the optical axis, observed
once, by frame 0 at the identity pose at the principal point of `testEnvTwo`;
the shared state is at the identity pose and the propagated state is one metre
further along the optical axis. -/
def testMapOne : LidarSelector 12 :=
  { testInit with
    state_propagat := { testState with pos_end := ![0, 0, 1] }
    points := Function.update testInit.points 0 { pos_ := ![0, 0, 7 / 2], value := 50, obs_ := [0] }
    n_points := 1
    features := Function.update testInit.features 0
      { px := ![24, 20], f := ![0, 0, 1], T_f_w_ := ⟨1, 0⟩, score := 50, level := 0, id_ := 0,
        img := flatImgTwo 7, point := some 0 }
    n_features := 1
    feat_map := AddPoint [] (some 0) ![0, 0, 7 / 2]
    stage_ := Stage.STAGE_DEFAULT_FRAME
    frame_counter_ := 1 }

/-- Frame pose that `updateFrameState(state)` derives from a shared state `st`:
`Rcw = Rci * Rwi^T` and `Pcw = -Rci * Rwi^T * Pwi + Pci`. -/
def updateFrameState.pose (s : LidarSelector n) (st : StatesGroup n) : SE3 :=
  ⟨s.Rci * st.rot_end.transpose, -((s.Rci * st.rot_end.transpose).mulVec st.pos_end) + s.Pci⟩

/-- Selector of a call of `detect` after `addFromSparseMap`. -/
def detect.mapped (E : Env n) (img : Img) (pg : PointCloud) (s : LidarSelector n) :
    LidarSelector n :=
  addFromSparseMap E img pg (detect.start E img pg s)

/-- Selector of a call of `detect` after `addSparseMap`, before `ComputeJ`. -/
def detect.grown (E : Env n) (img : Img) (pg : PointCloud) (s : LidarSelector n) :
    LidarSelector n :=
  addSparseMap E img pg (detect.mapped E img pg s)

/-- Selector of a call of `detect` after `ComputeJ`, before `addObservation`. -/
def detect.updated (E : Env n) (img : Img) (pg : PointCloud) (s : LidarSelector n) :
    LidarSelector n :=
  ComputeJ E img (detect.grown E img pg s)

/-- An 8-bit image of 200×120 pixels, wider than the test camera, whose grey
value changes from pixel to pixel. -/
def rampImgWide : Img := ⟨200, 120, fun o => (o % 251).toNat⟩

/-- Image of 40×80 pixels of one grey value. -/
def flatImgTall (c : ℕ) : Img := ⟨40, 80, fun _ => c⟩

/-- Environment of the examples for a pinhole camera of 40×80 pixels with focal
length 24 and principal point (20, 24), grid size 40 and patch size 2: a grid
of 1×2 cells, the principal point in cell 0, and a safe border of 16 pixels.
`cam2world` is the unit viewing ray wherever its length is rational, and a
vector along the ray elsewhere, where the code only uses its direction; the
other library routines are those of `testEnvTwo`. -/
def testEnvTall : Env 12 :=
  { testEnvTwo with
    width := 40, height := 80, cx := 20, cy := 24
    world2cam := fun p => ![24 * p 0 / p 2 + 20, 24 * p 1 / p 2 + 24]
    cam2world := fun px =>
      (1 / sqrtQ ((px 0 - 20) / 24 * ((px 0 - 20) / 24) + (px 1 - 24) / 24 * ((px 1 - 24) / 24) + 1)) •
        ![(px 0 - 20) / 24, (px 1 - 24) / 24, 1]
    isInFrame := fun obs b => decide (obs.1 ≥ b ∧ obs.1 < 40 - b ∧ obs.2 ≥ b ∧ obs.2 < 80 - b) }

/-- Selector of the examples with a Point seen edge-on: the voxel map holds one
Point, at address 0, at (0, 3/2, 2), observed once, by frame 0 at the identity
pose, at pixel (20, 42) along the unit ray (0, 3/5, 4/5) at distance 5/2.  The
current frame stands at (0, 1/2, 2), one metre from the Point, and looks along
the y axis of the world, the direction of the image rows of frame 0: its axes
are x, -z and y of the world.  The Point is on its optical axis, at the
principal point (20, 24) in cell 0, and the two viewing rays make an angle of
about 53°. -/
def testMapEdgeOn : LidarSelector 12 :=
  { testInit with
    points := Function.update testInit.points 0 { pos_ := ![0, 3 / 2, 2], value := 50, obs_ := [0] }
    n_points := 1
    features := Function.update testInit.features 0
      { px := ![20, 42], f := ![0, 3 / 5, 4 / 5], T_f_w_ := ⟨1, 0⟩, score := 50, level := 0,
        id_ := 0, img := flatImgTall 7, point := some 0 }
    n_features := 1
    feat_map := AddPoint [] (some 0) ![0, 3 / 2, 2]
    new_frame_ :=
      { Frame.new 1 (flatImgTall 7) with
        T_f_w_ := ⟨!![1, 0, 0; 0, 0, -1; 0, 1, 0], ![0, 2, -1 / 2]⟩ } }

/-! # Properties -/

/-! ## Voxel keys and `AddPoint` -/

/-- Truncation toward zero of an integer value is the value. -/
theorem toInt_intCast (z : Int) : toInt (z : ℚ) = z := by
  unfold toInt
  split
  · exact Int.floor_intCast z
  · rw [← Int.cast_neg, Int.floor_intCast]; ring

/-- Characterisation of the key coordinate of `AddPoint`: the floor of
`c / voxel_size`, except on negative exact multiples of the voxel size, where
it is one less. -/
theorem AddPoint.loc_xyz_eq (c : ℚ) :
    AddPoint.loc_xyz c =
      if c < 0 ∧ (⌊c / voxel_size⌋ : ℚ) = c / voxel_size then ⌊c / voxel_size⌋ - 1
      else ⌊c / voxel_size⌋ := by
  unfold AddPoint.loc_xyz toInt
  simp only
  by_cases h : c / voxel_size < 0
  · have hc : c < 0 := by
      unfold voxel_size at h
      linarith
    have h1 : ¬ (0 ≤ c / voxel_size - 1) := by linarith
    simp only [h, if_true, h1, if_false, hc, true_and]
    by_cases hi : (⌊c / voxel_size⌋ : ℚ) = c / voxel_size
    · simp only [hi, if_true]
      have : -(c / voxel_size - 1) = ((-⌊c / voxel_size⌋ + 1 : Int) : ℚ) := by
        push_cast; rw [hi]; ring
      rw [this, Int.floor_intCast]; ring
    · simp only [hi, if_false]
      rw [neg_eq_iff_eq_neg, Int.floor_eq_iff]
      have h2 := Int.floor_le (c / voxel_size)
      have h3 := Int.lt_floor_add_one (c / voxel_size)
      have h4 : (⌊c / voxel_size⌋ : ℚ) < c / voxel_size := lt_of_le_of_ne h2 hi
      push_cast
      constructor <;> linarith
  · have hc : ¬ c < 0 := by
      unfold voxel_size at h
      intro hc; apply h; linarith
    have h1 : 0 ≤ c / voxel_size := not_lt.mp h
    simp [h, h1, hc]

/-- C1: the key of `AddPoint` is not the floor key on a negative exact
multiple of the voxel size.  A Point at world position (-1, 0, 0) is filed
under the key (-3, 0, 0), while `addFromSparseMap` visits the voxel
(-2, 0, 0) = (⌊-1/0.5⌋, 0, 0) for a cloud point at that position, so that the
bucket visited for the Point's own position does not hold the Point. -/
theorem C1_AddPoint_key_below_floor :
    AddPoint.position ![-1, 0, 0] = ⟨-3, 0, 0⟩ ∧
    addFromSparseMap.position ![-1, 0, 0] = ⟨-2, 0, 0⟩ ∧
    FeatMap.bucket (AddPoint [] (some 0) ![-1, 0, 0]) (AddPoint.position ![-1, 0, 0]) = [some 0] ∧
    FeatMap.bucket (AddPoint [] (some 0) ![-1, 0, 0]) (addFromSparseMap.position ![-1, 0, 0]) = [] := by
  decide!

theorem FeatMap.find_push_self (m : FeatMap) (k : VOXEL_KEY) (p : PointPtr) (b : VOXEL_POINTS)
    (h : FeatMap.find m k = some b) :
    FeatMap.find (FeatMap.push m k p) k = some ⟨b.voxel_points ++ [p], b.count + 1⟩ := by
  induction m with
  | nil => simp [FeatMap.find] at h
  | cons e m ih =>
    by_cases he : e.1 = k
    · simp only [FeatMap.find, FeatMap.push, he, if_true, List.find?, decide_True, Option.map] at h ⊢
      cases h
      rfl
    · have h1 : FeatMap.find m k = some b := by
        simpa [FeatMap.find, List.find?, he] using h
      have := ih h1
      simpa [FeatMap.find, FeatMap.push, List.find?, he] using this

theorem FeatMap.find_push_other (m : FeatMap) (k k1 : VOXEL_KEY) (p : PointPtr) (h : k1 ≠ k) :
    FeatMap.find (FeatMap.push m k p) k1 = FeatMap.find m k1 := by
  induction m with
  | nil => rfl
  | cons e m ih =>
    by_cases he : e.1 = k
    · have he1 : ¬ e.1 = k1 := fun h1 => h (h1.symm.trans he)
      simp [FeatMap.find, FeatMap.push, List.find?, he, he1, Ne.symm h]
    · by_cases he1 : e.1 = k1
      · simp [FeatMap.find, FeatMap.push, List.find?, he, he1, h]
      · simpa [FeatMap.find, FeatMap.push, List.find?, he, he1] using ih

theorem FeatMap.stored_push (m : FeatMap) (k : VOXEL_KEY) (p : PointPtr) (b : VOXEL_POINTS)
    (h : FeatMap.find m k = some b) :
    FeatMap.stored (FeatMap.push m k p) = FeatMap.stored m + 1 := by
  induction m with
  | nil => simp [FeatMap.find] at h
  | cons e m ih =>
    by_cases he : e.1 = k
    · simp [FeatMap.push, FeatMap.stored, he]; omega
    · have h1 : FeatMap.find m k = some b := by
        simpa [FeatMap.find, List.find?, he] using h
      have := ih h1
      simp [FeatMap.push, FeatMap.stored, he, this]; omega

theorem FeatMap.find_append_of_none (m : FeatMap) (k : VOXEL_KEY) (e : VOXEL_KEY × VOXEL_POINTS)
    (h : FeatMap.find m k = none) :
    FeatMap.find (m ++ [e]) k = if e.1 = k then some e.2 else none := by
  induction m with
  | nil => by_cases he : e.1 = k <;> simp [FeatMap.find, List.find?, he]
  | cons a m ih =>
    by_cases ha : a.1 = k
    · simp [FeatMap.find, List.find?, ha] at h
    · have h1 : FeatMap.find m k = none := by
        simpa [FeatMap.find, List.find?, ha] using h
      have := ih h1
      simpa [FeatMap.find, List.find?, ha] using this

theorem FeatMap.find_append_of_ne (m : FeatMap) (k : VOXEL_KEY) (e : VOXEL_KEY × VOXEL_POINTS)
    (h : e.1 ≠ k) : FeatMap.find (m ++ [e]) k = FeatMap.find m k := by
  induction m with
  | nil => simp [FeatMap.find, List.find?, h]
  | cons a m ih =>
    by_cases ha : a.1 = k
    · simp [FeatMap.find, List.find?, ha]
    · simpa [FeatMap.find, List.find?, ha] using ih

theorem FeatMap.stored_append (m : FeatMap) (e : VOXEL_KEY × VOXEL_POINTS) :
    FeatMap.stored (m ++ [e]) = FeatMap.stored m + e.2.voxel_points.length := by
  induction m with
  | nil => simp [FeatMap.stored]
  | cons a m ih => simp [FeatMap.stored, ih]; omega

/-- C10: after `AddPoint(p)` the bucket of the key of `p` is the previous bucket
(empty when the key was absent) with `p` appended at the end, whether or not
`p` was already stored there; the entry of every other key is unchanged; and
the number of stored Points has grown by exactly one. -/
theorem C10_AddPoint_appends (feat_map : FeatMap) (pt_new : PointPtr) (pt_w : V3D) :
    FeatMap.bucket (AddPoint feat_map pt_new pt_w) (AddPoint.position pt_w)
        = FeatMap.bucket feat_map (AddPoint.position pt_w) ++ [pt_new] ∧
    (∀ k, k ≠ AddPoint.position pt_w →
        FeatMap.find (AddPoint feat_map pt_new pt_w) k = FeatMap.find feat_map k) ∧
    FeatMap.stored (AddPoint feat_map pt_new pt_w) = FeatMap.stored feat_map + 1 := by
  unfold AddPoint
  simp only
  cases h : FeatMap.find feat_map (AddPoint.position pt_w) with
  | none =>
    refine ⟨?_, ?_, ?_⟩
    · simp [FeatMap.bucket, h, FeatMap.find_append_of_none _ _ _ h]
    · intro k hk
      exact FeatMap.find_append_of_ne _ _ _ (Ne.symm hk)
    · simp [FeatMap.stored_append]
  | some b =>
    refine ⟨?_, ?_, ?_⟩
    · simp [FeatMap.bucket, h, FeatMap.find_push_self _ _ _ _ h]
    · intro k hk
      exact FeatMap.find_push_other _ _ _ _ hk
    · exact FeatMap.stored_push _ _ _ _ h

/-! ## Loop invariants and the voxel map under `addSparseMap` -/

theorem foldl_inv {α β : Type*} (P : α → Prop) (f : α → β → α) (l : List β) (a : α)
    (h0 : P a) (hstep : ∀ a b, b ∈ l → P a → P (f a b)) : P (l.foldl f a) := by
  induction l generalizing a with
  | nil => exact h0
  | cons x xs ih =>
    simp only [List.foldl_cons]
    apply ih
    · exact hstep a x (List.mem_cons_self _ _) h0
    · intro a b hb hP
      exact hstep a b (List.mem_cons_of_mem _ hb) hP

theorem Env.mem_cells {n : ℕ} (E : Env n) (i : Int) : i ∈ E.cells ↔ E.inGrid i := by
  unfold Env.cells Env.inGrid
  simp only [List.mem_map, List.mem_range]
  constructor
  · rintro ⟨k, hk, rfl⟩
    constructor
    · exact Int.ofNat_nonneg k
    · have : (k : Int) < (E.length.toNat : Int) := by exact_mod_cast hk
      have h2 : ((E.length.toNat : Int)) = E.length := Int.toNat_of_nonneg (by
        by_contra hneg
        have : E.length.toNat = 0 := Int.toNat_of_nonpos (by omega)
        omega)
      simpa [h2] using this
  · rintro ⟨h0, h1⟩
    refine ⟨i.toNat, ?_, ?_⟩
    · have := Int.toNat_of_nonneg h0
      omega
    · simpa using Int.toNat_of_nonneg h0

theorem FeatMap.mem_allPoints_push (m : FeatMap) (k : VOXEL_KEY) (p q : PointPtr)
    (h : q ∈ FeatMap.allPoints (FeatMap.push m k p)) : q ∈ FeatMap.allPoints m ∨ q = p := by
  induction m with
  | nil => simp [FeatMap.push, FeatMap.allPoints] at h
  | cons e m ih =>
    by_cases he : e.1 = k
    · simp only [FeatMap.push, he, if_true, FeatMap.allPoints, List.flatMap_cons, List.mem_append,
        List.mem_singleton] at h ⊢
      tauto
    · simp only [FeatMap.push, he, if_false, FeatMap.allPoints, List.flatMap_cons,
        List.mem_append] at h ⊢
      rcases h with h | h
      · exact Or.inl (Or.inl h)
      · rcases ih h with h1 | h1
        · exact Or.inl (Or.inr h1)
        · exact Or.inr h1

theorem AddPoint.mem_allPoints (m : FeatMap) (p q : PointPtr) (w : V3D)
    (h : q ∈ FeatMap.allPoints (AddPoint m p w)) : q ∈ FeatMap.allPoints m ∨ q = p := by
  unfold AddPoint at h
  simp only at h
  split at h
  · exact FeatMap.mem_allPoints_push _ _ _ _ h
  · simp only [FeatMap.allPoints, List.flatMap_append, List.mem_append, List.flatMap_cons,
      List.flatMap_nil, List.append_nil, List.mem_singleton] at h ⊢
    exact h

/-- Shape of one round of the selection loop: only the cell arrays change. -/
theorem addSparseMap.visit_shape (E : Env n) (img : Img) (s : LidarSelector n) (pt : V3D) :
    ∃ mv av gn, addSparseMap.visit E img s pt =
      { s with map_value := mv, add_voxel_points_ := av, grid_num := gn } := by
  unfold addSparseMap.visit
  simp only
  split
  · split
    · exact ⟨_, _, _, rfl⟩
    · exact ⟨s.map_value, s.add_voxel_points_, s.grid_num, rfl⟩
  · exact ⟨s.map_value, s.add_voxel_points_, s.grid_num, rfl⟩

/-- Shape of the selection of `addSparseMap`: only the cell arrays change. -/
theorem addSparseMap.select_shape (E : Env n) (img : Img) (pg : PointCloud) (s : LidarSelector n) :
    ∃ gn mi mv md vp av, addSparseMap.select E img pg s =
      { s with grid_num := gn, map_index := mi, map_value := mv, map_dist := md,
               voxel_points_ := vp, add_voxel_points_ := av } := by
  unfold addSparseMap.select
  refine foldl_inv (fun t : LidarSelector n => ∃ gn mi mv md vp av, t =
      { s with grid_num := gn, map_index := mi, map_value := mv, map_dist := md,
               voxel_points_ := vp, add_voxel_points_ := av }) _ _ _ ?_ ?_
  · exact ⟨_, _, _, _, _, _, rfl⟩
  · rintro t pt _ ⟨gn, mi, mv, md, vp, av, rfl⟩
    obtain ⟨mv1, av1, gn1, h⟩ := addSparseMap.visit_shape E img
      { s with grid_num := gn, map_index := mi, map_value := mv, map_dist := md,
               voxel_points_ := vp, add_voxel_points_ := av } pt
    exact ⟨gn1, mi, mv1, md, vp, av1, h⟩

/-- Selection loop of `addSparseMap`: a cell of the grid marked
`TYPE_POINTCLOUD` stores a cloud point that projects into the frame and into
this cell, together with the corner score of that point. -/
theorem addSparseMap.select_cell (E : Env n) (img : Img) (pg : PointCloud) (s : LidarSelector n)
    (i : Int) (hi : E.inGrid i)
    (h : (addSparseMap.select E img pg s).grid_num i = CellType.TYPE_POINTCLOUD) :
    ∃ pt ∈ pg, (addSparseMap.select E img pg s).add_voxel_points_ i = pt ∧
      E.isInFrame (castInt (s.new_frame_.w2c E pt)) E.border = true ∧
      E.gridIndex (s.new_frame_.w2c E pt) = i ∧
      (addSparseMap.select E img pg s).map_value i
        = E.shiTomasiScore img (s.new_frame_.w2c E pt 0) (s.new_frame_.w2c E pt 1) := by
  unfold addSparseMap.select at h ⊢
  refine (foldl_inv (fun t : LidarSelector n => t.new_frame_ = s.new_frame_ ∧
    (t.grid_num i = CellType.TYPE_POINTCLOUD →
      ∃ pt ∈ pg, t.add_voxel_points_ i = pt ∧
        E.isInFrame (castInt (s.new_frame_.w2c E pt)) E.border = true ∧
        E.gridIndex (s.new_frame_.w2c E pt) = i ∧
        t.map_value i = E.shiTomasiScore img (s.new_frame_.w2c E pt 0) (s.new_frame_.w2c E pt 1)))
    (addSparseMap.visit E img) pg (reset_grid E s) ?_ ?_).2 h
  · refine ⟨rfl, ?_⟩
    intro h
    simp [reset_grid, hi] at h
  · rintro t pt hpt ⟨hf, ht⟩
    unfold addSparseMap.visit
    simp only
    split
    · rename_i hin
      split
      · refine ⟨hf, ?_⟩
        by_cases hx : i = E.gridIndex (t.new_frame_.w2c E pt)
        · intro _
          refine ⟨pt, hpt, ?_, ?_, ?_, ?_⟩
          · show Function.update t.add_voxel_points_ _ pt i = pt
            rw [hx, Function.update_same]
          · rw [← hf]; exact hin
          · rw [← hf]; exact hx.symm
          · show Function.update t.map_value _ _ i = _
            rw [hx, Function.update_same, hf]
        · simpa [Function.update_noteq hx] using ht
      · exact ⟨hf, ht⟩
    · exact ⟨hf, ht⟩

/-- Creation loop of `addSparseMap`: every pointer of the resulting voxel map
was there before or is a Point created by the loop. -/
theorem addSparseMap.create_loop (E : Env n) (sel : LidarSelector n) (l : List Int)
    (hl : ∀ i ∈ l, E.inGrid i) :
    ∀ p ∈ FeatMap.allPoints (l.foldl (addSparseMap.create E) sel).feat_map,
      p ∈ FeatMap.allPoints sel.feat_map ∨
      ∃ a, p = some a ∧ addSparseMap.Created E sel (l.foldl (addSparseMap.create E) sel) a := by
  refine (foldl_inv (fun t : LidarSelector n =>
      (t.grid_num = sel.grid_num ∧ t.map_value = sel.map_value ∧
        t.add_voxel_points_ = sel.add_voxel_points_ ∧ t.new_frame_ = sel.new_frame_ ∧
        sel.n_points ≤ t.n_points ∧ sel.n_features ≤ t.n_features) ∧
      ∀ p ∈ FeatMap.allPoints t.feat_map, p ∈ FeatMap.allPoints sel.feat_map ∨
        ∃ a, p = some a ∧ addSparseMap.Created E sel t a)
    (addSparseMap.create E) l sel ?_ ?_).2
  · exact ⟨⟨rfl, rfl, rfl, rfl, le_refl _, le_refl _⟩, fun p hp => Or.inl hp⟩
  · rintro t i hi ⟨⟨hg, hv, ha, hf, hnp, hnf⟩, hall⟩
    unfold addSparseMap.create
    split
    · rename_i hcell
      refine ⟨⟨hg, hv, ha, hf, Nat.le_succ_of_le hnp, Nat.le_succ_of_le hnf⟩, ?_⟩
      intro p hp
      rcases AddPoint.mem_allPoints _ _ _ _ hp with hp | hp
      · rcases hall p hp with h | ⟨a, rfl, i0, fa, h1, h2, h3, h4, h5, h6, h7, h8, h9, h10⟩
        · exact Or.inl h
        · refine Or.inr ⟨a, rfl, i0, fa, h1, h2, Nat.lt_succ_of_lt h3, Nat.lt_succ_of_lt h4,
            h5, h6, ?_, ?_, ?_, ?_⟩
          · show (Function.update t.points t.n_points _ a).obs_ = [fa]
            rw [Function.update_noteq (Nat.ne_of_lt h4)]; exact h7
          · show Function.update t.features t.n_features _ fa = _
            rw [Function.update_noteq (Nat.ne_of_lt h3)]; exact h8
          · show (Function.update t.points t.n_points _ a).value = _
            rw [Function.update_noteq (Nat.ne_of_lt h4)]; exact h9
          · show (Function.update t.points t.n_points _ a).pos_ = _
            rw [Function.update_noteq (Nat.ne_of_lt h4)]; exact h10
      · refine Or.inr ⟨t.n_points, hp, i, t.n_features, hl i hi, ?_, Nat.lt_succ_self _,
          Nat.lt_succ_self _, hnp, hnf, ?_, ?_, ?_, ?_⟩
        · rw [← hg]; exact hcell
        · show (Function.update t.points t.n_points _ t.n_points).obs_ = _
          rw [Function.update_same]
          simp [addSparseMap.pt_new, Point.addFrameRef, Point.new]
        · show Function.update t.features t.n_features _ t.n_features = _
          rw [Function.update_same]
          simp [addSparseMap.ftr_new, hv, ha, hf]
        · show (Function.update t.points t.n_points _ t.n_points).value = _
          rw [Function.update_same]
          simp [addSparseMap.pt_new, hv]
        · show (Function.update t.points t.n_points _ t.n_points).pos_ = _
          rw [Function.update_same]
          simp [addSparseMap.pt_new, Point.addFrameRef, Point.new, ha]
    · exact ⟨⟨hg, hv, ha, hf, hnp, hnf⟩, hall⟩

/-- C4: every Point that `addSparseMap` inserts into the voxel map (a pointer
of the resulting map that the map did not hold before) has exactly one Feature
in its observation list; this Feature carries the id and the pose `T_f_w_` of
the current frame, pyramid level 0 and the corner score stored in the winning
cell, which is also the Point's value; and the Point's position is the world
position of the winning cloud point, a point of the cloud that projects into
the frame and into that cell and whose Shi-Tomasi score is the stored score. -/
theorem C4_addSparseMap_new_point (E : Env n) (img : Img) (pg : PointCloud) (s : LidarSelector n)
    (p : PointPtr) (hp : p ∈ FeatMap.allPoints (addSparseMap E img pg s).feat_map)
    (hnew : p ∉ FeatMap.allPoints s.feat_map) :
    ∃ a fa i, p = some a ∧ E.inGrid i ∧
      ((addSparseMap E img pg s).points a).obs_ = [fa] ∧
      ((addSparseMap E img pg s).features fa).id_ = s.new_frame_.id_ ∧
      ((addSparseMap E img pg s).features fa).T_f_w_ = s.new_frame_.T_f_w_ ∧
      ((addSparseMap E img pg s).features fa).level = 0 ∧
      ((addSparseMap E img pg s).features fa).score = (addSparseMap.select E img pg s).map_value i ∧
      ((addSparseMap E img pg s).points a).value = (addSparseMap.select E img pg s).map_value i ∧
      ∃ pt ∈ pg, ((addSparseMap E img pg s).points a).pos_ = pt ∧
        E.isInFrame (castInt (s.new_frame_.w2c E pt)) E.border = true ∧
        E.gridIndex (s.new_frame_.w2c E pt) = i ∧
        ((addSparseMap E img pg s).features fa).px = s.new_frame_.w2c E pt ∧
        ((addSparseMap E img pg s).features fa).score
          = E.shiTomasiScore img (s.new_frame_.w2c E pt 0) (s.new_frame_.w2c E pt 1) := by
  have hsel := addSparseMap.select_shape E img pg s
  obtain ⟨gn, mi, mv, md, vp, av, hshape⟩ := hsel
  have hfm : (addSparseMap.select E img pg s).feat_map = s.feat_map := by rw [hshape]
  have hfr : (addSparseMap.select E img pg s).new_frame_ = s.new_frame_ := by rw [hshape]
  have hloop := addSparseMap.create_loop E (addSparseMap.select E img pg s) E.cells
    (fun i hi => (E.mem_cells i).1 hi) p hp
  rw [hfm] at hloop
  rcases hloop with h | ⟨a, rfl, i, fa, h1, h2, _, _, _, _, h7, h8, h9, h10⟩
  · exact absurd h hnew
  · obtain ⟨pt, hpt, e1, e2, e3, e4⟩ := addSparseMap.select_cell E img pg s i h1 h2
    have h8' : (addSparseMap E img pg s).features fa
        = addSparseMap.ftr_new E (addSparseMap.select E img pg s) i := h8
    refine ⟨a, fa, i, rfl, h1, h7, ?_, ?_, ?_, ?_, h9, pt, hpt, ?_, e2, e3, ?_, ?_⟩
    · rw [h8']; simp [addSparseMap.ftr_new, hfr]
    · rw [h8']; simp [addSparseMap.ftr_new, hfr]
    · rw [h8']; simp [addSparseMap.ftr_new]
    · rw [h8']; simp [addSparseMap.ftr_new]
    · exact h10.trans e1
    · rw [h8']; simp [addSparseMap.ftr_new, hfr, e1]
    · rw [h8']; simp [addSparseMap.ftr_new, e4]

/-- Witness for C4: with the test camera and a constant corner score of 200, the
cloud point (0, 0, 2) in front of the camera becomes the Point at address 0 of
an empty voxel map; it has one observation, of pyramid level 0. -/
theorem C4_addSparseMap_new_point_witness :
    ∃ a fa, (some 0 : PointPtr) = some a ∧
      ((addSparseMap (testEnv 200) (flatImg 7) [![0, 0, 2]] testInit).points a).obs_ = [fa] ∧
      ((addSparseMap (testEnv 200) (flatImg 7) [![0, 0, 2]] testInit).features fa).level = 0 :=
  match C4_addSparseMap_new_point (testEnv 200) (flatImg 7) [![0, 0, 2]] testInit (some 0)
      (by decide!) (by decide!) with
  | ⟨a, fa, _, h1, _, h2, _, _, h3, _⟩ => ⟨a, fa, h1, h2, h3⟩

/-! ## The cell winner of `addFromSparseMap` -/

/-- Shape of one round of the second loop: only the cell arrays change. -/
theorem addFromSparseMap.candidate_shape (E : Env n) (s : LidarSelector n) (pt : PointPtr) :
    ∃ gn md vp mv, addFromSparseMap.candidate E s pt =
      { s with grid_num := gn, map_dist := md, voxel_points_ := vp, map_value := mv } := by
  unfold addFromSparseMap.candidate
  cases pt with
  | none => exact ⟨_, _, _, _, rfl⟩
  | some a =>
    simp only
    split
    · exact ⟨s.grid_num, s.map_dist, s.voxel_points_, s.map_value, rfl⟩
    · split
      · split <;> split <;> exact ⟨_, _, _, _, rfl⟩
      · exact ⟨s.grid_num, s.map_dist, s.voxel_points_, s.map_value, rfl⟩

/-- Shape of the second loop over a list of pointers. -/
theorem addFromSparseMap.candidates_shape (E : Env n) (s : LidarSelector n) (ps : List PointPtr) :
    ∃ gn md vp mv, ps.foldl (addFromSparseMap.candidate E) s =
      { s with grid_num := gn, map_dist := md, voxel_points_ := vp, map_value := mv } := by
  refine foldl_inv (fun t : LidarSelector n => ∃ gn md vp mv, t =
      { s with grid_num := gn, map_dist := md, voxel_points_ := vp, map_value := mv }) _ _ _ ?_ ?_
  · exact ⟨_, _, _, _, rfl⟩
  · rintro t pt _ ⟨gn, md, vp, mv, rfl⟩
    obtain ⟨gn1, md1, vp1, mv1, h⟩ := addFromSparseMap.candidate_shape E
      { s with grid_num := gn, map_dist := md, voxel_points_ := vp, map_value := mv } pt
    exact ⟨gn1, md1, vp1, mv1, h⟩

/-- The loop over the visited voxels is the loop over the pointers of their
buckets: the voxel map does not change on the way. -/
theorem addFromSparseMap.voxels_eq (E : Env n) (keys : List VOXEL_KEY) (s : LidarSelector n) :
    keys.foldl (addFromSparseMap.voxel E) s =
      (keys.flatMap (fun k => FeatMap.bucket s.feat_map k)).foldl (addFromSparseMap.candidate E) s := by
  induction keys generalizing s with
  | nil => rfl
  | cons k ks ih =>
    simp only [List.foldl_cons, List.flatMap_cons, List.foldl_append]
    have hv : addFromSparseMap.voxel E s k
        = (FeatMap.bucket s.feat_map k).foldl (addFromSparseMap.candidate E) s := by
      unfold addFromSparseMap.voxel FeatMap.bucket
      cases FeatMap.find s.feat_map k <;> rfl
    rw [hv, ih]
    obtain ⟨gn, md, vp, mv, h⟩ := addFromSparseMap.candidates_shape E s (FeatMap.bucket s.feat_map k)
    rw [h]

/-- Invariant of the second loop of `addFromSparseMap` for one grid cell `c`,
after the pointers `ps`, starting from a reset cell: the cell is marked iff a
candidate was met; the best distance is at most every candidate's distance; the
chosen Point is a candidate whose distance is the best distance, and it is
null exactly as long as every candidate met is farther than 10000. -/
theorem addFromSparseMap.cell_inv (E : Env n) (s s0 : LidarSelector n) (c : Int)
    (hp : s0.points = s.points) (hf : s0.new_frame_ = s.new_frame_)
    (hg : s0.grid_num c = CellType.TYPE_UNKNOWN) (hd : s0.map_dist c = 10000)
    (hv : s0.voxel_points_ c = none) (ps : List PointPtr) :
    ((ps.foldl (addFromSparseMap.candidate E) s0).grid_num c = CellType.TYPE_MAP ↔
        ∃ a, some a ∈ ps ∧ addFromSparseMap.isCandidate E s c a) ∧
    (∀ a, some a ∈ ps → addFromSparseMap.isCandidate E s c a →
        (ps.foldl (addFromSparseMap.candidate E) s0).map_dist c ≤ addFromSparseMap.dist E s a) ∧
    (((ps.foldl (addFromSparseMap.candidate E) s0).voxel_points_ c = none ∧
        (ps.foldl (addFromSparseMap.candidate E) s0).map_dist c = 10000 ∧
        ∀ a, some a ∈ ps → addFromSparseMap.isCandidate E s c a →
          10000 < addFromSparseMap.dist E s a) ∨
      (∃ a, some a ∈ ps ∧ addFromSparseMap.isCandidate E s c a ∧
        (ps.foldl (addFromSparseMap.candidate E) s0).voxel_points_ c = some a ∧
        addFromSparseMap.dist E s a = (ps.foldl (addFromSparseMap.candidate E) s0).map_dist c ∧
        addFromSparseMap.dist E s a ≤ 10000)) := by
  induction ps using List.reverseRecOn with
  | nil =>
    refine ⟨?_, ?_, ?_⟩
    · simp [hg]
    · intro a ha; simp at ha
    · left; simp [hv, hd]
  | append_singleton ps x ih =>
    obtain ⟨gn, md, vp, mv, hshape⟩ := addFromSparseMap.candidates_shape E s0 ps
    have hpt : (ps.foldl (addFromSparseMap.candidate E) s0).points = s.points := by rw [hshape]; exact hp
    have hft : (ps.foldl (addFromSparseMap.candidate E) s0).new_frame_ = s.new_frame_ := by
      rw [hshape]; exact hf
    rw [List.foldl_append]
    simp only [List.foldl_cons, List.foldl_nil]
    generalize ps.foldl (addFromSparseMap.candidate E) s0 = t at ih hpt hft
    obtain ⟨ih1, ih2, ih3⟩ := ih
    -- a pointer that leaves cell `c` untouched and is no candidate of `c`
    have keep : ∀ t1 : LidarSelector n, t1.grid_num c = t.grid_num c → t1.map_dist c = t.map_dist c →
        t1.voxel_points_ c = t.voxel_points_ c →
        (∀ a, x = some a → ¬ addFromSparseMap.isCandidate E s c a) →
        (t1.grid_num c = CellType.TYPE_MAP ↔
          ∃ a, some a ∈ ps ++ [x] ∧ addFromSparseMap.isCandidate E s c a) ∧
        (∀ a, some a ∈ ps ++ [x] → addFromSparseMap.isCandidate E s c a →
          t1.map_dist c ≤ addFromSparseMap.dist E s a) ∧
        ((t1.voxel_points_ c = none ∧ t1.map_dist c = 10000 ∧
          ∀ a, some a ∈ ps ++ [x] → addFromSparseMap.isCandidate E s c a →
            10000 < addFromSparseMap.dist E s a) ∨
        (∃ a, some a ∈ ps ++ [x] ∧ addFromSparseMap.isCandidate E s c a ∧
          t1.voxel_points_ c = some a ∧ addFromSparseMap.dist E s a = t1.map_dist c ∧
          addFromSparseMap.dist E s a ≤ 10000)) := by
      intro t1 e1 e2 e3 hx
      rw [e1, e2, e3]
      refine ⟨?_, ?_, ?_⟩
      · rw [ih1]
        constructor
        · rintro ⟨a, ha, hc⟩
          exact ⟨a, List.mem_append_left _ ha, hc⟩
        · rintro ⟨a, ha, hc⟩
          rcases List.mem_append.1 ha with h | h
          · exact ⟨a, h, hc⟩
          · exact absurd hc (hx a (List.mem_singleton.1 h).symm)
      · intro a ha hc
        rcases List.mem_append.1 ha with h | h
        · exact ih2 a h hc
        · exact absurd hc (hx a (List.mem_singleton.1 h).symm)
      · rcases ih3 with ⟨h1, h2, h3⟩ | ⟨a, h1, h2, h3, h4, h5⟩
        · left
          refine ⟨h1, h2, ?_⟩
          intro a ha hc
          rcases List.mem_append.1 ha with h | h
          · exact h3 a h hc
          · exact absurd hc (hx a (List.mem_singleton.1 h).symm)
        · right
          exact ⟨a, List.mem_append_left _ h1, h2, h3, h4, h5⟩
    cases x with
    | none => exact keep _ rfl rfl rfl (fun a h => by cases h)
    | some a =>
      unfold addFromSparseMap.candidate
      simp only [hpt, hft]
      split
      · rename_i hz
        refine keep _ rfl rfl rfl ?_
        intro b hb hc
        cases hb
        exact hc.1 hz
      · rename_i hz
        split
        · rename_i hin
          by_cases hidx : E.gridIndex (s.new_frame_.w2c E (s.points a).pos_) = c
          · -- the pointer is a candidate of cell `c`
            have hcand : addFromSparseMap.isCandidate E s c a := ⟨hz, hin, hidx⟩
            have hmem : some a ∈ ps ++ [some a] := by simp
            rw [hidx]
            by_cases hle : E.norm3 (s.new_frame_.pos - (s.points a).pos_) ≤ t.map_dist c
            · have hmd : t.map_dist c ≤ 10000 := by
                rcases ih3 with ⟨_, h2, _⟩ | ⟨b, _, _, _, h4, h5⟩
                · exact le_of_eq h2
                · rw [← h4]; exact h5
              simp only [hle, if_true]
              split <;>
              · simp only [Function.update_same]
                refine ⟨⟨fun _ => ⟨a, hmem, hcand⟩, fun _ => trivial⟩, ?_, ?_⟩
                · intro b hb hc
                  rcases List.mem_append.1 hb with h | h
                  · exact le_trans hle (ih2 b h hc)
                  · cases (List.mem_singleton.1 h)
                    exact le_refl _
                · right
                  exact ⟨a, hmem, hcand, rfl, rfl, le_trans hle hmd⟩
            · simp only [hle, if_false]
              have hlt : t.map_dist c < addFromSparseMap.dist E s a := not_le.1 hle
              split <;>
              · simp only [Function.update_same]
                refine ⟨⟨fun _ => ⟨a, hmem, hcand⟩, fun _ => trivial⟩, ?_, ?_⟩
                · intro b hb hc
                  rcases List.mem_append.1 hb with h | h
                  · exact ih2 b h hc
                  · cases (List.mem_singleton.1 h)
                    exact le_of_lt hlt
                · rcases ih3 with ⟨h1, h2, h3⟩ | ⟨b, h1, h2, h3, h4, h5⟩
                  · left
                    refine ⟨h1, h2, ?_⟩
                    intro b hb hc
                    rcases List.mem_append.1 hb with h | h
                    · exact h3 b h hc
                    · cases (List.mem_singleton.1 h)
                      rw [← h2]; exact hlt
                  · right
                    exact ⟨b, List.mem_append_left _ h1, h2, h3, h4, h5⟩
          · -- the pointer falls into another cell
            have hne : c ≠ E.gridIndex (s.new_frame_.w2c E (s.points a).pos_) := fun h => hidx h.symm
            have hx : ∀ b, some a = some b → ¬ addFromSparseMap.isCandidate E s c b := by
              intro b hb hc
              cases hb
              exact hidx hc.2.2
            split <;> split <;>
            · refine keep _ ?_ ?_ ?_ hx <;>
              simp [Function.update_noteq hne]
        · rename_i hin
          refine keep _ rfl rfl rfl ?_
          intro b hb hc
          cases hb
          exact hin hc.2.1

/-- Shape of one round of the third loop of `addFromSparseMap`: only the warp
memo, the patch cache and the sub map change. -/
theorem addFromSparseMap.refine_shape (E : Env n) (img : Img) (it : Int → ℚ) (s : LidarSelector n)
    (i : Int) :
    ∃ wm pc cf sm, addFromSparseMap.refine E img it s i =
      { s with Warp_map := wm, patch_cache := pc, sub_map_cur_frame_ := cf, sub_sparse_map := sm } := by
  unfold addFromSparseMap.refine
  split
  · split
    · exact ⟨s.Warp_map, s.patch_cache, s.sub_map_cur_frame_, s.sub_sparse_map, rfl⟩
    · simp only
      split
      · exact ⟨s.Warp_map, s.patch_cache, s.sub_map_cur_frame_, s.sub_sparse_map, rfl⟩
      · split
        · exact ⟨s.Warp_map, s.patch_cache, s.sub_map_cur_frame_, s.sub_sparse_map, rfl⟩
        · split
          · exact ⟨_, _, s.sub_map_cur_frame_, s.sub_sparse_map, rfl⟩
          · split
            · exact ⟨_, _, s.sub_map_cur_frame_, s.sub_sparse_map, rfl⟩
            · exact ⟨_, _, _, _, rfl⟩
  · exact ⟨s.Warp_map, s.patch_cache, s.sub_map_cur_frame_, s.sub_sparse_map, rfl⟩

/-- Shape of the third loop of `addFromSparseMap`. -/
theorem addFromSparseMap.refines_shape (E : Env n) (img : Img) (it : Int → ℚ) (s : LidarSelector n)
    (l : List Int) :
    ∃ wm pc cf sm, l.foldl (addFromSparseMap.refine E img it) s =
      { s with Warp_map := wm, patch_cache := pc, sub_map_cur_frame_ := cf, sub_sparse_map := sm } := by
  refine foldl_inv (fun t : LidarSelector n => ∃ wm pc cf sm, t =
      { s with Warp_map := wm, patch_cache := pc, sub_map_cur_frame_ := cf, sub_sparse_map := sm })
    _ _ _ ?_ ?_
  · exact ⟨_, _, _, _, rfl⟩
  · rintro t i _ ⟨wm, pc, cf, sm, rfl⟩
    obtain ⟨wm1, pc1, cf1, sm1, h⟩ := addFromSparseMap.refine_shape E img it
      { s with Warp_map := wm, patch_cache := pc, sub_map_cur_frame_ := cf, sub_sparse_map := sm } i
    exact ⟨wm1, pc1, cf1, sm1, h⟩

/-- Grid after `addFromSparseMap` on a non-empty voxel map, cell by cell: the
cell invariant of the second loop holds for the final state. -/
theorem addFromSparseMap.cell_spec (E : Env n) (img : Img) (pg : PointCloud) (s : LidarSelector n)
    (hne : s.feat_map ≠ []) (c : Int) (hc : E.inGrid c) :
    ((addFromSparseMap E img pg s).grid_num c = CellType.TYPE_MAP ↔
        ∃ a, some a ∈ addFromSparseMap.visited E pg s ∧ addFromSparseMap.isCandidate E s c a) ∧
    (∀ a, some a ∈ addFromSparseMap.visited E pg s → addFromSparseMap.isCandidate E s c a →
        (addFromSparseMap E img pg s).map_dist c ≤ addFromSparseMap.dist E s a) ∧
    (((addFromSparseMap E img pg s).voxel_points_ c = none ∧
        (addFromSparseMap E img pg s).map_dist c = 10000 ∧
        ∀ a, some a ∈ addFromSparseMap.visited E pg s → addFromSparseMap.isCandidate E s c a →
          10000 < addFromSparseMap.dist E s a) ∨
      (∃ a, some a ∈ addFromSparseMap.visited E pg s ∧ addFromSparseMap.isCandidate E s c a ∧
        (addFromSparseMap E img pg s).voxel_points_ c = some a ∧
        addFromSparseMap.dist E s a = (addFromSparseMap E img pg s).map_dist c ∧
        addFromSparseMap.dist E s a ≤ 10000)) := by
  have hlen : ¬ s.feat_map.length ≤ 0 := by
    cases hm : s.feat_map with
    | nil => exact absurd hm hne
    | cons e m => simp
  have hfin : addFromSparseMap E img pg s =
      E.cells.foldl (addFromSparseMap.refine E img (addFromSparseMap.projected E pg s).2)
        (addFromSparseMap.gather E pg s) := by
    unfold addFromSparseMap
    rw [if_neg hlen]
  obtain ⟨wm, pc, cf, sm, hshape⟩ := addFromSparseMap.refines_shape E img
    (addFromSparseMap.projected E pg s).2 (addFromSparseMap.gather E pg s) E.cells
  have hg : (addFromSparseMap E img pg s).grid_num = (addFromSparseMap.gather E pg s).grid_num := by
    rw [hfin, hshape]
  have hd : (addFromSparseMap E img pg s).map_dist = (addFromSparseMap.gather E pg s).map_dist := by
    rw [hfin, hshape]
  have hv : (addFromSparseMap E img pg s).voxel_points_
      = (addFromSparseMap.gather E pg s).voxel_points_ := by
    rw [hfin, hshape]
  rw [hg, hd, hv]
  have hgather : addFromSparseMap.gather E pg s =
      (addFromSparseMap.visited E pg s).foldl (addFromSparseMap.candidate E)
        (addFromSparseMap.prepare E pg s) := by
    unfold addFromSparseMap.gather addFromSparseMap.visited
    rw [addFromSparseMap.voxels_eq]
    rfl
  rw [hgather]
  exact addFromSparseMap.cell_inv E s (addFromSparseMap.prepare E pg s) c rfl rfl
    (by simp [addFromSparseMap.prepare, reset_grid, hc])
    (by simp [addFromSparseMap.prepare, reset_grid, hc])
    (by simp [addFromSparseMap.prepare, reset_grid, hc])
    (addFromSparseMap.visited E pg s)

/-- C5 (amended): after `addFromSparseMap` on a non-empty voxel map, a cell of
the grid is marked `TYPE_MAP` iff some candidate Point projects into it, and
then: when some candidate Point of the cell lies within 10000 of the camera,
the chosen Point `voxel_points_[c]` is a candidate of the cell whose distance
to the camera is minimal among all candidates of the cell, whatever the corner
scores; when every candidate lies farther than 10000, the cell has no chosen
Point. -/
theorem C5_nearest_candidate_within_sentinel (E : Env n) (img : Img) (pg : PointCloud)
    (s : LidarSelector n) (hne : s.feat_map ≠ []) (c : Int) (hc : E.inGrid c) :
    ((addFromSparseMap E img pg s).grid_num c = CellType.TYPE_MAP ↔
        ∃ a, some a ∈ addFromSparseMap.visited E pg s ∧ addFromSparseMap.isCandidate E s c a) ∧
    ((∃ a, some a ∈ addFromSparseMap.visited E pg s ∧ addFromSparseMap.isCandidate E s c a ∧
          addFromSparseMap.dist E s a ≤ 10000) →
      ∃ a, (addFromSparseMap E img pg s).voxel_points_ c = some a ∧
        some a ∈ addFromSparseMap.visited E pg s ∧ addFromSparseMap.isCandidate E s c a ∧
        ∀ b, some b ∈ addFromSparseMap.visited E pg s → addFromSparseMap.isCandidate E s c b →
          addFromSparseMap.dist E s a ≤ addFromSparseMap.dist E s b) ∧
    ((∀ a, some a ∈ addFromSparseMap.visited E pg s → addFromSparseMap.isCandidate E s c a →
          10000 < addFromSparseMap.dist E s a) →
      (addFromSparseMap E img pg s).voxel_points_ c = none) := by
  obtain ⟨h1, h2, h3⟩ := addFromSparseMap.cell_spec E img pg s hne c hc
  refine ⟨h1, ?_, ?_⟩
  · rintro ⟨a0, ha0, hc0, hd0⟩
    rcases h3 with ⟨_, _, hall⟩ | ⟨a, ha, hca, hv, hd, _⟩
    · exact absurd hd0 (not_le.2 (hall a0 ha0 hc0))
    · refine ⟨a, hv, ha, hca, ?_⟩
      intro b hb hcb
      rw [hd]
      exact h2 b hb hcb
  · intro hall
    rcases h3 with ⟨hv, _, _⟩ | ⟨a, ha, hca, _, _, hd⟩
    · exact hv
    · exact absurd hd (not_le.2 (hall a ha hca))

/-- Witness for C5 (amended): a map Point 1 m in front of the camera, in the
voxel visited by a cloud point at the same place, is the chosen Point of its
grid cell 7. -/
theorem C5_nearest_candidate_within_sentinel_witness :
    (testMap ![0, 0, 1] 50).feat_map ≠ [] ∧ (testEnv 200).inGrid 7 ∧
    ∃ a, (addFromSparseMap (testEnv 200) (flatImg 7) [![0, 0, 1]] (testMap ![0, 0, 1] 50)).voxel_points_ 7
          = some a ∧
      some a ∈ addFromSparseMap.visited (testEnv 200) [![0, 0, 1]] (testMap ![0, 0, 1] 50) :=
  ⟨by decide, by decide!,
    match (C5_nearest_candidate_within_sentinel (testEnv 200) (flatImg 7) [![0, 0, 1]]
        (testMap ![0, 0, 1] 50) (by decide) 7 (by decide!)).2.1
        ⟨0, by decide!, by decide!, by decide!⟩ with
    | ⟨a, h1, h2, _⟩ => ⟨a, h1, h2⟩⟩

/-- C5, counterexample: a map Point 10001 m in front of the camera is the only
candidate of grid cell 7; `addFromSparseMap` marks the cell `TYPE_MAP`, but
the Point's distance exceeds the initial best distance 10000 of the cell, so
the cell has no chosen Point at all (hence not a candidate of minimum
distance). -/
theorem C5_counterexample_far_candidate :
    (addFromSparseMap (testEnv 200) (flatImg 7) [![0, 0, 10001]] (testMap ![0, 0, 10001] 50)).grid_num 7
      = CellType.TYPE_MAP ∧
    some 0 ∈ addFromSparseMap.visited (testEnv 200) [![0, 0, 10001]] (testMap ![0, 0, 10001] 50) ∧
    addFromSparseMap.isCandidate (testEnv 200) (testMap ![0, 0, 10001] 50) 7 0 ∧
    (addFromSparseMap (testEnv 200) (flatImg 7) [![0, 0, 10001]] (testMap ![0, 0, 10001] 50)).voxel_points_ 7
      = none := by
  refine ⟨by decide!, by decide!, by decide!, by decide!⟩

/-! ## Depth continuity -/

theorem mem_upto (k i : Int) : i ∈ upto k ↔ 0 ≤ i ∧ i < k := by
  unfold upto
  simp only [List.mem_map, List.mem_range]
  constructor
  · rintro ⟨j, hj, rfl⟩
    refine ⟨Int.ofNat_nonneg j, ?_⟩
    have h1 : (j : Int) < (k.toNat : Int) := by exact_mod_cast hj
    have h2 : ((k.toNat : Int)) = k := Int.toNat_of_nonneg (by
      by_contra hneg
      have : k.toNat = 0 := Int.toNat_of_nonpos (by omega)
      omega)
    have h3 : Int.ofNat j = (j : Int) := rfl
    omega
  · rintro ⟨h0, h1⟩
    refine ⟨i.toNat, ?_, ?_⟩
    · have := Int.toNat_of_nonneg h0
      omega
    · simpa using Int.toNat_of_nonneg h0

/-- The offsets of the neighbourhood are the integers from `-patch_size_half`
to `patch_size_half`. -/
theorem Env.mem_offsets (E : Env n) (u : Int) :
    u ∈ E.offsets ↔ -E.patch_size_half ≤ u ∧ u ≤ E.patch_size_half := by
  unfold Env.offsets
  simp only [List.mem_map, mem_upto]
  constructor
  · rintro ⟨k, ⟨h0, h1⟩, rfl⟩
    constructor <;> omega
  · rintro ⟨h0, h1⟩
    exact ⟨u + E.patch_size_half, ⟨by omega, by omega⟩, by omega⟩

/-- The flag `depth_continous` is raised by a pixel of the neighbourhood other
than the centre whose non-zero depth differs from `z` by more than 1.5. -/
theorem addFromSparseMap.depth_continous_of_neighbour (E : Env n) (it : Int → ℚ) (pc : V2D) (z : ℚ)
    (u v : Int) (hu : u ∈ E.offsets) (hv : v ∈ E.offsets) (hne : ¬ (u = 0 ∧ v = 0))
    (hd : it (E.width * (v + toInt (pc 1)) + u + toInt (pc 0)) ≠ 0)
    (hdiff : |z - it (E.width * (v + toInt (pc 1)) + u + toInt (pc 0))| > 3 / 2) :
    addFromSparseMap.depth_continous E it pc z = true := by
  unfold addFromSparseMap.depth_continous
  rw [List.any_eq_true]
  refine ⟨u, hu, ?_⟩
  rw [List.any_eq_true]
  refine ⟨v, hv, ?_⟩
  simp only [hne, if_false, hd, decide_eq_true_eq]
  exact hdiff

/-- One round of the third loop of `addFromSparseMap` either leaves the array
`index` of the sub map as it is, or appends the cell, and then the cell is
marked `TYPE_MAP` and its chosen Point passed the depth-continuity test. -/
theorem addFromSparseMap.refine_index (E : Env n) (img : Img) (it : Int → ℚ) (s : LidarSelector n)
    (i : Int) :
    (addFromSparseMap.refine E img it s i).sub_sparse_map.index = s.sub_sparse_map.index ∨
    ((addFromSparseMap.refine E img it s i).sub_sparse_map.index = s.sub_sparse_map.index ++ [i] ∧
      s.grid_num i = CellType.TYPE_MAP ∧
      ∃ a, s.voxel_points_ i = some a ∧
        addFromSparseMap.depth_continous E it (s.new_frame_.w2c E (s.points a).pos_)
          (s.new_frame_.w2f (s.points a).pos_ 2) = false) := by
  unfold addFromSparseMap.refine
  split
  · rename_i hmap
    split
    · exact Or.inl rfl
    · rename_i a ha
      simp only
      split
      · exact Or.inl rfl
      · rename_i hdep
        split
        · exact Or.inl rfl
        · split
          · exact Or.inl rfl
          · split
            · exact Or.inl rfl
            · exact Or.inr ⟨rfl, hmap, a, ha, by simpa using hdep⟩
  · exact Or.inl rfl

/-- Every cell listed in `index` after the third loop is a `TYPE_MAP` cell whose
chosen Point passed the depth-continuity test (cells listed before the loop
apart). -/
theorem addFromSparseMap.refines_index (E : Env n) (img : Img) (it : Int → ℚ) (s : LidarSelector n)
    (l : List Int) :
    ∀ j ∈ (l.foldl (addFromSparseMap.refine E img it) s).sub_sparse_map.index,
      j ∈ s.sub_sparse_map.index ∨
      (s.grid_num j = CellType.TYPE_MAP ∧
        ∃ a, s.voxel_points_ j = some a ∧
          addFromSparseMap.depth_continous E it (s.new_frame_.w2c E (s.points a).pos_)
            (s.new_frame_.w2f (s.points a).pos_ 2) = false) := by
  refine (foldl_inv (fun t : LidarSelector n =>
      (t.grid_num = s.grid_num ∧ t.voxel_points_ = s.voxel_points_ ∧ t.points = s.points ∧
        t.new_frame_ = s.new_frame_) ∧
      ∀ j ∈ t.sub_sparse_map.index, j ∈ s.sub_sparse_map.index ∨
        (s.grid_num j = CellType.TYPE_MAP ∧
          ∃ a, s.voxel_points_ j = some a ∧
            addFromSparseMap.depth_continous E it (s.new_frame_.w2c E (s.points a).pos_)
              (s.new_frame_.w2f (s.points a).pos_ 2) = false))
    (addFromSparseMap.refine E img it) l s ?_ ?_).2
  · exact ⟨⟨rfl, rfl, rfl, rfl⟩, fun j hj => Or.inl hj⟩
  · rintro t i _ ⟨⟨hg, hv, hp, hf⟩, hall⟩
    obtain ⟨wm, pc, cf, sm, hshape⟩ := addFromSparseMap.refine_shape E img it t i
    refine ⟨⟨?_, ?_, ?_, ?_⟩, ?_⟩
    · rw [hshape]; exact hg
    · rw [hshape]; exact hv
    · rw [hshape]; exact hp
    · rw [hshape]; exact hf
    · intro j hj
      rcases addFromSparseMap.refine_index E img it t i with h | ⟨h, h1, a, h2, h3⟩
      · rw [h] at hj; exact hall j hj
      · rw [h] at hj
        rcases List.mem_append.1 hj with hj | hj
        · exact hall j hj
        · cases List.mem_singleton.1 hj
          right
          rw [← hg, ← hv, ← hp, ← hf]
          exact ⟨h1, a, h2, h3⟩

/-- C6 (amended): in `addFromSparseMap` on a non-empty voxel map, the chosen
Point of a grid cell produces no sub-map entry whenever the depth image holds,
at a pixel of the (2·patch_half+1)² neighbourhood of the Point's projected
pixel other than the centre pixel itself, a non-zero depth that differs from
the Point's camera-frame `z` by more than 1.5. -/
theorem C6_depth_discontinuity_off_centre (E : Env n) (img : Img) (pg : PointCloud)
    (s : LidarSelector n) (hne : s.feat_map ≠ []) (c : Int) (a : Nat)
    (hchosen : (addFromSparseMap E img pg s).voxel_points_ c = some a)
    (u v : Int) (hu : -E.patch_size_half ≤ u ∧ u ≤ E.patch_size_half)
    (hv : -E.patch_size_half ≤ v ∧ v ≤ E.patch_size_half) (hcentre : ¬ (u = 0 ∧ v = 0))
    (hd : (addFromSparseMap.projected E pg s).2
        (E.width * (v + toInt (s.new_frame_.w2c E (s.points a).pos_ 1)) + u
          + toInt (s.new_frame_.w2c E (s.points a).pos_ 0)) ≠ 0)
    (hdiff : |s.new_frame_.w2f (s.points a).pos_ 2 - (addFromSparseMap.projected E pg s).2
        (E.width * (v + toInt (s.new_frame_.w2c E (s.points a).pos_ 1)) + u
          + toInt (s.new_frame_.w2c E (s.points a).pos_ 0))| > 3 / 2) :
    c ∉ (addFromSparseMap E img pg s).sub_sparse_map.index := by
  have hlen : ¬ s.feat_map.length ≤ 0 := by
    cases hm : s.feat_map with
    | nil => exact absurd hm hne
    | cons e m => simp
  have hfin : addFromSparseMap E img pg s =
      E.cells.foldl (addFromSparseMap.refine E img (addFromSparseMap.projected E pg s).2)
        (addFromSparseMap.gather E pg s) := by
    unfold addFromSparseMap
    rw [if_neg hlen]
  obtain ⟨wm, pc, cf, sm, hshape⟩ := addFromSparseMap.refines_shape E img
    (addFromSparseMap.projected E pg s).2 (addFromSparseMap.gather E pg s) E.cells
  have hvp : (addFromSparseMap E img pg s).voxel_points_
      = (addFromSparseMap.gather E pg s).voxel_points_ := by
    rw [hfin, hshape]
  have hgather : addFromSparseMap.gather E pg s =
      (addFromSparseMap.visited E pg s).foldl (addFromSparseMap.candidate E)
        (addFromSparseMap.prepare E pg s) := by
    unfold addFromSparseMap.gather addFromSparseMap.visited
    rw [addFromSparseMap.voxels_eq]
    rfl
  obtain ⟨gn, md, vp, mv, hcs⟩ := addFromSparseMap.candidates_shape E
    (addFromSparseMap.prepare E pg s) (addFromSparseMap.visited E pg s)
  have hpts : (addFromSparseMap.gather E pg s).points = s.points := by
    rw [hgather, hcs]; rfl
  have hfr : (addFromSparseMap.gather E pg s).new_frame_ = s.new_frame_ := by
    rw [hgather, hcs]; rfl
  have hidx0 : (addFromSparseMap.gather E pg s).sub_sparse_map.index = [] := by
    rw [hgather, hcs]; rfl
  intro hmem
  rw [hfin] at hmem
  rcases addFromSparseMap.refines_index E img _ _ _ c hmem with h | ⟨_, b, hb, hdep⟩
  · rw [hidx0] at h; cases h
  · rw [hvp] at hchosen
    rw [hchosen] at hb
    cases hb
    rw [hpts, hfr] at hdep
    have := addFromSparseMap.depth_continous_of_neighbour E _ _ _ u v
      ((E.mem_offsets u).2 hu) ((E.mem_offsets v).2 hv) hcentre hd hdiff
    rw [this] at hdep
    cases hdep

/-- Witness for C6 (amended): a map Point 3 m in front of the camera and a cloud
point at depth 0.5 m that projects one pixel to the right of the Point's
pixel; the Point is the chosen Point of cell 7 and yields no sub-map entry. -/
theorem C6_depth_discontinuity_off_centre_witness :
    (addFromSparseMap (testEnv 200) (flatImg 7) [![0, 0, 3], ![1 / 160, 0, 1 / 2]]
        (testMap ![0, 0, 3] 50)).voxel_points_ 7 = some 0 ∧
    (addFromSparseMap.projected (testEnv 200) [![0, 0, 3], ![1 / 160, 0, 1 / 2]]
        (testMap ![0, 0, 3] 50)).2 (160 * 60 + 81) = 1 / 2 ∧
    7 ∉ (addFromSparseMap (testEnv 200) (flatImg 7) [![0, 0, 3], ![1 / 160, 0, 1 / 2]]
        (testMap ![0, 0, 3] 50)).sub_sparse_map.index :=
  ⟨by decide!, by decide!,
    C6_depth_discontinuity_off_centre (testEnv 200) (flatImg 7) [![0, 0, 3], ![1 / 160, 0, 1 / 2]]
      (testMap ![0, 0, 3] 50) (by decide) 7 0 (by decide!) 1 0 (by decide!) (by decide!)
      (by decide) (by decide!) (by decide!)⟩

/-- C6, counterexample: a map Point 3 m in front of the camera and a cloud point
at depth 0.5 m that projects onto the very pixel of the Point, the centre of
the neighbourhood.  The depth image holds 0.5 there, 2.5 away from the Point's
depth, and nothing elsewhere in the neighbourhood; the centre is skipped by the
test, and the Point does yield the sub-map entry of cell 7. -/
theorem C6_counterexample_centre_pixel :
    (addFromSparseMap (testEnv 200) (flatImg 7) [![0, 0, 3], ![0, 0, 1 / 2]]
        (testMap ![0, 0, 3] 50)).grid_num 7 = CellType.TYPE_MAP ∧
    (addFromSparseMap (testEnv 200) (flatImg 7) [![0, 0, 3], ![0, 0, 1 / 2]]
        (testMap ![0, 0, 3] 50)).voxel_points_ 7 = some 0 ∧
    castInt (Frame.w2c (testEnv 200) (testMap ![0, 0, 3] 50).new_frame_ ![0, 0, 3]) = (80, 60) ∧
    Frame.w2f (testMap ![0, 0, 3] 50).new_frame_ ![0, 0, 3] 2 = 3 ∧
    (addFromSparseMap.projected (testEnv 200) [![0, 0, 3], ![0, 0, 1 / 2]]
        (testMap ![0, 0, 3] 50)).2 (160 * 60 + 80) = 1 / 2 ∧
    (addFromSparseMap (testEnv 200) (flatImg 7) [![0, 0, 3], ![0, 0, 1 / 2]]
        (testMap ![0, 0, 3] 50)).sub_sparse_map.index = [7] ∧
    (addFromSparseMap (testEnv 200) (flatImg 7) [![0, 0, 3], ![0, 0, 1 / 2]]
        (testMap ![0, 0, 3] 50)).sub_sparse_map.voxel_points = [some 0] := by
  refine ⟨by decide!, by decide!, by decide!, by decide!, by decide!, by decide!, by decide!⟩

/-! ## Growth of the map in cells with a map match -/

/-- Second loop of `addFromSparseMap`, scores: the score of a cell never
decreases, and after the pointers `ps` it is at least the value of every
candidate of the cell met so far. -/
theorem addFromSparseMap.cell_value (E : Env n) (s s0 : LidarSelector n) (c : Int)
    (hp : s0.points = s.points) (hf : s0.new_frame_ = s.new_frame_) (ps : List PointPtr) :
    s0.map_value c ≤ (ps.foldl (addFromSparseMap.candidate E) s0).map_value c ∧
    ∀ a, some a ∈ ps → addFromSparseMap.isCandidate E s c a →
      (s.points a).value ≤ (ps.foldl (addFromSparseMap.candidate E) s0).map_value c := by
  induction ps using List.reverseRecOn with
  | nil => exact ⟨le_refl _, fun a ha => by simp at ha⟩
  | append_singleton ps x ih =>
    obtain ⟨gn, md, vp, mv, hshape⟩ := addFromSparseMap.candidates_shape E s0 ps
    have hpt : (ps.foldl (addFromSparseMap.candidate E) s0).points = s.points := by rw [hshape]; exact hp
    have hft : (ps.foldl (addFromSparseMap.candidate E) s0).new_frame_ = s.new_frame_ := by
      rw [hshape]; exact hf
    rw [List.foldl_append]
    simp only [List.foldl_cons, List.foldl_nil]
    generalize ps.foldl (addFromSparseMap.candidate E) s0 = t at ih hpt hft
    obtain ⟨ih1, ih2⟩ := ih
    -- it suffices that the score of the cell does not decrease and covers `x`
    have step : ∀ t1 : LidarSelector n, t.map_value c ≤ t1.map_value c →
        (∀ a, x = some a → addFromSparseMap.isCandidate E s c a →
          (s.points a).value ≤ t1.map_value c) →
        s0.map_value c ≤ t1.map_value c ∧
        ∀ a, some a ∈ ps ++ [x] → addFromSparseMap.isCandidate E s c a →
          (s.points a).value ≤ t1.map_value c := by
      intro t1 hmono hx
      refine ⟨le_trans ih1 hmono, ?_⟩
      intro a ha hc
      rcases List.mem_append.1 ha with h | h
      · exact le_trans (ih2 a h hc) hmono
      · exact hx a (List.mem_singleton.1 h).symm hc
    cases x with
    | none => exact step _ (le_refl _) (fun a h => by cases h)
    | some a =>
      unfold addFromSparseMap.candidate
      simp only [hpt, hft]
      split
      · rename_i hz
        exact step _ (le_refl _) (fun b hb hc => by cases hb; exact absurd hz hc.1)
      · split
        · rename_i hin
          by_cases hidx : E.gridIndex (s.new_frame_.w2c E (s.points a).pos_) = c
          · rw [hidx]
            split <;> split
            all_goals first
              | (rename_i hge
                 refine step _ ?_ ?_
                 · simpa using hge
                 · intro b hb _
                   cases hb
                   simp)
              | (rename_i hge
                 refine step _ (le_refl _) ?_
                 intro b hb _
                 cases hb
                 exact le_of_lt (not_le.1 hge))
          · have hne : c ≠ E.gridIndex (s.new_frame_.w2c E (s.points a).pos_) := fun h => hidx h.symm
            split <;> split
            all_goals
              refine step _ ?_ ?_
              · simp [Function.update_noteq hne]
              · intro b hb hc
                cases hb
                exact absurd hc.2.2 hidx
        · rename_i hin
          exact step _ (le_refl _) (fun b hb hc => by cases hb; exact absurd hc.2.1 hin)

/-- Selection loop of `addSparseMap`, started from a state whose cell `c` is not
marked `TYPE_POINTCLOUD`: after the cloud points `ps` the cell is marked iff
one of them projects into the frame and into the cell with a corner score that
strictly exceeds the score the cell held on entry. -/
theorem addSparseMap.visit_inv (E : Env n) (img : Img) (s0 : LidarSelector n) (c : Int)
    (hg : s0.grid_num c ≠ CellType.TYPE_POINTCLOUD) (ps : List V3D) :
    ((ps.foldl (addSparseMap.visit E img) s0).grid_num c = CellType.TYPE_POINTCLOUD ↔
      ∃ pt ∈ ps, E.isInFrame (castInt (s0.new_frame_.w2c E pt)) E.border = true ∧
        E.gridIndex (s0.new_frame_.w2c E pt) = c ∧
        E.shiTomasiScore img (s0.new_frame_.w2c E pt 0) (s0.new_frame_.w2c E pt 1)
          > s0.map_value c) ∧
    ((ps.foldl (addSparseMap.visit E img) s0).grid_num c ≠ CellType.TYPE_POINTCLOUD →
      (ps.foldl (addSparseMap.visit E img) s0).map_value c = s0.map_value c) ∧
    s0.map_value c ≤ (ps.foldl (addSparseMap.visit E img) s0).map_value c := by
  induction ps using List.reverseRecOn with
  | nil =>
    refine ⟨?_, fun _ => rfl, le_refl _⟩
    simp [hg]
  | append_singleton ps x ih =>
    have hft : (ps.foldl (addSparseMap.visit E img) s0).new_frame_ = s0.new_frame_ := by
      refine foldl_inv (fun t : LidarSelector n => t.new_frame_ = s0.new_frame_) _ _ _ rfl ?_
      intro t pt _ ht
      obtain ⟨mv, av, gn, h⟩ := addSparseMap.visit_shape E img t pt
      rw [h]; exact ht
    rw [List.foldl_append]
    simp only [List.foldl_cons, List.foldl_nil]
    generalize ps.foldl (addSparseMap.visit E img) s0 = t at ih hft
    obtain ⟨ih1, ih2, ih3⟩ := ih
    -- the round leaves cell `c` as it is and `x` does not promote
    have keep : ∀ t1 : LidarSelector n, t1.grid_num c = t.grid_num c →
        t1.map_value c = t.map_value c →
        ¬ (E.isInFrame (castInt (s0.new_frame_.w2c E x)) E.border = true ∧
          E.gridIndex (s0.new_frame_.w2c E x) = c ∧
          E.shiTomasiScore img (s0.new_frame_.w2c E x 0) (s0.new_frame_.w2c E x 1)
            > t.map_value c) →
        (t1.grid_num c = CellType.TYPE_POINTCLOUD ↔
          ∃ pt ∈ ps ++ [x], E.isInFrame (castInt (s0.new_frame_.w2c E pt)) E.border = true ∧
            E.gridIndex (s0.new_frame_.w2c E pt) = c ∧
            E.shiTomasiScore img (s0.new_frame_.w2c E pt 0) (s0.new_frame_.w2c E pt 1)
              > s0.map_value c) ∧
        (t1.grid_num c ≠ CellType.TYPE_POINTCLOUD → t1.map_value c = s0.map_value c) ∧
        s0.map_value c ≤ t1.map_value c := by
      intro t1 e1 e2 hx
      rw [e1, e2]
      refine ⟨?_, ih2, ih3⟩
      rw [ih1]
      constructor
      · rintro ⟨pt, hpt, h⟩
        exact ⟨pt, List.mem_append_left _ hpt, h⟩
      · rintro ⟨pt, hpt, h1, h2, h3⟩
        rcases List.mem_append.1 hpt with h | h
        · exact ⟨pt, h, h1, h2, h3⟩
        · cases List.mem_singleton.1 h
          by_contra hcon
          have hnot : t.grid_num c ≠ CellType.TYPE_POINTCLOUD := fun hh => hcon (ih1.1 hh)
          rw [← ih2 hnot] at h3
          exact hx ⟨h1, h2, h3⟩
    unfold addSparseMap.visit
    simp only [hft]
    split
    · rename_i hin
      by_cases hidx : E.gridIndex (s0.new_frame_.w2c E x) = c
      · rw [hidx]
        split
        · rename_i hgt
          simp only [Function.update_same]
          refine ⟨⟨fun _ => ⟨x, by simp, hin, hidx, lt_of_le_of_lt ih3 hgt⟩, fun _ => trivial⟩,
            fun h => absurd rfl h, le_trans ih3 (le_of_lt hgt)⟩
        · rename_i hgt
          exact keep _ rfl rfl (fun h => hgt h.2.2)
      · have hne : c ≠ E.gridIndex (s0.new_frame_.w2c E x) := fun h => hidx h.symm
        split
        · refine keep _ ?_ ?_ (fun h => hidx h.2.1) <;> simp [Function.update_noteq hne]
        · exact keep _ rfl rfl (fun h => hidx h.2.1)
    · rename_i hin
      exact keep _ rfl rfl (fun h => hin h.1)

theorem FeatMap.mem_allPoints_push_self (m : FeatMap) (k : VOXEL_KEY) (p : PointPtr)
    (b : VOXEL_POINTS) (h : FeatMap.find m k = some b) :
    p ∈ FeatMap.allPoints (FeatMap.push m k p) := by
  induction m with
  | nil => simp [FeatMap.find] at h
  | cons e m ih =>
    by_cases he : e.1 = k
    · simp [FeatMap.push, he, FeatMap.allPoints]
    · have h1 : FeatMap.find m k = some b := by
        simpa [FeatMap.find, List.find?, he] using h
      have := ih h1
      simp only [FeatMap.push, he, if_false, FeatMap.allPoints, List.flatMap_cons,
        List.mem_append] at this ⊢
      exact Or.inr this

theorem FeatMap.mem_allPoints_push_mono (m : FeatMap) (k : VOXEL_KEY) (p q : PointPtr)
    (h : q ∈ FeatMap.allPoints m) : q ∈ FeatMap.allPoints (FeatMap.push m k p) := by
  induction m with
  | nil => simp [FeatMap.allPoints] at h
  | cons e m ih =>
    by_cases he : e.1 = k
    · simp only [FeatMap.push, he, if_true, FeatMap.allPoints, List.flatMap_cons, List.mem_append,
        List.mem_singleton] at h ⊢
      tauto
    · simp only [FeatMap.push, he, if_false, FeatMap.allPoints, List.flatMap_cons,
        List.mem_append] at h ⊢
      rcases h with h | h
      · exact Or.inl h
      · exact Or.inr (ih h)

/-- The pointer given to `AddPoint` is stored in the resulting voxel map. -/
theorem AddPoint.mem_allPoints_self (m : FeatMap) (p : PointPtr) (w : V3D) :
    p ∈ FeatMap.allPoints (AddPoint m p w) := by
  unfold AddPoint
  simp only
  split
  · rename_i b hb
    exact FeatMap.mem_allPoints_push_self _ _ _ b hb
  · simp [FeatMap.allPoints]

/-- No pointer leaves the voxel map in `AddPoint`. -/
theorem AddPoint.mem_allPoints_mono (m : FeatMap) (p q : PointPtr) (w : V3D)
    (h : q ∈ FeatMap.allPoints m) : q ∈ FeatMap.allPoints (AddPoint m p w) := by
  unfold AddPoint
  simp only
  split
  · exact FeatMap.mem_allPoints_push_mono _ _ _ _ h
  · simp only [FeatMap.allPoints, List.flatMap_append, List.mem_append]
    exact Or.inl h

/-- Creation loop of `addSparseMap`: the cell arrays are not touched and the
next free address does not decrease. -/
theorem addSparseMap.create_base (E : Env n) (sel : LidarSelector n) (l : List Int) :
    (l.foldl (addSparseMap.create E) sel).grid_num = sel.grid_num ∧
    (l.foldl (addSparseMap.create E) sel).map_value = sel.map_value ∧
    (l.foldl (addSparseMap.create E) sel).add_voxel_points_ = sel.add_voxel_points_ ∧
    sel.n_points ≤ (l.foldl (addSparseMap.create E) sel).n_points := by
  refine foldl_inv (fun t : LidarSelector n => t.grid_num = sel.grid_num ∧
    t.map_value = sel.map_value ∧ t.add_voxel_points_ = sel.add_voxel_points_ ∧
    sel.n_points ≤ t.n_points) _ _ _ ⟨rfl, rfl, rfl, le_refl _⟩ ?_
  rintro t j _ ⟨h1, h2, h3, h4⟩
  unfold addSparseMap.create
  split
  · exact ⟨h1, h2, h3, Nat.le_succ_of_le h4⟩
  · exact ⟨h1, h2, h3, h4⟩

/-- Creation loop of `addSparseMap`, completeness: every cell of the loop that
is marked `TYPE_POINTCLOUD` has a Point of its own in the resulting voxel map,
at a fresh address, at the position and with the score stored in the cell. -/
theorem addSparseMap.create_complete (E : Env n) (sel : LidarSelector n) (l : List Int) :
    ∀ c ∈ l, sel.grid_num c = CellType.TYPE_POINTCLOUD →
      ∃ a, sel.n_points ≤ a ∧ a < (l.foldl (addSparseMap.create E) sel).n_points ∧
        some a ∈ FeatMap.allPoints (l.foldl (addSparseMap.create E) sel).feat_map ∧
        ((l.foldl (addSparseMap.create E) sel).points a).pos_ = sel.add_voxel_points_ c ∧
        ((l.foldl (addSparseMap.create E) sel).points a).value = sel.map_value c := by
  induction l using List.reverseRecOn with
  | nil => intro c hc; simp at hc
  | append_singleton l j ih =>
    have hb := addSparseMap.create_base E sel l
    rw [List.foldl_append]
    simp only [List.foldl_cons, List.foldl_nil]
    generalize l.foldl (addSparseMap.create E) sel = t at ih hb
    obtain ⟨hg, hv, ha, hn⟩ := hb
    intro c hc hcell
    unfold addSparseMap.create
    split
    · rename_i hj
      rcases List.mem_append.1 hc with h | h
      · obtain ⟨a, h1, h2, h3, h4, h5⟩ := ih c h hcell
        refine ⟨a, h1, Nat.lt_succ_of_lt h2, AddPoint.mem_allPoints_mono _ _ _ _ h3, ?_, ?_⟩
        · show (Function.update t.points t.n_points _ a).pos_ = _
          rw [Function.update_noteq (Nat.ne_of_lt h2)]; exact h4
        · show (Function.update t.points t.n_points _ a).value = _
          rw [Function.update_noteq (Nat.ne_of_lt h2)]; exact h5
      · cases List.mem_singleton.1 h
        refine ⟨t.n_points, hn, Nat.lt_succ_self _, AddPoint.mem_allPoints_self _ _ _, ?_, ?_⟩
        · show (Function.update t.points t.n_points _ t.n_points).pos_ = _
          rw [Function.update_same]
          simp [addSparseMap.pt_new, Point.addFrameRef, Point.new, ha]
        · show (Function.update t.points t.n_points _ t.n_points).value = _
          rw [Function.update_same]
          simp [addSparseMap.pt_new, hv]
    · rename_i hj
      rcases List.mem_append.1 hc with h | h
      · exact ih c h hcell
      · cases List.mem_singleton.1 h
        rw [hg] at hj
        exact absurd hcell hj

/-- Promotion of cloud points after `addFromSparseMap` on a non-empty voxel
map: a cell is marked `TYPE_POINTCLOUD` by the selection loop of `addSparseMap`
iff a cloud point of the cell outscores the `map_value` left in the cell, and
that score is at least the value of every candidate map Point of the cell. -/
theorem addSparseMap.promotion_spec (E : Env n) (img : Img) (pg : PointCloud)
    (s : LidarSelector n) (hne : s.feat_map ≠ []) (c : Int) (hc : E.inGrid c) :
    ((addSparseMap.select E img pg (addFromSparseMap E img pg s)).grid_num c
        = CellType.TYPE_POINTCLOUD ↔
      ∃ pt ∈ pg, E.isInFrame (castInt (s.new_frame_.w2c E pt)) E.border = true ∧
        E.gridIndex (s.new_frame_.w2c E pt) = c ∧
        E.shiTomasiScore img (s.new_frame_.w2c E pt 0) (s.new_frame_.w2c E pt 1)
          > (addFromSparseMap E img pg s).map_value c) ∧
    (∀ a, some a ∈ addFromSparseMap.visited E pg s → addFromSparseMap.isCandidate E s c a →
      (s.points a).value ≤ (addFromSparseMap E img pg s).map_value c) := by
  have hlen : ¬ s.feat_map.length ≤ 0 := by
    cases hm : s.feat_map with
    | nil => exact absurd hm hne
    | cons e m => simp
  have hfin : addFromSparseMap E img pg s =
      E.cells.foldl (addFromSparseMap.refine E img (addFromSparseMap.projected E pg s).2)
        (addFromSparseMap.gather E pg s) := by
    unfold addFromSparseMap
    rw [if_neg hlen]
  obtain ⟨wm, pc, cf, sm, hshape⟩ := addFromSparseMap.refines_shape E img
    (addFromSparseMap.projected E pg s).2 (addFromSparseMap.gather E pg s) E.cells
  have hgather : addFromSparseMap.gather E pg s =
      (addFromSparseMap.visited E pg s).foldl (addFromSparseMap.candidate E)
        (addFromSparseMap.prepare E pg s) := by
    unfold addFromSparseMap.gather addFromSparseMap.visited
    rw [addFromSparseMap.voxels_eq]
    rfl
  obtain ⟨gn, md, vp, mv, hcs⟩ := addFromSparseMap.candidates_shape E
    (addFromSparseMap.prepare E pg s) (addFromSparseMap.visited E pg s)
  have hmv : (addFromSparseMap E img pg s).map_value = (addFromSparseMap.gather E pg s).map_value := by
    rw [hfin, hshape]
  have hfr : (addFromSparseMap E img pg s).new_frame_ = s.new_frame_ := by
    rw [hfin, hshape, hgather, hcs]; rfl
  constructor
  · have h := addSparseMap.visit_inv E img (reset_grid E (addFromSparseMap E img pg s)) c
      (by simp [reset_grid, hc]) pg
    have hfr2 : (reset_grid E (addFromSparseMap E img pg s)).new_frame_ = s.new_frame_ := hfr
    have hmv2 : (reset_grid E (addFromSparseMap E img pg s)).map_value
        = (addFromSparseMap E img pg s).map_value := rfl
    rw [hfr2, hmv2] at h
    exact h.1
  · intro a ha hca
    rw [hmv, hgather]
    exact (addFromSparseMap.cell_value E s (addFromSparseMap.prepare E pg s) c rfl rfl
      (addFromSparseMap.visited E pg s)).2 a ha hca

/-- C7 (amended): within one pass of `addFromSparseMap` followed by
`addSparseMap` on the same cloud, as `detect` runs them, over a non-empty voxel
map: a grid cell yields a new Point (it is marked `TYPE_POINTCLOUD` after the
selection loop of `addSparseMap`) iff some cloud point projecting into the
cell has a corner score that strictly exceeds the score `map_value` that
`addFromSparseMap` left in the cell; and this score is at least the value of
every map Point that was projected into the cell.  So a cloud point is
promoted in a cell with a map match exactly when it outscores the cell, and
in particular only if it outscores every map Point of the cell. -/
theorem C7_promotion_needs_higher_score (E : Env n) (img : Img) (pg : PointCloud)
    (s : LidarSelector n) (hne : s.feat_map ≠ []) (c : Int) (hc : E.inGrid c) :
    ((addSparseMap.select E img pg (addFromSparseMap E img pg s)).grid_num c
        = CellType.TYPE_POINTCLOUD ↔
      ∃ pt ∈ pg, E.isInFrame (castInt (s.new_frame_.w2c E pt)) E.border = true ∧
        E.gridIndex (s.new_frame_.w2c E pt) = c ∧
        E.shiTomasiScore img (s.new_frame_.w2c E pt 0) (s.new_frame_.w2c E pt 1)
          > (addFromSparseMap E img pg s).map_value c) ∧
    (∀ a, some a ∈ addFromSparseMap.visited E pg s → addFromSparseMap.isCandidate E s c a →
      (s.points a).value ≤ (addFromSparseMap E img pg s).map_value c) :=
  addSparseMap.promotion_spec E img pg s hne c hc

/-- Frame of `addFromSparseMap`: the stores of Points and Features, the voxel
map, the current frame and the shared states are as before. -/
theorem addFromSparseMap_frame (E : Env n) (img : Img) (pg : PointCloud) (s : LidarSelector n) :
    (addFromSparseMap E img pg s).points = s.points ∧
    (addFromSparseMap E img pg s).n_points = s.n_points ∧
    (addFromSparseMap E img pg s).features = s.features ∧
    (addFromSparseMap E img pg s).n_features = s.n_features ∧
    (addFromSparseMap E img pg s).feat_map = s.feat_map ∧
    (addFromSparseMap E img pg s).new_frame_ = s.new_frame_ ∧
    (addFromSparseMap E img pg s).state = s.state ∧
    (addFromSparseMap E img pg s).state_propagat = s.state_propagat ∧
    (addFromSparseMap E img pg s).stage_ = s.stage_ := by
  unfold addFromSparseMap
  split
  · exact ⟨rfl, rfl, rfl, rfl, rfl, rfl, rfl, rfl, rfl⟩
  · obtain ⟨wm, pc, cf, sm, hshape⟩ := addFromSparseMap.refines_shape E img
      (addFromSparseMap.projected E pg s).2 (addFromSparseMap.gather E pg s) E.cells
    have hgather : addFromSparseMap.gather E pg s =
        (addFromSparseMap.visited E pg s).foldl (addFromSparseMap.candidate E)
          (addFromSparseMap.prepare E pg s) := by
      unfold addFromSparseMap.gather addFromSparseMap.visited
      rw [addFromSparseMap.voxels_eq]
      rfl
    obtain ⟨gn, md, vp, mv, hcs⟩ := addFromSparseMap.candidates_shape E
      (addFromSparseMap.prepare E pg s) (addFromSparseMap.visited E pg s)
    rw [hshape, hgather, hcs]
    exact ⟨rfl, rfl, rfl, rfl, rfl, rfl, rfl, rfl, rfl⟩

/-- A cell of the grid that the selection loop of `addSparseMap` marks
`TYPE_POINTCLOUD` yields a Point of the resulting voxel map, at a fresh
address: a cloud point that projects into the frame and into this cell, with
its corner score as value. -/
theorem addSparseMap.creates (E : Env n) (img : Img) (pg : PointCloud) (s : LidarSelector n)
    (c : Int) (hc : E.inGrid c)
    (h : (addSparseMap.select E img pg s).grid_num c = CellType.TYPE_POINTCLOUD) :
    ∃ a pt, s.n_points ≤ a ∧
      some a ∈ FeatMap.allPoints (addSparseMap E img pg s).feat_map ∧ pt ∈ pg ∧
      ((addSparseMap E img pg s).points a).pos_ = pt ∧
      E.isInFrame (castInt (s.new_frame_.w2c E pt)) E.border = true ∧
      E.gridIndex (s.new_frame_.w2c E pt) = c ∧
      ((addSparseMap E img pg s).points a).value
        = E.shiTomasiScore img (s.new_frame_.w2c E pt 0) (s.new_frame_.w2c E pt 1) := by
  obtain ⟨a, h1, _, h3, h4, h5⟩ := addSparseMap.create_complete E _ E.cells c
    ((E.mem_cells c).2 hc) h
  obtain ⟨pt, hpt, e1, e2, e3, e4⟩ := addSparseMap.select_cell E img pg s c hc h
  obtain ⟨gn, mi, mv, md, vp, av, hshape⟩ := addSparseMap.select_shape E img pg s
  have hn : (addSparseMap.select E img pg s).n_points = s.n_points := by rw [hshape]
  rw [hn] at h1
  exact ⟨a, pt, h1, h3, hpt, h4.trans e1, e2, e3, h5.trans e4⟩

/-- C7, counterexample: the voxel map holds a Point of corner score 50 one metre
in front of the camera; the cloud has a point at 5 m and a point at 1 m on the
optical axis, of corner score 200.  `addFromSparseMap` marks cell 7 `TYPE_MAP`
with that Point as chosen Point, and `addSparseMap` then promotes a cloud
point that projects into this very cell to a new Point of the voxel map. -/
theorem C7_counterexample_promotion_in_map_cell :
    (addFromSparseMap (testEnv 200) (flatImg 7) [![0, 0, 5], ![0, 0, 1]]
        (testMap ![0, 0, 1] 50)).grid_num 7 = CellType.TYPE_MAP ∧
    (addFromSparseMap (testEnv 200) (flatImg 7) [![0, 0, 5], ![0, 0, 1]]
        (testMap ![0, 0, 1] 50)).voxel_points_ 7 = some 0 ∧
    ∃ a pt, some a ∉ FeatMap.allPoints (testMap ![0, 0, 1] 50).feat_map ∧
      some a ∈ FeatMap.allPoints (addSparseMap (testEnv 200) (flatImg 7) [![0, 0, 5], ![0, 0, 1]]
        (addFromSparseMap (testEnv 200) (flatImg 7) [![0, 0, 5], ![0, 0, 1]]
          (testMap ![0, 0, 1] 50))).feat_map ∧
      pt ∈ [![0, 0, 5], ![(0 : ℚ), 0, 1]] ∧
      ((addSparseMap (testEnv 200) (flatImg 7) [![0, 0, 5], ![0, 0, 1]]
        (addFromSparseMap (testEnv 200) (flatImg 7) [![0, 0, 5], ![0, 0, 1]]
          (testMap ![0, 0, 1] 50))).points a).pos_ = pt ∧
      (testEnv 200).gridIndex (Frame.w2c (testEnv 200) (testMap ![0, 0, 1] 50).new_frame_ pt) = 7 := by
  refine ⟨by decide!, by decide!, ?_⟩
  have hin : (testEnv 200).inGrid 7 := by decide!
  have hfr := (addFromSparseMap_frame (testEnv 200) (flatImg 7) [![0, 0, 5], ![0, 0, 1]]
    (testMap ![0, 0, 1] 50))
  have hsel : (addSparseMap.select (testEnv 200) (flatImg 7) [![0, 0, 5], ![0, 0, 1]]
      (addFromSparseMap (testEnv 200) (flatImg 7) [![0, 0, 5], ![0, 0, 1]]
        (testMap ![0, 0, 1] 50))).grid_num 7 = CellType.TYPE_POINTCLOUD :=
    ((addSparseMap.promotion_spec (testEnv 200) (flatImg 7) [![0, 0, 5], ![0, 0, 1]]
      (testMap ![0, 0, 1] 50) (by decide) 7 hin).1).2
      ⟨![0, 0, 5], by simp, by decide!, by decide!, by decide!⟩
  obtain ⟨a, pt, h1, h2, h3, h4, _, h6, _⟩ := addSparseMap.creates (testEnv 200) (flatImg 7)
    [![0, 0, 5], ![0, 0, 1]] _ 7 hin hsel
  rw [hfr.2.2.2.2.2.1] at h6
  rw [hfr.2.1] at h1
  refine ⟨a, pt, ?_, h2, h3, h4, h6⟩
  have hall : FeatMap.allPoints (testMap ![0, 0, 1] 50).feat_map = [some 0] := by decide!
  have hn0 : (testMap ![0, 0, 1] 50).n_points = 1 := rfl
  rw [hall]
  intro hmem
  have ha0 : a = 0 := by simpa using hmem
  omega

/-- Witness for C7 (amended): a map Point of value 50 one metre in front of the
camera, in the voxel visited by the cloud; the score that `addFromSparseMap`
leaves in cell 7 is at least the value of every candidate of the cell. -/
theorem C7_promotion_needs_higher_score_witness :
    (testMap ![0, 0, 1] 50).feat_map ≠ [] ∧ (testEnv 30).inGrid 7 ∧
    ∀ a, some a ∈ addFromSparseMap.visited (testEnv 30) [![0, 0, 1]] (testMap ![0, 0, 1] 50) →
      addFromSparseMap.isCandidate (testEnv 30) (testMap ![0, 0, 1] 50) 7 a →
      ((testMap ![0, 0, 1] 50).points a).value
        ≤ (addFromSparseMap (testEnv 30) (flatImg 7) [![0, 0, 1]] (testMap ![0, 0, 1] 50)).map_value 7 :=
  ⟨by decide, by decide!,
    (C7_promotion_needs_higher_score (testEnv 30) (flatImg 7) [![0, 0, 1]] (testMap ![0, 0, 1] 50)
      (by decide) 7 (by decide!)).2⟩

/-! ## Observation bookkeeping -/

/-- The farthest-view observation of a Point that has observations is one of them. -/
theorem Point.getFurthestViewObs_mem (E : Env n) (features : Nat → Feature) (p : Point)
    (framepos : V3D) (h : p.obs_ ≠ []) :
    ∃ f, p.getFurthestViewObs E features framepos = some f ∧ f ∈ p.obs_ := by
  unfold Point.getFurthestViewObs
  cases hobs : p.obs_ with
  | nil => exact absurd hobs h
  | cons o os =>
    refine ⟨_, rfl, ?_⟩
    refine foldl_inv (fun best : Nat => best ∈ o :: os) _ os o (List.mem_cons_self _ _) ?_
    intro best c hc hbest
    show (if _ then c else best) ∈ o :: os
    split
    · exact List.mem_cons_of_mem _ hc
    · exact hbest

/-- Eviction of the farthest-view observation removes exactly one observation. -/
theorem Point.length_deleteFurthest (E : Env n) (features : Nat → Feature) (p : Point)
    (framepos : V3D) (h : p.obs_ ≠ []) :
    ((p.deleteFeatureRef (p.getFurthestViewObs E features framepos)).obs_).length + 1
      = p.obs_.length := by
  obtain ⟨f, hf, hmem⟩ := Point.getFurthestViewObs_mem E features p framepos h
  rw [hf]
  simp only [Point.deleteFeatureRef]
  rw [List.length_erase_of_mem hmem]
  have : 0 < p.obs_.length := List.length_pos_of_mem hmem
  omega

/-- Attaching an observation adds exactly one, at the back. -/
theorem Point.obs_addFrameRef (p : Point) (ftr : Nat) :
    (p.addFrameRef ftr).obs_ = p.obs_ ++ [ftr] := rfl

/-- One round of `addObservation` on an entry whose Point `a` has observations:
the round is defined, touches no other Point, no older Feature, neither the
sub map nor the frame, and leaves the Point with the observations `obs_after`. -/
theorem addObservation.step_spec (E : Env n) (img : Img) (s : LidarSelector n) (i a : Nat)
    (hvp : s.sub_sparse_map.voxel_points.getD i none = some a) (hne : (s.points a).obs_ ≠ []) :
    ∃ lf s1, (s.points a).obs_.getLast? = some lf ∧ addObservation.step E img s i = some s1 ∧
      s1.sub_sparse_map = s.sub_sparse_map ∧ s1.new_frame_ = s.new_frame_ ∧
      (∀ b, b ≠ a → s1.points b = s.points b) ∧
      (∀ f, f < s.n_features → s1.features f = s.features f) ∧
      s.n_features ≤ s1.n_features ∧
      (s1.points a).obs_ = addObservation.obs_after E s a lf := by
  obtain ⟨lf, hlf⟩ : ∃ lf, (s.points a).obs_.getLast? = some lf := by
    cases hl : (s.points a).obs_.getLast? with
    | none => exact absurd (List.getLast?_eq_none_iff.1 hl) hne
    | some lf => exact ⟨lf, rfl⟩
  unfold addObservation.step
  simp only [hvp, hlf]
  by_cases hflag : addObservation.add_flag E s.new_frame_.T_f_w_
      (s.new_frame_.w2c E (s.points a).pos_) (s.features lf) = true
  · simp only [hflag, if_true]
    refine ⟨lf, _, rfl, rfl, rfl, rfl, ?_, ?_, Nat.le_succ _, ?_⟩
    · intro b hb
      exact Function.update_noteq hb _ _
    · intro f hf
      exact Function.update_noteq (Nat.ne_of_lt hf) _ _
    · show (Function.update s.points a _ a).obs_ = _
      rw [Function.update_same]
      simp only [addObservation.obs_after, hflag, if_true, Point.addFrameRef]
      split <;> rfl
  · simp only [hflag, if_false, Bool.false_eq_true]
    refine ⟨lf, _, rfl, rfl, rfl, rfl, ?_, ?_, le_refl _, ?_⟩
    · intro b hb
      exact Function.update_noteq hb _ _
    · intro f _
      rfl
    · show (Function.update s.points a _ a).obs_ = _
      rw [Function.update_same]
      simp only [addObservation.obs_after, hflag, if_false, Bool.false_eq_true, List.append_nil]
      split <;> rfl

/-- Number of observations after a round of `addObservation`: one is evicted
when there are 20 or more, one is attached when `add_flag` holds. -/
theorem addObservation.length_obs_after (E : Env n) (s : LidarSelector n) (a lf : Nat)
    (hne : (s.points a).obs_ ≠ []) :
    (addObservation.obs_after E s a lf).length =
      (if (s.points a).obs_.length ≥ 20 then (s.points a).obs_.length - 1
        else (s.points a).obs_.length) +
      (if addObservation.add_flag E s.new_frame_.T_f_w_ (s.new_frame_.w2c E (s.points a).pos_)
        (s.features lf) = true then 1 else 0) := by
  have hdel := Point.length_deleteFurthest E s.features (s.points a) s.new_frame_.pos hne
  unfold addObservation.obs_after
  rw [List.length_append]
  split <;> split <;> simp <;> omega

theorem mem_of_getD_eq_some {α : Type} (l : List (Option α)) (i : Nat) (a : α)
    (h : l.getD i none = some a) : some a ∈ l := by
  induction l generalizing i with
  | nil => simp at h
  | cons x xs ih =>
    cases i with
    | zero =>
      simp only [List.getD_cons_zero] at h
      rw [h]; exact List.mem_cons_self _ _
    | succ k =>
      simp only [List.getD_cons_succ] at h
      exact List.mem_cons_of_mem _ (ih k h)

/-- Loop of `addObservation` over any list of entries: when every Point of the
sub map holds between 1 and 20 observations, the loop is defined and every
Point of the sub map holds between 1 and 20 observations after it; the sub map
itself and the Points outside it are untouched. -/
theorem addObservation.loop_inv (E : Env n) (img : Img) (vp : List PointPtr) (is : List Nat)
    (s : LidarSelector n) (hvp : s.sub_sparse_map.voxel_points = vp)
    (h : ∀ a, some a ∈ vp → 1 ≤ (s.points a).obs_.length ∧ (s.points a).obs_.length ≤ 20) :
    ∃ s1, addObservation.loop E img is s = some s1 ∧ s1.sub_sparse_map = s.sub_sparse_map ∧
      (∀ a, some a ∈ vp → 1 ≤ (s1.points a).obs_.length ∧ (s1.points a).obs_.length ≤ 20) ∧
      (∀ b, some b ∉ vp → s1.points b = s.points b) := by
  induction is generalizing s with
  | nil => exact ⟨s, rfl, rfl, h, fun _ _ => rfl⟩
  | cons i is ih =>
    unfold addObservation.loop
    cases hget : s.sub_sparse_map.voxel_points.getD i none with
    | none =>
      have hstep : addObservation.step E img s i = some s := by
        unfold addObservation.step
        simp only [hget]
      simp only [hstep]
      exact ih s hvp h
    | some a =>
      have hmem : some a ∈ vp := by
        rw [← hvp]; exact mem_of_getD_eq_some _ _ _ hget
      have hne : (s.points a).obs_ ≠ [] := by
        intro h0
        have := (h a hmem).1
        rw [h0] at this
        simp at this
      obtain ⟨lf, s1, _, hstep, hsm, _, hother, _, _, hobs⟩ :=
        addObservation.step_spec E img s i a hget hne
      simp only [hstep]
      have hlen := addObservation.length_obs_after E s a lf hne
      have h1 : ∀ b, some b ∈ vp →
          1 ≤ (s1.points b).obs_.length ∧ (s1.points b).obs_.length ≤ 20 := by
        intro b hb
        by_cases hba : b = a
        · subst hba
          rw [hobs, hlen]
          have := h b hb
          split <;> split <;> omega
        · rw [hother b hba]
          exact h b hb
      obtain ⟨s2, hloop, hsm2, hinv2, hout2⟩ := ih s1 (by rw [hsm]; exact hvp) h1
      refine ⟨s2, hloop, by rw [hsm2, hsm], hinv2, ?_⟩
      intro b hb
      rw [hout2 b hb]
      apply hother
      intro hba
      subst hba
      exact hb hmem

/-- C3: observation-count invariant of `addObservation`.  If every Point of the
sub map holds between 1 and 20 observations before the call, the call is
defined (`obs_.back()` exists in every round) and every Point of the sub map
holds between 1 and 20 observations after it; the sub map is as before and no
Point outside the sub map is touched.  The helpers are those modelled from the
spec: `deleteFeatureRef` removes exactly the Feature returned by
`getFurthestViewObs`, `addFrameRef` adds exactly one. -/
theorem C3_observation_count_invariant (E : Env n) (img : Img) (s : LidarSelector n)
    (h : ∀ a, some a ∈ s.sub_sparse_map.voxel_points →
      1 ≤ (s.points a).obs_.length ∧ (s.points a).obs_.length ≤ 20) :
    ∃ s1, addObservation E img s = some s1 ∧ s1.sub_sparse_map = s.sub_sparse_map ∧
      (∀ a, some a ∈ s.sub_sparse_map.voxel_points →
        1 ≤ (s1.points a).obs_.length ∧ (s1.points a).obs_.length ≤ 20) ∧
      (∀ b, some b ∉ s.sub_sparse_map.voxel_points → s1.points b = s.points b) := by
  unfold addObservation
  simp only
  split
  · exact ⟨s, rfl, rfl, h, fun _ _ => rfl⟩
  · exact addObservation.loop_inv E img _ _ s rfl h

/-- Witness for C3: a sub map whose only Point holds 20 observations. -/
theorem C3_observation_count_invariant_witness :
    (∀ a, some a ∈ (testSub 20).sub_sparse_map.voxel_points →
      1 ≤ ((testSub 20).points a).obs_.length ∧ ((testSub 20).points a).obs_.length ≤ 20) ∧
    ∃ s1, addObservation (testEnv 200) (flatImg 7) (testSub 20) = some s1 ∧
      1 ≤ (s1.points 0).obs_.length ∧ (s1.points 0).obs_.length ≤ 20 :=
  have h0 : ∀ a, some a ∈ (testSub 20).sub_sparse_map.voxel_points →
      1 ≤ ((testSub 20).points a).obs_.length ∧ ((testSub 20).points a).obs_.length ≤ 20 := by
    intro a ha
    have ha0 : a = 0 := by
      have : some a ∈ [some 0] := ha
      simpa using this
    subst ha0
    decide
  ⟨h0,
    match C3_observation_count_invariant (testEnv 200) (flatImg 7) (testSub 20) h0 with
    | ⟨s1, h1, _, h2, _⟩ => ⟨s1, h1, h2 0 (List.mem_singleton.2 rfl)⟩⟩

/-- C8 (amended): when `addObservation` processes a sub-map Point that holds
exactly 20 observations, the round is defined and evicts the farthest-view
observation `f` (as returned by `getFurthestViewObs` for the current camera
position), whether or not a Feature is attached.  When `add_flag` holds, a new
Feature of the current frame is attached at the back and the Point holds 20
observations afterwards; otherwise it holds 19. -/
theorem C8_eviction_at_twenty (E : Env n) (img : Img) (s : LidarSelector n) (i a : Nat)
    (hvp : s.sub_sparse_map.voxel_points.getD i none = some a)
    (h20 : (s.points a).obs_.length = 20) :
    ∃ lf f s1, (s.points a).obs_.getLast? = some lf ∧
      (s.points a).getFurthestViewObs E s.features s.new_frame_.pos = some f ∧
      f ∈ (s.points a).obs_ ∧
      addObservation.step E img s i = some s1 ∧
      (s1.points a).obs_ = (s.points a).obs_.erase f ++
        (if addObservation.add_flag E s.new_frame_.T_f_w_ (s.new_frame_.w2c E (s.points a).pos_)
          (s.features lf) = true then [s.n_features] else []) ∧
      (s1.points a).obs_.length =
        (if addObservation.add_flag E s.new_frame_.T_f_w_ (s.new_frame_.w2c E (s.points a).pos_)
          (s.features lf) = true then 20 else 19) ∧
      (addObservation.add_flag E s.new_frame_.T_f_w_ (s.new_frame_.w2c E (s.points a).pos_)
          (s.features lf) = true →
        (s1.features s.n_features).id_ = s.new_frame_.id_ ∧
        (s1.features s.n_features).T_f_w_ = s.new_frame_.T_f_w_) := by
  have hne : (s.points a).obs_ ≠ [] := by
    intro h0
    rw [h0] at h20
    simp at h20
  obtain ⟨f, hf, hmem⟩ := Point.getFurthestViewObs_mem E s.features (s.points a) s.new_frame_.pos hne
  obtain ⟨lf, s1, hlf, hstep, _, _, _, _, _, hobs⟩ := addObservation.step_spec E img s i a hvp hne
  have hlen := addObservation.length_obs_after E s a lf hne
  refine ⟨lf, f, s1, hlf, hf, hmem, hstep, ?_, ?_, ?_⟩
  · rw [hobs]
    unfold addObservation.obs_after
    simp only [h20, ge_iff_le, le_refl, if_true, hf, Point.deleteFeatureRef]
  · rw [hobs, hlen, h20]
    by_cases hflag : addObservation.add_flag E s.new_frame_.T_f_w_
        (s.new_frame_.w2c E (s.points a).pos_) (s.features lf) = true
    · simp [hflag]
    · simp [hflag]
  · intro hflag
    have hs1 : addObservation.step E img s i = some s1 := hstep
    unfold addObservation.step at hs1
    simp only [hvp, hlf, hflag, if_true, Option.some.injEq] at hs1
    rw [← hs1]
    constructor
    · show (Function.update s.features s.n_features _ s.n_features).id_ = _
      rw [Function.update_same]
      rfl
    · show (Function.update s.features s.n_features _ s.n_features).T_f_w_ = _
      rw [Function.update_same]
      rfl

/-- Witness for C8 (amended): the only Point of the sub map holds 20
observations; its round of `addObservation` is defined. -/
theorem C8_eviction_at_twenty_witness :
    (testSub 20).sub_sparse_map.voxel_points.getD 0 none = some 0 ∧
    ((testSub 20).points 0).obs_.length = 20 ∧
    ∃ s1, addObservation.step (testEnv 200) (flatImg 7) (testSub 20) 0 = some s1 :=
  ⟨rfl, by decide,
    match C8_eviction_at_twenty (testEnv 200) (flatImg 7) (testSub 20) 0 0 rfl (by decide) with
    | ⟨_, _, s1, _, _, _, h, _⟩ => ⟨s1, h⟩⟩

/-- C8, counterexample: the only Point of the sub map holds 20 observations,
the last of them taken from the pose of the current frame at the pixel where
the Point projects now, so that no new Feature is attached (`add_flag` is
false); `addObservation` still evicts the farthest-view observation and the
Point is left with 19 observations. -/
theorem C8_counterexample_eviction_without_attachment :
    ((testSub 20).points 0).obs_.length = 20 ∧
    (testSub 20).sub_sparse_map.voxel_points = [some 0] ∧
    (addObservation (testEnv 200) (flatImg 7) (testSub 20)).map
      (fun s1 => ((s1.points 0).obs_.length, s1.n_features)) = some (19, 20) := by
  refine ⟨by decide, rfl, by decide!⟩

/-! ## Frame of the photometric update -/

theorem UpdateState.iteration_frame (E : Env n) (img : Img) (level : Int) (s : LidarSelector n)
    (l : UpdateState.Locals n) (h : UpdateState.Frame s l) :
    UpdateState.Frame s (UpdateState.iteration E img level l) := by
  obtain ⟨h1, h2, h3, h4, h5, h6⟩ := h
  unfold UpdateState.iteration
  simp only
  split
  · refine ⟨?_, ?_, ?_, ?_, ?_, ?_⟩
    · simpa [StatesGroup.add] using h1
    · exact h1
    · exact h3
    · intro a k; exact h4 a k
    · intro a k
      cases a <;> exact h5 _ k
    · intro k b; exact h6 k b
  · exact ⟨h2, h2, h3, h4, h5, h6⟩

theorem UpdateState.loop_frame (E : Env n) (img : Img) (level : Int) (s : LidarSelector n)
    (k : Nat) (l : UpdateState.Locals n) (h : UpdateState.Frame s l) :
    UpdateState.Frame s (UpdateState.loop E img level k l) := by
  induction k generalizing l with
  | zero => exact h
  | succ k ih =>
    unfold UpdateState.loop
    simp only
    split
    · exact UpdateState.iteration_frame E img level s l h
    · exact ih _ (UpdateState.iteration_frame E img level s l h)

/-- Frame of `UpdateState`: the covariance, the propagated state, the columns
of `G` after the sixth and `H_T_H` outside its top-left block are as before. -/
theorem UpdateState_frame (E : Env n) (img : Img) (total_residual : ℚ) (level : Int)
    (s : LidarSelector n) :
    (UpdateState E img total_residual level s).1.state.cov = s.state.cov ∧
    (UpdateState E img total_residual level s).1.state_propagat = s.state_propagat ∧
    (∀ a k, (UpdateState E img total_residual level s).1.G a (Sum.inr k) = s.G a (Sum.inr k)) ∧
    (∀ a k, (UpdateState E img total_residual level s).1.H_T_H a (Sum.inr k)
      = s.H_T_H a (Sum.inr k)) ∧
    (∀ k b, (UpdateState E img total_residual level s).1.H_T_H (Sum.inr k) b
      = s.H_T_H (Sum.inr k) b) := by
  unfold UpdateState
  simp only
  split
  · exact ⟨rfl, rfl, fun _ _ => rfl, fun _ _ => rfl, fun _ _ => rfl⟩
  · have := UpdateState.loop_frame E img level s E.NUM_MAX_ITERATIONS
      { sel := s, old_state := s.state, last_error := total_residual,
        H_sub := fun _ _ => 0, z := fun _ => 0, EKF_end := false }
      ⟨rfl, rfl, rfl, fun _ _ => rfl, fun _ _ => rfl, fun _ _ => rfl⟩
    obtain ⟨h1, _, h3, h4, h5, h6⟩ := this
    exact ⟨h1, h3, h4, h5, h6⟩

/-- C9 (amended): frame of `ComputeJ`.  The propagated state is not written;
with an empty sub map the shared state and its covariance are as before.
Otherwise the covariance after the call is the covariance before it, or that
covariance minus `G` times it, where `G` differs from its value before the
call in its first six columns only (and `H_T_H` in its top-left 6×6 block
only): the measurement enters through the six pose dimensions, but the
correction reaches every component of the state and every entry of the
covariance. -/
theorem C9_ComputeJ_frame (E : Env n) (img : Img) (s : LidarSelector n) :
    (ComputeJ E img s).state_propagat = s.state_propagat ∧
    (s.sub_sparse_map.index = [] → (ComputeJ E img s).state = s.state) ∧
    ((ComputeJ E img s).state.cov = s.state.cov ∨
      (ComputeJ E img s).state.cov = s.state.cov - (ComputeJ E img s).G * s.state.cov) ∧
    (∀ a k, (ComputeJ E img s).G a (Sum.inr k) = s.G a (Sum.inr k)) ∧
    (∀ a k, (ComputeJ E img s).H_T_H a (Sum.inr k) = s.H_T_H a (Sum.inr k)) ∧
    (∀ k b, (ComputeJ E img s).H_T_H (Sum.inr k) b = s.H_T_H (Sum.inr k) b) := by
  unfold ComputeJ
  simp only
  split
  · rename_i h0
    exact ⟨rfl, fun _ => rfl, Or.inl rfl, fun _ _ => rfl, fun _ _ => rfl, fun _ _ => rfl⟩
  · rename_i h0
    have f2 := UpdateState_frame E img 10000000000 2 s
    have f1 := UpdateState_frame E img 10000000000 1 (UpdateState E img 10000000000 2 s).1
    have f0 := UpdateState_frame E img 10000000000 0
      (UpdateState E img 10000000000 1 (UpdateState E img 10000000000 2 s).1).1
    generalize (UpdateState E img 10000000000 0
      (UpdateState E img 10000000000 1 (UpdateState E img 10000000000 2 s).1).1) = r0 at f0 ⊢
    generalize (UpdateState E img 10000000000 1 (UpdateState E img 10000000000 2 s).1) = r1
      at f0 f1
    generalize (UpdateState E img 10000000000 2 s) = r2 at f1 f2
    obtain ⟨c0, p0, g0, ha0, hb0⟩ := f0
    obtain ⟨c1, p1, g1, ha1, hb1⟩ := f1
    obtain ⟨c2, p2, g2, ha2, hb2⟩ := f2
    have hc : r0.1.state.cov = s.state.cov := by rw [c0, c1, c2]
    have hp : r0.1.state_propagat = s.state_propagat := by rw [p0, p1, p2]
    have hg : ∀ a k, r0.1.G a (Sum.inr k) = s.G a (Sum.inr k) := by
      intro a k; rw [g0, g1, g2]
    have ha : ∀ a k, r0.1.H_T_H a (Sum.inr k) = s.H_T_H a (Sum.inr k) := by
      intro a k; rw [ha0, ha1, ha2]
    have hb : ∀ k b, r0.1.H_T_H (Sum.inr k) b = s.H_T_H (Sum.inr k) b := by
      intro k b; rw [hb0, hb1, hb2]
    split
    · refine ⟨hp, ?_, Or.inr ?_, hg, ha, hb⟩
      · intro hidx
        rw [hidx] at h0
        exact absurd rfl h0
      · simp only [updateFrameState, hc]
    · refine ⟨hp, ?_, Or.inl hc, hg, ha, hb⟩
      intro hidx
      rw [hidx] at h0
      exact absurd rfl h0

set_option maxHeartbeats 1000000 in
/-- C9, counterexample: a flat grey image, patches of 2×2 pixels, a sub map
with one Point, identity poses, and a propagated state that differs from the
state only in the first component after the six pose dimensions (1 against
0).  The image gradients vanish, so `H_sub` is zero and the correction is the
difference to the propagated state: `ComputeJ` moves that component of the
shared state from 0 to 1. -/
theorem C9_counterexample_state_outside_pose :
    testSubP.state.rest 0 = 0 ∧ testSubP.state_propagat.rest 0 = 1 ∧
    (ComputeJ testEnvSmall (flatImg 7) testSubP).state.rest 0 = 1 := by
  refine ⟨rfl, rfl, by decide!⟩

/-! ## `detect` on an empty cloud -/

/-- The third loop of `addFromSparseMap` does nothing on cells that are not
marked `TYPE_MAP`. -/
theorem addFromSparseMap.refines_id (E : Env n) (img : Img) (it : Int → ℚ) (s : LidarSelector n)
    (l : List Int) (h : ∀ i ∈ l, s.grid_num i ≠ CellType.TYPE_MAP) :
    l.foldl (addFromSparseMap.refine E img it) s = s := by
  induction l with
  | nil => rfl
  | cons i l ih =>
    have hi : addFromSparseMap.refine E img it s i = s := by
      unfold addFromSparseMap.refine
      rw [if_neg (h i (List.mem_cons_self _ _))]
    rw [List.foldl_cons, hi]
    exact ih (fun j hj => h j (List.mem_cons_of_mem _ hj))

/-- The creation loop of `addSparseMap` does nothing on cells that are not
marked `TYPE_POINTCLOUD`. -/
theorem addSparseMap.creates_id (E : Env n) (s : LidarSelector n) (l : List Int)
    (h : ∀ i ∈ l, s.grid_num i ≠ CellType.TYPE_POINTCLOUD) :
    l.foldl (addSparseMap.create E) s = s := by
  induction l with
  | nil => rfl
  | cons i l ih =>
    have hi : addSparseMap.create E s i = s := by
      unfold addSparseMap.create
      rw [if_neg (h i (List.mem_cons_self _ _))]
    rw [List.foldl_cons, hi]
    exact ih (fun j hj => h j (List.mem_cons_of_mem _ hj))

/-- On an empty cloud whose filtered cloud is empty, `addFromSparseMap` only
resets: it returns the state as it is on an empty voxel map, and the prepared
state otherwise. -/
theorem addFromSparseMap_nil (E : Env n) (img : Img) (s : LidarSelector n)
    (hfilter : E.downSizeFilter [] = []) (horder : E.iterOrder [] = []) :
    addFromSparseMap E img [] s =
      if s.feat_map.length ≤ 0 then s else addFromSparseMap.prepare E [] s := by
  unfold addFromSparseMap
  split
  · rfl
  · have hproj : addFromSparseMap.projected E [] s = ([], fun _ => 0) := by
      unfold addFromSparseMap.projected
      rw [hfilter]
      rfl
    have hkeys : addFromSparseMap.keys E [] s = [] := by
      unfold addFromSparseMap.keys
      rw [hproj]
      exact horder
    have hgather : addFromSparseMap.gather E [] s = addFromSparseMap.prepare E [] s := by
      unfold addFromSparseMap.gather
      rw [hkeys]
      rfl
    rw [hgather]
    apply addFromSparseMap.refines_id
    intro i hi
    have hin := (E.mem_cells i).1 hi
    simp [addFromSparseMap.prepare, reset_grid, hin]

/-- On an empty cloud `addSparseMap` only resets the grid. -/
theorem addSparseMap_nil (E : Env n) (img : Img) (s : LidarSelector n) :
    addSparseMap E img [] s = reset_grid E s := by
  unfold addSparseMap addSparseMap.select
  simp only [List.foldl_nil]
  apply addSparseMap.creates_id
  intro i hi
  have hin := (E.mem_cells i).1 hi
  simp [reset_grid, hin]

/-- Frame of the first part of `detect`: the shared states, the stores, the
voxel map and the sub map are as before; the stage moves to
`STAGE_DEFAULT_FRAME` exactly on a first frame with more than 10 cloud points. -/
theorem detect.start_frame (E : Env n) (img : Img) (pg : PointCloud) (s : LidarSelector n) :
    (detect.start E img pg s).state = s.state ∧
    (detect.start E img pg s).state_propagat = s.state_propagat ∧
    (detect.start E img pg s).feat_map = s.feat_map ∧
    (detect.start E img pg s).points = s.points ∧
    (detect.start E img pg s).features = s.features ∧
    (detect.start E img pg s).sub_sparse_map = s.sub_sparse_map ∧
    (detect.start E img pg s).stage_ =
      (if s.stage_ = Stage.STAGE_FIRST_FRAME ∧ pg.length > 10 then Stage.STAGE_DEFAULT_FRAME
        else s.stage_) := by
  unfold detect.start
  simp only [updateFrameState]
  split <;> exact ⟨rfl, rfl, rfl, rfl, rfl, rfl, rfl⟩

/-- With an empty sub map, `ComputeJ` and `addObservation` do nothing. -/
theorem ComputeJ_addObservation_empty (E : Env n) (img : Img) (t : LidarSelector n)
    (ht : t.sub_sparse_map = SubSparseMap.empty) :
    ComputeJ E img t = t ∧ addObservation E img t = some t := by
  constructor
  · unfold ComputeJ
    simp [ht, SubSparseMap.empty]
  · unfold addObservation
    simp [ht, SubSparseMap.empty]

/-- C2: `detect` on a cloud of zero points, for an image of the size of the
camera.  The call returns; the shared state (pose, other components and
covariance) and the propagated state are as before; the voxel map, the store
of Points (hence every observation list) and the store of Features are as
before; the sub map is empty; and `stage_` is as before.  The state is any
state in which an empty voxel map comes with an empty sub map, which holds
after `init` and after every `detect`; the voxel filter maps the empty cloud
to the empty cloud and the empty set of visited voxels is iterated as empty. -/
theorem C2_detect_empty_cloud (E : Env n) (img : Img) (s : LidarSelector n)
    (himg : img.cols = E.width ∧ img.rows = E.height)
    (hfilter : E.downSizeFilter [] = []) (horder : E.iterOrder [] = [])
    (hreach : s.feat_map = [] → s.sub_sparse_map = SubSparseMap.empty) :
    ∃ s1, detect E img [] s = some s1 ∧
      s1.state = s.state ∧ s1.state_propagat = s.state_propagat ∧
      s1.feat_map = s.feat_map ∧ s1.points = s.points ∧ s1.features = s.features ∧
      s1.sub_sparse_map = SubSparseMap.empty ∧ s1.stage_ = s.stage_ := by
  have hvalid : ¬ (img.cols ≠ E.width ∨ img.rows ≠ E.height) := by
    rintro (h | h)
    · exact h himg.1
    · exact h himg.2
  obtain ⟨e1, e2, e3, e4, e5, e6, e7⟩ := detect.start_frame E img [] s
  have e7' : (detect.start E img [] s).stage_ = s.stage_ := by
    rw [e7]; simp
  unfold detect
  rw [if_neg hvalid]
  simp only
  rw [addFromSparseMap_nil E img _ hfilter horder, addSparseMap_nil]
  generalize detect.start E img [] s = t at e1 e2 e3 e4 e5 e6 e7'
  by_cases hfm : s.feat_map = []
  · have hsm := hreach hfm
    have hlen : t.feat_map.length ≤ 0 := by rw [e3, hfm]; simp
    rw [if_pos hlen]
    obtain ⟨h1, h2⟩ := ComputeJ_addObservation_empty E img (reset_grid E t) (e6.trans hsm)
    rw [h1, h2]
    exact ⟨_, rfl, e1, e2, e3, e4, e5, e6.trans hsm, e7'⟩
  · have hlen : ¬ t.feat_map.length ≤ 0 := by
      rw [e3]
      cases hm : s.feat_map with
      | nil => exact absurd hm hfm
      | cons e m => simp
    rw [if_neg hlen]
    obtain ⟨h1, h2⟩ := ComputeJ_addObservation_empty E img
      (reset_grid E (addFromSparseMap.prepare E [] t)) rfl
    rw [h1, h2]
    exact ⟨_, rfl, e1, e2, e3, e4, e5, rfl, e7'⟩

/-- Witness for C2: the selector right after `init`, an image of the size of
the test camera and the empty cloud. -/
theorem C2_detect_empty_cloud_witness :
    ((flatImg 7).cols = (testEnv 200).width ∧ (flatImg 7).rows = (testEnv 200).height) ∧
    (testEnv 200).downSizeFilter [] = [] ∧ (testEnv 200).iterOrder [] = [] ∧
    ∃ s1, detect (testEnv 200) (flatImg 7) [] testInit = some s1 ∧
      s1.state = testInit.state ∧ s1.stage_ = Stage.STAGE_FIRST_FRAME :=
  ⟨⟨rfl, rfl⟩, rfl, rfl,
    match C2_detect_empty_cloud (testEnv 200) (flatImg 7) testInit ⟨rfl, rfl⟩ rfl rfl
        (fun _ => rfl) with
    | ⟨s1, h, h1, _, _, _, _, _, h7⟩ => ⟨s1, h, h1, h7⟩⟩

/-! ## Reachable states: an empty voxel map comes with an empty sub map -/

theorem UpdateState.iteration_keeps (E : Env n) (img : Img) (level : Int) (s : LidarSelector n)
    (l : UpdateState.Locals n) (h : UpdateState.Keeps s l.sel) :
    UpdateState.Keeps s (UpdateState.iteration E img level l).sel := by
  unfold UpdateState.iteration
  simp only
  split <;> exact h

theorem UpdateState.loop_keeps (E : Env n) (img : Img) (level : Int) (s : LidarSelector n)
    (k : Nat) (l : UpdateState.Locals n) (h : UpdateState.Keeps s l.sel) :
    UpdateState.Keeps s (UpdateState.loop E img level k l).sel := by
  induction k generalizing l with
  | zero => exact h
  | succ k ih =>
    unfold UpdateState.loop
    simp only
    split
    · exact UpdateState.iteration_keeps E img level s l h
    · exact ih _ (UpdateState.iteration_keeps E img level s l h)

/-- Frame of `UpdateState`, second part. -/
theorem UpdateState_keeps (E : Env n) (img : Img) (total_residual : ℚ) (level : Int)
    (s : LidarSelector n) : UpdateState.Keeps s (UpdateState E img total_residual level s).1 := by
  unfold UpdateState
  simp only
  split
  · exact ⟨rfl, rfl, rfl, rfl, rfl, rfl, rfl, rfl, rfl, rfl, rfl, rfl⟩
  · exact UpdateState.loop_keeps E img level s _ _
      ⟨rfl, rfl, rfl, rfl, rfl, rfl, rfl, rfl, rfl, rfl, rfl, rfl⟩

/-- Frame of `ComputeJ`: the voxel map, the stores and the stage are as before. -/
theorem ComputeJ_keeps (E : Env n) (img : Img) (s : LidarSelector n) :
    (ComputeJ E img s).feat_map = s.feat_map ∧ (ComputeJ E img s).points = s.points ∧
    (ComputeJ E img s).features = s.features ∧ (ComputeJ E img s).stage_ = s.stage_ ∧
    (ComputeJ E img s).sub_sparse_map.index = s.sub_sparse_map.index ∧
    (ComputeJ E img s).sub_sparse_map.voxel_points = s.sub_sparse_map.voxel_points := by
  unfold ComputeJ
  simp only
  split
  · exact ⟨rfl, rfl, rfl, rfl, rfl, rfl⟩
  · have k2 := UpdateState_keeps E img 10000000000 2 s
    have k1 := UpdateState_keeps E img 10000000000 1 (UpdateState E img 10000000000 2 s).1
    have k0 := UpdateState_keeps E img 10000000000 0
      (UpdateState E img 10000000000 1 (UpdateState E img 10000000000 2 s).1).1
    generalize (UpdateState E img 10000000000 0
      (UpdateState E img 10000000000 1 (UpdateState E img 10000000000 2 s).1).1) = r0 at k0 ⊢
    generalize (UpdateState E img 10000000000 1 (UpdateState E img 10000000000 2 s).1) = r1
      at k0 k1
    generalize (UpdateState E img 10000000000 2 s) = r2 at k1 k2
    obtain ⟨a0, b0, _, c0, _, d0, _, i0, v0, _⟩ := k0
    obtain ⟨a1, b1, _, c1, _, d1, _, i1, v1, _⟩ := k1
    obtain ⟨a2, b2, _, c2, _, d2, _, i2, v2, _⟩ := k2
    split <;>
    · simp only [updateFrameState]
      exact ⟨by rw [a0, a1, a2], by rw [b0, b1, b2], by rw [c0, c1, c2], by rw [d0, d1, d2],
        by rw [i0, i1, i2], by rw [v0, v1, v2]⟩

/-- Frame of a round of `addObservation`: the voxel map, the sub map and the
stage are as before. -/
theorem addObservation.step_keeps (E : Env n) (img : Img) (s s1 : LidarSelector n) (i : Nat)
    (h : addObservation.step E img s i = some s1) :
    s1.feat_map = s.feat_map ∧ s1.sub_sparse_map = s.sub_sparse_map ∧ s1.stage_ = s.stage_ := by
  unfold addObservation.step at h
  split at h
  · cases h; exact ⟨rfl, rfl, rfl⟩
  · simp only at h
    split at h
    · split at h <;> (cases h; exact ⟨rfl, rfl, rfl⟩)
    · cases h

/-- Frame of `addObservation`. -/
theorem addObservation_keeps (E : Env n) (img : Img) (s s1 : LidarSelector n)
    (h : addObservation E img s = some s1) :
    s1.feat_map = s.feat_map ∧ s1.sub_sparse_map = s.sub_sparse_map ∧ s1.stage_ = s.stage_ := by
  have hloop : ∀ (is : List Nat) (t t1 : LidarSelector n),
      addObservation.loop E img is t = some t1 →
      t1.feat_map = t.feat_map ∧ t1.sub_sparse_map = t.sub_sparse_map ∧ t1.stage_ = t.stage_ := by
    intro is
    induction is with
    | nil =>
      intro t t1 ht
      cases ht
      exact ⟨rfl, rfl, rfl⟩
    | cons i is ih =>
      intro t t1 ht
      unfold addObservation.loop at ht
      split at ht
      · rename_i t2 hstep
        obtain ⟨a1, a2, a3⟩ := addObservation.step_keeps E img t t2 i hstep
        obtain ⟨b1, b2, b3⟩ := ih t2 t1 ht
        exact ⟨b1.trans a1, b2.trans a2, b3.trans a3⟩
      · cases ht
  unfold addObservation at h
  simp only at h
  split at h
  · cases h; exact ⟨rfl, rfl, rfl⟩
  · exact hloop _ _ _ h

/-- Frame of `addSparseMap`: the sub map and the stage are as before, and the
voxel map is empty afterwards only if it was empty before. -/
theorem addSparseMap_keeps (E : Env n) (img : Img) (pg : PointCloud) (s : LidarSelector n) :
    (addSparseMap E img pg s).sub_sparse_map = s.sub_sparse_map ∧
    (addSparseMap E img pg s).stage_ = s.stage_ ∧
    ((addSparseMap E img pg s).feat_map = [] → s.feat_map = []) := by
  obtain ⟨gn, mi, mv, md, vp, av, hshape⟩ := addSparseMap.select_shape E img pg s
  unfold addSparseMap
  have key := foldl_inv (fun t : LidarSelector n =>
      t.sub_sparse_map = s.sub_sparse_map ∧ t.stage_ = s.stage_ ∧
      (t.feat_map = [] → s.feat_map = []))
    (addSparseMap.create E) E.cells (addSparseMap.select E img pg s)
    (by rw [hshape]; exact ⟨rfl, rfl, fun h => h⟩)
    (by
      rintro t i _ ⟨h1, h2, h3⟩
      unfold addSparseMap.create
      split
      · refine ⟨h1, h2, ?_⟩
        intro h
        exfalso
        have hmem := AddPoint.mem_allPoints_self t.feat_map (some t.n_points) (t.add_voxel_points_ i)
        have h' : (AddPoint t.feat_map (some t.n_points) (t.add_voxel_points_ i)) = [] := h
        rw [h'] at hmem
        simp [FeatMap.allPoints] at hmem
      · exact ⟨h1, h2, h3⟩)
  exact key

/-- The states reached from `init` by calls of `detect`: after `init` the sub
map is empty. -/
theorem LidarSelector.init_reach (state state_propagat : StatesGroup n) (transl : V3D) (rot : M3D)
    (Rcl : M3D) (Pcl : V3D) :
    (LidarSelector.init state state_propagat transl rot Rcl Pcl).feat_map = [] →
    (LidarSelector.init state state_propagat transl rot Rcl Pcl).sub_sparse_map
      = SubSparseMap.empty :=
  fun _ => rfl

/-- Every call of `detect` keeps the property that an empty voxel map comes with
an empty sub map. -/
theorem detect.preserves_reach (E : Env n) (img : Img) (pg : PointCloud) (s s1 : LidarSelector n)
    (hreach : s.feat_map = [] → s.sub_sparse_map = SubSparseMap.empty)
    (h : detect E img pg s = some s1) :
    s1.feat_map = [] → s1.sub_sparse_map = SubSparseMap.empty := by
  unfold detect at h
  split at h
  · cases h
  · simp only at h
    obtain ⟨_, _, e3, _, _, e6, _⟩ := detect.start_frame E img pg s
    generalize detect.start E img pg s = t at e3 e6 h
    obtain ⟨f1, _, _, _, f5, _⟩ := addFromSparseMap_frame E img pg t
    obtain ⟨g1, _, g3⟩ := addSparseMap_keeps E img pg (addFromSparseMap E img pg t)
    obtain ⟨k1, _⟩ := ComputeJ_keeps E img (addSparseMap E img pg (addFromSparseMap E img pg t))
    cases hobs : addObservation E img
        (ComputeJ E img (addSparseMap E img pg (addFromSparseMap E img pg t))) with
    | none => rw [hobs] at h; cases h
    | some s7 =>
      rw [hobs] at h
      simp only [Option.map_some', Option.some.injEq] at h
      obtain ⟨o1, o2, _⟩ := addObservation_keeps E img _ s7 hobs
      intro hempty
      have h7 : s7.feat_map = [] := by rw [← h] at hempty; exact hempty
      have h5 : (addSparseMap E img pg (addFromSparseMap E img pg t)).feat_map = [] := by
        rw [← k1, ← o1]; exact h7
      have h4 : (addFromSparseMap E img pg t).feat_map = [] := g3 h5
      have ht : t.feat_map = [] := by rw [← f5]; exact h4
      have hs : s.feat_map = [] := by rw [← e3]; exact ht
      have hsub : t.sub_sparse_map = SubSparseMap.empty := e6.trans (hreach hs)
      have hA : addFromSparseMap E img pg t = t := by
        unfold addFromSparseMap
        rw [if_pos (by rw [ht]; simp)]
      have hB : (addSparseMap E img pg t).sub_sparse_map = SubSparseMap.empty := by
        rw [(addSparseMap_keeps E img pg t).1]; exact hsub
      rw [hA] at hobs
      obtain ⟨c1, c2⟩ := ComputeJ_addObservation_empty E img (addSparseMap E img pg t) hB
      rw [c1, c2] at hobs
      cases hobs
      rw [← h]
      exact hB

/-! ## The stage machine of `detect` -/

theorem Frame.setKeyPoints_is_keyframe (E : Env n) (features : Nat → Feature) (fr : Frame) :
    (Frame.setKeyPoints E features fr).is_keyframe_ = fr.is_keyframe_ := by
  unfold Frame.setKeyPoints
  simp only
  refine foldl_inv (fun t : Frame => t.is_keyframe_ = fr.is_keyframe_) _ _ _ rfl ?_
  intro t ftr _ ht
  cases ftr with
  | none => exact ht
  | some a =>
    simp only
    split
    · exact ht
    · exact ht

/-- On the first frame with a cloud of more than 10 points, the first part of
`detect` marks the new frame a keyframe. -/
theorem detect.start_keyframe (E : Env n) (img : Img) (pg : PointCloud) (s : LidarSelector n)
    (h : s.stage_ = Stage.STAGE_FIRST_FRAME ∧ pg.length > 10) :
    (detect.start E img pg s).new_frame_.is_keyframe_ = true := by
  unfold detect.start
  simp only [updateFrameState]
  rw [if_pos h]
  simp only [Frame.setKeyframe]
  rw [Frame.setKeyPoints_is_keyframe]

theorem addSparseMap_new_frame (E : Env n) (img : Img) (pg : PointCloud) (s : LidarSelector n) :
    (addSparseMap E img pg s).new_frame_ = s.new_frame_ := by
  obtain ⟨gn, mi, mv, md, vp, av, hshape⟩ := addSparseMap.select_shape E img pg s
  unfold addSparseMap
  refine foldl_inv (fun t : LidarSelector n => t.new_frame_ = s.new_frame_)
    (addSparseMap.create E) E.cells (addSparseMap.select E img pg s) (by rw [hshape]) ?_
  intro t i _ h1
  unfold addSparseMap.create
  split
  · exact h1
  · exact h1

theorem ComputeJ_is_keyframe (E : Env n) (img : Img) (s : LidarSelector n) :
    (ComputeJ E img s).new_frame_.is_keyframe_ = s.new_frame_.is_keyframe_ := by
  unfold ComputeJ
  simp only
  split
  · rfl
  · have k2 := UpdateState_keeps E img 10000000000 2 s
    have k1 := UpdateState_keeps E img 10000000000 1 (UpdateState E img 10000000000 2 s).1
    have k0 := UpdateState_keeps E img 10000000000 0
      (UpdateState E img 10000000000 1 (UpdateState E img 10000000000 2 s).1).1
    generalize (UpdateState E img 10000000000 0
      (UpdateState E img 10000000000 1 (UpdateState E img 10000000000 2 s).1).1) = r0 at k0 ⊢
    generalize (UpdateState E img 10000000000 1 (UpdateState E img 10000000000 2 s).1) = r1
      at k0 k1
    generalize (UpdateState E img 10000000000 2 s) = r2 at k1 k2
    obtain ⟨_, _, _, _, _, _, f0, _⟩ := k0
    obtain ⟨_, _, _, _, _, _, f1, _⟩ := k1
    obtain ⟨_, _, _, _, _, _, f2, _⟩ := k2
    split <;>
    · simp only [updateFrameState]
      rw [f0, f1, f2]

theorem addObservation.step_new_frame (E : Env n) (img : Img) (s s1 : LidarSelector n) (i : Nat)
    (h : addObservation.step E img s i = some s1) : s1.new_frame_ = s.new_frame_ := by
  unfold addObservation.step at h
  split at h
  · cases h; rfl
  · simp only at h
    split at h
    · split at h <;> (cases h; rfl)
    · cases h

theorem addObservation_new_frame (E : Env n) (img : Img) (s s1 : LidarSelector n)
    (h : addObservation E img s = some s1) : s1.new_frame_ = s.new_frame_ := by
  have hloop : ∀ (is : List Nat) (t t1 : LidarSelector n),
      addObservation.loop E img is t = some t1 → t1.new_frame_ = t.new_frame_ := by
    intro is
    induction is with
    | nil =>
      intro t t1 ht
      cases ht
      rfl
    | cons i is ih =>
      intro t t1 ht
      unfold addObservation.loop at ht
      split at ht
      · rename_i t2 hstep
        exact (ih t2 t1 ht).trans (addObservation.step_new_frame E img t t2 i hstep)
      · cases ht
  unfold addObservation at h
  simp only at h
  split at h
  · cases h; rfl
  · exact hloop _ _ _ h

/-- Stage and keyframe flag after a call of `detect` that returns. -/
theorem detect_stage (E : Env n) (img : Img) (pg : PointCloud) (s s1 : LidarSelector n)
    (h : detect E img pg s = some s1) :
    s1.stage_ = (if s.stage_ = Stage.STAGE_FIRST_FRAME ∧ pg.length > 10
      then Stage.STAGE_DEFAULT_FRAME else s.stage_) ∧
    s1.new_frame_.is_keyframe_ = (detect.start E img pg s).new_frame_.is_keyframe_ := by
  unfold detect at h
  split at h
  · cases h
  · simp only at h
    obtain ⟨_, _, _, _, _, _, e7⟩ := detect.start_frame E img pg s
    generalize detect.start E img pg s = t at e7 h ⊢
    obtain ⟨_, _, _, _, _, f6, _, _, f9⟩ := addFromSparseMap_frame E img pg t
    obtain ⟨_, g2, _⟩ := addSparseMap_keeps E img pg (addFromSparseMap E img pg t)
    have g4 := addSparseMap_new_frame E img pg (addFromSparseMap E img pg t)
    obtain ⟨_, _, _, k4, _⟩ := ComputeJ_keeps E img
      (addSparseMap E img pg (addFromSparseMap E img pg t))
    have k5 := ComputeJ_is_keyframe E img (addSparseMap E img pg (addFromSparseMap E img pg t))
    cases hobs : addObservation E img
        (ComputeJ E img (addSparseMap E img pg (addFromSparseMap E img pg t))) with
    | none => rw [hobs] at h; cases h
    | some s7 =>
      rw [hobs] at h
      obtain ⟨_, _, o3⟩ := addObservation_keeps E img _ s7 hobs
      have o4 := addObservation_new_frame E img _ s7 hobs
      cases h
      constructor
      · show s7.stage_ = _
        rw [o3, k4, g2, f9, e7]
      · show s7.new_frame_.is_keyframe_ = _
        rw [o4, k5, g4, f6]

/-- With an empty voxel map and an empty sub map, `detect` returns for every
cloud and every image of the size of the camera. -/
theorem detect_of_empty_map (E : Env n) (img : Img) (pg : PointCloud) (s : LidarSelector n)
    (himg : img.cols = E.width ∧ img.rows = E.height)
    (hmap : s.feat_map = []) (hsub : s.sub_sparse_map = SubSparseMap.empty) :
    ∃ s1, detect E img pg s = some s1 := by
  have hvalid : ¬ (img.cols ≠ E.width ∨ img.rows ≠ E.height) := by
    rintro (h | h)
    · exact h himg.1
    · exact h himg.2
  obtain ⟨_, _, e3, _, _, e6, _⟩ := detect.start_frame E img pg s
  unfold detect
  rw [if_neg hvalid]
  simp only
  generalize detect.start E img pg s = t at e3 e6
  have h4 : addFromSparseMap E img pg t = t := by
    unfold addFromSparseMap
    rw [if_pos (by rw [e3, hmap]; simp)]
  rw [h4]
  obtain ⟨g1, _⟩ := addSparseMap_keeps E img pg t
  obtain ⟨h1, h2⟩ := ComputeJ_addObservation_empty E img (addSparseMap E img pg t)
    (g1.trans (e6.trans hsub))
  rw [h1, h2]
  exact ⟨_, rfl⟩

/-- The stage after successive calls of `detect`. -/
theorem detect.run_stage (E : Env n) (calls : List (Img × PointCloud)) (s sN : LidarSelector n)
    (h : detect.run E calls s = some sN) :
    (sN.stage_ = Stage.STAGE_DEFAULT_FRAME ↔
      s.stage_ = Stage.STAGE_DEFAULT_FRAME ∨ ∃ c ∈ calls, c.2.length > 10) := by
  induction calls generalizing s with
  | nil =>
    cases h
    simp
  | cons c calls ih =>
    unfold detect.run at h
    split at h
    · rename_i s1 h1
      have hs := (detect_stage E c.1 c.2 s s1 h1).1
      rw [ih s1 h, hs]
      cases hst : s.stage_ <;> by_cases hc : c.2.length > 10 <;> simp [hc]
    · cases h

/-- C11: the stage machine of `detect`.  For every sequence of calls of
`detect` that return, started in any state: the stage at the end is
`STAGE_DEFAULT_FRAME` iff it was so at the start or one of the clouds had more
than 10 points (for one call: iff it was so before or this cloud has more than
10 points; a cloud of exactly 10 points leaves `STAGE_FIRST_FRAME`); a stage
that is `STAGE_DEFAULT_FRAME` stays so; and the call that makes the transition
leaves its frame marked a keyframe. -/
theorem C11_stage_machine (E : Env n) (calls : List (Img × PointCloud)) (s sN : LidarSelector n)
    (h : detect.run E calls s = some sN) :
    (sN.stage_ = Stage.STAGE_DEFAULT_FRAME ↔
      s.stage_ = Stage.STAGE_DEFAULT_FRAME ∨ ∃ c ∈ calls, c.2.length > 10) ∧
    (s.stage_ = Stage.STAGE_DEFAULT_FRAME → sN.stage_ = Stage.STAGE_DEFAULT_FRAME) ∧
    (∀ img pg s1, detect E img pg sN = some s1 →
      (s1.stage_ = Stage.STAGE_DEFAULT_FRAME ↔
        sN.stage_ = Stage.STAGE_DEFAULT_FRAME ∨ pg.length > 10) ∧
      (sN.stage_ = Stage.STAGE_FIRST_FRAME → pg.length = 10 →
        s1.stage_ = Stage.STAGE_FIRST_FRAME) ∧
      (sN.stage_ = Stage.STAGE_FIRST_FRAME → pg.length > 10 →
        s1.stage_ = Stage.STAGE_DEFAULT_FRAME ∧ s1.new_frame_.is_keyframe_ = true)) := by
  have hrun := detect.run_stage E calls s sN h
  refine ⟨hrun, fun hs => hrun.2 (Or.inl hs), ?_⟩
  intro img pg s1 h1
  obtain ⟨hs, hk⟩ := detect_stage E img pg sN s1 h1
  refine ⟨?_, ?_, ?_⟩
  · rw [hs]
    cases hst : sN.stage_ <;> by_cases hc : pg.length > 10 <;> simp [hc]
  · intro hf h10
    rw [hs, hf, h10]
    simp
  · intro hf hc
    refine ⟨?_, ?_⟩
    · rw [hs, if_pos ⟨hf, hc⟩]
    · rw [hk]
      exact detect.start_keyframe E img pg sN ⟨hf, hc⟩

/-- Witness for C11: one call on the selector right after `init` with a cloud
of eleven points; the call returns and the stage becomes `STAGE_DEFAULT_FRAME`. -/
theorem C11_stage_machine_witness :
    ∃ sN, detect.run (testEnv 200) [(flatImg 7, testCloud11)] testInit = some sN ∧
      sN.stage_ = Stage.STAGE_DEFAULT_FRAME :=
  match detect_of_empty_map (testEnv 200) (flatImg 7) testCloud11 testInit ⟨rfl, rfl⟩ rfl rfl with
  | ⟨s1, h1⟩ =>
    have hrun : detect.run (testEnv 200) [(flatImg 7, testCloud11)] testInit = some s1 := by
      simp only [detect.run, h1]
    ⟨s1, hrun, ((C11_stage_machine (testEnv 200) [(flatImg 7, testCloud11)] testInit s1 hrun).1).2
      (Or.inr ⟨(flatImg 7, testCloud11), by simp, by decide⟩)⟩

/-! ## Patches: `warpAffine` with the identity against `getpatch` -/

/-- Content of a buffer after a loop of writes at `b0 + y`. -/
theorem Buf.foldl_set_data (l : List Int) (b0 : Int) (g : Int → ℚ) (acc : Buf) (k : Int) :
    (l.foldl (fun a y => a.set (b0 + y) (g y)) acc).data k =
      if k - b0 ∈ l then g (k - b0) else acc.data k := by
  induction l generalizing acc with
  | nil => simp
  | cons h t ih =>
    rw [List.foldl_cons, ih]
    by_cases hk : k - b0 ∈ t
    · simp [hk]
    · by_cases hh : k - b0 = h
      · have hk2 : k = b0 + h := by omega
        subst hk2
        simp [Buf.set, hk]
      · have hk2 : k ≠ b0 + h := by omega
        simp [Buf.set, hk, hh, Function.update_noteq hk2]

/-- Rows other than `r` are not written at the offsets of row `r`. -/
theorem Buf.row_disjoint (ps r x c : Int) (hc : 0 ≤ c ∧ c < ps) (hx : x ≠ r) :
    ¬ (0 ≤ (r - x) * ps + c ∧ (r - x) * ps + c < ps) := by
  rintro ⟨h1, h2⟩
  rcases lt_or_gt_of_ne hx with h | h
  · have h3 : 1 ≤ r - x := by omega
    have h4 : 1 * ps ≤ (r - x) * ps := by
      apply mul_le_mul_of_nonneg_right h3
      omega
    omega
  · have h3 : r - x ≤ -1 := by omega
    have h4 : (r - x) * ps ≤ (-1) * ps := by
      apply mul_le_mul_of_nonneg_right h3
      omega
    omega

theorem Buf.nested_set_other (ps base : Int) (f : Int → Int → ℚ) (l : List Int) (acc : Buf)
    (r c : Int) (hc : 0 ≤ c ∧ c < ps) (hl : ∀ x ∈ l, x ≠ r) :
    (l.foldl (fun a x => (upto ps).foldl (fun a y => a.set (base + x * ps + y) (f x y)) a)
      acc).data (base + r * ps + c) = acc.data (base + r * ps + c) := by
  induction l generalizing acc with
  | nil => rfl
  | cons h t ih =>
    rw [List.foldl_cons, ih _ (fun x hx => hl x (List.mem_cons_of_mem _ hx)),
      Buf.foldl_set_data]
    have hne := Buf.row_disjoint ps r h c hc (hl h (List.mem_cons_self _ _))
    have he : base + r * ps + c - (base + h * ps) = (r - h) * ps + c := by ring
    rw [if_neg]
    rw [mem_upto, he]
    exact hne

/-- Content of a buffer after the two nested loops of a patch writer: the
offset `base + r * ps + c` holds the value written in round `(r, c)`. -/
theorem Buf.nested_set_data (ps base : Int) (f : Int → Int → ℚ) (l : List Int) (acc : Buf)
    (r c : Int) (hc : 0 ≤ c ∧ c < ps) (hr : r ∈ l) :
    (l.foldl (fun a x => (upto ps).foldl (fun a y => a.set (base + x * ps + y) (f x y)) a)
      acc).data (base + r * ps + c) = f r c := by
  induction l generalizing acc with
  | nil => cases hr
  | cons h t ih =>
    rw [List.foldl_cons]
    by_cases ht : r ∈ t
    · exact ih _ ht
    · have hrh : r = h := by
        rcases List.mem_cons.1 hr with h1 | h1
        · exact h1
        · exact absurd h1 ht
      subst hrh
      rw [Buf.nested_set_other ps base f t _ r c hc (fun x hx hxr => ht (hxr ▸ hx)),
        Buf.foldl_set_data]
      have he : base + r * ps + c - (base + r * ps) = c := by ring
      rw [he, if_pos ((mem_upto ps c).2 hc)]

/-- Value written by `getpatch` at level 0 in round `(r, c)`: the bilinear
sample of the four pixels around `(⌊u⌋ + c - half, ⌊v⌋ + r - half)`. -/
theorem getpatch_data (E : Env n) (img : Img) (uv : V2D) (pb : Buf) (r c : Int)
    (hr : 0 ≤ r ∧ r < E.patch_size) (hc : 0 ≤ c ∧ c < E.patch_size) :
    (getpatch E img uv pb 0).data (E.patch_size_total * 0 + r * E.patch_size + c) =
      (1 - (uv 0 - ⌊uv 0⌋)) * (1 - (uv 1 - ⌊uv 1⌋)) *
          img.data ((⌊uv 1⌋ - E.patch_size_half + r) * E.width + (⌊uv 0⌋ - E.patch_size_half) + c)
        + (uv 0 - ⌊uv 0⌋) * (1 - (uv 1 - ⌊uv 1⌋)) *
          img.data ((⌊uv 1⌋ - E.patch_size_half + r) * E.width + (⌊uv 0⌋ - E.patch_size_half) + c + 1)
        + (1 - (uv 0 - ⌊uv 0⌋)) * (uv 1 - ⌊uv 1⌋) *
          img.data ((⌊uv 1⌋ - E.patch_size_half + r) * E.width + (⌊uv 0⌋ - E.patch_size_half) + c
            + E.width)
        + (uv 0 - ⌊uv 0⌋) * (uv 1 - ⌊uv 1⌋) *
          img.data ((⌊uv 1⌋ - E.patch_size_half + r) * E.width + (⌊uv 0⌋ - E.patch_size_half) + c
            + E.width + 1) := by
  unfold getpatch
  simp only
  rw [Buf.nested_set_data E.patch_size (E.patch_size_total * 0) _ (upto E.patch_size) pb r c hc
    ((mem_upto _ _).2 hr)]
  have h1 : shl1 0 = 1 := rfl
  simp only [h1, Int.cast_one, div_one, mul_one, toInt_intCast, one_mul]

/-- Content of a buffer after the two nested loops of a patch writer whose
body writes the value `f r c` at the offset `base + r * ps + c`. -/
theorem Buf.nested_fold_data (ps base : Int) (F : Buf → Int → Int → Buf) (f : Int → Int → ℚ)
    (hF : ∀ a x y, F a x y = a.set (base + x * ps + y) (f x y)) (l : List Int) (acc : Buf)
    (r c : Int) (hc : 0 ≤ c ∧ c < ps) (hr : r ∈ l) :
    (l.foldl (fun a x => (upto ps).foldl (fun a y => F a x y) a) acc).data (base + r * ps + c)
      = f r c := by
  have hFeq : F = fun a x y => a.set (base + x * ps + y) (f x y) := by
    funext a x y
    exact hF a x y
  subst hFeq
  exact Buf.nested_set_data ps base f l acc r c hc hr

/-- Inverse of the identity matrix: finite, the identity. -/
theorem inverse2_one :
    inverse2 1 = ![![Flt.fin 1, Flt.fin 0], ![Flt.fin 0, Flt.fin 1]] := by
  unfold inverse2 det2 Flt.inv
  simp [Flt.mul]

/-- Value written by `warpAffine` with the identity warp, search level 0 and
pyramid level 0 in round `(r, c)`. -/
theorem warpAffine_identity_data (E : Env n) (img : Img) (uv : V2D) (half : Int) (pa : Buf)
    (r c : Int) (hr : 0 ≤ r ∧ r < half * 2) (hc : 0 ≤ c ∧ c < half * 2) :
    (warpAffine E 1 img uv 0 0 0 half pa).data (E.patch_size_total * 0 + r * (half * 2) + c) =
      if ((c - half : Int) : ℚ) + uv 0 < 0 ∨ ((r - half : Int) : ℚ) + uv 1 < 0 ∨
          ((c - half : Int) : ℚ) + uv 0 ≥ img.cols - 1 ∨
          ((r - half : Int) : ℚ) + uv 1 ≥ img.rows - 1 then 0
      else E.interpolateMat_8u img (((c - half : Int) : ℚ) + uv 0) (((r - half : Int) : ℚ) + uv 1) := by
  unfold warpAffine
  simp only
  rw [inverse2_one]
  have hnan : ¬ Flt.isnan ((![![Flt.fin 1, Flt.fin 0], ![Flt.fin 0, Flt.fin 1]] :
      Fin 2 → Fin 2 → Flt) 0 0) = true := by
    simp [Flt.isnan]
  rw [if_neg hnan]
  refine Buf.nested_fold_data (half * 2) (E.patch_size_total * 0) _
    (fun y x => if ((x - half : Int) : ℚ) + uv 0 < 0 ∨ ((y - half : Int) : ℚ) + uv 1 < 0 ∨
            ((x - half : Int) : ℚ) + uv 0 ≥ img.cols - 1 ∨
            ((y - half : Int) : ℚ) + uv 1 ≥ img.rows - 1 then 0
          else E.interpolateMat_8u img (((x - half : Int) : ℚ) + uv 0)
            (((y - half : Int) : ℚ) + uv 1))
    ?_ (upto (half * 2)) pa r c hc ((mem_upto _ _).2 hr)
  intro acc y x
  have h1 : shl1 0 = 1 := rfl
  simp only [h1, mul_one, Int.cast_one, Matrix.cons_val_zero, Matrix.cons_val_one,
    Matrix.head_cons, Flt.mul, Flt.add, Flt.lt, Flt.ge, Env.sample, one_mul, zero_mul, add_zero,
    zero_add, decide_eq_true_eq]
  split <;> rfl

/-- C12 (amended): identity-warp round trip.  For an image of the width of the
camera, a positive even patch size, bilinear sampling for the library routine
`interpolateMat_8u`, and a pixel `uv` whose patch and its one-pixel margin lie
inside the image, `warpAffine` with the identity matrix, search level 0 and
pyramid level 0 writes at every index of the level-0 slice the value that
`getpatch` writes there, whatever the two buffers held before. -/
theorem C12_identity_warp_round_trip (E : Env n) (img : Img) (uv : V2D) (pa pb : Buf)
    (hinterp : ∀ u v, E.interpolateMat_8u img u v = bilinear img u v)
    (hcols : img.cols = E.width) (hps : 0 < E.patch_size)
    (heven : E.patch_size = E.patch_size_half * 2)
    (hu : E.patch_size_half ≤ ⌊uv 0⌋ ∧ ⌊uv 0⌋ + E.patch_size_half + 1 ≤ img.cols)
    (hv : E.patch_size_half ≤ ⌊uv 1⌋ ∧ ⌊uv 1⌋ + E.patch_size_half + 1 ≤ img.rows)
    (i : Int) (hi : 0 ≤ i ∧ i < E.patch_size_total) :
    (warpAffine E 1 img uv 0 0 0 E.patch_size_half pa).data i = (getpatch E img uv pb 0).data i := by
  have hr : 0 ≤ i / E.patch_size ∧ i / E.patch_size < E.patch_size := by
    refine ⟨Int.ediv_nonneg hi.1 hps.le, ?_⟩
    exact Int.ediv_lt_of_lt_mul hps hi.2
  have hc : 0 ≤ i % E.patch_size ∧ i % E.patch_size < E.patch_size :=
    ⟨Int.emod_nonneg _ hps.ne', Int.emod_lt_of_pos _ hps⟩
  have hidx : i = E.patch_size_total * 0 + (i / E.patch_size) * E.patch_size + i % E.patch_size := by
    have := Int.ediv_add_emod i E.patch_size
    rw [mul_comm] at this
    omega
  generalize i / E.patch_size = r at hr hidx
  generalize i % E.patch_size = c at hc hidx
  have hw := warpAffine_identity_data E img uv E.patch_size_half pa r c
    (by rw [← heven]; exact hr) (by rw [← heven]; exact hc)
  rw [← heven] at hw
  rw [hidx, hw, getpatch_data E img uv pb r c hr hc]
  have fu := Int.floor_le (uv 0)
  have fu2 := Int.lt_floor_add_one (uv 0)
  have fv := Int.floor_le (uv 1)
  have fv2 := Int.lt_floor_add_one (uv 1)
  have hhalf : (E.patch_size_half : ℚ) * 2 = E.patch_size := by
    rw [heven]; push_cast; ring
  have c0 : (0 : ℚ) ≤ c := by exact_mod_cast hc.1
  have c1 : (c : ℚ) + 1 ≤ E.patch_size := by exact_mod_cast hc.2
  have r0 : (0 : ℚ) ≤ r := by exact_mod_cast hr.1
  have r1 : (r : ℚ) + 1 ≤ E.patch_size := by exact_mod_cast hr.2
  have u0 : (E.patch_size_half : ℚ) ≤ ⌊uv 0⌋ := by exact_mod_cast hu.1
  have u1 : ((⌊uv 0⌋ : Int) : ℚ) + E.patch_size_half + 1 ≤ img.cols := by exact_mod_cast hu.2
  have v0 : (E.patch_size_half : ℚ) ≤ ⌊uv 1⌋ := by exact_mod_cast hv.1
  have v1 : ((⌊uv 1⌋ : Int) : ℚ) + E.patch_size_half + 1 ≤ img.rows := by exact_mod_cast hv.2
  have hin : ¬ (((c - E.patch_size_half : Int) : ℚ) + uv 0 < 0 ∨
      ((r - E.patch_size_half : Int) : ℚ) + uv 1 < 0 ∨
      ((c - E.patch_size_half : Int) : ℚ) + uv 0 ≥ img.cols - 1 ∨
      ((r - E.patch_size_half : Int) : ℚ) + uv 1 ≥ img.rows - 1) := by
    push_cast
    rintro (h | h | h | h) <;> linarith
  rw [if_neg hin, hinterp]
  unfold bilinear
  simp only
  have e0 : ⌊((c - E.patch_size_half : Int) : ℚ) + uv 0⌋ = ⌊uv 0⌋ + (c - E.patch_size_half) := by
    rw [add_comm, Int.floor_add_int]
  have e1 : ⌊((r - E.patch_size_half : Int) : ℚ) + uv 1⌋ = ⌊uv 1⌋ + (r - E.patch_size_half) := by
    rw [add_comm, Int.floor_add_int]
  rw [e0, e1, hcols]
  have o1 : (⌊uv 1⌋ + (r - E.patch_size_half)) * E.width + (⌊uv 0⌋ + (c - E.patch_size_half)) =
      (⌊uv 1⌋ - E.patch_size_half + r) * E.width + (⌊uv 0⌋ - E.patch_size_half) + c := by ring
  have o2 : (⌊uv 1⌋ - E.patch_size_half + r) * E.width + (⌊uv 0⌋ - E.patch_size_half) + c
      + E.width + 1 = (⌊uv 1⌋ - E.patch_size_half + r) * E.width + (⌊uv 0⌋ - E.patch_size_half) + c
      + 1 + E.width := by ring
  rw [o1]
  push_cast
  ring

/-- Witness for C12: the test camera with bilinear sampling, patches of 8×8
pixels, a ramp image and the pixel (80.5, 60.25). -/
theorem C12_identity_warp_round_trip_witness :
    (rampImg.cols = testEnvBilinear.width ∧ 0 < testEnvBilinear.patch_size ∧
      testEnvBilinear.patch_size = testEnvBilinear.patch_size_half * 2) ∧
    ∀ i : Int, 0 ≤ i ∧ i < 64 →
      (warpAffine testEnvBilinear 1 rampImg ![161 / 2, 241 / 4] 0 0 0 4 (Buf.zeros 256)).data i =
        (getpatch testEnvBilinear rampImg ![161 / 2, 241 / 4] (Buf.zeros 256) 0).data i :=
  ⟨⟨rfl, by decide, by decide⟩,
    fun i hi => C12_identity_warp_round_trip testEnvBilinear rampImg ![161 / 2, 241 / 4]
      (Buf.zeros 256) (Buf.zeros 256) (fun _ _ => rfl) rfl (by decide) (by decide)
      (by
        simp only [Matrix.cons_val_zero]
        norm_num [Env.patch_size_half, testEnvBilinear, testEnv, rampImg]
        decide)
      (by
        simp only [Matrix.cons_val_one, Matrix.head_cons]
        norm_num [Env.patch_size_half, testEnvBilinear, testEnv, rampImg]
        decide) i hi⟩

/-- The grey values of `rampImgWide` are those of an 8-bit image. -/
theorem rampImgWide_8bit (o : Int) : rampImgWide.data o < 256 := by
  show (o % 251).toNat < 256
  have h := Int.emod_lt_of_pos o (show (0 : Int) < 251 by decide)
  omega

/-- C12, counterexample: an 8-bit image of 200 columns with the test camera,
whose width is 160, patches of 8×8 pixels and the pixel (80.5, 60.25), whose
patch and one-pixel margin lie inside the image.  At index 0 of the level-0
slice `warpAffine` with the identity writes the bilinear sample around row 56,
column 76 of the image, offset 56 · 200 + 76 of its buffer, whereas `getpatch`
reads the buffer with the row stride 160 of the camera, at offset
56 · 160 + 76. -/
theorem C12_counterexample_image_wider_than_camera :
    (rampImgWide.cols = 200 ∧ rampImgWide.rows = 120 ∧ testEnvBilinear.width = 160 ∧
      testEnvBilinear.patch_size = 8 ∧ testEnvBilinear.patch_size_half = 4 ∧
      ∀ o, rampImgWide.data o < 256) ∧
    ((testEnvBilinear.patch_size_half ≤ ⌊(![161 / 2, 241 / 4] : V2D) 0⌋ ∧
        ⌊(![161 / 2, 241 / 4] : V2D) 0⌋ + testEnvBilinear.patch_size_half + 1 ≤ rampImgWide.cols) ∧
      (testEnvBilinear.patch_size_half ≤ ⌊(![161 / 2, 241 / 4] : V2D) 1⌋ ∧
        ⌊(![161 / 2, 241 / 4] : V2D) 1⌋ + testEnvBilinear.patch_size_half + 1 ≤ rampImgWide.rows)) ∧
    ((warpAffine testEnvBilinear 1 rampImgWide ![161 / 2, 241 / 4] 0 0 0 4 (Buf.zeros 256)).data 0
        = 879 / 4 ∧
      (getpatch testEnvBilinear rampImgWide ![161 / 2, 241 / 4] (Buf.zeros 256) 0).data 0
        = 81 / 2) := by
  refine ⟨⟨rfl, rfl, rfl, rfl, by decide, rampImgWide_8bit⟩, ⟨⟨?_, ?_⟩, ⟨?_, ?_⟩⟩,
    ⟨by decide!, by decide!⟩⟩
  · simp only [Matrix.cons_val_zero]
    norm_num [Env.patch_size_half, testEnvBilinear, testEnv]
    decide
  · simp only [Matrix.cons_val_zero]
    norm_num [Env.patch_size_half, testEnvBilinear, testEnv, rampImgWide]
    decide
  · simp only [Matrix.cons_val_one, Matrix.head_cons]
    norm_num [Env.patch_size_half, testEnvBilinear, testEnv]
    decide
  · simp only [Matrix.cons_val_one, Matrix.head_cons]
    norm_num [Env.patch_size_half, testEnvBilinear, testEnv, rampImgWide]
    decide

/-! ## Singular warps in `addFromSparseMap` -/

/-- The entry (0, 0) of the inverse is a NaN exactly when the determinant and
the entry (1, 1) of the matrix are zero. -/
theorem inverse2_isnan_iff (A : Matrix (Fin 2) (Fin 2) ℚ) :
    (inverse2 A 0 0).isnan = true ↔ det2 A = 0 ∧ A 1 1 = 0 := by
  unfold inverse2 Flt.inv
  simp only [Matrix.cons_val_zero]
  by_cases hd : det2 A = 0
  · by_cases ha : A 1 1 = 0
    · simp [hd, ha, Flt.mul, Flt.isnan]
    · simp [hd, ha, Flt.mul, Flt.isnan]
  · simp [hd, Flt.mul, Flt.isnan]

/-- When the entry (0, 0) of the inverse is a NaN, `warpAffine` returns without
writing. -/
theorem warpAffine_singular (E : Env n) (A : Matrix (Fin 2) (Fin 2) ℚ) (img_ref : Img)
    (px_ref : V2D) (level_ref search_level pyramid_level halfpatch_size : Int) (patch : Buf)
    (h : (inverse2 A 0 0).isnan = true) :
    warpAffine E A img_ref px_ref level_ref search_level pyramid_level halfpatch_size patch
      = patch := by
  unfold warpAffine
  simp only
  rw [if_pos h]

/-- Round of the third loop of `addFromSparseMap` for a cell on whose warp
`warpAffine` returns early: the reference patch stays all zero, and the entry
is appended exactly when the photometric tests accept the all-zero patch. -/
theorem addFromSparseMap.refine_singular (E : Env n) (img : Img) (it : Int → ℚ)
    (s : LidarSelector n) (i : Int) (a r : Nat)
    (hmap : s.grid_num i = CellType.TYPE_MAP) (hpt : s.voxel_points_ i = some a)
    (hdepth : addFromSparseMap.depth_continous E it (s.new_frame_.w2c E (s.points a).pos_)
      (s.new_frame_.w2f (s.points a).pos_ 2) = false)
    (href : Point.getCloseViewObs E s.features (s.points a) s.new_frame_.pos = some r)
    (hsing : (inverse2 (addFromSparseMap.A_cur_ref_zero E s a r) 0 0).isnan = true) :
    (addFromSparseMap.zero_patch_rejected E img s a →
      (addFromSparseMap.refine E img it s i).sub_sparse_map = s.sub_sparse_map) ∧
    (¬ addFromSparseMap.zero_patch_rejected E img s a →
      (addFromSparseMap.refine E img it s i).sub_sparse_map.index = s.sub_sparse_map.index ++ [i] ∧
      (addFromSparseMap.refine E img it s i).sub_sparse_map.voxel_points
        = s.sub_sparse_map.voxel_points ++ [some a] ∧
      (addFromSparseMap.refine E img it s i).sub_sparse_map.patch
        = s.sub_sparse_map.patch ++ [Buf.zeros (E.patch_size_total * 3)]) := by
  unfold addFromSparseMap.A_cur_ref_zero at hsing
  unfold addFromSparseMap.zero_patch_rejected
  unfold addFromSparseMap.refine
  rw [if_pos hmap]
  simp only [hpt, hdepth, href, Bool.false_eq_true, if_false]
  cases hfw : findWarp s.Warp_map (s.features r).id_ with
  | none =>
    simp only [hfw] at hsing ⊢
    have hw : ∀ (sl pl : Int) (p : Buf), warpAffine E _ (s.features r).img (s.features r).px
        (s.features r).level sl pl E.patch_size_half p = p :=
      fun sl pl p => warpAffine_singular E _ _ _ _ _ _ _ p hsing
    simp only [List.foldl, hw]
    constructor
    · rintro (h | h)
      · rw [if_pos h]
      · split_ifs
        · rfl
        · rfl
    · intro h
      rw [not_or] at h
      rw [if_neg h.1, if_neg h.2]
      exact ⟨rfl, rfl, rfl⟩
  | some w =>
    simp only [hfw] at hsing ⊢
    have hw : ∀ (sl pl : Int) (p : Buf), warpAffine E _ (s.features r).img (s.features r).px
        (s.features r).level sl pl E.patch_size_half p = p :=
      fun sl pl p => warpAffine_singular E _ _ _ _ _ _ _ p hsing
    simp only [List.foldl, hw]
    constructor
    · rintro (h | h)
      · rw [if_pos h]
      · split_ifs
        · rfl
        · rfl
    · intro h
      rw [not_or] at h
      rw [if_neg h.1, if_neg h.2]
      exact ⟨rfl, rfl, rfl⟩

/-- C13 (amended): the round of the third loop of `addFromSparseMap` for a
`TYPE_MAP` cell whose chosen Point passes the depth-continuity test and has a
reference observation, when `warpAffine` detects the degenerate warp: the
entry (0, 0) of the inverse of `A_cur_ref` is a NaN, which is the case exactly
when the determinant and the entry (1, 1) of `A_cur_ref` are zero.
`warpAffine` then returns without writing, so the reference patch stays all
zero, and the loop goes on: the sub map is unchanged when the NCC test (if
enabled) or the outlier test rejects the current patch against the all-zero
patch, and otherwise the entry of the cell is appended, with the all-zero
patch. -/
theorem C13_singular_warp_entry (E : Env n) (img : Img) (it : Int → ℚ)
    (s : LidarSelector n) (i : Int) (a r : Nat)
    (hmap : s.grid_num i = CellType.TYPE_MAP) (hpt : s.voxel_points_ i = some a)
    (hdepth : addFromSparseMap.depth_continous E it (s.new_frame_.w2c E (s.points a).pos_)
      (s.new_frame_.w2f (s.points a).pos_ 2) = false)
    (href : Point.getCloseViewObs E s.features (s.points a) s.new_frame_.pos = some r)
    (hnan : (inverse2 (addFromSparseMap.A_cur_ref_zero E s a r) 0 0).isnan = true) :
    (det2 (addFromSparseMap.A_cur_ref_zero E s a r) = 0 ∧
      addFromSparseMap.A_cur_ref_zero E s a r 1 1 = 0) ∧
    (∀ A : Matrix (Fin 2) (Fin 2) ℚ, (inverse2 A 0 0).isnan = true ↔ det2 A = 0 ∧ A 1 1 = 0) ∧
    (addFromSparseMap.zero_patch_rejected E img s a →
      (addFromSparseMap.refine E img it s i).sub_sparse_map = s.sub_sparse_map) ∧
    (¬ addFromSparseMap.zero_patch_rejected E img s a →
      (addFromSparseMap.refine E img it s i).sub_sparse_map.index = s.sub_sparse_map.index ++ [i] ∧
      (addFromSparseMap.refine E img it s i).sub_sparse_map.voxel_points
        = s.sub_sparse_map.voxel_points ++ [some a] ∧
      (addFromSparseMap.refine E img it s i).sub_sparse_map.patch
        = s.sub_sparse_map.patch ++ [Buf.zeros (E.patch_size_total * 3)]) :=
  ⟨(inverse2_isnan_iff _).1 hnan, inverse2_isnan_iff,
    addFromSparseMap.refine_singular E img it s i a r hmap hpt hdepth href hnan⟩

set_option maxHeartbeats 1000000 in
/-- Witness for C13 (amended): the Point seen edge-on of `testMapEdgeOn` and a
bright flat image (grey value 200).  The warp has the columns (2, 0) and
(0, 0), the sum of squares of the current patch, 4 · 200², exceeds the outlier
bound 100 · 4, and the sub map is unchanged by the round of cell 0. -/
theorem C13_singular_warp_entry_witness :
    (inverse2 (addFromSparseMap.A_cur_ref_zero testEnvTall
      (addFromSparseMap.gather testEnvTall [![0, 3 / 2, 2]] testMapEdgeOn) 0 0) 0 0).isnan = true ∧
    addFromSparseMap.zero_patch_rejected testEnvTall (flatImgTall 200)
      (addFromSparseMap.gather testEnvTall [![0, 3 / 2, 2]] testMapEdgeOn) 0 ∧
    (addFromSparseMap.refine testEnvTall (flatImgTall 200)
      (addFromSparseMap.projected testEnvTall [![0, 3 / 2, 2]] testMapEdgeOn).2
      (addFromSparseMap.gather testEnvTall [![0, 3 / 2, 2]] testMapEdgeOn) 0).sub_sparse_map
      = (addFromSparseMap.gather testEnvTall [![0, 3 / 2, 2]] testMapEdgeOn).sub_sparse_map :=
  have hrej : addFromSparseMap.zero_patch_rejected testEnvTall (flatImgTall 200)
      (addFromSparseMap.gather testEnvTall [![0, 3 / 2, 2]] testMapEdgeOn) 0 :=
    Or.inr (by decide!)
  have hnan : (inverse2 (addFromSparseMap.A_cur_ref_zero testEnvTall
      (addFromSparseMap.gather testEnvTall [![0, 3 / 2, 2]] testMapEdgeOn) 0 0) 0 0).isnan
        = true := by
    decide!
  ⟨hnan, hrej,
    (C13_singular_warp_entry testEnvTall (flatImgTall 200)
      (addFromSparseMap.projected testEnvTall [![0, 3 / 2, 2]] testMapEdgeOn).2
      (addFromSparseMap.gather testEnvTall [![0, 3 / 2, 2]] testMapEdgeOn) 0 0 0
      (by decide!) (by decide!) (by decide!) (by decide!) hnan).2.2.1 hrej⟩

set_option maxHeartbeats 1000000 in
/-- C13, counterexample: the Point seen edge-on of `testMapEdgeOn`, the cloud
point (0, 3/2, 2) and a dark flat image (grey value 7).  The Feature is one
that `addSparseMap` creates (unit ray of its pixel, pose of its frame).  The
Point is the chosen Point of the `TYPE_MAP` cell 0 and has its observation as
reference Feature; the warp matrix has the columns (2, 0) and (0, 0), so the
entry (0, 0) of its inverse is a NaN and `warpAffine` returns early; and
`addFromSparseMap` appends the entry of the Point to the sub map, with an
all-zero reference patch: the sum of squares of the current patch, 4 · 49, is
below the outlier bound 100 · 4. -/
theorem C13_counterexample_singular_warp_kept :
    ((addFromSparseMap.gather testEnvTall [![0, 3 / 2, 2]] testMapEdgeOn).grid_num 0
        = CellType.TYPE_MAP ∧
      (addFromSparseMap.gather testEnvTall [![0, 3 / 2, 2]] testMapEdgeOn).voxel_points_ 0
        = some 0 ∧
      Point.getCloseViewObs testEnvTall testMapEdgeOn.features (testMapEdgeOn.points 0)
        testMapEdgeOn.new_frame_.pos = some 0) ∧
    (testEnvTall.cam2world (testMapEdgeOn.features 0).px 0 = (testMapEdgeOn.features 0).f 0 ∧
      testEnvTall.cam2world (testMapEdgeOn.features 0).px 1 = (testMapEdgeOn.features 0).f 1 ∧
      testEnvTall.cam2world (testMapEdgeOn.features 0).px 2 = (testMapEdgeOn.features 0).f 2) ∧
    (testEnvTall.norm3 ((testMapEdgeOn.features 0).pos - (testMapEdgeOn.points 0).pos_) = 5 / 2 ∧
      castInt (testMapEdgeOn.new_frame_.w2c testEnvTall ![0, 3 / 2, 2]) = (20, 24) ∧
      testMapEdgeOn.new_frame_.w2f ![0, 3 / 2, 2] 2 = 1) ∧
    (addFromSparseMap.A_cur_ref_zero testEnvTall
        (addFromSparseMap.gather testEnvTall [![0, 3 / 2, 2]] testMapEdgeOn) 0 0 0 0 = 2 ∧
      addFromSparseMap.A_cur_ref_zero testEnvTall
        (addFromSparseMap.gather testEnvTall [![0, 3 / 2, 2]] testMapEdgeOn) 0 0 0 1 = 0 ∧
      addFromSparseMap.A_cur_ref_zero testEnvTall
        (addFromSparseMap.gather testEnvTall [![0, 3 / 2, 2]] testMapEdgeOn) 0 0 1 0 = 0 ∧
      addFromSparseMap.A_cur_ref_zero testEnvTall
        (addFromSparseMap.gather testEnvTall [![0, 3 / 2, 2]] testMapEdgeOn) 0 0 1 1 = 0 ∧
      (inverse2 (addFromSparseMap.A_cur_ref_zero testEnvTall
        (addFromSparseMap.gather testEnvTall [![0, 3 / 2, 2]] testMapEdgeOn) 0 0) 0 0).isnan
          = true) ∧
    ((addFromSparseMap testEnvTall (flatImgTall 7) [![0, 3 / 2, 2]]
        testMapEdgeOn).sub_sparse_map.index = [0] ∧
      (addFromSparseMap testEnvTall (flatImgTall 7) [![0, 3 / 2, 2]]
        testMapEdgeOn).sub_sparse_map.voxel_points = [some 0] ∧
      (addFromSparseMap testEnvTall (flatImgTall 7) [![0, 3 / 2, 2]]
        testMapEdgeOn).sub_sparse_map.errors = [196] ∧
      (addFromSparseMap testEnvTall (flatImgTall 7) [![0, 3 / 2, 2]]
        testMapEdgeOn).sub_sparse_map.patch.map (fun p => (p.data 0, p.data 1, p.data 2, p.data 3))
        = [(0, 0, 0, 0)]) := by
  refine ⟨⟨by decide!, by decide!, by decide!⟩, ⟨by decide!, by decide!, by decide!⟩,
    ⟨by decide!, by decide!, by decide!⟩,
    ⟨by decide!, by decide!, by decide!, by decide!, by decide!⟩,
    ⟨by decide!, by decide!, by decide!, by decide!⟩⟩

/-! ## Key points of a frame (`setKeyPoints`, `checkKeyPoints`) -/

/-- C14: slot 4 of `setKeyPoints` does not hold the Feature farthest into the
quadrant `u < cu ∧ v ≥ cv`.  On the test camera (`cu = 80`, `cv = 60`), with
the Feature at (79, 61) attached before the Feature at (70, 70), both in the
quadrant, slot 4 ends with the Feature at (79, 61), whose product
`(cu - u) * (v - cv)` is 1, although the other Feature has product 100: the
test of the source compares `cu - u * (v - cv) = 80 - 70 * 10 = -620` against
the holder's product 1. -/
theorem C14_slot4_not_farthest :
    (Frame.setKeyPoints (testEnv 200) testKeyFeatures (testKeyFrame [some 0, some 1])).key_pts_ 4
      = some 0 ∧
    ((testKeyFeatures 1).px 0 < 80 ∧ (testKeyFeatures 1).px 1 ≥ 60) ∧
    (80 - (testKeyFeatures 0).px 0) * ((testKeyFeatures 0).px 1 - 60) <
      (80 - (testKeyFeatures 1).px 0) * ((testKeyFeatures 1).px 1 - 60) := by
  refine ⟨by decide!, by decide!, by decide!⟩

/-- A key slot filled by strict comparisons, started empty: it is empty iff no
entry qualifies, and otherwise holds the first maximiser. -/
theorem Frame.keyStep_foldl (qual : Nat → Prop) [DecidablePred qual] (val : Nat → ℚ)
    (l : List Nat) :
    (l.foldl (Frame.keyStep qual val) none = none ↔ ∀ a ∈ l, ¬ qual a) ∧
    (∀ a, l.foldl (Frame.keyStep qual val) none = some a → Frame.FirstMax qual val l a) := by
  induction l using List.reverseRecOn with
  | nil =>
    refine ⟨by simp, ?_⟩
    intro a h
    cases h
  | append_singleton l x ih =>
    obtain ⟨ih1, ih2⟩ := ih
    rw [List.foldl_append]
    simp only [List.foldl_cons, List.foldl_nil]
    by_cases hx : qual x
    · cases hres : l.foldl (Frame.keyStep qual val) none with
      | none =>
        have hnone := ih1.1 hres
        have hstep : Frame.keyStep qual val none x = some x := by
          unfold Frame.keyStep Frame.slot
          rw [if_pos hx]
        rw [hstep]
        refine ⟨?_, ?_⟩
        · constructor
          · intro h; cases h
          · intro h
            exact absurd hx (h x (by simp))
        · intro a ha
          cases ha
          exact ⟨hx, l, [], rfl, fun b hb hq => absurd hq (hnone b hb), by simp⟩
      | some k =>
        obtain ⟨hk, pre, post, hl, hpre, hpost⟩ := ih2 k hres
        have hall : ∀ b ∈ l, qual b → val b ≤ val k := by
          intro b hb hq
          rw [hl] at hb
          rcases List.mem_append.1 hb with h | h
          · exact (hpre b h hq).le
          · rcases List.mem_cons.1 h with h | h
            · rw [h]
            · exact hpost b h hq
        by_cases hgt : val x > val k
        · have hstep : Frame.keyStep qual val (some k) x = some x := by
            unfold Frame.keyStep Frame.slot
            rw [if_pos hx]
            simp [hgt]
          rw [hstep]
          refine ⟨?_, ?_⟩
          · constructor
            · intro h; cases h
            · intro h
              exact absurd hx (h x (by simp))
          · intro a ha
            cases ha
            exact ⟨hx, l, [], rfl, fun b hb hq => lt_of_le_of_lt (hall b hb hq) hgt, by simp⟩
        · have hstep : Frame.keyStep qual val (some k) x = some k := by
            unfold Frame.keyStep Frame.slot
            rw [if_pos hx]
            simp [hgt]
          rw [hstep]
          refine ⟨?_, ?_⟩
          · constructor
            · intro h; cases h
            · intro h
              exact absurd hx (h x (by simp))
          · intro a ha
            cases ha
            refine ⟨hk, pre, post ++ [x], by rw [hl]; simp, hpre, ?_⟩
            intro b hb hq
            rcases List.mem_append.1 hb with h | h
            · exact hpost b h hq
            · cases List.mem_singleton.1 h
              exact not_lt.1 hgt
    · have hstep : ∀ cur, Frame.keyStep qual val cur x = cur := by
        intro cur
        unfold Frame.keyStep
        rw [if_neg hx]
      rw [hstep]
      refine ⟨?_, ?_⟩
      · rw [ih1]
        constructor
        · intro h a ha
          rcases List.mem_append.1 ha with h1 | h1
          · exact h a h1
          · cases List.mem_singleton.1 h1
            exact hx
        · intro h a ha
          exact h a (List.mem_append_left _ ha)
      · intro a ha
        obtain ⟨hk, pre, post, hl, hpre, hpost⟩ := ih2 a ha
        refine ⟨hk, pre, post ++ [x], by rw [hl]; simp, hpre, ?_⟩
        intro b hb hq
        rcases List.mem_append.1 hb with h | h
        · exact hpost b h hq
        · cases List.mem_singleton.1 h
          exact absurd hq hx

/-- The loop of `setKeyPoints` over the feature list is the loop of
`checkKeyPoints` over the features that have a Point. -/
theorem Frame.foldl_candidates (E : Env n) (features : Nat → Feature) (fts : List FeaturePtr)
    (acc : Frame) :
    fts.foldl (fun acc ftr =>
        match ftr with
        | none => acc
        | some a => if (features a).point ≠ none then Frame.checkKeyPoints E features acc a else acc)
      acc =
    (fts.filterMap (fun ftr =>
        match ftr with
        | none => none
        | some a => if (features a).point ≠ none then some a else none)).foldl
      (Frame.checkKeyPoints E features) acc := by
  induction fts generalizing acc with
  | nil => rfl
  | cons f fts ih =>
    rw [List.foldl_cons, ih]
    cases f with
    | none => simp [List.filterMap_cons]
    | some a =>
      by_cases hp : (features a).point = none
      · simp [List.filterMap_cons, hp]
      · simp [List.filterMap_cons, hp]

/-- The loop of `setKeyPoints` is the loop of `checkKeyPoints` over the
candidates. -/
theorem Frame.setKeyPoints_candidates (E : Env n) (features : Nat → Feature) (fr : Frame) :
    Frame.setKeyPoints E features fr =
      (Frame.candidates features fr).foldl (Frame.checkKeyPoints E features)
        { fr with key_pts_ := fun i =>
            match fr.key_pts_ i with
            | none => none
            | some k => if (features k).point = none then none else some k } := by
  unfold Frame.setKeyPoints Frame.candidates
  exact Frame.foldl_candidates E features fr.fts_ _

/-- Slot 0 of one round of `checkKeyPoints`. -/
theorem Frame.checkKeyPoints_slot0 (E : Env n) (features : Nat → Feature) (fr : Frame) (a : Nat) :
    (Frame.checkKeyPoints E features fr a).key_pts_ 0 =
      Frame.keyStep (fun _ => True) (fun k => -Frame.centreDist E features k) (fr.key_pts_ 0) a := by
  unfold Frame.checkKeyPoints Frame.keyStep Frame.centreDist
  simp only [Matrix.cons_val_zero, if_true, gt_iff_lt, neg_lt_neg_iff]

/-- Slot 1 of one round of `checkKeyPoints`. -/
theorem Frame.checkKeyPoints_slot1 (E : Env n) (features : Nat → Feature) (fr : Frame) (a : Nat) :
    (Frame.checkKeyPoints E features fr a).key_pts_ 1 =
      Frame.keyStep
        (fun k => (features k).px 0 ≥ ((Int.tdiv E.width 2 : Int) : ℚ) ∧
          (features k).px 1 ≥ ((Int.tdiv E.height 2 : Int) : ℚ))
        (fun k => ((features k).px 0 - ((Int.tdiv E.width 2 : Int) : ℚ)) *
          ((features k).px 1 - ((Int.tdiv E.height 2 : Int) : ℚ))) (fr.key_pts_ 1) a := by
  unfold Frame.checkKeyPoints Frame.keyStep
  simp only [Matrix.cons_val_one, Matrix.head_cons]

/-- Slot 2 of one round of `checkKeyPoints`. -/
theorem Frame.checkKeyPoints_slot2 (E : Env n) (features : Nat → Feature) (fr : Frame) (a : Nat) :
    (Frame.checkKeyPoints E features fr a).key_pts_ 2 =
      Frame.keyStep
        (fun k => (features k).px 0 ≥ ((Int.tdiv E.width 2 : Int) : ℚ) ∧
          (features k).px 1 < ((Int.tdiv E.height 2 : Int) : ℚ))
        (fun k => ((features k).px 0 - ((Int.tdiv E.width 2 : Int) : ℚ)) *
          (((Int.tdiv E.height 2 : Int) : ℚ) - (features k).px 1)) (fr.key_pts_ 2) a := by
  unfold Frame.checkKeyPoints Frame.keyStep
  rfl

/-- Slot 3 of one round of `checkKeyPoints`. -/
theorem Frame.checkKeyPoints_slot3 (E : Env n) (features : Nat → Feature) (fr : Frame) (a : Nat) :
    (Frame.checkKeyPoints E features fr a).key_pts_ 3 =
      Frame.keyStep
        (fun k => (features k).px 0 < ((Int.tdiv E.width 2 : Int) : ℚ) ∧
          (features k).px 1 < ((Int.tdiv E.height 2 : Int) : ℚ))
        (fun k => ((features k).px 0 - ((Int.tdiv E.width 2 : Int) : ℚ)) *
          ((features k).px 1 - ((Int.tdiv E.height 2 : Int) : ℚ))) (fr.key_pts_ 3) a := by
  unfold Frame.checkKeyPoints Frame.keyStep
  rfl

/-- A slot that every round of a loop updates by `Frame.keyStep`. -/
theorem Frame.slot_foldl (E : Env n) (features : Nat → Feature) (j : Fin 5)
    (qual : Nat → Prop) [DecidablePred qual] (val : Nat → ℚ)
    (hstep : ∀ fr a, (Frame.checkKeyPoints E features fr a).key_pts_ j =
      Frame.keyStep qual val (fr.key_pts_ j) a)
    (l : List Nat) (fr : Frame) :
    (l.foldl (Frame.checkKeyPoints E features) fr).key_pts_ j =
      l.foldl (Frame.keyStep qual val) (fr.key_pts_ j) := by
  induction l generalizing fr with
  | nil => rfl
  | cons a l ih => rw [List.foldl_cons, ih, hstep, List.foldl_cons]

/-- The first maximiser only depends on the values of the entries that qualify. -/
theorem Frame.FirstMax_congr (qual : Nat → Prop) (val val2 : Nat → ℚ) (l : List Nat) (a : Nat)
    (hval : ∀ b, qual b → val b = val2 b) (h : Frame.FirstMax qual val l a) :
    Frame.FirstMax qual val2 l a := by
  obtain ⟨ha, pre, post, hl, hpre, hpost⟩ := h
  refine ⟨ha, pre, post, hl, ?_, ?_⟩
  · intro b hb hq
    rw [← hval b hq, ← hval a ha]
    exact hpre b hb hq
  · intro b hb hq
    rw [← hval b hq, ← hval a ha]
    exact hpost b hb hq

/-- C15: key slots 0 to 3 after `setKeyPoints` on a Frame whose key slots are
empty, the candidates being the attached Features that have a Point, in list
order.  Slot 0 is empty iff there is no candidate, and otherwise holds the
first candidate that minimises `max(|u - cu|, |v - cv|)`: candidates before it
are strictly farther from the centre, candidates after it at least as far.
Each of slots 1, 2, 3 is empty iff no candidate lies in its quadrant
(`u ≥ cu ∧ v ≥ cv`; `u ≥ cu ∧ v < cv`; `u < cu ∧ v < cv`), and otherwise holds
the first candidate of the quadrant that maximises `|u - cu| * |v - cv|`
within the quadrant. -/
theorem C15_key_slots_first_extremum (E : Env n) (features : Nat → Feature) (fr : Frame)
    (hempty : ∀ i, fr.key_pts_ i = none) :
    (((Frame.setKeyPoints E features fr).key_pts_ 0 = none ↔ Frame.candidates features fr = []) ∧
      ∀ a, (Frame.setKeyPoints E features fr).key_pts_ 0 = some a →
        ∃ pre post, Frame.candidates features fr = pre ++ a :: post ∧
          (∀ b ∈ pre, Frame.centreDist E features a < Frame.centreDist E features b) ∧
          (∀ b ∈ post, Frame.centreDist E features a ≤ Frame.centreDist E features b)) ∧
    (((Frame.setKeyPoints E features fr).key_pts_ 1 = none ↔
        ∀ a ∈ Frame.candidates features fr,
          ¬ ((features a).px 0 ≥ Frame.cu E ∧ (features a).px 1 ≥ Frame.cv E)) ∧
      ∀ a, (Frame.setKeyPoints E features fr).key_pts_ 1 = some a →
        Frame.FirstMax (fun k => (features k).px 0 ≥ Frame.cu E ∧ (features k).px 1 ≥ Frame.cv E)
          (Frame.cornerDist E features) (Frame.candidates features fr) a) ∧
    (((Frame.setKeyPoints E features fr).key_pts_ 2 = none ↔
        ∀ a ∈ Frame.candidates features fr,
          ¬ ((features a).px 0 ≥ Frame.cu E ∧ (features a).px 1 < Frame.cv E)) ∧
      ∀ a, (Frame.setKeyPoints E features fr).key_pts_ 2 = some a →
        Frame.FirstMax (fun k => (features k).px 0 ≥ Frame.cu E ∧ (features k).px 1 < Frame.cv E)
          (Frame.cornerDist E features) (Frame.candidates features fr) a) ∧
    (((Frame.setKeyPoints E features fr).key_pts_ 3 = none ↔
        ∀ a ∈ Frame.candidates features fr,
          ¬ ((features a).px 0 < Frame.cu E ∧ (features a).px 1 < Frame.cv E)) ∧
      ∀ a, (Frame.setKeyPoints E features fr).key_pts_ 3 = some a →
        Frame.FirstMax (fun k => (features k).px 0 < Frame.cu E ∧ (features k).px 1 < Frame.cv E)
          (Frame.cornerDist E features) (Frame.candidates features fr) a) := by
  have hstart : ∀ j : Fin 5, (Frame.setKeyPoints E features fr).key_pts_ j =
      ((Frame.candidates features fr).foldl (Frame.checkKeyPoints E features)
        { fr with key_pts_ := fun _ => none }).key_pts_ j := by
    intro j
    rw [Frame.setKeyPoints_candidates]
    have hc : (fun i => match fr.key_pts_ i with
        | none => (none : FeaturePtr)
        | some k => if (features k).point = none then none else some k) = fun _ => none := by
      funext i
      rw [hempty i]
    rw [hc]
  refine ⟨?_, ?_, ?_, ?_⟩
  · rw [hstart 0, Frame.slot_foldl E features 0 _ _ (Frame.checkKeyPoints_slot0 E features)]
    obtain ⟨h1, h2⟩ := Frame.keyStep_foldl (fun _ => True)
      (fun k => -Frame.centreDist E features k) (Frame.candidates features fr)
    refine ⟨?_, ?_⟩
    · rw [h1]
      constructor
      · intro h
        cases hl : Frame.candidates features fr with
        | nil => rfl
        | cons a l => exact absurd trivial (h a (by rw [hl]; simp))
      · intro h a ha
        rw [h] at ha
        cases ha
    · intro a ha
      obtain ⟨_, pre, post, hl, hpre, hpost⟩ := h2 a ha
      refine ⟨pre, post, hl, ?_, ?_⟩
      · intro b hb
        exact neg_lt_neg_iff.1 (hpre b hb trivial)
      · intro b hb
        exact neg_le_neg_iff.1 (hpost b hb trivial)
  · rw [hstart 1, Frame.slot_foldl E features 1 _ _ (Frame.checkKeyPoints_slot1 E features)]
    obtain ⟨h1, h2⟩ := Frame.keyStep_foldl
      (fun k => (features k).px 0 ≥ ((Int.tdiv E.width 2 : Int) : ℚ) ∧
          (features k).px 1 ≥ ((Int.tdiv E.height 2 : Int) : ℚ))
      (fun k => ((features k).px 0 - ((Int.tdiv E.width 2 : Int) : ℚ)) *
          ((features k).px 1 - ((Int.tdiv E.height 2 : Int) : ℚ)))
      (Frame.candidates features fr)
    refine ⟨h1, fun a ha => Frame.FirstMax_congr _ _ _ _ _ ?_ (h2 a ha)⟩
    rintro b ⟨hb1, hb2⟩
    unfold Frame.cu at hb1
    unfold Frame.cv at hb2
    unfold Frame.cornerDist
    rw [abs_of_nonneg (sub_nonneg.2 hb1), abs_of_nonneg (sub_nonneg.2 hb2)]
  · rw [hstart 2, Frame.slot_foldl E features 2 _ _ (Frame.checkKeyPoints_slot2 E features)]
    obtain ⟨h1, h2⟩ := Frame.keyStep_foldl
      (fun k => (features k).px 0 ≥ ((Int.tdiv E.width 2 : Int) : ℚ) ∧
          (features k).px 1 < ((Int.tdiv E.height 2 : Int) : ℚ))
      (fun k => ((features k).px 0 - ((Int.tdiv E.width 2 : Int) : ℚ)) *
          (((Int.tdiv E.height 2 : Int) : ℚ) - (features k).px 1))
      (Frame.candidates features fr)
    refine ⟨h1, fun a ha => Frame.FirstMax_congr _ _ _ _ _ ?_ (h2 a ha)⟩
    rintro b ⟨hb1, hb2⟩
    unfold Frame.cu at hb1
    unfold Frame.cv at hb2
    unfold Frame.cornerDist
    rw [abs_of_nonneg (sub_nonneg.2 hb1), abs_of_neg (sub_neg.2 hb2), neg_sub]
  · rw [hstart 3, Frame.slot_foldl E features 3 _ _ (Frame.checkKeyPoints_slot3 E features)]
    obtain ⟨h1, h2⟩ := Frame.keyStep_foldl
      (fun k => (features k).px 0 < ((Int.tdiv E.width 2 : Int) : ℚ) ∧
          (features k).px 1 < ((Int.tdiv E.height 2 : Int) : ℚ))
      (fun k => ((features k).px 0 - ((Int.tdiv E.width 2 : Int) : ℚ)) *
          ((features k).px 1 - ((Int.tdiv E.height 2 : Int) : ℚ)))
      (Frame.candidates features fr)
    refine ⟨h1, fun a ha => Frame.FirstMax_congr _ _ _ _ _ ?_ (h2 a ha)⟩
    rintro b ⟨hb1, hb2⟩
    unfold Frame.cu at hb1
    unfold Frame.cv at hb2
    unfold Frame.cornerDist
    rw [abs_of_neg (sub_neg.2 hb1), abs_of_neg (sub_neg.2 hb2), neg_mul_neg]

/-- Witness for C15: the Features at (79, 61) and (70, 70) on the test camera,
attached in this order to a Frame with empty key slots; slot 0 holds the first
one, the closest to the centre (80, 60). -/
theorem C15_key_slots_first_extremum_witness :
    (∀ i, (testKeyFrame [some 0, some 1]).key_pts_ i = none) ∧
    (Frame.setKeyPoints (testEnv 200) testKeyFeatures (testKeyFrame [some 0, some 1])).key_pts_ 0
      = some 0 ∧
    ∃ pre post, Frame.candidates testKeyFeatures (testKeyFrame [some 0, some 1])
        = pre ++ 0 :: post ∧
      (∀ b ∈ pre, Frame.centreDist (testEnv 200) testKeyFeatures 0
        < Frame.centreDist (testEnv 200) testKeyFeatures b) ∧
      (∀ b ∈ post, Frame.centreDist (testEnv 200) testKeyFeatures 0
        ≤ Frame.centreDist (testEnv 200) testKeyFeatures b) :=
  have h0 : (Frame.setKeyPoints (testEnv 200) testKeyFeatures
      (testKeyFrame [some 0, some 1])).key_pts_ 0 = some 0 := by decide!
  ⟨fun _ => rfl, h0,
    (C15_key_slots_first_extremum (testEnv 200) testKeyFeatures (testKeyFrame [some 0, some 1])
      (fun _ => rfl)).1.2 0 h0⟩

/-! ## The winner of a cell in `addSparseMap` -/

/-- One round of the first loop of `addSparseMap` seen from cell `c`: the cell
takes the point when the point is a point of the cell and its score strictly
exceeds the stored score, and is left as it is otherwise. -/
theorem addSparseMap.visit_cell (E : Env n) (img : Img) (s : LidarSelector n) (pt : V3D)
    (c : Int) :
    (addSparseMap.visit E img s pt).new_frame_ = s.new_frame_ ∧
    ((addSparseMap.inCell E s.new_frame_ c pt ∧
        addSparseMap.score E img s.new_frame_ pt > s.map_value c) →
      (addSparseMap.visit E img s pt).map_value c = addSparseMap.score E img s.new_frame_ pt ∧
      (addSparseMap.visit E img s pt).add_voxel_points_ c = pt ∧
      (addSparseMap.visit E img s pt).grid_num c = CellType.TYPE_POINTCLOUD) ∧
    (¬ (addSparseMap.inCell E s.new_frame_ c pt ∧
        addSparseMap.score E img s.new_frame_ pt > s.map_value c) →
      (addSparseMap.visit E img s pt).map_value c = s.map_value c ∧
      (addSparseMap.visit E img s pt).add_voxel_points_ c = s.add_voxel_points_ c ∧
      (addSparseMap.visit E img s pt).grid_num c = s.grid_num c) := by
  unfold addSparseMap.visit addSparseMap.inCell addSparseMap.score
  simp only
  split
  · rename_i hin
    split
    · rename_i hgt
      refine ⟨rfl, ?_, ?_⟩
      · rintro ⟨⟨_, hidx⟩, _⟩
        subst hidx
        exact ⟨Function.update_same _ _ _, Function.update_same _ _ _,
          Function.update_same _ _ _⟩
      · intro hnot
        have hne : c ≠ E.gridIndex (s.new_frame_.w2c E pt) := by
          intro h
          exact hnot ⟨⟨hin, h.symm⟩, h ▸ hgt⟩
        exact ⟨Function.update_noteq hne _ _, Function.update_noteq hne _ _,
          Function.update_noteq hne _ _⟩
    · rename_i hgt
      refine ⟨rfl, ?_, fun _ => ⟨rfl, rfl, rfl⟩⟩
      rintro ⟨⟨_, hidx⟩, h⟩
      exact absurd (hidx ▸ h) hgt
  · rename_i hin
    refine ⟨rfl, ?_, fun _ => ⟨rfl, rfl, rfl⟩⟩
    rintro ⟨⟨h, _⟩, _⟩
    exact absurd h hin

/-- Every cloud point of the cell scores at most as much as the winner. -/
theorem addSparseMap.Winner_max (E : Env n) (img : Img) (fr : Frame) (c : Int) (pg : PointCloud)
    (w : V3D) (h : addSparseMap.Winner E img fr c pg w) :
    ∀ b ∈ pg, addSparseMap.inCell E fr c b →
      addSparseMap.score E img fr b ≤ addSparseMap.score E img fr w := by
  obtain ⟨_, pre, post, hl, hpre, hpost⟩ := h
  intro b hb hq
  rw [hl] at hb
  rcases List.mem_append.1 hb with h1 | h1
  · exact (hpre b h1 hq).le
  · rcases List.mem_cons.1 h1 with h2 | h2
    · rw [h2]
    · exact hpost b h2 hq

/-- First loop of `addSparseMap` seen from a cell `c` that is not marked
`TYPE_POINTCLOUD` at the start: either no cloud point of the cell scores above
the score the cell held at the start, and the cell is as it was; or the cell is
marked `TYPE_POINTCLOUD` and holds the winner and its score, which is above
the score held at the start. -/
theorem addSparseMap.visits_winner (E : Env n) (img : Img) (s0 : LidarSelector n) (c : Int)
    (hg : s0.grid_num c ≠ CellType.TYPE_POINTCLOUD) (pg : List V3D) :
    (pg.foldl (addSparseMap.visit E img) s0).new_frame_ = s0.new_frame_ ∧
    (((pg.foldl (addSparseMap.visit E img) s0).grid_num c ≠ CellType.TYPE_POINTCLOUD ∧
      (pg.foldl (addSparseMap.visit E img) s0).map_value c = s0.map_value c ∧
      ∀ pt ∈ pg, addSparseMap.inCell E s0.new_frame_ c pt →
        addSparseMap.score E img s0.new_frame_ pt ≤ s0.map_value c) ∨
    ((pg.foldl (addSparseMap.visit E img) s0).grid_num c = CellType.TYPE_POINTCLOUD ∧
      addSparseMap.Winner E img s0.new_frame_ c pg
        ((pg.foldl (addSparseMap.visit E img) s0).add_voxel_points_ c) ∧
      (pg.foldl (addSparseMap.visit E img) s0).map_value c =
        addSparseMap.score E img s0.new_frame_
          ((pg.foldl (addSparseMap.visit E img) s0).add_voxel_points_ c) ∧
      addSparseMap.score E img s0.new_frame_
          ((pg.foldl (addSparseMap.visit E img) s0).add_voxel_points_ c) > s0.map_value c)) := by
  induction pg using List.reverseRecOn with
  | nil =>
    refine ⟨rfl, Or.inl ⟨hg, rfl, ?_⟩⟩
    intro pt hpt
    cases hpt
  | append_singleton pg x ih =>
    rw [List.foldl_append]
    simp only [List.foldl_cons, List.foldl_nil]
    generalize pg.foldl (addSparseMap.visit E img) s0 = t at ih
    obtain ⟨hfr, ih⟩ := ih
    obtain ⟨vfr, vyes, vno⟩ := addSparseMap.visit_cell E img t x c
    rw [hfr] at vyes vno
    refine ⟨vfr.trans hfr, ?_⟩
    by_cases hcond : addSparseMap.inCell E s0.new_frame_ c x ∧
        addSparseMap.score E img s0.new_frame_ x > t.map_value c
    · obtain ⟨e1, e2, e3⟩ := vyes hcond
      right
      rw [e1, e2, e3]
      have hbelow : ∀ b ∈ pg, addSparseMap.inCell E s0.new_frame_ c b →
          addSparseMap.score E img s0.new_frame_ b ≤ t.map_value c := by
        rcases ih with ⟨_, h2, h3⟩ | ⟨_, h2, h3, _⟩
        · intro b hb hq
          rw [h2]
          exact h3 b hb hq
        · intro b hb hq
          rw [h3]
          exact addSparseMap.Winner_max E img _ c pg _ h2 b hb hq
      have hstart : s0.map_value c ≤ t.map_value c := by
        rcases ih with ⟨_, h2, _⟩ | ⟨_, _, h3, h4⟩
        · rw [h2]
        · rw [h3]
          exact h4.le
      refine ⟨rfl, ⟨hcond.1, pg, [], rfl, ?_, ?_⟩, rfl, lt_of_le_of_lt hstart hcond.2⟩
      · intro b hb hq
        exact lt_of_le_of_lt (hbelow b hb hq) hcond.2
      · intro b hb
        cases hb
    · obtain ⟨e1, e2, e3⟩ := vno hcond
      rw [e1, e2, e3]
      rcases ih with ⟨h1, h2, h3⟩ | ⟨h1, h2, h3, h4⟩
      · left
        refine ⟨h1, h2, ?_⟩
        intro pt hpt hq
        rcases List.mem_append.1 hpt with h | h
        · exact h3 pt h hq
        · cases List.mem_singleton.1 h
          rw [← h2]
          by_contra hlt
          exact hcond ⟨hq, not_le.1 hlt⟩
      · right
        refine ⟨h1, ?_, h3, h4⟩
        obtain ⟨hw, pre, post, hl, hpre, hpost⟩ := h2
        refine ⟨hw, pre, post ++ [x], by rw [hl]; simp, hpre, ?_⟩
        intro b hb hq
        rcases List.mem_append.1 hb with h | h
        · exact hpost b h hq
        · cases List.mem_singleton.1 h
          rw [← h3]
          by_contra hlt
          exact hcond ⟨hq, not_le.1 hlt⟩

/-- Second loop of `addSparseMap`: one Point is created for each cell marked
`TYPE_POINTCLOUD`, in the order of the loop, at the next free addresses; the
Point of a cell lies at the cloud point stored in the cell and carries the
score stored in the cell. -/
theorem addSparseMap.create_count (E : Env n) (sel : LidarSelector n) (l : List Int) :
    (l.foldl (addSparseMap.create E) sel).n_points =
      sel.n_points + (l.filter (fun c => decide (sel.grid_num c = CellType.TYPE_POINTCLOUD))).length ∧
    ∀ k c, (l.filter (fun c => decide (sel.grid_num c = CellType.TYPE_POINTCLOUD)))[k]? = some c →
      ((l.foldl (addSparseMap.create E) sel).points (sel.n_points + k)).pos_
        = sel.add_voxel_points_ c ∧
      ((l.foldl (addSparseMap.create E) sel).points (sel.n_points + k)).value
        = sel.map_value c := by
  induction l using List.reverseRecOn with
  | nil =>
    refine ⟨rfl, ?_⟩
    intro k c h
    simp at h
  | append_singleton l x ih =>
    obtain ⟨b1, b2, b3, _⟩ := addSparseMap.create_base E sel l
    rw [List.foldl_append]
    simp only [List.foldl_cons, List.foldl_nil, List.filter_append]
    generalize l.foldl (addSparseMap.create E) sel = t at ih b1 b2 b3
    obtain ⟨ih1, ih2⟩ := ih
    unfold addSparseMap.create
    by_cases hx : sel.grid_num x = CellType.TYPE_POINTCLOUD
    · have hx2 : t.grid_num x = CellType.TYPE_POINTCLOUD := by rw [b1]; exact hx
      rw [if_pos hx2]
      have hf : List.filter (fun c => decide (sel.grid_num c = CellType.TYPE_POINTCLOUD)) [x]
          = [x] := by
        simp [List.filter, hx]
      rw [hf]
      refine ⟨?_, ?_⟩
      · show t.n_points + 1 = _
        rw [ih1, List.length_append]
        simp only [List.length_singleton]
        omega
      · intro k c hk
        show (Function.update t.points t.n_points (addSparseMap.pt_new t x t.n_features)
          (sel.n_points + k)).pos_ = _ ∧
          (Function.update t.points t.n_points (addSparseMap.pt_new t x t.n_features)
          (sel.n_points + k)).value = _
        by_cases hlt : k < (l.filter
            (fun c => decide (sel.grid_num c = CellType.TYPE_POINTCLOUD))).length
        · rw [List.getElem?_append_left hlt] at hk
          have hne : sel.n_points + k ≠ t.n_points := by omega
          rw [Function.update_noteq hne]
          exact ih2 k c hk
        · have hge : (l.filter
              (fun c => decide (sel.grid_num c = CellType.TYPE_POINTCLOUD))).length ≤ k := by
            omega
          rw [List.getElem?_append_right hge] at hk
          have hk0 : k - (l.filter
              (fun c => decide (sel.grid_num c = CellType.TYPE_POINTCLOUD))).length = 0 := by
            by_contra hne
            rw [List.getElem?_eq_none (by simp; omega)] at hk
            cases hk
          rw [hk0] at hk
          simp only [List.getElem?_cons_zero, Option.some.injEq] at hk
          subst hk
          have he : sel.n_points + k = t.n_points := by omega
          rw [he, Function.update_same]
          exact ⟨by rw [← b3]; rfl, by rw [← b2]; rfl⟩
    · have hx2 : ¬ t.grid_num x = CellType.TYPE_POINTCLOUD := by rw [b1]; exact hx
      rw [if_neg hx2]
      have hf : List.filter (fun c => decide (sel.grid_num c = CellType.TYPE_POINTCLOUD)) [x]
          = [] := by
        simp [List.filter, hx]
      rw [hf, List.append_nil]
      exact ⟨ih1, ih2⟩

/-- The grid cells are visited once each. -/
theorem Env.cells_nodup {n : ℕ} (E : Env n) : E.cells.Nodup := by
  unfold Env.cells
  exact List.Nodup.map (fun a b h => Int.ofNat.inj h) (List.nodup_range _)

/-- The winner of a cell is a point of the cloud. -/
theorem addSparseMap.Winner_mem (E : Env n) (img : Img) (fr : Frame) (c : Int) (pg : PointCloud)
    (w : V3D) (h : addSparseMap.Winner E img fr c pg w) : w ∈ pg := by
  obtain ⟨_, pre, post, hl, _⟩ := h
  rw [hl]
  simp

/-- C16: the cell winner of `addSparseMap`.  A round of the first loop replaces
the cloud point stored in a cell only when the score of the visited point
strictly exceeds the score stored in the cell.  Hence, for every grid cell
`c`: a Point is created for `c` iff some cloud point of the cell (projected
inside the safe border, into `c`) scores strictly above the score the cell
held on entry; the Point is then created at the winner of the cell, the
first cloud point in input order that attains the largest score among the
cloud points of the cell, and carries that score.  The Points created by a
call are one per such cell, without repetition, at the next free addresses
in cell order, so there are at most
`static_cast<int>(width/grid_size) * static_cast<int>(height/grid_size)`. -/
theorem C16_cell_winner (E : Env n) (img : Img) (pg : PointCloud) (s : LidarSelector n) :
    (∀ (t : LidarSelector n) (pt : V3D) (c : Int),
      (addSparseMap.visit E img t pt).add_voxel_points_ c ≠ t.add_voxel_points_ c →
        addSparseMap.inCell E t.new_frame_ c pt ∧
        addSparseMap.score E img t.new_frame_ pt > t.map_value c) ∧
    (∀ c, E.inGrid c →
      (c ∈ addSparseMap.created_cells E (addSparseMap.select E img pg s) ↔
        ∃ pt ∈ pg, addSparseMap.inCell E s.new_frame_ c pt ∧
          addSparseMap.score E img s.new_frame_ pt > s.map_value c)) ∧
    (∀ c ∈ addSparseMap.created_cells E (addSparseMap.select E img pg s),
      addSparseMap.Winner E img s.new_frame_ c pg
        ((addSparseMap.select E img pg s).add_voxel_points_ c) ∧
      (addSparseMap.select E img pg s).map_value c =
        addSparseMap.score E img s.new_frame_
          ((addSparseMap.select E img pg s).add_voxel_points_ c)) ∧
    ((addSparseMap E img pg s).n_points =
        s.n_points + (addSparseMap.created_cells E (addSparseMap.select E img pg s)).length ∧
      (addSparseMap.created_cells E (addSparseMap.select E img pg s)).Nodup ∧
      (addSparseMap.created_cells E (addSparseMap.select E img pg s)).length ≤
        (Int.tdiv E.width E.grid_size * Int.tdiv E.height E.grid_size).toNat) ∧
    (∀ k c, (addSparseMap.created_cells E (addSparseMap.select E img pg s))[k]? = some c →
      ((addSparseMap E img pg s).points (s.n_points + k)).pos_ =
        (addSparseMap.select E img pg s).add_voxel_points_ c ∧
      ((addSparseMap E img pg s).points (s.n_points + k)).value =
        (addSparseMap.select E img pg s).map_value c) := by
  have hsel : ∀ c, E.inGrid c →
      (((addSparseMap.select E img pg s).grid_num c ≠ CellType.TYPE_POINTCLOUD ∧
        ∀ pt ∈ pg, addSparseMap.inCell E s.new_frame_ c pt →
          addSparseMap.score E img s.new_frame_ pt ≤ s.map_value c) ∨
      ((addSparseMap.select E img pg s).grid_num c = CellType.TYPE_POINTCLOUD ∧
        addSparseMap.Winner E img s.new_frame_ c pg
          ((addSparseMap.select E img pg s).add_voxel_points_ c) ∧
        (addSparseMap.select E img pg s).map_value c =
          addSparseMap.score E img s.new_frame_
            ((addSparseMap.select E img pg s).add_voxel_points_ c) ∧
        addSparseMap.score E img s.new_frame_
            ((addSparseMap.select E img pg s).add_voxel_points_ c) > s.map_value c)) := by
    intro c hc
    have hg : (reset_grid E s).grid_num c ≠ CellType.TYPE_POINTCLOUD := by
      unfold reset_grid
      simp only [if_pos hc]
      intro h
      cases h
    obtain ⟨_, h⟩ := addSparseMap.visits_winner E img (reset_grid E s) c hg pg
    have hfr : (reset_grid E s).new_frame_ = s.new_frame_ := rfl
    have hmv : (reset_grid E s).map_value c = s.map_value c := rfl
    rw [hfr, hmv] at h
    rcases h with ⟨h1, _, h3⟩ | h
    · exact Or.inl ⟨h1, h3⟩
    · exact Or.inr h
  have hmem : ∀ c, c ∈ addSparseMap.created_cells E (addSparseMap.select E img pg s) ↔
      E.inGrid c ∧ (addSparseMap.select E img pg s).grid_num c = CellType.TYPE_POINTCLOUD := by
    intro c
    unfold addSparseMap.created_cells
    rw [List.mem_filter, Env.mem_cells]
    simp
  obtain ⟨gn, mi, mv, md, vp, av, hshape⟩ := addSparseMap.select_shape E img pg s
  have hnp : (addSparseMap.select E img pg s).n_points = s.n_points := by rw [hshape]
  obtain ⟨hcount, haddr⟩ := addSparseMap.create_count E (addSparseMap.select E img pg s) E.cells
  refine ⟨?_, ?_, ?_, ⟨?_, ?_, ?_⟩, ?_⟩
  · intro t pt c hne
    by_contra hcond
    exact hne ((addSparseMap.visit_cell E img t pt c).2.2 hcond).2.1
  · intro c hc
    rw [hmem]
    constructor
    · rintro ⟨_, hpc⟩
      rcases hsel c hc with ⟨h1, _⟩ | ⟨_, hw, _, hgt⟩
      · exact absurd hpc h1
      · exact ⟨_, addSparseMap.Winner_mem E img _ c pg _ hw, hw.1, hgt⟩
    · rintro ⟨pt, hpt, hin, hgt⟩
      rcases hsel c hc with ⟨_, h2⟩ | ⟨h1, _⟩
      · exact absurd hgt (not_lt.2 (h2 pt hpt hin))
      · exact ⟨hc, h1⟩
  · intro c hc
    obtain ⟨hin, hpc⟩ := (hmem c).1 hc
    rcases hsel c hin with ⟨h1, _⟩ | ⟨_, hw, hv, _⟩
    · exact absurd hpc h1
    · exact ⟨hw, hv⟩
  · unfold addSparseMap
    rw [hcount, hnp]
    rfl
  · exact List.Nodup.filter _ E.cells_nodup
  · unfold addSparseMap.created_cells
    refine le_trans (List.length_filter_le _ _) ?_
    unfold Env.cells
    rw [List.length_map, List.length_range]
    rfl
  · intro k c hk
    have := haddr k c hk
    rw [hnp] at this
    exact this

/-- Witness for C16: right after `init`, with a constant corner score 200, the
cloud points (0, 0, 1) and (0, 0, 2) both project to the principal point, in
cell 7, with equal scores above the score 0 of the cell.  A Point is created
for cell 7, at the first of the two cloud points. -/
theorem C16_cell_winner_witness :
    7 ∈ addSparseMap.created_cells (testEnv 200)
      (addSparseMap.select (testEnv 200) (flatImg 7) [![0, 0, 1], ![0, 0, 2]] testInit) ∧
    (addSparseMap.select (testEnv 200) (flatImg 7) [![0, 0, 1], ![0, 0, 2]]
      testInit).add_voxel_points_ 7 = ![0, 0, 1] :=
  have hin1 : addSparseMap.inCell (testEnv 200) testInit.new_frame_ 7 ![0, 0, 1] := by decide!
  have hsc : addSparseMap.score (testEnv 200) (flatImg 7) testInit.new_frame_ ![0, 0, 1]
      > testInit.map_value 7 := by decide!
  match C16_cell_winner (testEnv 200) (flatImg 7) [![0, 0, 1], ![0, 0, 2]] testInit with
  | ⟨_, h1, h2, _, _⟩ => by
    have hmem := (h1 7 (by decide!)).2 ⟨![0, 0, 1], by simp, hin1, hsc⟩
    refine ⟨hmem, ?_⟩
    obtain ⟨⟨_, pre, post, hl, hpre, _⟩, _⟩ := h2 7 hmem
    generalize (addSparseMap.select (testEnv 200) (flatImg 7) [![0, 0, 1], ![0, 0, 2]]
      testInit).add_voxel_points_ 7 = w at hl hpre ⊢
    cases pre with
    | nil =>
      simp only [List.nil_append, List.cons.injEq] at hl
      exact hl.1.symm
    | cons a pre =>
      simp only [List.cons_append, List.cons.injEq] at hl
      obtain ⟨ha, hrest⟩ := hl
      have hs : ∀ p, addSparseMap.score (testEnv 200) (flatImg 7) testInit.new_frame_ p = 200 :=
        fun _ => rfl
      have hlt := hpre a (by simp) (ha ▸ hin1)
      rw [hs a, hs w] at hlt
      exact absurd hlt (lt_irrefl _)

/-! ## Ties between candidates of a cell in `addFromSparseMap` -/

/-- One round of the second loop of `addFromSparseMap` seen from cell `c`: a
candidate of the cell whose distance is at most the best distance of the cell
becomes the chosen Point; otherwise the chosen Point and the best distance of
the cell are as before. -/
theorem addFromSparseMap.candidate_cell (E : Env n) (s : LidarSelector n) (a : Nat) (c : Int) :
    ((addFromSparseMap.isCandidate E s c a ∧ addFromSparseMap.dist E s a ≤ s.map_dist c) →
      (addFromSparseMap.candidate E s (some a)).voxel_points_ c = some a ∧
      (addFromSparseMap.candidate E s (some a)).map_dist c = addFromSparseMap.dist E s a) ∧
    (¬ (addFromSparseMap.isCandidate E s c a ∧ addFromSparseMap.dist E s a ≤ s.map_dist c) →
      (addFromSparseMap.candidate E s (some a)).voxel_points_ c = s.voxel_points_ c ∧
      (addFromSparseMap.candidate E s (some a)).map_dist c = s.map_dist c) := by
  unfold addFromSparseMap.candidate addFromSparseMap.isCandidate addFromSparseMap.dist
  simp only
  split
  · rename_i hz
    refine ⟨?_, fun _ => ⟨rfl, rfl⟩⟩
    rintro ⟨⟨h, _⟩, _⟩
    exact absurd hz h
  · rename_i hz
    split
    · rename_i hin
      by_cases hidx : E.gridIndex (s.new_frame_.w2c E (s.points a).pos_) = c
      · subst hidx
        by_cases hle : E.norm3 (s.new_frame_.pos - (s.points a).pos_) ≤
            s.map_dist (E.gridIndex (s.new_frame_.w2c E (s.points a).pos_))
        · refine ⟨fun _ => ?_, fun hnot => absurd ⟨⟨hz, hin, rfl⟩, hle⟩ hnot⟩
          rw [if_pos hle]
          split <;> exact ⟨Function.update_same _ _ _, Function.update_same _ _ _⟩
        · refine ⟨fun h => absurd h.2 hle, fun _ => ?_⟩
          rw [if_neg hle]
          split <;> exact ⟨rfl, rfl⟩
      · have hne : c ≠ E.gridIndex (s.new_frame_.w2c E (s.points a).pos_) := fun h => hidx h.symm
        refine ⟨fun h => absurd h.1.2.2 hidx, fun _ => ?_⟩
        split <;> split <;>
          first
          | exact ⟨Function.update_noteq hne _ _, Function.update_noteq hne _ _⟩
          | exact ⟨rfl, rfl⟩
    · rename_i hin
      refine ⟨?_, fun _ => ⟨rfl, rfl⟩⟩
      rintro ⟨⟨_, h, _⟩, _⟩
      exact absurd h hin

/-- Every candidate met is at least as far as the last nearest one. -/
theorem addFromSparseMap.LastMin_min (E : Env n) (s : LidarSelector n) (c : Int)
    (ps : List PointPtr) (w : Nat) (h : addFromSparseMap.LastMin E s c ps w) :
    ∀ b, some b ∈ ps → addFromSparseMap.isCandidate E s c b →
      addFromSparseMap.dist E s w ≤ addFromSparseMap.dist E s b := by
  obtain ⟨_, pre, post, hl, hpre, hpost⟩ := h
  intro b hb hq
  rw [hl] at hb
  rcases List.mem_append.1 hb with h1 | h1
  · exact hpre b h1 hq
  · rcases List.mem_cons.1 h1 with h2 | h2
    · cases h2
      exact le_refl _
    · exact (hpost b h2 hq).le

/-- Second loop of `addFromSparseMap` seen from a cell `c`, after the pointers
`ps`: either every candidate of the cell is farther than the best distance the
cell had at the start, and the cell is as it was; or the chosen Point of the
cell is the last nearest candidate, no farther than that distance. -/
theorem addFromSparseMap.candidates_last_min (E : Env n) (s0 : LidarSelector n) (c : Int)
    (ps : List PointPtr) :
    ((ps.foldl (addFromSparseMap.candidate E) s0).voxel_points_ c = s0.voxel_points_ c ∧
      (ps.foldl (addFromSparseMap.candidate E) s0).map_dist c = s0.map_dist c ∧
      ∀ a, some a ∈ ps → addFromSparseMap.isCandidate E s0 c a →
        s0.map_dist c < addFromSparseMap.dist E s0 a) ∨
    (∃ a, (ps.foldl (addFromSparseMap.candidate E) s0).voxel_points_ c = some a ∧
      (ps.foldl (addFromSparseMap.candidate E) s0).map_dist c = addFromSparseMap.dist E s0 a ∧
      addFromSparseMap.dist E s0 a ≤ s0.map_dist c ∧
      addFromSparseMap.LastMin E s0 c ps a) := by
  induction ps using List.reverseRecOn with
  | nil =>
    left
    refine ⟨rfl, rfl, ?_⟩
    intro a ha
    cases ha
  | append_singleton ps x ih =>
    obtain ⟨gn, md, vp, mv, hshape⟩ := addFromSparseMap.candidates_shape E s0 ps
    have hpt : (ps.foldl (addFromSparseMap.candidate E) s0).points = s0.points := by rw [hshape]
    have hft : (ps.foldl (addFromSparseMap.candidate E) s0).new_frame_ = s0.new_frame_ := by
      rw [hshape]
    rw [List.foldl_append]
    simp only [List.foldl_cons, List.foldl_nil]
    generalize ps.foldl (addFromSparseMap.candidate E) s0 = t at ih hpt hft
    cases x with
    | none =>
      have hstep : addFromSparseMap.candidate E t none = t := rfl
      rw [hstep]
      rcases ih with ⟨h1, h2, h3⟩ | ⟨w, h1, h2, h3, hw, pre, post, hl, hpre, hpost⟩
      · left
        refine ⟨h1, h2, ?_⟩
        intro a ha
        rcases List.mem_append.1 ha with h | h
        · exact h3 a h
        · cases List.mem_singleton.1 h
      · right
        refine ⟨w, h1, h2, h3, hw, pre, post ++ [none], by rw [hl]; simp, hpre, ?_⟩
        intro b hb
        rcases List.mem_append.1 hb with h | h
        · exact hpost b h
        · cases List.mem_singleton.1 h
    | some a =>
      have hcand : addFromSparseMap.isCandidate E t c a = addFromSparseMap.isCandidate E s0 c a := by
        unfold addFromSparseMap.isCandidate
        rw [hpt, hft]
      have hdist : addFromSparseMap.dist E t a = addFromSparseMap.dist E s0 a := by
        unfold addFromSparseMap.dist
        rw [hpt, hft]
      obtain ⟨vyes, vno⟩ := addFromSparseMap.candidate_cell E t a c
      rw [hcand, hdist] at vyes vno
      by_cases hcond : addFromSparseMap.isCandidate E s0 c a ∧
          addFromSparseMap.dist E s0 a ≤ t.map_dist c
      · obtain ⟨e1, e2⟩ := vyes hcond
        right
        refine ⟨a, e1, e2, ?_, hcond.1, ps, [], rfl, ?_, ?_⟩
        · rcases ih with ⟨_, h2, _⟩ | ⟨w, _, h2, h3, _⟩
          · rw [← h2]; exact hcond.2
          · rw [h2] at hcond; exact le_trans hcond.2 h3
        · intro b hb hq
          rcases ih with ⟨_, h2, h3⟩ | ⟨w, _, h2, _, hw⟩
          · have := h3 b hb hq
            rw [h2] at hcond
            exact le_trans hcond.2 this.le
          · rw [h2] at hcond
            exact le_trans hcond.2 (addFromSparseMap.LastMin_min E s0 c ps w hw b hb hq)
        · intro b hb
          cases hb
      · obtain ⟨e1, e2⟩ := vno hcond
        rw [e1, e2]
        rcases ih with ⟨h1, h2, h3⟩ | ⟨w, h1, h2, h3, hw, pre, post, hl, hpre, hpost⟩
        · left
          refine ⟨h1, h2, ?_⟩
          intro b hb hq
          rcases List.mem_append.1 hb with h | h
          · exact h3 b h hq
          · cases List.mem_singleton.1 h
            rw [← h2]
            by_contra hle
            exact hcond ⟨hq, not_lt.1 hle⟩
        · right
          refine ⟨w, h1, h2, h3, hw, pre, post ++ [some a], by rw [hl]; simp, hpre, ?_⟩
          intro b hb hq
          rcases List.mem_append.1 hb with h | h
          · exact hpost b h hq
          · cases List.mem_singleton.1 h
            rw [← h2]
            by_contra hle
            exact hcond ⟨hq, not_lt.1 hle⟩

/-- The chosen Point of a grid cell after `addFromSparseMap` on a non-empty
voxel map: none when every candidate of the cell is farther than 10000, and
otherwise the last nearest candidate in iteration order. -/
theorem addFromSparseMap.chosen_last_min (E : Env n) (img : Img) (pg : PointCloud)
    (s : LidarSelector n) (hne : s.feat_map ≠ []) (c : Int) (hc : E.inGrid c) :
    ((addFromSparseMap E img pg s).voxel_points_ c = none ∧
      ∀ a, some a ∈ addFromSparseMap.visited E pg s → addFromSparseMap.isCandidate E s c a →
        10000 < addFromSparseMap.dist E s a) ∨
    (∃ a, (addFromSparseMap E img pg s).voxel_points_ c = some a ∧
      addFromSparseMap.dist E s a ≤ 10000 ∧
      addFromSparseMap.LastMin E s c (addFromSparseMap.visited E pg s) a) := by
  have hlen : ¬ s.feat_map.length ≤ 0 := by
    cases hm : s.feat_map with
    | nil => exact absurd hm hne
    | cons e m => simp
  have hfin : addFromSparseMap E img pg s =
      E.cells.foldl (addFromSparseMap.refine E img (addFromSparseMap.projected E pg s).2)
        (addFromSparseMap.gather E pg s) := by
    unfold addFromSparseMap
    rw [if_neg hlen]
  obtain ⟨wm, pc, cf, sm, hshape⟩ := addFromSparseMap.refines_shape E img
    (addFromSparseMap.projected E pg s).2 (addFromSparseMap.gather E pg s) E.cells
  have hv : (addFromSparseMap E img pg s).voxel_points_
      = (addFromSparseMap.gather E pg s).voxel_points_ := by
    rw [hfin, hshape]
  have hgather : addFromSparseMap.gather E pg s =
      (addFromSparseMap.visited E pg s).foldl (addFromSparseMap.candidate E)
        (addFromSparseMap.prepare E pg s) := by
    unfold addFromSparseMap.gather addFromSparseMap.visited
    rw [addFromSparseMap.voxels_eq]
    rfl
  rw [hv, hgather]
  have hd0 : (addFromSparseMap.prepare E pg s).map_dist c = 10000 := by
    simp [addFromSparseMap.prepare, reset_grid, hc]
  have hv0 : (addFromSparseMap.prepare E pg s).voxel_points_ c = none := by
    simp [addFromSparseMap.prepare, reset_grid, hc]
  have hcand : ∀ a, addFromSparseMap.isCandidate E (addFromSparseMap.prepare E pg s) c a
      = addFromSparseMap.isCandidate E s c a := fun _ => rfl
  have hdist : ∀ a, addFromSparseMap.dist E (addFromSparseMap.prepare E pg s) a
      = addFromSparseMap.dist E s a := fun _ => rfl
  rcases addFromSparseMap.candidates_last_min E (addFromSparseMap.prepare E pg s) c
      (addFromSparseMap.visited E pg s) with ⟨h1, _, h3⟩ | ⟨a, h1, _, h3, h4⟩
  · left
    rw [h1, hv0]
    refine ⟨rfl, ?_⟩
    intro a ha hq
    have := h3 a ha hq
    rw [hd0] at this
    exact this
  · right
    rw [hd0] at h3
    exact ⟨a, h1, h3, h4⟩

/-- C17 (amended): ties in the second loop of `addFromSparseMap`.  The chosen
Point of a cell is replaced whenever the distance of the candidate is at most
the best distance of the cell (`cur_dist <= map_dist[index]`), so after
`addFromSparseMap` on a non-empty voxel map the chosen Point of a grid cell
that has a candidate within 10000 is the last candidate, in iteration order,
that attains the smallest distance: every candidate reached before it is at
least as far, every candidate reached after it is strictly farther.  Of two
candidates at exactly equal smallest distance the one reached last is chosen. -/
theorem C17_last_nearest_wins (E : Env n) (img : Img) (pg : PointCloud)
    (s : LidarSelector n) (hne : s.feat_map ≠ []) (c : Int) (hc : E.inGrid c)
    (hnear : ∃ a, some a ∈ addFromSparseMap.visited E pg s ∧
      addFromSparseMap.isCandidate E s c a ∧ addFromSparseMap.dist E s a ≤ 10000) :
    ∃ a, (addFromSparseMap E img pg s).voxel_points_ c = some a ∧
      addFromSparseMap.LastMin E s c (addFromSparseMap.visited E pg s) a := by
  obtain ⟨a0, ha0, hq0, hd0⟩ := hnear
  rcases addFromSparseMap.chosen_last_min E img pg s hne c hc with ⟨_, h2⟩ | ⟨a, h1, _, h3⟩
  · exact absurd hd0 (not_le.2 (h2 a0 ha0 hq0))
  · exact ⟨a, h1, h3⟩

/-- Witness for C17 (amended): the two Points of `testMapTie`, both candidates
of cell 7 within 10000 of the camera; the cell has a chosen Point, the last
nearest candidate. -/
theorem C17_last_nearest_wins_witness :
    testMapTie.feat_map ≠ [] ∧ (testEnv 200).inGrid 7 ∧
    ∃ a, (addFromSparseMap (testEnv 200) (flatImg 7) [![1 / 100, 2 / 100, 1]]
        testMapTie).voxel_points_ 7 = some a ∧
      addFromSparseMap.LastMin (testEnv 200) testMapTie 7
        (addFromSparseMap.visited (testEnv 200) [![1 / 100, 2 / 100, 1]] testMapTie) a :=
  ⟨by decide!, by decide!,
    C17_last_nearest_wins (testEnv 200) (flatImg 7) [![1 / 100, 2 / 100, 1]] testMapTie
      (by decide!) 7 (by decide!) ⟨0, by decide!, by decide!, by decide!⟩⟩

/-- C17, counterexample: the two Points of `testMapTie` are candidates of cell
7 at exactly equal distance from the camera, and the iteration reaches the
Point at address 0 first, then the Point at address 1.  The chosen Point of
the cell after `addFromSparseMap` is the Point at address 1, the one reached
last: the Point reached first does not remain. -/
theorem C17_counterexample_tie_last_wins :
    addFromSparseMap.visited (testEnv 200) [![1 / 100, 2 / 100, 1]] testMapTie
      = [some 0, some 1] ∧
    addFromSparseMap.isCandidate (testEnv 200) testMapTie 7 0 ∧
    addFromSparseMap.isCandidate (testEnv 200) testMapTie 7 1 ∧
    addFromSparseMap.dist (testEnv 200) testMapTie 0
      = addFromSparseMap.dist (testEnv 200) testMapTie 1 ∧
    (addFromSparseMap (testEnv 200) (flatImg 7) [![1 / 100, 2 / 100, 1]]
      testMapTie).voxel_points_ 7 = some 1 := by
  have hvis : addFromSparseMap.visited (testEnv 200) [![1 / 100, 2 / 100, 1]] testMapTie
      = [some 0, some 1] := by decide!
  have hc0 : addFromSparseMap.isCandidate (testEnv 200) testMapTie 7 0 := by decide!
  have hc1 : addFromSparseMap.isCandidate (testEnv 200) testMapTie 7 1 := by decide!
  have hd : addFromSparseMap.dist (testEnv 200) testMapTie 0
      = addFromSparseMap.dist (testEnv 200) testMapTie 1 := by decide!
  have hd0 : addFromSparseMap.dist (testEnv 200) testMapTie 0 ≤ 10000 := by decide!
  refine ⟨hvis, hc0, hc1, hd, ?_⟩
  rcases addFromSparseMap.chosen_last_min (testEnv 200) (flatImg 7) [![1 / 100, 2 / 100, 1]]
      testMapTie (by decide!) 7 (by decide!) with ⟨_, h2⟩ | ⟨a, h1, _, _, pre, post, hl, _, hpost⟩
  · exact absurd hd0 (not_le.2 (h2 0 (by rw [hvis]; simp) hc0))
  · rw [h1]
    rw [hvis] at hl
    cases pre with
    | nil =>
      simp only [List.nil_append, List.cons.injEq, Option.some.injEq] at hl
      obtain ⟨ha, hp⟩ := hl
      subst ha
      have hlt := hpost 1 (by rw [← hp]; simp) hc1
      rw [hd] at hlt
      exact absurd hlt (lt_irrefl _)
    | cons x pre =>
      cases pre with
      | nil =>
        simp only [List.cons_append, List.nil_append, List.cons.injEq, Option.some.injEq] at hl
        rw [hl.2.1]
      | cons y pre =>
        simp only [List.cons_append, List.cons.injEq] at hl
        have h3 := hl.2.2
        cases pre <;> simp at h3

/-! ## Rejected iterations of `UpdateState` -/

/-- A rejected iteration of `UpdateState` puts the saved state back, keeps the
last accepted error and ends the loop. -/
theorem UpdateState.iteration_rejected (E : Env n) (img : Img) (level : Int)
    (l : UpdateState.Locals n) (h : ¬ UpdateState.accepts E img level l) :
    (UpdateState.iteration E img level l).sel.state = l.old_state ∧
    (UpdateState.iteration E img level l).old_state = l.old_state ∧
    (UpdateState.iteration E img level l).last_error = l.last_error ∧
    (UpdateState.iteration E img level l).EKF_end = true := by
  unfold UpdateState.accepts UpdateState.error UpdateState.entries at h
  unfold UpdateState.iteration
  simp only at h ⊢
  rw [if_neg h]
  exact ⟨rfl, rfl, rfl, rfl⟩

/-- An accepted iteration of `UpdateState` saves the state at which its mean
residual was computed, and that residual, which is at most the last accepted
one. -/
theorem UpdateState.iteration_accepted (E : Env n) (img : Img) (level : Int)
    (l : UpdateState.Locals n) (h : UpdateState.accepts E img level l) :
    (UpdateState.iteration E img level l).old_state = l.sel.state ∧
    (UpdateState.iteration E img level l).last_error = UpdateState.error E img level l.sel ∧
    (UpdateState.iteration E img level l).last_error ≤ l.last_error := by
  have h2 := h.2
  unfold UpdateState.accepts UpdateState.error UpdateState.entries at h
  unfold UpdateState.error UpdateState.entries at h2 ⊢
  unfold UpdateState.iteration
  simp only at h h2 ⊢
  rw [if_pos h]
  exact ⟨rfl, rfl, h2⟩

/-- The loop of `UpdateState` from the local variables it has at the start of
iteration `k` on. -/
theorem UpdateState.loop_shift (E : Env n) (img : Img) (level : Int) (l0 : UpdateState.Locals n)
    (k : Nat) : ∀ (fuel : Nat) (l : UpdateState.Locals n),
    UpdateState.locals_at E img level l0 k = some l →
    UpdateState.loop E img level (k + fuel) l0 = UpdateState.loop E img level fuel l := by
  induction k with
  | zero =>
    intro fuel l h
    cases h
    rw [Nat.zero_add]
  | succ k ih =>
    intro fuel l h
    unfold UpdateState.locals_at at h
    cases hk : UpdateState.locals_at E img level l0 k with
    | none => rw [hk] at h; cases h
    | some lk =>
      rw [hk] at h
      simp only at h
      by_cases he : (UpdateState.iteration E img level lk).EKF_end = true
      · rw [if_pos he] at h
        cases h
      · rw [if_neg he] at h
        cases h
        have e : k + 1 + fuel = k + (fuel + 1) := by omega
        rw [e, ih (fuel + 1) lk hk]
        show (if (UpdateState.iteration E img level lk).EKF_end = true then _ else _) = _
        rw [if_neg he]

/-- The last accepted error never increases along the loop of `UpdateState`. -/
theorem UpdateState.iteration_last_error_le (E : Env n) (img : Img) (level : Int)
    (l : UpdateState.Locals n) :
    (UpdateState.iteration E img level l).last_error ≤ l.last_error := by
  by_cases h : UpdateState.accepts E img level l
  · exact (UpdateState.iteration_accepted E img level l h).2.2
  · exact le_of_eq (UpdateState.iteration_rejected E img level l h).2.2.1

theorem UpdateState.loop_last_error_le (E : Env n) (img : Img) (level : Int) (fuel : Nat) :
    ∀ l : UpdateState.Locals n,
      (UpdateState.loop E img level fuel l).last_error ≤ l.last_error := by
  induction fuel with
  | zero => intro l; exact le_refl _
  | succ k ih =>
    intro l
    unfold UpdateState.loop
    simp only
    split
    · exact UpdateState.iteration_last_error_le E img level l
    · exact le_trans (ih _) (UpdateState.iteration_last_error_le E img level l)

/-- The saved state and the last accepted error at the start of an iteration
that the loop of `UpdateState` reaches: those of the entry at iteration 0;
afterwards the state at which the previous iteration, which was accepted,
computed its mean residual, and that residual. -/
theorem UpdateState.locals_at_spec (E : Env n) (img : Img) (level : Int)
    (l0 : UpdateState.Locals n) (k : Nat) (l : UpdateState.Locals n)
    (h : UpdateState.locals_at E img level l0 k = some l) :
    (k = 0 → l = l0) ∧
    (∀ j lj, k = j + 1 → UpdateState.locals_at E img level l0 j = some lj →
      UpdateState.accepts E img level lj ∧ l.old_state = lj.sel.state ∧
      l.last_error = UpdateState.error E img level lj.sel) := by
  cases k with
  | zero =>
    cases h
    exact ⟨fun _ => rfl, fun j lj hj => by omega⟩
  | succ k =>
    refine ⟨fun hk => by omega, ?_⟩
    intro j lj hj hlj
    have hkj : k = j := by omega
    subst hkj
    unfold UpdateState.locals_at at h
    rw [hlj] at h
    simp only at h
    by_cases he : (UpdateState.iteration E img level lj).EKF_end = true
    · rw [if_pos he] at h
      cases h
    · rw [if_neg he] at h
      cases h
      have hacc : UpdateState.accepts E img level lj := by
        by_contra hnot
        exact he (UpdateState.iteration_rejected E img level lj hnot).2.2.2
      obtain ⟨a1, a2, _⟩ := UpdateState.iteration_accepted E img level lj hacc
      exact ⟨hacc, a1, a2⟩

/-- C18: a rejected iteration of `UpdateState` is atomic for the shared state.
In a call with a non-empty sub map, let iteration `k` (counted from 0) be
reached by the loop with the local variables `l`, and let its test
`error <= last_error` fail (its mean residual exceeds the last accepted one,
or there is no measurement).  Then the call returns right after this
iteration: the selector is the one this iteration leaves, its shared state is
the saved state `old_state`, and the returned value is the last accepted
error, which is at most `total_residual`.  The saved state and the last
accepted error are the state on entry and `total_residual` when `k = 0`, and
otherwise the state at which iteration `k - 1`, which was accepted, computed
its mean residual, and that residual. -/
theorem C18_rejected_iteration_atomic (E : Env n) (img : Img) (total_residual : ℚ) (level : Int)
    (s : LidarSelector n) (hne : s.sub_sparse_map.index ≠ [])
    (k : Nat) (l : UpdateState.Locals n) (hk : k < E.NUM_MAX_ITERATIONS)
    (hat : UpdateState.locals_at E img level (UpdateState.start total_residual s) k = some l)
    (hrej : ¬ UpdateState.accepts E img level l) :
    (UpdateState E img total_residual level s).1 = (UpdateState.iteration E img level l).sel ∧
    (UpdateState E img total_residual level s).1.state = l.old_state ∧
    (UpdateState E img total_residual level s).2 = l.last_error ∧
    (UpdateState E img total_residual level s).2 ≤ total_residual ∧
    (k = 0 → l.old_state = s.state ∧ l.last_error = total_residual) ∧
    (∀ j lj, k = j + 1 →
      UpdateState.locals_at E img level (UpdateState.start total_residual s) j = some lj →
      UpdateState.accepts E img level lj ∧ l.old_state = lj.sel.state ∧
      l.last_error = UpdateState.error E img level lj.sel) := by
  have hlen : ¬ s.sub_sparse_map.index.length = 0 := by
    cases hi : s.sub_sparse_map.index with
    | nil => exact absurd hi hne
    | cons a t => simp
  have hres : UpdateState E img total_residual level s =
      ((UpdateState.loop E img level E.NUM_MAX_ITERATIONS
          (UpdateState.start total_residual s)).sel,
        (UpdateState.loop E img level E.NUM_MAX_ITERATIONS
          (UpdateState.start total_residual s)).last_error) := by
    unfold UpdateState
    simp only
    rw [if_neg hlen]
    rfl
  obtain ⟨r1, r2, r3, r4⟩ := UpdateState.iteration_rejected E img level l hrej
  have hloop : UpdateState.loop E img level E.NUM_MAX_ITERATIONS
      (UpdateState.start total_residual s) = UpdateState.iteration E img level l := by
    obtain ⟨m, hm⟩ : ∃ m, E.NUM_MAX_ITERATIONS = k + (m + 1) := ⟨E.NUM_MAX_ITERATIONS - k - 1, by omega⟩
    rw [hm, UpdateState.loop_shift E img level _ k (m + 1) l hat]
    show (if (UpdateState.iteration E img level l).EKF_end = true then _ else _) = _
    rw [if_pos r4]
  obtain ⟨s1, s2⟩ := UpdateState.locals_at_spec E img level _ k l hat
  have hle := UpdateState.loop_last_error_le E img level E.NUM_MAX_ITERATIONS
    (UpdateState.start total_residual s)
  rw [hres]
  simp only
  rw [hloop] at hle ⊢
  refine ⟨rfl, r1, r3, hle, ?_, s2⟩
  intro h0
  rw [s1 h0]
  exact ⟨rfl, rfl⟩

/-- Witness for C18: level 0 on the one-entry sub map of `testSubP` with
patches of 2×2 pixels and a flat image of grey value 7 against an all-zero
reference patch (mean residual 49), entered with `total_residual = 10`.  The
first iteration is rejected; the shared state is the state on entry and the
returned value is 10. -/
theorem C18_rejected_iteration_atomic_witness :
    testSubP.sub_sparse_map.index ≠ [] ∧
    ¬ UpdateState.accepts testEnvSmall (flatImg 7) 0 (UpdateState.start 10 testSubP) ∧
    (UpdateState testEnvSmall (flatImg 7) 10 0 testSubP).1.state = testSubP.state ∧
    (UpdateState testEnvSmall (flatImg 7) 10 0 testSubP).2 = 10 :=
  have hne : testSubP.sub_sparse_map.index ≠ [] := by decide
  have hrej : ¬ UpdateState.accepts testEnvSmall (flatImg 7) 0 (UpdateState.start 10 testSubP) := by
    decide!
  match C18_rejected_iteration_atomic testEnvSmall (flatImg 7) 10 0 testSubP hne 0
      (UpdateState.start 10 testSubP) (by decide) rfl hrej with
  | ⟨_, h2, h3, _⟩ => ⟨hne, hrej, h2, h3⟩

/-! ## The attachment trigger of `addObservation` -/

/-- The flag `add_flag` in terms of its three test values. -/
theorem addObservation.add_flag_eq (E : Env n) (pose_cur : SE3) (pc : V2D)
    (last_feature : Feature) :
    addObservation.add_flag E pose_cur pc last_feature =
      (decide (addObservation.delta_p E pose_cur last_feature > 1 / 2 ∨
          addObservation.delta_theta E pose_cur last_feature > 10) ||
        decide (addObservation.pixel_dist E pc last_feature > 40)) := rfl

/-- The rotation test value is at most π when the values of the arccosine
are, hence never above 10. -/
theorem addObservation.delta_theta_le (E : Env n) (pose_cur : SE3) (last_feature : Feature)
    (hacos : ∀ x, ((E.acos x : ℚ) : ℝ) ≤ Real.pi) :
    ¬ addObservation.delta_theta E pose_cur last_feature > 10 := by
  unfold addObservation.delta_theta
  split
  · norm_num
  · intro h
    have h1 := hacos ((1 / 2) * (trace3 (last_feature.T_f_w_.mul pose_cur.inverse).rotation_matrix - 1))
    have h2 : ((10 : ℚ) : ℝ) < ((E.acos ((1 / 2) *
        (trace3 (last_feature.T_f_w_.mul pose_cur.inverse).rotation_matrix - 1)) : ℚ) : ℝ) := by
      exact_mod_cast h
    have h3 := Real.pi_le_four
    push_cast at h2
    linarith

/-- C19: the attachment trigger of `addObservation`, the values of the library
arccosine being at most π (a NaN, which the arccosine returns outside
[-1, 1], fails `> 10` like such a value).  In the round of a sub-map Point with at least one
observation, `last_feature` being `obs_.back()`: the rotation test
`delta_theta > 10` fails, the flag `add_flag` holds iff the translation norm
`delta_p` exceeds 0.5 or the pixel distance exceeds 40, and a new Feature is
attached (one more Feature in the store, at the back of the Point's
observations) iff it holds. -/
theorem C19_attachment_trigger (E : Env n) (img : Img) (s : LidarSelector n) (i a : Nat)
    (hvp : s.sub_sparse_map.voxel_points.getD i none = some a) (hne : (s.points a).obs_ ≠ [])
    (hacos : ∀ x, ((E.acos x : ℚ) : ℝ) ≤ Real.pi) :
    ∃ lf s1, (s.points a).obs_.getLast? = some lf ∧ addObservation.step E img s i = some s1 ∧
      ¬ addObservation.delta_theta E s.new_frame_.T_f_w_ (s.features lf) > 10 ∧
      (addObservation.add_flag E s.new_frame_.T_f_w_ (s.new_frame_.w2c E (s.points a).pos_)
          (s.features lf) = true ↔
        (addObservation.delta_p E s.new_frame_.T_f_w_ (s.features lf) > 1 / 2 ∨
          addObservation.pixel_dist E (s.new_frame_.w2c E (s.points a).pos_) (s.features lf)
            > 40)) ∧
      ((s1.n_features = s.n_features + 1 ∧ (s1.points a).obs_.getLast? = some s.n_features) ↔
        (addObservation.delta_p E s.new_frame_.T_f_w_ (s.features lf) > 1 / 2 ∨
          addObservation.pixel_dist E (s.new_frame_.w2c E (s.points a).pos_) (s.features lf)
            > 40)) ∧
      (s1.n_features = s.n_features ↔
        ¬ (addObservation.delta_p E s.new_frame_.T_f_w_ (s.features lf) > 1 / 2 ∨
          addObservation.pixel_dist E (s.new_frame_.w2c E (s.points a).pos_) (s.features lf)
            > 40)) := by
  obtain ⟨lf, hlf⟩ : ∃ lf, (s.points a).obs_.getLast? = some lf := by
    cases hl : (s.points a).obs_.getLast? with
    | none => exact absurd (List.getLast?_eq_none_iff.1 hl) hne
    | some lf => exact ⟨lf, rfl⟩
  have hth := addObservation.delta_theta_le E s.new_frame_.T_f_w_ (s.features lf) hacos
  have hflag : addObservation.add_flag E s.new_frame_.T_f_w_
      (s.new_frame_.w2c E (s.points a).pos_) (s.features lf) = true ↔
      (addObservation.delta_p E s.new_frame_.T_f_w_ (s.features lf) > 1 / 2 ∨
        addObservation.pixel_dist E (s.new_frame_.w2c E (s.points a).pos_) (s.features lf)
          > 40) := by
    rw [addObservation.add_flag_eq]
    simp only [Bool.or_eq_true, decide_eq_true_eq]
    constructor
    · rintro ((h | h) | h)
      · exact Or.inl h
      · exact absurd h hth
      · exact Or.inr h
    · rintro (h | h)
      · exact Or.inl (Or.inl h)
      · exact Or.inr h
  unfold addObservation.step
  simp only [hvp, hlf]
  by_cases hf : addObservation.add_flag E s.new_frame_.T_f_w_
      (s.new_frame_.w2c E (s.points a).pos_) (s.features lf) = true
  · simp only [hf, if_true]
    refine ⟨lf, _, rfl, rfl, hth, hflag, ?_, ?_⟩
    · refine ⟨fun _ => hflag.1 hf, fun _ => ⟨rfl, ?_⟩⟩
      show (Function.update s.points a _ a).obs_.getLast? = _
      rw [Function.update_same]
      simp [Point.addFrameRef]
    · constructor
      · intro h
        have h2 : s.n_features + 1 = s.n_features := h
        omega
      · intro h
        exact absurd (hflag.1 hf) h
  · simp only [hf, if_false, Bool.false_eq_true]
    refine ⟨lf, _, rfl, rfl, hth, hflag, ?_, ?_⟩
    · constructor
      · rintro ⟨h, _⟩
        have h2 : s.n_features = s.n_features + 1 := h
        omega
      · intro h
        exact absurd (hflag.2 h) hf
    · exact ⟨fun _ h => hf (hflag.2 h), fun _ => rfl⟩

/-- Witness for C19: the sub-map Point of `testSub 1`, whose only observation
was taken from the pose of the current frame at the pixel of its current
projection; the stand-in for the arccosine is 0.  No test fires and no
Feature is attached: the store still holds one Feature. -/
theorem C19_attachment_trigger_witness :
    (testSub 1).sub_sparse_map.voxel_points.getD 0 none = some 0 ∧
    ((testSub 1).points 0).obs_ ≠ [] ∧
    (∀ x, (((testEnv 200).acos x : ℚ) : ℝ) ≤ Real.pi) ∧
    ∃ s1, addObservation.step (testEnv 200) (flatImg 7) (testSub 1) 0 = some s1 ∧
      s1.n_features = 1 :=
  have hvp : (testSub 1).sub_sparse_map.voxel_points.getD 0 none = some 0 := rfl
  have hne : ((testSub 1).points 0).obs_ ≠ [] := by decide
  have hacos : ∀ x, (((testEnv 200).acos x : ℚ) : ℝ) ≤ Real.pi := by
    intro x
    show ((0 : ℚ) : ℝ) ≤ Real.pi
    rw [Rat.cast_zero]
    exact Real.pi_pos.le
  have hlast : ((testSub 1).points 0).obs_.getLast? = some 0 := by decide
  have hno : ¬ (addObservation.delta_p (testEnv 200) (testSub 1).new_frame_.T_f_w_
        ((testSub 1).features 0) > 1 / 2 ∨
      addObservation.pixel_dist (testEnv 200)
        ((testSub 1).new_frame_.w2c (testEnv 200) ((testSub 1).points 0).pos_)
        ((testSub 1).features 0) > 40) := by decide!
  match C19_attachment_trigger (testEnv 200) (flatImg 7) (testSub 1) 0 0 hvp hne hacos with
  | ⟨lf, s1, h1, h2, _, _, _, h6⟩ => by
    rw [hlast] at h1
    cases h1
    exact ⟨hvp, hne, hacos, s1, h2, h6.2 hno⟩

/-! ## The search level (`getBestSearchLevel`) -/

/-- C20 (amended): `getBestSearchLevel(A, 2)` counts how many times the signed
determinant of `A` has to be multiplied by 0.25 until it is no longer greater
than 3, capped at 2.  The level is 0 when `det A ≤ 3` (in particular for every
matrix of negative determinant), 1 when `3 < det A ≤ 12` and 2 when
`det A > 12`: the least `k` in {0, 1, 2} with `det A / 4^k ≤ 3`, or 2 if there
is none.  It depends on `A` only through `det A`. -/
theorem C20_search_level_quarters_signed_det (A : Matrix (Fin 2) (Fin 2) ℚ) :
    getBestSearchLevel A 2 =
      (if det2 A ≤ 3 then 0 else if det2 A / 4 ≤ 3 then 1 else 2) ∧
    (∀ k : Nat, k ≤ 2 → (getBestSearchLevel A 2 = k ↔
      ((det2 A / 4 ^ k ≤ 3 ∨ k = 2) ∧ ∀ j : Nat, j < k → ¬ det2 A / 4 ^ j ≤ 3))) ∧
    (∀ B : Matrix (Fin 2) (Fin 2) ℚ, det2 B = det2 A →
      getBestSearchLevel B 2 = getBestSearchLevel A 2) := by
  have hval : ∀ M : Matrix (Fin 2) (Fin 2) ℚ, getBestSearchLevel M 2 =
      (if det2 M ≤ 3 then 0 else if det2 M / 4 ≤ 3 then 1 else 2) := by
    intro M
    unfold getBestSearchLevel
    have h2 : (2 : Int).toNat = 2 := rfl
    rw [h2]
    simp only [getBestSearchLevel.loop]
    by_cases h1 : det2 M ≤ 3
    · have : ¬ (det2 M > 3 ∧ (0 : Int) < 2) := fun h => absurd h1 (not_le.2 h.1)
      rw [if_neg this, if_pos h1]
    · have hgt : det2 M > 3 ∧ (0 : Int) < 2 := ⟨not_le.1 h1, by norm_num⟩
      rw [if_pos hgt, if_neg h1]
      by_cases h3 : det2 M / 4 ≤ 3
      · have h4 : ¬ (det2 M * (1 / 4) > 3 ∧ (0 : Int) + 1 < 2) := by
          rintro ⟨h, _⟩
          have : det2 M * (1 / 4) = det2 M / 4 := by ring
          rw [this] at h
          exact absurd h3 (not_le.2 h)
        rw [if_neg h4, if_pos h3]
        norm_num
      · have h4 : det2 M * (1 / 4) > 3 ∧ (0 : Int) + 1 < 2 := by
          refine ⟨?_, by norm_num⟩
          have : det2 M * (1 / 4) = det2 M / 4 := by ring
          rw [this]
          exact not_le.1 h3
        rw [if_pos h4, if_neg h3]
        norm_num
  refine ⟨hval A, ?_, ?_⟩
  · intro k hk
    rw [hval A]
    interval_cases k
    · simp only [pow_zero, div_one, Nat.cast_zero]
      constructor
      · intro h
        refine ⟨Or.inl ?_, fun j hj => absurd hj (Nat.not_lt_zero j)⟩
        by_contra hn
        rw [if_neg hn] at h
        split at h <;> norm_num at h
      · rintro ⟨h | h, _⟩
        · rw [if_pos h]
        · norm_num at h
    · simp only [pow_one, Nat.cast_one]
      constructor
      · intro h
        by_cases h1 : det2 A ≤ 3
        · rw [if_pos h1] at h
          norm_num at h
        · rw [if_neg h1] at h
          by_cases h3 : det2 A / 4 ≤ 3
          · refine ⟨Or.inl h3, ?_⟩
            intro j hj
            interval_cases j
            simpa using h1
          · rw [if_neg h3] at h
            norm_num at h
      · rintro ⟨h | h, hj⟩
        · have h1 : ¬ det2 A ≤ 3 := by simpa using hj 0 (by norm_num)
          rw [if_neg h1, if_pos h]
        · norm_num at h
    · simp only [Nat.cast_ofNat]
      constructor
      · intro h
        by_cases h1 : det2 A ≤ 3
        · rw [if_pos h1] at h
          norm_num at h
        · rw [if_neg h1] at h
          by_cases h3 : det2 A / 4 ≤ 3
          · rw [if_pos h3] at h
            norm_num at h
          · refine ⟨Or.inr trivial, ?_⟩
            intro j hj
            interval_cases j
            · simpa using h1
            · simpa using h3
      · rintro ⟨_, hj⟩
        have h1 : ¬ det2 A ≤ 3 := by simpa using hj 0 (by norm_num)
        have h3 : ¬ det2 A / 4 ≤ 3 := by simpa using hj 1 (by norm_num)
        rw [if_neg h1, if_neg h3]
  · intro B hB
    rw [hval A, hval B, hB]

/-- C20, counterexample: the matrix `diag(7, 1)` has determinant 7; halving
gives 3.5 and then 1.75, so the least `k` with `|det| / 2^k ≤ 3` is 2, but
`getBestSearchLevel` returns 1 (7 · 0.25 = 1.75).  The matrix `diag(-7, 1)`
has determinant -7, of the same absolute value, and gets level 0. -/
theorem C20_counterexample_level_of_seven :
    det2 !![7, 0; 0, 1] = 7 ∧ ¬ ((7 : ℚ) / 2 ^ 1 ≤ 3) ∧ (7 : ℚ) / 2 ^ 2 ≤ 3 ∧
    getBestSearchLevel !![7, 0; 0, 1] 2 = 1 ∧
    det2 !![-7, 0; 0, 1] = -7 ∧ getBestSearchLevel !![-7, 0; 0, 1] 2 = 0 := by
  refine ⟨by decide!, by norm_num, by norm_num, by decide!, by decide!, by decide!⟩

/-! ## The grid index of a pixel -/

/-- A pixel whose truncation is at least 0 and below `m - b`, for `b` at least
`m % g`, lies in a cell column (or row) below `m / g`. -/
theorem toInt_div_lt (u : ℚ) (g m b : Int) (hg : 0 < g) (hb : 0 < b) (hlo : b ≤ toInt u)
    (hhi : toInt u < m - b) (hm : m % g ≤ b) :
    0 ≤ toInt (u / g) ∧ toInt (u / g) < Int.tdiv m g := by
  have hu : 0 ≤ u := by
    by_contra hneg
    have hneg2 : u < 0 := not_le.1 hneg
    unfold toInt at hlo
    rw [if_neg hneg] at hlo
    have h1 : 0 ≤ ⌊-u⌋ := Int.floor_nonneg.2 (by linarith)
    omega
  have hfl : toInt u = ⌊u⌋ := by
    unfold toInt
    rw [if_pos hu]
  rw [hfl] at hlo hhi
  have hgq : (0 : ℚ) < (g : ℚ) := by exact_mod_cast hg
  have hdiv : 0 ≤ u / g := div_nonneg hu hgq.le
  have hfl2 : toInt (u / g) = ⌊u / g⌋ := by
    unfold toInt
    rw [if_pos hdiv]
  rw [hfl2]
  have hm0 : 0 ≤ m := by omega
  rw [Int.tdiv_eq_ediv hm0 hg.le]
  refine ⟨Int.floor_nonneg.2 hdiv, ?_⟩
  rw [Int.floor_lt]
  have h1 : u < (⌊u⌋ : ℚ) + 1 := Int.lt_floor_add_one u
  have h2 : (⌊u⌋ : ℚ) + 1 ≤ ((m - b : Int) : ℚ) := by exact_mod_cast hhi
  have h3 : m - b ≤ g * (m / g) := by
    have := Int.emod_add_ediv m g
    omega
  have h4 : ((m - b : Int) : ℚ) ≤ ((g * (m / g) : Int) : ℚ) := by exact_mod_cast h3
  rw [div_lt_iff₀ hgq]
  have h5 : ((g * (m / g) : Int) : ℚ) = ((m / g : Int) : ℚ) * g := by push_cast; ring
  linarith

/-- Grid index safety under a condition on the remainders: when the width and
the height of the image leave remainders of at most the safe border on
division by the grid size, every pixel accepted by the border test gets an
index inside the grid arrays, and two accepted pixels get the same index iff
they lie in the same cell. -/
theorem Env.gridIndex_inGrid {n : ℕ} (E : Env n) (hg : 0 < E.grid_size) (hb : 0 < E.border)
    (hw : E.width % E.grid_size ≤ E.border) (hh : E.height % E.grid_size ≤ E.border)
    (hframe : ∀ obs b, E.isInFrame obs b = true →
      b ≤ obs.1 ∧ obs.1 < E.width - b ∧ b ≤ obs.2 ∧ obs.2 < E.height - b)
    (pc : V2D) (hpc : E.isInFrame (castInt pc) E.border = true) :
    E.inGrid (E.gridIndex pc) ∧
    ∀ pc2 : V2D, E.isInFrame (castInt pc2) E.border = true →
      (E.gridIndex pc = E.gridIndex pc2 ↔
        toInt (pc 0 / E.grid_size) = toInt (pc2 0 / E.grid_size) ∧
        toInt (pc 1 / E.grid_size) = toInt (pc2 1 / E.grid_size)) := by
  have hcell : ∀ p : V2D, E.isInFrame (castInt p) E.border = true →
      (0 ≤ toInt (p 0 / E.grid_size) ∧ toInt (p 0 / E.grid_size) < E.grid_n_width) ∧
      (0 ≤ toInt (p 1 / E.grid_size) ∧ toInt (p 1 / E.grid_size) < E.grid_n_height) := by
    intro p hp
    obtain ⟨h1, h2, h3, h4⟩ := hframe _ _ hp
    exact ⟨toInt_div_lt (p 0) E.grid_size E.width E.border hg hb h1 h2 hw,
      toInt_div_lt (p 1) E.grid_size E.height E.border hg hb h3 h4 hh⟩
  obtain ⟨⟨c0, c1⟩, ⟨r0, r1⟩⟩ := hcell pc hpc
  refine ⟨?_, ?_⟩
  · unfold Env.inGrid Env.gridIndex Env.length
    constructor
    · have : 0 ≤ toInt (pc 0 / E.grid_size) * E.grid_n_height :=
        mul_nonneg c0 (by omega)
      omega
    · have h1 : (toInt (pc 0 / E.grid_size) + 1) * E.grid_n_height
          ≤ E.grid_n_width * E.grid_n_height :=
        mul_le_mul_of_nonneg_right (by omega) (by omega)
      have h2 : (toInt (pc 0 / E.grid_size) + 1) * E.grid_n_height
          = toInt (pc 0 / E.grid_size) * E.grid_n_height + E.grid_n_height := by ring
      omega
  · intro pc2 hpc2
    obtain ⟨⟨d0, d1⟩, ⟨q0, q1⟩⟩ := hcell pc2 hpc2
    unfold Env.gridIndex
    constructor
    · intro h
      have hcol : toInt (pc 0 / E.grid_size) = toInt (pc2 0 / E.grid_size) := by
        by_contra hne
        have hd := Buf.row_disjoint E.grid_n_height (toInt (pc 0 / E.grid_size))
          (toInt (pc2 0 / E.grid_size)) (toInt (pc 1 / E.grid_size)) ⟨r0, r1⟩
          (fun e => hne e.symm)
        apply hd
        have e : (toInt (pc 0 / E.grid_size) - toInt (pc2 0 / E.grid_size)) * E.grid_n_height
            + toInt (pc 1 / E.grid_size) = toInt (pc2 1 / E.grid_size) := by
          have : (toInt (pc 0 / E.grid_size) - toInt (pc2 0 / E.grid_size)) * E.grid_n_height
              = toInt (pc 0 / E.grid_size) * E.grid_n_height
                - toInt (pc2 0 / E.grid_size) * E.grid_n_height := by ring
          omega
        rw [e]
        exact ⟨q0, q1⟩
      refine ⟨hcol, ?_⟩
      rw [hcol] at h
      omega
    · rintro ⟨h1, h2⟩
      rw [h1, h2]

/-- C23: the grid index of an accepted pixel can leave the grid.  On a camera
of 890×590 pixels with grid cells of 100 pixels and the safe border 40, the
grid has 8 columns and 5 rows, 40 cells.  The pixel (849.5, 300) passes the
border test and gets the index `8 * 5 + 3 = 43`, outside `[0, 40)`.  The
pixels (150, 549) and (250, 45) pass the border test, lie in different cells
(columns 1 and 2, rows 5 and 0) and get the same index 10. -/
theorem C23_grid_index_leaves_grid :
    (testEnvWide.grid_n_width = 8 ∧ testEnvWide.grid_n_height = 5 ∧ testEnvWide.length = 40 ∧
      testEnvWide.border = 40) ∧
    (testEnvWide.isInFrame (castInt ![1699 / 2, 300]) testEnvWide.border = true ∧
      testEnvWide.gridIndex ![1699 / 2, 300] = 43 ∧
      ¬ testEnvWide.inGrid (testEnvWide.gridIndex ![1699 / 2, 300])) ∧
    (testEnvWide.isInFrame (castInt ![150, 549]) testEnvWide.border = true ∧
      testEnvWide.isInFrame (castInt ![250, 45]) testEnvWide.border = true ∧
      testEnvWide.gridIndex ![150, 549] = 10 ∧ testEnvWide.gridIndex ![250, 45] = 10 ∧
      toInt ((150 : ℚ) / testEnvWide.grid_size) ≠ toInt ((250 : ℚ) / testEnvWide.grid_size)) := by
  refine ⟨⟨by decide, by decide, by decide, by decide⟩, ⟨by decide!, by decide!, by decide!⟩,
    ⟨by decide!, by decide!, by decide!, by decide!, by decide!⟩⟩

/-! ## Well-formedness of the sub map -/

/-- The three outcomes of a round of the third loop of `addFromSparseMap`: the
selector is as before; or the round reached the warp of a chosen Point `a`
with reference Feature `r`, and either only the memo and the patch cache
changed (a photometric test rejected the Point), or the entry of the Point was
appended, with an error within the outlier bound. -/
theorem addFromSparseMap.refine_cases (E : Env n) (img : Img) (it : Int → ℚ)
    (s : LidarSelector n) (i : Int) :
    addFromSparseMap.refine E img it s i = s ∨
    ∃ a r, s.grid_num i = CellType.TYPE_MAP ∧ s.voxel_points_ i = some a ∧
      addFromSparseMap.depth_continous E it (s.new_frame_.w2c E (s.points a).pos_)
        (s.new_frame_.w2f (s.points a).pos_ 2) = false ∧
      Point.getCloseViewObs E s.features (s.points a) s.new_frame_.pos = some r ∧
      (addFromSparseMap.refine E img it s i =
          { s with
            Warp_map := addFromSparseMap.memo E s a r
            patch_cache := getpatch E img (s.new_frame_.w2c E (s.points a).pos_) s.patch_cache 0 } ∨
        (addFromSparseMap.error E img s a r ≤ E.outlier_threshold * E.patch_size_total ∧
          addFromSparseMap.refine E img it s i =
            { s with
              Warp_map := addFromSparseMap.memo E s a r
              patch_cache :=
                getpatch E img (s.new_frame_.w2c E (s.points a).pos_) s.patch_cache 0
              sub_map_cur_frame_ := s.sub_map_cur_frame_ ++ [some a]
              sub_sparse_map :=
                { propa_errors := s.sub_sparse_map.propa_errors ++
                    [addFromSparseMap.error E img s a r]
                  search_levels := s.sub_sparse_map.search_levels ++
                    [addFromSparseMap.search_level E s a r]
                  errors := s.sub_sparse_map.errors ++ [addFromSparseMap.error E img s a r]
                  index := s.sub_sparse_map.index ++ [i]
                  voxel_points := s.sub_sparse_map.voxel_points ++ [some a]
                  patch := s.sub_sparse_map.patch ++ [addFromSparseMap.patch_wrap E s a r] } })) := by
  unfold addFromSparseMap.refine
  by_cases hmap : s.grid_num i = CellType.TYPE_MAP
  · rw [if_pos hmap]
    cases hpt : s.voxel_points_ i with
    | none => exact Or.inl rfl
    | some a =>
      simp only
      by_cases hdep : addFromSparseMap.depth_continous E it (s.new_frame_.w2c E (s.points a).pos_)
          (s.new_frame_.w2f (s.points a).pos_ 2) = true
      · rw [if_pos hdep]
        exact Or.inl rfl
      · rw [if_neg hdep]
        have hdep2 : addFromSparseMap.depth_continous E it (s.new_frame_.w2c E (s.points a).pos_)
            (s.new_frame_.w2f (s.points a).pos_ 2) = false := by simpa using hdep
        cases href : Point.getCloseViewObs E s.features (s.points a) s.new_frame_.pos with
        | none => exact Or.inl rfl
        | some r =>
          right
          refine ⟨a, r, hmap, rfl, hdep2, href, ?_⟩
          simp only
          unfold addFromSparseMap.error addFromSparseMap.patch_wrap addFromSparseMap.memo
            addFromSparseMap.search_level addFromSparseMap.A_cur_ref_zero
          cases hfw : findWarp s.Warp_map (s.features r).id_ with
          | none =>
            simp only [hfw]
            split
            · exact Or.inl rfl
            · split
              · exact Or.inl rfl
              · rename_i hle
                exact Or.inr ⟨not_lt.1 hle, rfl⟩
          | some w =>
            simp only [hfw]
            split
            · exact Or.inl rfl
            · split
              · exact Or.inl rfl
              · rename_i hle
                exact Or.inr ⟨not_lt.1 hle, rfl⟩
  · rw [if_neg hmap]
    exact Or.inl rfl

/-- The search level for `max_level = 2` is 0, 1 or 2. -/
theorem getBestSearchLevel_range (A : Matrix (Fin 2) (Fin 2) ℚ) :
    getBestSearchLevel A 2 = 0 ∨ getBestSearchLevel A 2 = 1 ∨ getBestSearchLevel A 2 = 2 := by
  unfold getBestSearchLevel
  have h2 : (2 : Int).toNat = 2 := rfl
  rw [h2]
  simp only [getBestSearchLevel.loop]
  split
  · split
    · right; right; norm_num
    · right; left; norm_num
  · left; rfl

/-- A memo lookup returns an entry of the memo, stored under the key. -/
theorem findWarp_mem (m : List (Int × Warp)) (id : Int) (w : Warp)
    (h : findWarp m id = some w) : (id, w) ∈ m := by
  unfold findWarp at h
  cases hf : List.find? (fun e => decide (e.1 = id)) m with
  | none => rw [hf] at h; cases h
  | some e =>
    rw [hf] at h
    cases h
    have h1 := List.find?_some hf
    have h2 := List.mem_of_find?_eq_some hf
    have h3 : e.1 = id := by simpa using h1
    rw [← h3]
    exact h2

/-- The buffer keeps its size under `warpAffine`. -/
theorem warpAffine_size (E : Env n) (A : Matrix (Fin 2) (Fin 2) ℚ) (img_ref : Img)
    (px_ref : V2D) (level_ref search_level pyramid_level halfpatch_size : Int) (patch : Buf) :
    (warpAffine E A img_ref px_ref level_ref search_level pyramid_level halfpatch_size patch).size
      = patch.size := by
  unfold warpAffine
  simp only
  split
  · rfl
  · refine foldl_inv (fun b : Buf => b.size = patch.size) _ _ _ rfl ?_
    intro b y _ hb
    refine foldl_inv (fun c : Buf => c.size = patch.size) _ _ _ hb ?_
    intro c x _ hc
    split <;> exact hc

/-- The reference patch has `3 * patch_size_total` entries. -/
theorem addFromSparseMap.patch_wrap_size (E : Env n) (s : LidarSelector n) (a r : Nat) :
    (addFromSparseMap.patch_wrap E s a r).size = E.patch_size_total * 3 := by
  unfold addFromSparseMap.patch_wrap
  simp only [List.foldl, warpAffine_size]
  rfl

/-- The search level of a round is 0, 1 or 2 when the levels of the memo are. -/
theorem addFromSparseMap.search_level_range (E : Env n) (s : LidarSelector n) (a r : Nat)
    (hm : ∀ e ∈ s.Warp_map, e.2.search_level = 0 ∨ e.2.search_level = 1 ∨ e.2.search_level = 2) :
    addFromSparseMap.search_level E s a r = 0 ∨ addFromSparseMap.search_level E s a r = 1 ∨
      addFromSparseMap.search_level E s a r = 2 := by
  unfold addFromSparseMap.search_level
  cases hfw : findWarp s.Warp_map (s.features r).id_ with
  | none => exact getBestSearchLevel_range _
  | some w => exact hm _ (findWarp_mem _ _ _ hfw)

/-- The levels of the memo after a round are 0, 1 or 2 when they were before. -/
theorem addFromSparseMap.memo_range (E : Env n) (s : LidarSelector n) (a r : Nat)
    (hm : ∀ e ∈ s.Warp_map, e.2.search_level = 0 ∨ e.2.search_level = 1 ∨ e.2.search_level = 2) :
    ∀ e ∈ addFromSparseMap.memo E s a r,
      e.2.search_level = 0 ∨ e.2.search_level = 1 ∨ e.2.search_level = 2 := by
  have hl := addFromSparseMap.search_level_range E s a r hm
  unfold addFromSparseMap.memo
  cases hfw : findWarp s.Warp_map (s.features r).id_ with
  | none =>
    intro e he
    rcases List.mem_append.1 he with h | h
    · exact hm e h
    · cases List.mem_singleton.1 h
      exact hl
  | some w => exact hm

/-- A round of the third loop of `addFromSparseMap` keeps the sub map well
formed, the levels of the memo within 0, 1, 2, and the cells of the entries a
sublist of the cells visited so far. -/
theorem addFromSparseMap.refine_wf (E : Env n) (img : Img) (it : Int → ℚ)
    (s : LidarSelector n) (i : Int) (pre : List Int)
    (hwf : SubSparseMap.WellFormed E s.sub_sparse_map)
    (hm : ∀ e ∈ s.Warp_map, e.2.search_level = 0 ∨ e.2.search_level = 1 ∨ e.2.search_level = 2)
    (hsub : s.sub_sparse_map.index.Sublist pre) :
    SubSparseMap.WellFormed E (addFromSparseMap.refine E img it s i).sub_sparse_map ∧
    (∀ e ∈ (addFromSparseMap.refine E img it s i).Warp_map,
      e.2.search_level = 0 ∨ e.2.search_level = 1 ∨ e.2.search_level = 2) ∧
    (addFromSparseMap.refine E img it s i).sub_sparse_map.index.Sublist (pre ++ [i]) := by
  have hsub2 : s.sub_sparse_map.index.Sublist (pre ++ [i]) :=
    hsub.trans (List.sublist_append_left pre [i])
  rcases addFromSparseMap.refine_cases E img it s i with h | ⟨a, r, _, _, _, _, h | ⟨hle, h⟩⟩
  · rw [h]
    exact ⟨hwf, hm, hsub2⟩
  · rw [h]
    exact ⟨hwf, addFromSparseMap.memo_range E s a r hm, hsub2⟩
  · rw [h]
    obtain ⟨w1, w2, w3, w4, w5, w6, w7, w8, w9⟩ := hwf
    refine ⟨⟨?_, ?_, ?_, ?_, ?_, ?_, ?_, ?_, ?_⟩, addFromSparseMap.memo_range E s a r hm, ?_⟩
    · show s.sub_sparse_map.errors ++ _ = s.sub_sparse_map.propa_errors ++ _
      rw [w1]
    · simp only [List.length_append, List.length_singleton, w2]
    · simp only [List.length_append, List.length_singleton, w3]
    · simp only [List.length_append, List.length_singleton, w4]
    · simp only [List.length_append, List.length_singleton, w5]
    · intro e he
      rcases List.mem_append.1 he with h1 | h1
      · exact w6 e h1
      · cases List.mem_singleton.1 h1
        exact hle
    · intro l hl
      rcases List.mem_append.1 hl with h1 | h1
      · exact w7 l h1
      · cases List.mem_singleton.1 h1
        exact addFromSparseMap.search_level_range E s a r hm
    · intro p hp
      rcases List.mem_append.1 hp with h1 | h1
      · exact w8 p h1
      · cases List.mem_singleton.1 h1
        exact addFromSparseMap.patch_wrap_size E s a r
    · intro v hv
      rcases List.mem_append.1 hv with h1 | h1
      · exact w9 v h1
      · cases List.mem_singleton.1 h1
        intro hn
        cases hn
    · exact List.Sublist.append hsub (List.Sublist.refl [i])

/-- The third loop of `addFromSparseMap` over the cells `l`, started with an
empty sub map and an empty memo: the sub map is well formed and the cells of
its entries are a sublist of `l`. -/
theorem addFromSparseMap.refines_wf (E : Env n) (img : Img) (it : Int → ℚ)
    (g : LidarSelector n) (hsm : g.sub_sparse_map = SubSparseMap.empty) (hwm : g.Warp_map = [])
    (l : List Int) :
    SubSparseMap.WellFormed E (l.foldl (addFromSparseMap.refine E img it) g).sub_sparse_map ∧
    (∀ e ∈ (l.foldl (addFromSparseMap.refine E img it) g).Warp_map,
      e.2.search_level = 0 ∨ e.2.search_level = 1 ∨ e.2.search_level = 2) ∧
    (l.foldl (addFromSparseMap.refine E img it) g).sub_sparse_map.index.Sublist l := by
  induction l using List.reverseRecOn with
  | nil =>
    simp only [List.foldl_nil]
    rw [hsm, hwm]
    refine ⟨⟨rfl, rfl, rfl, rfl, rfl, ?_, ?_, ?_, ?_⟩, ?_, List.Sublist.refl _⟩ <;>
    · intro e he
      cases he
  | append_singleton l x ih =>
    rw [List.foldl_append]
    simp only [List.foldl_cons, List.foldl_nil]
    exact addFromSparseMap.refine_wf E img it _ x l ih.1 ih.2.1 ih.2.2

/-- The second loop of `addFromSparseMap` leaves the sub map and the memo as
the preparation reset them: empty. -/
theorem addFromSparseMap.gather_reset (E : Env n) (pg : PointCloud) (s : LidarSelector n) :
    (addFromSparseMap.gather E pg s).sub_sparse_map = SubSparseMap.empty ∧
    (addFromSparseMap.gather E pg s).Warp_map = [] := by
  unfold addFromSparseMap.gather
  rw [addFromSparseMap.voxels_eq]
  obtain ⟨gn, md, vp, mv, h⟩ := addFromSparseMap.candidates_shape E (addFromSparseMap.prepare E pg s)
    ((addFromSparseMap.keys E pg s).flatMap
      (fun k => FeatMap.bucket (addFromSparseMap.prepare E pg s).feat_map k))
  rw [h]
  exact ⟨rfl, rfl⟩

/-- The grid cells are visited in increasing order. -/
theorem Env.cells_increasing {n : ℕ} (E : Env n) : E.cells.Pairwise (fun a b => a < b) := by
  unfold Env.cells
  rw [List.pairwise_map]
  exact (List.pairwise_lt_range _).imp (fun h => Int.ofNat_lt.2 h)

/-- C24: well-formedness of the sub map.  After `addFromSparseMap` on a
non-empty voxel map, the arrays `voxel_points`, `patch`, `search_levels`,
`errors`, `propa_errors` and `index` of the sub map have the same length, which
is at most the number of grid cells; every patch has `3 * patch_size²`
entries, every search level is 0, 1 or 2, `errors` equals `propa_errors`
entry by entry and every error is at most `outlier_threshold * patch_size²`,
no Point is null, and `index` is strictly increasing, its entries being
grid cells. -/
theorem C24_sub_map_well_formed (E : Env n) (img : Img) (pg : PointCloud) (s : LidarSelector n)
    (hne : s.feat_map ≠ []) :
    ((addFromSparseMap E img pg s).sub_sparse_map.voxel_points.length
        = (addFromSparseMap E img pg s).sub_sparse_map.index.length ∧
      (addFromSparseMap E img pg s).sub_sparse_map.patch.length
        = (addFromSparseMap E img pg s).sub_sparse_map.index.length ∧
      (addFromSparseMap E img pg s).sub_sparse_map.search_levels.length
        = (addFromSparseMap E img pg s).sub_sparse_map.index.length ∧
      (addFromSparseMap E img pg s).sub_sparse_map.errors.length
        = (addFromSparseMap E img pg s).sub_sparse_map.index.length ∧
      (addFromSparseMap E img pg s).sub_sparse_map.propa_errors.length
        = (addFromSparseMap E img pg s).sub_sparse_map.index.length ∧
      (addFromSparseMap E img pg s).sub_sparse_map.index.length ≤ E.cells.length ∧
      E.cells.length = E.length.toNat) ∧
    (∀ p ∈ (addFromSparseMap E img pg s).sub_sparse_map.patch,
      p.size = 3 * (E.patch_size * E.patch_size)) ∧
    (∀ l ∈ (addFromSparseMap E img pg s).sub_sparse_map.search_levels, l = 0 ∨ l = 1 ∨ l = 2) ∧
    (addFromSparseMap E img pg s).sub_sparse_map.errors
      = (addFromSparseMap E img pg s).sub_sparse_map.propa_errors ∧
    (∀ e ∈ (addFromSparseMap E img pg s).sub_sparse_map.errors,
      e ≤ E.outlier_threshold * ((E.patch_size * E.patch_size : Int) : ℚ)) ∧
    (∀ v ∈ (addFromSparseMap E img pg s).sub_sparse_map.voxel_points, v ≠ none) ∧
    (addFromSparseMap E img pg s).sub_sparse_map.index.Pairwise (fun a b => a < b) ∧
    (∀ c ∈ (addFromSparseMap E img pg s).sub_sparse_map.index, E.inGrid c) := by
  have hlen : ¬ s.feat_map.length ≤ 0 := by
    cases hm : s.feat_map with
    | nil => exact absurd hm hne
    | cons e m => simp
  have hfin : addFromSparseMap E img pg s =
      E.cells.foldl (addFromSparseMap.refine E img (addFromSparseMap.projected E pg s).2)
        (addFromSparseMap.gather E pg s) := by
    unfold addFromSparseMap
    rw [if_neg hlen]
  obtain ⟨hsm, hwm⟩ := addFromSparseMap.gather_reset E pg s
  obtain ⟨⟨w1, w2, w3, w4, w5, w6, w7, w8, w9⟩, _, hsub⟩ := addFromSparseMap.refines_wf E img
    (addFromSparseMap.projected E pg s).2 (addFromSparseMap.gather E pg s) hsm hwm E.cells
  rw [← hfin] at w1 w2 w3 w4 w5 w6 w7 w8 w9 hsub
  refine ⟨⟨w4, w5, w2, w3, ?_, hsub.length_le, ?_⟩, ?_, w7, w1, w6, w9,
    E.cells_increasing.sublist hsub, ?_⟩
  · rw [← w1]
    exact w3
  · unfold Env.cells
    rw [List.length_map, List.length_range]
  · intro p hp
    rw [w8 p hp]
    unfold Env.patch_size_total
    ring
  · intro c hc
    exact (E.mem_cells c).1 (hsub.subset hc)

/-- Witness for C24: the voxel map with one Point one metre in front of the
camera, and a cloud of that one point. -/
theorem C24_sub_map_well_formed_witness :
    (testMap ![0, 0, 1] 50).feat_map ≠ [] ∧
    (((addFromSparseMap (testEnv 200) (flatImg 7) [![0, 0, 1]] (testMap ![0, 0, 1] 50)).sub_sparse_map.voxel_points.length
        = (addFromSparseMap (testEnv 200) (flatImg 7) [![0, 0, 1]] (testMap ![0, 0, 1] 50)).sub_sparse_map.index.length ∧
      (addFromSparseMap (testEnv 200) (flatImg 7) [![0, 0, 1]] (testMap ![0, 0, 1] 50)).sub_sparse_map.patch.length
        = (addFromSparseMap (testEnv 200) (flatImg 7) [![0, 0, 1]] (testMap ![0, 0, 1] 50)).sub_sparse_map.index.length ∧
      (addFromSparseMap (testEnv 200) (flatImg 7) [![0, 0, 1]] (testMap ![0, 0, 1] 50)).sub_sparse_map.search_levels.length
        = (addFromSparseMap (testEnv 200) (flatImg 7) [![0, 0, 1]] (testMap ![0, 0, 1] 50)).sub_sparse_map.index.length ∧
      (addFromSparseMap (testEnv 200) (flatImg 7) [![0, 0, 1]] (testMap ![0, 0, 1] 50)).sub_sparse_map.errors.length
        = (addFromSparseMap (testEnv 200) (flatImg 7) [![0, 0, 1]] (testMap ![0, 0, 1] 50)).sub_sparse_map.index.length ∧
      (addFromSparseMap (testEnv 200) (flatImg 7) [![0, 0, 1]] (testMap ![0, 0, 1] 50)).sub_sparse_map.propa_errors.length
        = (addFromSparseMap (testEnv 200) (flatImg 7) [![0, 0, 1]] (testMap ![0, 0, 1] 50)).sub_sparse_map.index.length ∧
      (addFromSparseMap (testEnv 200) (flatImg 7) [![0, 0, 1]] (testMap ![0, 0, 1] 50)).sub_sparse_map.index.length ≤ (testEnv 200).cells.length ∧
      (testEnv 200).cells.length = (testEnv 200).length.toNat) ∧
    (∀ p ∈ (addFromSparseMap (testEnv 200) (flatImg 7) [![0, 0, 1]] (testMap ![0, 0, 1] 50)).sub_sparse_map.patch,
      p.size = 3 * ((testEnv 200).patch_size * (testEnv 200).patch_size)) ∧
    (∀ l ∈ (addFromSparseMap (testEnv 200) (flatImg 7) [![0, 0, 1]] (testMap ![0, 0, 1] 50)).sub_sparse_map.search_levels, l = 0 ∨ l = 1 ∨ l = 2) ∧
    (addFromSparseMap (testEnv 200) (flatImg 7) [![0, 0, 1]] (testMap ![0, 0, 1] 50)).sub_sparse_map.errors
      = (addFromSparseMap (testEnv 200) (flatImg 7) [![0, 0, 1]] (testMap ![0, 0, 1] 50)).sub_sparse_map.propa_errors ∧
    (∀ e ∈ (addFromSparseMap (testEnv 200) (flatImg 7) [![0, 0, 1]] (testMap ![0, 0, 1] 50)).sub_sparse_map.errors,
      e ≤ (testEnv 200).outlier_threshold * (((testEnv 200).patch_size * (testEnv 200).patch_size : Int) : ℚ)) ∧
    (∀ v ∈ (addFromSparseMap (testEnv 200) (flatImg 7) [![0, 0, 1]] (testMap ![0, 0, 1] 50)).sub_sparse_map.voxel_points, v ≠ none) ∧
    (addFromSparseMap (testEnv 200) (flatImg 7) [![0, 0, 1]] (testMap ![0, 0, 1] 50)).sub_sparse_map.index.Pairwise (fun a b => a < b) ∧
    (∀ c ∈ (addFromSparseMap (testEnv 200) (flatImg 7) [![0, 0, 1]] (testMap ![0, 0, 1] 50)).sub_sparse_map.index, (testEnv 200).inGrid c)) :=
  ⟨by decide, C24_sub_map_well_formed (testEnv 200) (flatImg 7) [![0, 0, 1]] (testMap ![0, 0, 1] 50)
    (by decide)⟩

/-! ## The warp memo of `addFromSparseMap` -/

/-- On a hit of the memo a round uses the memoised warp. -/
theorem addFromSparseMap.used_warp_hit (E : Env n) (s : LidarSelector n) (a r : Nat) (w : Warp)
    (h : findWarp s.Warp_map (s.features r).id_ = some w) :
    addFromSparseMap.used_warp E s a r = w ∧ addFromSparseMap.memo E s a r = s.Warp_map := by
  unfold addFromSparseMap.used_warp addFromSparseMap.search_level addFromSparseMap.A_cur_ref_zero
    addFromSparseMap.memo
  simp only [h]
  exact ⟨trivial, trivial⟩

/-- On a miss of the memo a round uses the own warp of the Point and its
reference Feature, and stores it under the `id_` of the Feature. -/
theorem addFromSparseMap.used_warp_miss (E : Env n) (s : LidarSelector n) (a r : Nat)
    (h : findWarp s.Warp_map (s.features r).id_ = none) :
    addFromSparseMap.used_warp E s a r = addFromSparseMap.own_warp E s a r ∧
    addFromSparseMap.memo E s a r
      = s.Warp_map ++ [((s.features r).id_, addFromSparseMap.own_warp E s a r)] := by
  have h1 : addFromSparseMap.used_warp E s a r = addFromSparseMap.own_warp E s a r := by
    unfold addFromSparseMap.used_warp addFromSparseMap.search_level
      addFromSparseMap.A_cur_ref_zero addFromSparseMap.own_warp
    simp only [h]
  refine ⟨h1, ?_⟩
  rw [← h1]
  unfold addFromSparseMap.memo
  simp only [h]
  rfl

/-- The reference patch of a round is built from the warp the round uses. -/
theorem addFromSparseMap.patch_wrap_build (E : Env n) (s : LidarSelector n) (a r : Nat) :
    addFromSparseMap.patch_wrap E s a r
      = addFromSparseMap.build E (addFromSparseMap.used_warp E s a r) (s.features r) := rfl

/-- The warp a round uses is the own warp of the chosen Point of the cell or
of an earlier cell, whose reference Feature has the same `id_`. -/
theorem addFromSparseMap.used_warp_from (E : Env n) (s : LidarSelector n) (pre : List Int)
    (i : Int) (a r : Nat) (hpre : ∀ j ∈ pre, j < i) (hsrc : addFromSparseMap.Source E s i a r)
    (hM : addFromSparseMap.MemoFrom E s pre) :
    ∃ j a1 r1, j ∈ pre ++ [i] ∧ j ≤ i ∧ addFromSparseMap.Source E s j a1 r1 ∧
      (s.features r1).id_ = (s.features r).id_ ∧
      addFromSparseMap.used_warp E s a r = addFromSparseMap.own_warp E s a1 r1 := by
  cases hfw : findWarp s.Warp_map (s.features r).id_ with
  | none =>
    exact ⟨i, a, r, List.mem_append_right _ (List.mem_singleton_self i), le_refl i, hsrc, rfl,
      (addFromSparseMap.used_warp_miss E s a r hfw).1⟩
  | some w =>
    obtain ⟨j, a1, r1, hj, hs1, hid, hw⟩ := hM _ (findWarp_mem _ _ _ hfw)
    refine ⟨j, a1, r1, List.mem_append_left _ hj, le_of_lt (hpre j hj), hs1, hid, ?_⟩
    rw [(addFromSparseMap.used_warp_hit E s a r w hfw).1]
    exact hw

/-- The memo after a round of the third loop of `addFromSparseMap`. -/
theorem addFromSparseMap.memo_from (E : Env n) (s : LidarSelector n) (pre : List Int)
    (i : Int) (a r : Nat) (hsrc : addFromSparseMap.Source E s i a r)
    (hM : addFromSparseMap.MemoFrom E s pre) :
    ∀ e ∈ addFromSparseMap.memo E s a r, ∃ j a1 r1, j ∈ pre ++ [i] ∧
      addFromSparseMap.Source E s j a1 r1 ∧ (s.features r1).id_ = e.1 ∧
      e.2 = addFromSparseMap.own_warp E s a1 r1 := by
  have hold : ∀ e ∈ s.Warp_map, ∃ j a1 r1, j ∈ pre ++ [i] ∧
      addFromSparseMap.Source E s j a1 r1 ∧ (s.features r1).id_ = e.1 ∧
      e.2 = addFromSparseMap.own_warp E s a1 r1 := by
    intro e he
    obtain ⟨j, a1, r1, hj, h⟩ := hM e he
    exact ⟨j, a1, r1, List.mem_append_left _ hj, h⟩
  cases hfw : findWarp s.Warp_map (s.features r).id_ with
  | none =>
    rw [(addFromSparseMap.used_warp_miss E s a r hfw).2]
    intro e he
    rcases List.mem_append.1 he with h | h
    · exact hold e h
    · cases List.mem_singleton.1 h
      exact ⟨i, a, r, List.mem_append_right _ (List.mem_singleton_self i), hsrc, rfl, rfl⟩
  | some w =>
    rw [(addFromSparseMap.used_warp_hit E s a r w hfw).2]
    exact hold

/-- A round of the third loop of `addFromSparseMap` keeps the provenance of the
memo and of the entries of the sub map. -/
theorem addFromSparseMap.refine_from (E : Env n) (img : Img) (it : Int → ℚ)
    (s : LidarSelector n) (i : Int) (pre : List Int) (hpre : ∀ j ∈ pre, j < i)
    (hwf : SubSparseMap.WellFormed E s.sub_sparse_map)
    (hM : addFromSparseMap.MemoFrom E s pre) (hS : addFromSparseMap.EntriesFrom E s pre) :
    addFromSparseMap.MemoFrom E (addFromSparseMap.refine E img it s i) (pre ++ [i]) ∧
    addFromSparseMap.EntriesFrom E (addFromSparseMap.refine E img it s i) (pre ++ [i]) := by
  have hM2 : addFromSparseMap.MemoFrom E s (pre ++ [i]) := by
    intro e he
    obtain ⟨j, a1, r1, hj, h⟩ := hM e he
    exact ⟨j, a1, r1, List.mem_append_left _ hj, h⟩
  have hS2 : addFromSparseMap.EntriesFrom E s (pre ++ [i]) := by
    intro x hx
    obtain ⟨a, r, j, a1, r1, h1, h2, h3, h4, h⟩ := hS x hx
    exact ⟨a, r, j, a1, r1, List.mem_append_left _ h1, h2, h3, List.mem_append_left _ h4, h⟩
  rcases addFromSparseMap.refine_cases E img it s i with h | ⟨a, r, _, hvp, _, href, h | ⟨_, h⟩⟩
  · rw [h]
    exact ⟨hM2, hS2⟩
  · rw [h]
    exact ⟨addFromSparseMap.memo_from E s pre i a r ⟨hvp, href⟩ hM, hS2⟩
  · rw [h]
    refine ⟨addFromSparseMap.memo_from E s pre i a r ⟨hvp, href⟩ hM, ?_⟩
    obtain ⟨_, w2, _, w4, w5, _⟩ := hwf
    intro x hx
    have hz : x ∈ SubSparseMap.entries s.sub_sparse_map ++
        [(i, some a, addFromSparseMap.search_level E s a r, addFromSparseMap.patch_wrap E s a r)] := by
      have hl3 : s.sub_sparse_map.search_levels.length = s.sub_sparse_map.patch.length := by
        rw [w2, w5]
      have hl2 : s.sub_sparse_map.voxel_points.length
          = (List.zip s.sub_sparse_map.search_levels s.sub_sparse_map.patch).length := by
        rw [List.length_zip, ← hl3, min_self, w4, w2]
      have hl1 : s.sub_sparse_map.index.length
          = (List.zip s.sub_sparse_map.voxel_points
              (List.zip s.sub_sparse_map.search_levels s.sub_sparse_map.patch)).length := by
        rw [List.length_zip, ← hl2, min_self, w4]
      unfold SubSparseMap.entries at hx ⊢
      simp only at hx
      rw [List.zip_append hl3, List.zip_append hl2, List.zip_append hl1] at hx
      exact hx
    rcases List.mem_append.1 hz with h1 | h1
    · exact hS2 x h1
    · cases List.mem_singleton.1 h1
      obtain ⟨j, a1, r1, hj, hle, hs1, hid, hw⟩ :=
        addFromSparseMap.used_warp_from E s pre i a r hpre ⟨hvp, href⟩ hM
      refine ⟨a, r, j, a1, r1, List.mem_append_right _ (List.mem_singleton_self i), ⟨hvp, href⟩,
        rfl, hj, hle, hs1, hid, ?_, ?_⟩
      · exact congrArg Warp.search_level hw
      · exact (addFromSparseMap.patch_wrap_build E s a r).trans
          (congrArg (fun w => addFromSparseMap.build E w (s.features r)) hw)

/-- The third loop of `addFromSparseMap` over increasing cells `l`, started
with an empty sub map and an empty memo, keeps the provenance of the memo and
of the entries of the sub map. -/
theorem addFromSparseMap.refines_from (E : Env n) (img : Img) (it : Int → ℚ)
    (g : LidarSelector n) (hsm : g.sub_sparse_map = SubSparseMap.empty) (hwm : g.Warp_map = [])
    (l : List Int) (hl : l.Pairwise (fun a b => a < b)) :
    addFromSparseMap.MemoFrom E (l.foldl (addFromSparseMap.refine E img it) g) l ∧
    addFromSparseMap.EntriesFrom E (l.foldl (addFromSparseMap.refine E img it) g) l := by
  induction l using List.reverseRecOn with
  | nil =>
    simp only [List.foldl_nil]
    constructor
    · intro e he
      rw [hwm] at he
      cases he
    · intro x hx
      rw [hsm] at hx
      cases hx
  | append_singleton l x ih =>
    rw [List.foldl_append]
    simp only [List.foldl_cons, List.foldl_nil]
    rw [List.pairwise_append] at hl
    obtain ⟨ih1, ih2⟩ := ih hl.1
    exact addFromSparseMap.refine_from E img it _ x l
      (fun j hj => hl.2.2 j hj x (List.mem_singleton_self x))
      (addFromSparseMap.refines_wf E img it g hsm hwm l).1 ih1 ih2

/-- Provenance of the entries of the sub map after `addFromSparseMap` on a
non-empty voxel map. -/
theorem addFromSparseMap.entries_from (E : Env n) (img : Img) (pg : PointCloud)
    (s : LidarSelector n) (hne : s.feat_map ≠ []) :
    addFromSparseMap.EntriesFrom E (addFromSparseMap E img pg s) E.cells := by
  have hlen : ¬ s.feat_map.length ≤ 0 := by
    cases hm : s.feat_map with
    | nil => exact absurd hm hne
    | cons e m => simp
  have hfin : addFromSparseMap E img pg s =
      E.cells.foldl (addFromSparseMap.refine E img (addFromSparseMap.projected E pg s).2)
        (addFromSparseMap.gather E pg s) := by
    unfold addFromSparseMap
    rw [if_neg hlen]
  obtain ⟨hsm, hwm⟩ := addFromSparseMap.gather_reset E pg s
  rw [hfin]
  exact (addFromSparseMap.refines_from E img (addFromSparseMap.projected E pg s).2
    (addFromSparseMap.gather E pg s) hsm hwm E.cells E.cells_increasing).2

/-- C22 (amended): the warp memo is shared by the Features of one frame.  The
memo is keyed by `id_`, which `addSparseMap` and `addObservation` set to the id
of the current frame.  After `addFromSparseMap` on a non-empty voxel map, every
entry of the sub map is for a grid cell `c`, holds the chosen Point `a` of the
cell, whose reference Feature is `r`, and its search level and reference patch
are built from the warp that `getWarpMatrixAffine` and `getBestSearchLevel`
give for the chosen Point `a1` and reference Feature `r1` of a cell `j ≤ c`
with the same `id_` as `r`; for `j = c` this is the entry's own warp. -/
theorem C22_warp_memo_shared_by_frame_id (E : Env n) (img : Img) (pg : PointCloud)
    (s : LidarSelector n) (hne : s.feat_map ≠ []) :
    ((∀ (sel : LidarSelector n) i, (addSparseMap.ftr_new E sel i).id_ = sel.new_frame_.id_) ∧
      (∀ (sel : LidarSelector n) i pc v,
        (addObservation.ftr_new E sel i pc v).id_ = sel.new_frame_.id_)) ∧
    ((addFromSparseMap E img pg s).features = s.features ∧
      (addFromSparseMap E img pg s).points = s.points ∧
      (addFromSparseMap E img pg s).new_frame_ = s.new_frame_) ∧
    ∀ x ∈ SubSparseMap.entries (addFromSparseMap E img pg s).sub_sparse_map,
      ∃ a r j a1 r1,
        E.inGrid x.1 ∧ addFromSparseMap.Source E (addFromSparseMap E img pg s) x.1 a r ∧
        x.2.1 = some a ∧
        E.inGrid j ∧ j ≤ x.1 ∧ addFromSparseMap.Source E (addFromSparseMap E img pg s) j a1 r1 ∧
        ((addFromSparseMap E img pg s).features r1).id_
          = ((addFromSparseMap E img pg s).features r).id_ ∧
        x.2.2.1 = (addFromSparseMap.own_warp E (addFromSparseMap E img pg s) a1 r1).search_level ∧
        x.2.2.2 = addFromSparseMap.build E
          (addFromSparseMap.own_warp E (addFromSparseMap E img pg s) a1 r1)
          ((addFromSparseMap E img pg s).features r) ∧
        (j = x.1 → a1 = a ∧ r1 = r) := by
  obtain ⟨hp, _, hf, _, _, hfr, _⟩ := addFromSparseMap_frame E img pg s
  refine ⟨⟨fun _ _ => rfl, fun _ _ _ _ => rfl⟩, ⟨hf, hp, hfr⟩, ?_⟩
  intro x hx
  obtain ⟨a, r, j, a1, r1, h1, h2, h3, h4, h5, h6, h7, h8, h9⟩ :=
    addFromSparseMap.entries_from E img pg s hne x hx
  refine ⟨a, r, j, a1, r1, (E.mem_cells _).1 h1, h2, h3, (E.mem_cells _).1 h4, h5, h6, h7, h8, h9,
    ?_⟩
  intro hj
  have ha : a1 = a := by
    have := h6.1
    rw [hj, h2.1] at this
    exact (Option.some.inj this).symm
  refine ⟨ha, ?_⟩
  have := h6.2
  rw [ha, h2.2] at this
  exact (Option.some.inj this).symm

/-- Witness for C22 (amended): the voxel map of two Points observed by one
earlier frame, and the cloud of these two points. -/
theorem C22_warp_memo_shared_by_frame_id_witness :
    testMapTwo.feat_map ≠ [] ∧
    (∀ x ∈ SubSparseMap.entries (addFromSparseMap testEnvTwo (flatImgTwo 7) cloudTwo testMapTwo).sub_sparse_map,
      ∃ a r j a1 r1,
        testEnvTwo.inGrid x.1 ∧ addFromSparseMap.Source testEnvTwo (addFromSparseMap testEnvTwo (flatImgTwo 7) cloudTwo testMapTwo) x.1 a r ∧
        x.2.1 = some a ∧
        testEnvTwo.inGrid j ∧ j ≤ x.1 ∧ addFromSparseMap.Source testEnvTwo (addFromSparseMap testEnvTwo (flatImgTwo 7) cloudTwo testMapTwo) j a1 r1 ∧
        ((addFromSparseMap testEnvTwo (flatImgTwo 7) cloudTwo testMapTwo).features r1).id_
          = ((addFromSparseMap testEnvTwo (flatImgTwo 7) cloudTwo testMapTwo).features r).id_ ∧
        x.2.2.1 = (addFromSparseMap.own_warp testEnvTwo (addFromSparseMap testEnvTwo (flatImgTwo 7) cloudTwo testMapTwo) a1 r1).search_level ∧
        x.2.2.2 = addFromSparseMap.build testEnvTwo
          (addFromSparseMap.own_warp testEnvTwo (addFromSparseMap testEnvTwo (flatImgTwo 7) cloudTwo testMapTwo) a1 r1)
          ((addFromSparseMap testEnvTwo (flatImgTwo 7) cloudTwo testMapTwo).features r) ∧
        (j = x.1 → a1 = a ∧ r1 = r)) :=
  ⟨by decide!,
    (C22_warp_memo_shared_by_frame_id testEnvTwo (flatImgTwo 7) cloudTwo testMapTwo
      (by decide!)).2.2⟩

/-- C22, counterexample: two Points of the voxel map observed by one earlier
frame (`id_` 0, identity pose), the current frame 7/8 further along the optical
axis.  Point 0 projects into cell 0 and Point 1 into cell 1, both become
entries of the sub map, each with its own observation as reference Feature.
The own warp of Point 0 is 4/3 times the identity with search level 0; the own
warp of Point 1 is 16/9 times the identity with search level 1.  The memo ends
with the single entry of id 0, the warp of Point 0, and the entry of Point 1
carries search level 0. -/
theorem C22_counterexample_warp_of_other_feature :
    (testEnvTwo.cells = [0, 1] ∧ testEnvTwo.border = 16 ∧ testEnvTwo.patch_size_total = 4) ∧
    (testMapTwo.new_frame_.pos 2 = 7 / 8 ∧
      castInt (testMapTwo.new_frame_.w2c testEnvTwo ![0, 0, 7 / 2]) = (24, 20) ∧
      castInt (testMapTwo.new_frame_.w2c testEnvTwo ![3 / 2, 0, 2]) = (56, 20) ∧
      testEnvTwo.norm3 ((testMapTwo.features 0).pos - (testMapTwo.points 0).pos_) = 7 / 2 ∧
      testEnvTwo.norm3 ((testMapTwo.features 1).pos - (testMapTwo.points 1).pos_) = 5 / 2) ∧
    ((addFromSparseMap testEnvTwo (flatImgTwo 7) cloudTwo testMapTwo).sub_sparse_map.index = [0, 1] ∧
      (addFromSparseMap testEnvTwo (flatImgTwo 7) cloudTwo testMapTwo).sub_sparse_map.voxel_points
        = [some 0, some 1] ∧
      (addFromSparseMap testEnvTwo (flatImgTwo 7) cloudTwo testMapTwo).sub_sparse_map.search_levels
        = [0, 0] ∧
      (addFromSparseMap testEnvTwo (flatImgTwo 7) cloudTwo testMapTwo).Warp_map.map
          (fun e => (e.1, e.2.search_level, e.2.A_cur_ref 0 0, e.2.A_cur_ref 0 1,
            e.2.A_cur_ref 1 0, e.2.A_cur_ref 1 1))
        = [(0, 0, 4 / 3, 0, 0, 4 / 3)]) ∧
    (Point.getCloseViewObs testEnvTwo testMapTwo.features (testMapTwo.points 0)
        testMapTwo.new_frame_.pos = some 0 ∧
      Point.getCloseViewObs testEnvTwo testMapTwo.features (testMapTwo.points 1)
        testMapTwo.new_frame_.pos = some 1 ∧
      (testMapTwo.features 0).id_ = (testMapTwo.features 1).id_) ∧
    ((addFromSparseMap.own_warp testEnvTwo testMapTwo 0 0).search_level = 0 ∧
      (addFromSparseMap.own_warp testEnvTwo testMapTwo 0 0).A_cur_ref 0 0 = 4 / 3 ∧
      (addFromSparseMap.own_warp testEnvTwo testMapTwo 1 1).search_level = 1 ∧
      (addFromSparseMap.own_warp testEnvTwo testMapTwo 1 1).A_cur_ref 0 0 = 16 / 9 ∧
      (addFromSparseMap.own_warp testEnvTwo testMapTwo 1 1).A_cur_ref 1 1 = 16 / 9) := by
  refine ⟨⟨by decide!, by decide!, by decide!⟩,
    ⟨by decide!, by decide!, by decide!, by decide!, by decide!⟩,
    ⟨by decide!, by decide!, by decide!, by decide!⟩,
    ⟨by decide!, by decide!, by decide!⟩,
    ⟨by decide!, by decide!, by decide!, by decide!, by decide!⟩⟩

/-! ## The pose stored in the Features of a frame -/

/-- The key points of a frame do not touch its pose and its id. -/
theorem Frame.setKeyPoints_pose (E : Env n) (features : Nat → Feature) (fr : Frame) :
    (Frame.setKeyPoints E features fr).T_f_w_ = fr.T_f_w_ ∧
    (Frame.setKeyPoints E features fr).id_ = fr.id_ := by
  unfold Frame.setKeyPoints
  simp only
  refine foldl_inv (fun t : Frame => t.T_f_w_ = fr.T_f_w_ ∧ t.id_ = fr.id_) _ _ _ ⟨rfl, rfl⟩ ?_
  intro t ftr _ ht
  cases ftr with
  | none => exact ht
  | some a =>
    simp only
    split
    · exact ht
    · exact ht

/-- First part of `detect`: the new frame carries the next frame id and the
pose derived from the shared state on entry. -/
theorem detect.start_pose (E : Env n) (img : Img) (pg : PointCloud) (s : LidarSelector n) :
    (detect.start E img pg s).Rci = s.Rci ∧ (detect.start E img pg s).Pci = s.Pci ∧
    (detect.start E img pg s).n_features = s.n_features ∧
    (detect.start E img pg s).new_frame_.T_f_w_ = updateFrameState.pose s s.state ∧
    (detect.start E img pg s).new_frame_.id_ = s.frame_counter_ := by
  unfold detect.start
  simp only [updateFrameState]
  split
  · refine ⟨rfl, rfl, rfl, ?_, ?_⟩
    · simp only [Frame.setKeyframe]
      rw [(Frame.setKeyPoints_pose E _ _).1]
      rfl
    · simp only [Frame.setKeyframe]
      rw [(Frame.setKeyPoints_pose E _ _).2]
      rfl
  · exact ⟨rfl, rfl, rfl, rfl, rfl⟩

/-- The extrinsics are not touched by `addFromSparseMap`. -/
theorem addFromSparseMap_extrinsic (E : Env n) (img : Img) (pg : PointCloud)
    (s : LidarSelector n) :
    (addFromSparseMap E img pg s).Rci = s.Rci ∧ (addFromSparseMap E img pg s).Pci = s.Pci := by
  unfold addFromSparseMap
  split
  · exact ⟨rfl, rfl⟩
  · obtain ⟨wm, pc, cf, sm, hshape⟩ := addFromSparseMap.refines_shape E img
      (addFromSparseMap.projected E pg s).2 (addFromSparseMap.gather E pg s) E.cells
    have hgather : addFromSparseMap.gather E pg s =
        (addFromSparseMap.visited E pg s).foldl (addFromSparseMap.candidate E)
          (addFromSparseMap.prepare E pg s) := by
      unfold addFromSparseMap.gather addFromSparseMap.visited
      rw [addFromSparseMap.voxels_eq]
      rfl
    obtain ⟨gn, md, vp, mv, hcs⟩ := addFromSparseMap.candidates_shape E
      (addFromSparseMap.prepare E pg s) (addFromSparseMap.visited E pg s)
    rw [hshape, hgather, hcs]
    exact ⟨rfl, rfl⟩

/-- Features of `addSparseMap`: the shared state, the extrinsics and the frame
are not touched, the Features at the old addresses are kept, and every Feature
at a new address stores the pose and the id of the current frame. -/
theorem addSparseMap_features (E : Env n) (img : Img) (pg : PointCloud) (s : LidarSelector n) :
    (addSparseMap E img pg s).Rci = s.Rci ∧ (addSparseMap E img pg s).Pci = s.Pci ∧
    (addSparseMap E img pg s).state = s.state ∧
    (addSparseMap E img pg s).new_frame_ = s.new_frame_ ∧
    s.n_features ≤ (addSparseMap E img pg s).n_features ∧
    (∀ f, f < s.n_features → (addSparseMap E img pg s).features f = s.features f) ∧
    (∀ f, s.n_features ≤ f → f < (addSparseMap E img pg s).n_features →
      ((addSparseMap E img pg s).features f).T_f_w_ = s.new_frame_.T_f_w_ ∧
      ((addSparseMap E img pg s).features f).id_ = s.new_frame_.id_) := by
  obtain ⟨gn, mi, mv, md, vp, av, hshape⟩ := addSparseMap.select_shape E img pg s
  unfold addSparseMap
  refine foldl_inv (fun t : LidarSelector n =>
      t.Rci = s.Rci ∧ t.Pci = s.Pci ∧ t.state = s.state ∧ t.new_frame_ = s.new_frame_ ∧
      s.n_features ≤ t.n_features ∧ (∀ f, f < s.n_features → t.features f = s.features f) ∧
      (∀ f, s.n_features ≤ f → f < t.n_features →
        (t.features f).T_f_w_ = s.new_frame_.T_f_w_ ∧ (t.features f).id_ = s.new_frame_.id_))
    (addSparseMap.create E) E.cells (addSparseMap.select E img pg s) ?_ ?_
  · rw [hshape]
    refine ⟨rfl, rfl, rfl, rfl, le_refl _, fun _ _ => rfl, ?_⟩
    intro f h1 h2
    exact absurd h2 (not_lt.2 h1)
  · rintro t i _ ⟨h1, h2, h3, h4, h5, h6, h7⟩
    unfold addSparseMap.create
    split
    · refine ⟨h1, h2, h3, h4, Nat.le_succ_of_le h5, ?_, ?_⟩
      · intro f hf
        show Function.update t.features t.n_features _ f = _
        rw [Function.update_noteq (Nat.ne_of_lt (lt_of_lt_of_le hf h5))]
        exact h6 f hf
      · intro f hf1 hf2
        show (Function.update t.features t.n_features _ f).T_f_w_ = _ ∧
          (Function.update t.features t.n_features _ f).id_ = _
        by_cases hft : f = t.n_features
        · rw [hft, Function.update_same]
          show t.new_frame_.T_f_w_ = _ ∧ t.new_frame_.id_ = _
          rw [h4]
          exact ⟨rfl, rfl⟩
        · rw [Function.update_noteq hft]
          exact h7 f hf1 (lt_of_le_of_ne (Nat.lt_succ_iff.1 hf2) hft)
    · exact ⟨h1, h2, h3, h4, h5, h6, h7⟩

/-- The extrinsics are not touched by an iteration of `UpdateState`. -/
theorem UpdateState.iteration_extrinsic (E : Env n) (img : Img) (level : Int)
    (s : LidarSelector n) (l : UpdateState.Locals n)
    (h : l.sel.Rci = s.Rci ∧ l.sel.Pci = s.Pci) :
    (UpdateState.iteration E img level l).sel.Rci = s.Rci ∧
    (UpdateState.iteration E img level l).sel.Pci = s.Pci := by
  unfold UpdateState.iteration
  simp only
  split <;> exact h

/-- The extrinsics are not touched by the loop of `UpdateState`. -/
theorem UpdateState.loop_extrinsic (E : Env n) (img : Img) (level : Int) (s : LidarSelector n)
    (k : Nat) (l : UpdateState.Locals n) (h : l.sel.Rci = s.Rci ∧ l.sel.Pci = s.Pci) :
    (UpdateState.loop E img level k l).sel.Rci = s.Rci ∧
    (UpdateState.loop E img level k l).sel.Pci = s.Pci := by
  induction k generalizing l with
  | zero => exact h
  | succ k ih =>
    unfold UpdateState.loop
    simp only
    split
    · exact UpdateState.iteration_extrinsic E img level s l h
    · exact ih _ (UpdateState.iteration_extrinsic E img level s l h)

/-- The extrinsics are not touched by `UpdateState`. -/
theorem UpdateState_extrinsic (E : Env n) (img : Img) (total_residual : ℚ) (level : Int)
    (s : LidarSelector n) :
    (UpdateState E img total_residual level s).1.Rci = s.Rci ∧
    (UpdateState E img total_residual level s).1.Pci = s.Pci := by
  unfold UpdateState
  simp only
  split
  · exact ⟨rfl, rfl⟩
  · exact UpdateState.loop_extrinsic E img level s _ _ ⟨rfl, rfl⟩

/-- Pose after `ComputeJ`: the Features and the extrinsics are not touched, the
frame keeps its id, and with a non-empty sub map the frame stores the pose
derived from the shared state that `ComputeJ` leaves. -/
theorem ComputeJ_pose (E : Env n) (img : Img) (s : LidarSelector n) :
    (ComputeJ E img s).Rci = s.Rci ∧ (ComputeJ E img s).Pci = s.Pci ∧
    (ComputeJ E img s).features = s.features ∧ (ComputeJ E img s).n_features = s.n_features ∧
    (ComputeJ E img s).new_frame_.id_ = s.new_frame_.id_ ∧
    (s.sub_sparse_map.index = [] → ComputeJ E img s = s) ∧
    (s.sub_sparse_map.index ≠ [] →
      (ComputeJ E img s).new_frame_.T_f_w_ = updateFrameState.pose s (ComputeJ E img s).state) := by
  unfold ComputeJ
  simp only
  split
  · rename_i h0
    refine ⟨rfl, rfl, rfl, rfl, rfl, fun _ => rfl, ?_⟩
    intro hne
    exact absurd (List.length_eq_zero.1 h0) hne
  · rename_i h0
    have k2 := UpdateState_keeps E img 10000000000 2 s
    have k1 := UpdateState_keeps E img 10000000000 1 (UpdateState E img 10000000000 2 s).1
    have k0 := UpdateState_keeps E img 10000000000 0
      (UpdateState E img 10000000000 1 (UpdateState E img 10000000000 2 s).1).1
    have e2 := UpdateState_extrinsic E img 10000000000 2 s
    have e1 := UpdateState_extrinsic E img 10000000000 1 (UpdateState E img 10000000000 2 s).1
    have e0 := UpdateState_extrinsic E img 10000000000 0
      (UpdateState E img 10000000000 1 (UpdateState E img 10000000000 2 s).1).1
    generalize (UpdateState E img 10000000000 0
      (UpdateState E img 10000000000 1 (UpdateState E img 10000000000 2 s).1).1) = r0
      at k0 e0 ⊢
    generalize (UpdateState E img 10000000000 1 (UpdateState E img 10000000000 2 s).1) = r1
      at k0 k1 e0 e1
    generalize (UpdateState E img 10000000000 2 s) = r2 at k1 k2 e1 e2
    obtain ⟨_, _, _, c0, n0, _, f0, _⟩ := k0
    obtain ⟨_, _, _, c1, n1, _, f1, _⟩ := k1
    obtain ⟨_, _, _, c2, n2, _, f2, _⟩ := k2
    have hR : r0.1.Rci = s.Rci := by rw [e0.1, e1.1, e2.1]
    have hP : r0.1.Pci = s.Pci := by rw [e0.2, e1.2, e2.2]
    split <;>
    · simp only [updateFrameState, updateFrameState.pose]
      refine ⟨hR, hP, by rw [c0, c1, c2], by rw [n0, n1, n2], by rw [f0, f1, f2], ?_, ?_⟩
      · intro hnil
        rw [hnil] at h0
        exact absurd rfl h0
      · intro _
        rw [hR, hP]

/-- A round of `addObservation`: the shared state, the extrinsics and the frame
are not touched, the Features at the old addresses are kept, and a Feature at
a new address stores the pose and the id of the current frame. -/
theorem addObservation.step_features (E : Env n) (img : Img) (s s1 : LidarSelector n) (i : Nat)
    (h : addObservation.step E img s i = some s1) :
    s1.Rci = s.Rci ∧ s1.Pci = s.Pci ∧ s1.state = s.state ∧ s1.new_frame_ = s.new_frame_ ∧
    s.n_features ≤ s1.n_features ∧ (∀ f, f < s.n_features → s1.features f = s.features f) ∧
    (∀ f, s.n_features ≤ f → f < s1.n_features →
      (s1.features f).T_f_w_ = s.new_frame_.T_f_w_ ∧ (s1.features f).id_ = s.new_frame_.id_) := by
  have hnone : ∀ f, s.n_features ≤ f → f < s.n_features →
      (s.features f).T_f_w_ = s.new_frame_.T_f_w_ ∧ (s.features f).id_ = s.new_frame_.id_ :=
    fun f h1 h2 => absurd h2 (not_lt.2 h1)
  unfold addObservation.step at h
  split at h
  · cases h
    exact ⟨rfl, rfl, rfl, rfl, le_refl _, fun _ _ => rfl, hnone⟩
  · simp only at h
    split at h
    · split at h
      · cases h
        refine ⟨rfl, rfl, rfl, rfl, Nat.le_succ _, ?_, ?_⟩
        · intro f hf
          exact Function.update_noteq (Nat.ne_of_lt hf) _ _
        · intro f hf1 hf2
          have hf : f = s.n_features := le_antisymm (Nat.lt_succ_iff.1 hf2) hf1
          show (Function.update s.features s.n_features _ f).T_f_w_ = _ ∧
            (Function.update s.features s.n_features _ f).id_ = _
          rw [hf, Function.update_same]
          exact ⟨rfl, rfl⟩
      · cases h
        exact ⟨rfl, rfl, rfl, rfl, le_refl _, fun _ _ => rfl, hnone⟩
    · cases h

/-- The loop of `addObservation`: the shared state, the extrinsics and the
frame are not touched, the Features at the old addresses are kept, and every
Feature at a new address stores the pose and the id of the current frame. -/
theorem addObservation.loop_features (E : Env n) (img : Img) (is : List Nat) :
    ∀ (s s1 : LidarSelector n), addObservation.loop E img is s = some s1 →
    s1.Rci = s.Rci ∧ s1.Pci = s.Pci ∧ s1.state = s.state ∧ s1.new_frame_ = s.new_frame_ ∧
    s.n_features ≤ s1.n_features ∧ (∀ f, f < s.n_features → s1.features f = s.features f) ∧
    (∀ f, s.n_features ≤ f → f < s1.n_features →
      (s1.features f).T_f_w_ = s.new_frame_.T_f_w_ ∧ (s1.features f).id_ = s.new_frame_.id_) := by
  induction is with
  | nil =>
    intro s s1 h
    cases h
    exact ⟨rfl, rfl, rfl, rfl, le_refl _, fun _ _ => rfl,
      fun f h1 h2 => absurd h2 (not_lt.2 h1)⟩
  | cons i is ih =>
    intro s s1 h
    unfold addObservation.loop at h
    split at h
    · rename_i t hstep
      obtain ⟨a1, a2, a3, a4, a5, a6, a7⟩ := addObservation.step_features E img s t i hstep
      obtain ⟨b1, b2, b3, b4, b5, b6, b7⟩ := ih t s1 h
      refine ⟨b1.trans a1, b2.trans a2, b3.trans a3, b4.trans a4, le_trans a5 b5, ?_, ?_⟩
      · intro f hf
        rw [b6 f (lt_of_lt_of_le hf a5)]
        exact a6 f hf
      · intro f hf1 hf2
        by_cases hft : f < t.n_features
        · rw [b6 f hft]
          exact a7 f hf1 hft
        · rw [← a4]
          exact b7 f (not_lt.1 hft) hf2
    · cases h

/-- Features of `addObservation`: the shared state, the extrinsics and the
frame are not touched, the Features at the old addresses are kept, every
Feature at a new address stores the pose and the id of the current frame, and
nothing is attached on an empty sub map. -/
theorem addObservation_features (E : Env n) (img : Img) (s s1 : LidarSelector n)
    (h : addObservation E img s = some s1) :
    (s1.Rci = s.Rci ∧ s1.Pci = s.Pci ∧ s1.state = s.state ∧ s1.new_frame_ = s.new_frame_ ∧
      s.n_features ≤ s1.n_features ∧ (∀ f, f < s.n_features → s1.features f = s.features f) ∧
      (∀ f, s.n_features ≤ f → f < s1.n_features →
        (s1.features f).T_f_w_ = s.new_frame_.T_f_w_ ∧
        (s1.features f).id_ = s.new_frame_.id_)) ∧
    (s.sub_sparse_map.index = [] → s1 = s) := by
  unfold addObservation at h
  simp only at h
  split at h
  · cases h
    exact ⟨⟨rfl, rfl, rfl, rfl, le_refl _, fun _ _ => rfl,
      fun f h1 h2 => absurd h2 (not_lt.2 h1)⟩, fun _ => rfl⟩
  · rename_i h0
    refine ⟨addObservation.loop_features E img _ s s1 h, ?_⟩
    intro hnil
    rw [hnil] at h0
    exact absurd rfl h0

/-- The pose derived from a state depends on the selector through its
extrinsics only. -/
theorem updateFrameState.pose_congr (s t : LidarSelector n) (st : StatesGroup n)
    (hR : t.Rci = s.Rci) (hP : t.Pci = s.Pci) :
    updateFrameState.pose t st = updateFrameState.pose s st := by
  unfold updateFrameState.pose
  rw [hR, hP]

/-- Poses stored by the Features of one call of `detect` that returns: the
Features that `addSparseMap` creates store the pose derived from the shared
state on entry, the Features that `addObservation` attaches store the pose
derived from the shared state that `ComputeJ` leaves, which is the state at the
end of the call. -/
theorem detect.features_pose (E : Env n) (img : Img) (pg : PointCloud) (s s1 : LidarSelector n)
    (h : detect E img pg s = some s1) :
    (s.n_features ≤ (detect.grown E img pg s).n_features ∧
      (detect.grown E img pg s).n_features ≤ s1.n_features) ∧
    s1.state = (detect.updated E img pg s).state ∧
    (∀ f, f < s.n_features → s1.features f = s.features f) ∧
    (∀ f, s.n_features ≤ f → f < (detect.grown E img pg s).n_features →
      (s1.features f).T_f_w_ = updateFrameState.pose s s.state ∧
      (s1.features f).id_ = s.frame_counter_) ∧
    (∀ f, (detect.grown E img pg s).n_features ≤ f → f < s1.n_features →
      (s1.features f).T_f_w_ = updateFrameState.pose s s1.state ∧
      (s1.features f).id_ = s.frame_counter_) := by
  unfold detect at h
  split at h
  · cases h
  · simp only at h
    have hupd : detect.updated E img pg s = ComputeJ E img (addSparseMap E img pg
        (addFromSparseMap E img pg (detect.start E img pg s))) := rfl
    have hgro : detect.grown E img pg s = addSparseMap E img pg
        (addFromSparseMap E img pg (detect.start E img pg s)) := rfl
    rw [← hupd] at h
    cases hobs : addObservation E img (detect.updated E img pg s) with
    | none =>
      rw [hobs] at h
      cases h
    | some s7 =>
      rw [hobs] at h
      cases h
      obtain ⟨p1, p2, p3, p4, p5⟩ := detect.start_pose E img pg s
      obtain ⟨_, _, _, _, q5, _⟩ := detect.start_frame E img pg s
      obtain ⟨_, _, m3, m4, _, m6, _⟩ := addFromSparseMap_frame E img pg (detect.start E img pg s)
      obtain ⟨x1, x2⟩ := addFromSparseMap_extrinsic E img pg (detect.start E img pg s)
      obtain ⟨g1, g2, _, g4, g5, g6, g7⟩ := addSparseMap_features E img pg
        (addFromSparseMap E img pg (detect.start E img pg s))
      obtain ⟨c1, c2, c3, c4, c5, c6, c7⟩ := ComputeJ_pose E img (detect.grown E img pg s)
      obtain ⟨⟨o1, o2, o3, o4, o5, o6, o7⟩, o8⟩ :=
        addObservation_features E img (detect.updated E img pg s) s7 hobs
      rw [← hgro] at g1 g2 g4 g5 g6 g7
      rw [m4, p3] at g5 g6 g7
      rw [m6, p4, p5] at g7
      rw [m3, q5] at g6
      have hn : (detect.updated E img pg s).n_features = (detect.grown E img pg s).n_features := c4
      have hRg : (detect.grown E img pg s).Rci = s.Rci := by rw [g1, x1, p1]
      have hPg : (detect.grown E img pg s).Pci = s.Pci := by rw [g2, x2, p2]
      rw [hn] at o5 o6 o7
      have hfe : (detect.updated E img pg s).features = (detect.grown E img pg s).features := c3
      refine ⟨⟨g5, o5⟩, o3, ?_, ?_, ?_⟩
      · intro f hf
        show s7.features f = _
        rw [o6 f (lt_of_lt_of_le hf g5), hfe]
        exact g6 f hf
      · intro f hf1 hf2
        show (s7.features f).T_f_w_ = _ ∧ (s7.features f).id_ = _
        rw [o6 f hf2, hfe]
        exact g7 f hf1 hf2
      · intro f hf1 hf2
        show (s7.features f).T_f_w_ = updateFrameState.pose s s7.state ∧ (s7.features f).id_ = _
        have hid : (detect.updated E img pg s).new_frame_.id_ = s.frame_counter_ := by
          have e1 : (detect.updated E img pg s).new_frame_.id_
              = (detect.grown E img pg s).new_frame_.id_ := c5
          rw [e1, g4, m6, p5]
        by_cases hnil : (detect.grown E img pg s).sub_sparse_map.index = []
        · exfalso
          have e1 : detect.updated E img pg s = detect.grown E img pg s := c6 hnil
          have e2 : s7 = detect.updated E img pg s := o8 (by rw [e1]; exact hnil)
          have hf3 : f < s7.n_features := hf2
          rw [e2, e1] at hf3
          exact absurd hf3 (not_lt.2 hf1)
        · obtain ⟨t1, t2⟩ := o7 f hf1 hf2
          refine ⟨?_, t2.trans hid⟩
          rw [t1, o3]
          exact (c7 hnil).trans (updateFrameState.pose_congr s _ _ hRg hPg)

/-- C21 (amended): order of the data flow of `detect`.  The sparse map is grown
by `addSparseMap` before `ComputeJ` commits the state: in a call of `detect`
that returns, every Feature created by `addSparseMap` stores the frame pose
derived from the shared state on entry to the call, whereas every Feature
attached by `addObservation` stores the frame pose derived from the state as
committed by `ComputeJ`, which is the state at the end of the call.  Both kinds
carry the id of the frame, and the Features at older addresses are kept. -/
theorem C21_grown_features_store_entry_pose (E : Env n) (img : Img) (pg : PointCloud)
    (s s1 : LidarSelector n) (h : detect E img pg s = some s1) :
    (s.n_features ≤ (detect.grown E img pg s).n_features ∧
      (detect.grown E img pg s).n_features ≤ s1.n_features) ∧
    s1.state = (detect.updated E img pg s).state ∧
    (∀ f, f < s.n_features → s1.features f = s.features f) ∧
    (∀ f, s.n_features ≤ f → f < (detect.grown E img pg s).n_features →
      (s1.features f).T_f_w_ = updateFrameState.pose s s.state ∧
      (s1.features f).id_ = s.frame_counter_) ∧
    (∀ f, (detect.grown E img pg s).n_features ≤ f → f < s1.n_features →
      (s1.features f).T_f_w_ = updateFrameState.pose s s1.state ∧
      (s1.features f).id_ = s.frame_counter_) :=
  detect.features_pose E img pg s s1 h

/-- Witness for C21 (amended): the call of `detect` for frame 1 on a voxel map
of one Point, with a cloud of two points and a flat image. -/
theorem C21_grown_features_store_entry_pose_witness :
    ∃ s1, detect testEnvTwo (flatImgTwo 7) cloudTwo testMapOne = some s1 ∧
      (testMapOne.n_features ≤ (detect.grown testEnvTwo (flatImgTwo 7) cloudTwo testMapOne).n_features ∧
        (detect.grown testEnvTwo (flatImgTwo 7) cloudTwo testMapOne).n_features ≤ s1.n_features) ∧
      (∀ f, testMapOne.n_features ≤ f →
        f < (detect.grown testEnvTwo (flatImgTwo 7) cloudTwo testMapOne).n_features →
        (s1.features f).T_f_w_ = updateFrameState.pose testMapOne testMapOne.state ∧
        (s1.features f).id_ = testMapOne.frame_counter_) ∧
      (∀ f, (detect.grown testEnvTwo (flatImgTwo 7) cloudTwo testMapOne).n_features ≤ f →
        f < s1.n_features →
        (s1.features f).T_f_w_ = updateFrameState.pose testMapOne s1.state ∧
        (s1.features f).id_ = testMapOne.frame_counter_) :=
  match Option.isSome_iff_exists.1
      (show (detect testEnvTwo (flatImgTwo 7) cloudTwo testMapOne).isSome = true by decide!) with
  | ⟨s1, h1⟩ =>
    match C21_grown_features_store_entry_pose testEnvTwo (flatImgTwo 7) cloudTwo testMapOne s1
        h1 with
    | ⟨a1, _, _, a4, a5⟩ => ⟨s1, h1, a1, a4, a5⟩

/-- C21, counterexample: frame 1 on a voxel map of one Point, a cloud of two
points and a flat image, the shared state at the identity pose and the
propagated state one metre further along the optical axis.  The Point yields
the one entry of the sub map; `addSparseMap` creates the Features 1 and 2;
`ComputeJ` moves the shared state to the propagated position;
`addObservation` attaches Feature 3.  The Features 1 and 2 store the pose of
the state on entry (translation 0), Feature 3 stores the pose of the committed
state (translation -1 along the axis), and all three carry the frame id 1. -/
theorem C21_counterexample_pose_before_update :
    (testMapOne.n_features = 1 ∧ testMapOne.state.pos_end 2 = 0 ∧
      (detect.grown testEnvTwo (flatImgTwo 7) cloudTwo testMapOne).n_features = 3 ∧
      (detect.grown testEnvTwo (flatImgTwo 7) cloudTwo testMapOne).sub_sparse_map.index = [0]) ∧
    ((detect.updated testEnvTwo (flatImgTwo 7) cloudTwo testMapOne).state.pos_end 2 = 1 ∧
      (updateFrameState.pose testMapOne
        (detect.updated testEnvTwo (flatImgTwo 7) cloudTwo testMapOne).state).translation 2 = -1) ∧
    ((detect testEnvTwo (flatImgTwo 7) cloudTwo testMapOne).map
        (fun t => (t.n_features, t.state.pos_end 2, (t.features 1).T_f_w_.translation 2,
          (t.features 2).T_f_w_.translation 2))
      = some (4, 1, 0, 0) ∧
      (detect testEnvTwo (flatImgTwo 7) cloudTwo testMapOne).map
        (fun t => ((t.features 3).T_f_w_.translation 2,
          (t.features 1).id_, (t.features 2).id_, (t.features 3).id_))
      = some (-1, 1, 1, 1)) := by
  refine ⟨⟨rfl, by decide!, by decide!, by decide!⟩, ⟨by decide!, by decide!⟩,
    ⟨by decide!, by decide!⟩⟩

end lidar_selection
